import Mathlib

/-!
# Tris (tic-tac-toe) session server: embedding and verification

A shallow embedding of `tris_game.c` / `tris_game.h` (the board engine) and of
`server.c` (client table, game table, command handlers), followed by theorems
about them.

Conventions of the embedding
* C `int` values are mathematical integers (`Int`). The counters `num_clients`
  and `num_games` stay within the table sizes and `1 - turn` within `0..1` on
  the inputs considered; the increment of `next_game_id` at `INT_MAX`
  overflows, which is undefined: `handle_create_command` returns `none` there.
* A C array of fixed size is a `List` (client and game tables) or a `Vec3`
  (the 3x3 board); a pointer into a table is the index of the slot.
* A null-pointer dereference, a write outside the read buffer and a signed
  overflow are undefined: the handler returns `none`.
* `printf` / `perror` diagnostics are not modelled; `send` is modelled by
  appending to the output log of the server state.
-/

namespace Tris

/-! ## tris_game.h -/

/-- `#define SIZE 3` -/
def SIZE : Nat := 3

/-- `typedef enum { EMPTY, X, O } Cell;` -/
inductive Cell where
  | EMPTY
  | X
  | O
  deriving DecidableEq, Repr, Inhabited

/-- `typedef enum { IN_PROGRESS, WIN, DRAW } GameResult;` -/
inductive GameResult where
  | IN_PROGRESS
  | WIN
  | DRAW
  deriving DecidableEq, Repr, Inhabited

/-- A C array of three elements, indexed by `Fin 3`. -/
structure Vec3 (α : Type) where
  e0 : α
  e1 : α
  e2 : α
  deriving DecidableEq, Repr

/-- Array read `v[i]`. -/
def Vec3.get {α : Type} (v : Vec3 α) (i : Fin 3) : α :=
  match i with
  | 0 => v.e0
  | 1 => v.e1
  | 2 => v.e2

/-- Array write `v[i] = x`. -/
def Vec3.set {α : Type} (v : Vec3 α) (i : Fin 3) (x : α) : Vec3 α :=
  match i with
  | 0 => { v with e0 := x }
  | 1 => { v with e1 := x }
  | 2 => { v with e2 := x }

/-- An array with the same value in the three positions. -/
def Vec3.fill {α : Type} (x : α) : Vec3 α := ⟨x, x, x⟩

/-- `typedef struct { Cell board[SIZE][SIZE]; int turn; } TrisGame;` -/
structure TrisGame where
  board : Vec3 (Vec3 Cell)
  turn : Int
  deriving DecidableEq, Repr

/-- The cell `game->board[i][j]`. -/
def TrisGame.cell (game : TrisGame) (i j : Fin 3) : Cell :=
  (game.board.get i).get j

/-! ## tris_game.c -/

/-- `init_game`: `memset(game, 0, sizeof(TrisGame))`; the enum value 0 is
`EMPTY`, so every cell becomes `EMPTY` and `turn` becomes 0. -/
def init_game (_game : TrisGame) : TrisGame :=
  { board := Vec3.fill (Vec3.fill Cell.EMPTY), turn := 0 }

/-- `make_move`: the pair of the returned code (0 or -1) and the game state
after the call. -/
def make_move (game : TrisGame) (row col : Int) : Int × TrisGame :=
  if h : row < 0 ∨ row ≥ SIZE ∨ col < 0 ∨ col ≥ SIZE then
    (-1, game)
  else
    let r : Fin 3 := ⟨row.toNat, by simp only [SIZE] at h; omega⟩
    let c : Fin 3 := ⟨col.toNat, by simp only [SIZE] at h; omega⟩
    if game.cell r c ≠ Cell.EMPTY then
      (-1, game)
    else
      (0, { board := game.board.set r
                       ((game.board.get r).set c (if game.turn = 0 then Cell.X else Cell.O)),
            turn := 1 - game.turn })

/-- The three loop indices `0, 1, 2` of the `for` loops over `SIZE`. -/
def idx3 : List (Fin 3) := [0, 1, 2]

/-- `check_winner`: rows and columns (interleaved, as in the first loop), then
the two diagonals, then the search for an empty cell. -/
def check_winner (game : TrisGame) : GameResult :=
  let b := game.cell
  if idx3.any (fun i =>
      (b i 0 != Cell.EMPTY && b i 0 == b i 1 && b i 1 == b i 2) ||
      (b 0 i != Cell.EMPTY && b 0 i == b 1 i && b 1 i == b 2 i)) then
    GameResult.WIN
  else if b 0 0 != Cell.EMPTY && b 0 0 == b 1 1 && b 1 1 == b 2 2 then
    GameResult.WIN
  else if b 0 2 != Cell.EMPTY && b 0 2 == b 1 1 && b 1 1 == b 2 0 then
    GameResult.WIN
  else if idx3.any (fun i => idx3.any (fun j => b i j == Cell.EMPTY)) then
    GameResult.IN_PROGRESS
  else
    GameResult.DRAW

/-- The character `print_board` writes for a cell. -/
def cell_char (c : Cell) : Char :=
  if c = Cell.EMPTY then '.' else if c = Cell.X then 'X' else 'O'

/-- `print_board`: the characters written to the buffer before the final
NUL. -/
def print_board (game : TrisGame) : List Char :=
  idx3.flatMap (fun i =>
    (idx3.flatMap (fun j =>
      [' ', cell_char (game.cell i j), ' '] ++ (if j.val < SIZE - 1 then ['|'] else [])))
    ++ ['\n']
    ++ (if i.val < SIZE - 1 then
          (idx3.flatMap (fun k => ['-', '-', '-'] ++ (if k.val < SIZE - 1 then ['+'] else [])))
          ++ ['\n']
        else []))


/-! ## server.c: constants and data model -/

/-- `#define MAX_CLIENTS 10` -/
def MAX_CLIENTS : Nat := 10

/-- `#define BUFFER_SIZE 1024` -/
def BUFFER_SIZE : Nat := 1024

/-- `#define MAX_GAMES 5` -/
def MAX_GAMES : Nat := 5

/-- `typedef enum { ... } PlayerStatus;` -/
inductive PlayerStatus where
  | PLAYER_CONNECTED
  | PLAYER_IN_GAME
  | PLAYER_WAITING_ACCEPT
  deriving DecidableEq, Repr, Inhabited

/-- `typedef enum { ... } GameState;` -/
inductive GameState where
  | GAME_NEW
  | GAME_WAITING_FOR_PLAYER
  | GAME_IN_PROGRESS
  | GAME_ENDED
  deriving DecidableEq, Repr, Inhabited

/-- `typedef struct { ... } Client;` -/
structure Client where
  fd : Int
  status : PlayerStatus
  username : String
  game_id : Int
  player_symbol : Cell
  is_current_turn : Bool
  wants_rematch : Bool
  deriving DecidableEq, Repr

/-- `typedef struct { ... } Game;` -/
structure Game where
  id : Int
  state : GameState
  owner_fd : Int
  opponent_fd : Int
  tris_game : TrisGame
  last_result : GameResult
  deriving DecidableEq, Repr

/-- What the server does to the outside: a `send` of a message on a
descriptor or the `close` of a descriptor, in program order. -/
inductive Output where
  | sent (fd : Int) (message : String)
  | closed (fd : Int)
  deriving DecidableEq, Repr

/-- The global variables of `server.c` (`clients`, `games`, `num_clients`,
`num_games`, `next_game_id`, `master_fds`, `max_sd`) and the log of outputs.
`master_fds` is the list of the descriptors that are members of the set. -/
structure Server where
  clients : List Client
  games : List Game
  num_clients : Int
  num_games : Int
  next_game_id : Int
  master_fds : List Int
  max_sd : Int
  out : List Output
  deriving DecidableEq, Repr

/-- A zero-initialised `Client` (static storage). -/
def Client.zero : Client :=
  { fd := 0, status := PlayerStatus.PLAYER_CONNECTED, username := "", game_id := 0,
    player_symbol := Cell.EMPTY, is_current_turn := false, wants_rematch := false }

/-- A zero-initialised `Game` (static storage). -/
def Game.zero : Game :=
  { id := 0, state := GameState.GAME_NEW, owner_fd := 0, opponent_fd := 0,
    tris_game := { board := Vec3.fill (Vec3.fill Cell.EMPTY), turn := 0 },
    last_result := GameResult.IN_PROGRESS }

/-- The slot `clients[i]`. -/
def Server.client (s : Server) (i : Nat) : Client := s.clients.getD i Client.zero

/-- The slot `games[k]`. -/
def Server.game (s : Server) (k : Nat) : Game := s.games.getD k Game.zero

/-- The write `clients[i] = c`. -/
def Server.setClient (s : Server) (i : Nat) (c : Client) : Server :=
  { s with clients := s.clients.set i c }

/-- The write `games[k] = g`. -/
def Server.setGame (s : Server) (k : Nat) (g : Game) : Server :=
  { s with games := s.games.set k g }

/-- The state when `main` enters its loop: the two initialisation loops have
run on the zero-initialised tables, and `master_fds` holds the listening
socket. -/
def init_server (master_socket : Int) : Server :=
  { clients := List.replicate MAX_CLIENTS { Client.zero with fd := 0, game_id := -1 },
    games := List.replicate MAX_GAMES { Game.zero with id := -1 },
    num_clients := 0,
    num_games := 0,
    next_game_id := 1,
    master_fds := [master_socket],
    max_sd := master_socket,
    out := [] }

/-- The five assignments that detach a session from its game; the source
repeats them at each place where a client is reset. -/
def reset_client (c : Client) : Client :=
  { c with game_id := -1, status := PlayerStatus.PLAYER_CONNECTED,
           player_symbol := Cell.EMPTY, is_current_turn := false, wants_rematch := false }

/-! ## server.c: utility functions -/

/-- `send_to_client`: a message is sent only on a positive descriptor. -/
def send_to_client (s : Server) (client_fd : Int) (message : String) : Server :=
  if client_fd > 0 then { s with out := s.out ++ [Output.sent client_fd message] } else s

/-- `find_client_by_fd`: the index of the first slot whose `fd` is
`client_fd`, `none` for `NULL`. -/
def find_client_by_fd (s : Server) (client_fd : Int) : Option Nat :=
  (List.range MAX_CLIENTS).find? (fun i => (s.client i).fd == client_fd)

/-- `find_game_by_id`: the index of the first slot whose `id` is `game_id`. -/
def find_game_by_id (s : Server) (game_id : Int) : Option Nat :=
  (List.range MAX_GAMES).find? (fun k => (s.game k).id == game_id)

/-- `find_game_by_player_fd` -/
def find_game_by_player_fd (s : Server) (player_fd : Int) : Option Nat :=
  match find_client_by_fd s player_fd with
  | some i => if (s.client i).game_id ≠ -1 then find_game_by_id s (s.client i).game_id else none
  | none => none

/-- `initialize_client` -/
def initialize_client (s : Server) (client_fd : Int) : Server :=
  match (List.range MAX_CLIENTS).find? (fun i => (s.client i).fd == 0) with
  | some i =>
    let s := s.setClient i
      { s.client i with
        fd := client_fd, status := PlayerStatus.PLAYER_CONNECTED, game_id := -1,
        player_symbol := Cell.EMPTY, is_current_turn := false, wants_rematch := false,
        username := "Giocatore" ++ toString client_fd }
    let s := { s with num_clients := s.num_clients + 1 }
    let s := send_to_client s client_fd "\nBenvenuto al gioco del Tris (Tic-Tac-Toe)!\n\n"
    let s := send_to_client s client_fd "Comandi disponibili:\n"
    let s := send_to_client s client_fd "  create - Crea una nuova partita\n"
    let s := send_to_client s client_fd "  join <game_id> - Unisciti a una partita esistente\n"
    let s := send_to_client s client_fd "  list - Elenca le partite disponibili\n"
    let s := send_to_client s client_fd "  leave - Lascia la partita corrente\n"
    let s := send_to_client s client_fd "  move <row> <col> - Effettua una mossa (es. move 0 0)\n"
    send_to_client s client_fd "  quit - Disconnettiti dal server\n"
  | none =>
    let s := send_to_client s client_fd "Server pieno, riprova più tardi.\n"
    { s with out := s.out ++ [Output.closed client_fd] }

/-- `cleanup_game` on the slot `games[k]` (the pointer is never `NULL` at the
call sites). -/
def cleanup_game (s : Server) (k : Nat) : Server :=
  let s := s.setGame k
    { s.game k with
      id := -1, state := GameState.GAME_NEW, owner_fd := -1, opponent_fd := -1,
      last_result := GameResult.IN_PROGRESS }
  let s := { s with num_games := s.num_games - 1 }
  if s.num_games < 0 then { s with num_games := 0 } else s

/-- `remove_client_from_game` -/
def remove_client_from_game (s : Server) (client_fd : Int) : Server :=
  match find_client_by_fd s client_fd with
  | none => s
  | some i =>
    if (s.client i).game_id = -1 then s
    else
      match find_game_by_id s (s.client i).game_id with
      | none => s.setClient i (reset_client (s.client i))
      | some k =>
        let s :=
          if (s.game k).opponent_fd = (s.client i).fd then
            let s := s.setGame k { s.game k with opponent_fd := -1 }
            if (s.game k).owner_fd ≠ -1 then
              let s := send_to_client s (s.game k).owner_fd
                "Il tuo avversario ha lasciato la partita. La partita è ora in attesa di un nuovo giocatore.\n"
              s.setGame k { s.game k with state := GameState.GAME_WAITING_FOR_PLAYER }
            else
              cleanup_game s k
          else if (s.game k).owner_fd = (s.client i).fd then
            let s :=
              if (s.game k).opponent_fd ≠ -1 then
                let s := send_to_client s (s.game k).opponent_fd
                  "Il proprietario della partita ha lasciato. La partita è terminata per mancanza di giocatori.\n"
                match find_client_by_fd s (s.game k).opponent_fd with
                | some j => s.setClient j (reset_client (s.client j))
                | none => s
              else s
            cleanup_game s k
          else s
        s.setClient i (reset_client (s.client i))

/-- `remove_client`: departure from the game, `close`, `FD_CLR`, then the
swap with the last active slot. -/
def remove_client (s : Server) (sd : Int) : Server :=
  let s := remove_client_from_game s sd
  let s := { s with out := s.out ++ [Output.closed sd] }
  let s := { s with master_fds := s.master_fds.filter (fun x => x != sd) }
  match (List.range s.num_clients.toNat).find? (fun i => (s.client i).fd == sd) with
  | some i =>
    let last := (s.num_clients - 1).toNat
    let s := s.setClient i (s.client last)
    let s := s.setClient last { s.client last with fd := 0 }
    { s with num_clients := s.num_clients - 1 }
  | none => s

/-- The `state_str` chosen by the `switch` of `print_game_list`. -/
def state_str (st : GameState) : String :=
  match st with
  | GameState.GAME_NEW => "NUOVA (in attesa del proprietario)"
  | GameState.GAME_WAITING_FOR_PLAYER => "IN ATTESA DI GIOCATORE"
  | GameState.GAME_IN_PROGRESS => "IN CORSO"
  | GameState.GAME_ENDED => "TERMINATA"

/-- `print_game_list` (the texts are shorter than `BUFFER_SIZE`, so `snprintf`
never truncates). -/
def print_game_list (s : Server) (client_fd : Int) : Server :=
  let header := "--- Lista Partite ---\n"
  let active := (List.range MAX_GAMES).filter (fun k => (s.game k).id != -1)
  let body := active.foldl (fun acc k =>
      acc ++ "ID: " ++ toString (s.game k).id ++ " | Stato: " ++ state_str (s.game k).state
          ++ " | Proprietario: FD " ++ toString (s.game k).owner_fd ++ "\n") header
  let body :=
    if active.isEmpty then
      body ++ "Nessuna partita disponibile. Crea una nuova partita con 'create'.\n"
    else body
  send_to_client s client_fd (body ++ "---------------------\n")

/-- `notify_all_spectators` for the game in slot `k`. -/
def notify_all_spectators (s : Server) (k : Nat) (message : String) : Server :=
  (List.range MAX_CLIENTS).foldl (fun s i =>
    if (s.client i).fd > 0 ∧ (s.client i).fd ≠ (s.game k).owner_fd
        ∧ (s.client i).fd ≠ (s.game k).opponent_fd then
      send_to_client s (s.client i).fd message
    else s) s

/-- The assignment `c->is_current_turn = b` through a pointer that may be
`NULL` (the source guards each of them with `if (c)`). -/
def set_turn (s : Server) (c : Option Nat) (b : Bool) : Server :=
  match c with
  | some i => s.setClient i { s.client i with is_current_turn := b }
  | none => s

/-- `send_game_state_to_players` for the game in slot `k`. -/
def send_game_state_to_players (s : Server) (k : Nat) : Server :=
  let board_buffer := String.mk (print_board (s.game k).tris_game)
  let msg := "\nStato attuale della partita " ++ toString (s.game k).id ++ ":\n" ++ board_buffer
  if (s.game k).state = GameState.GAME_IN_PROGRESS then
    let owner_client := find_client_by_fd s (s.game k).owner_fd
    let opponent_client := find_client_by_fd s (s.game k).opponent_fd
    if (s.game k).tris_game.turn = 0 then
      let s := set_turn s owner_client true
      let s := set_turn s opponent_client false
      let s := send_to_client s (s.game k).owner_fd (msg ++ "È il tuo turno (X).\n")
      if (s.game k).opponent_fd ≠ -1 then
        send_to_client s (s.game k).opponent_fd (msg ++ "È il turno del tuo avversario (X).\n")
      else s
    else
      let s := set_turn s owner_client false
      let s := set_turn s opponent_client true
      let s := send_to_client s (s.game k).owner_fd (msg ++ "È il turno del tuo avversario (O).\n")
      if (s.game k).opponent_fd ≠ -1 then
        send_to_client s (s.game k).opponent_fd (msg ++ "È il tuo turno (O).\n")
      else s
  else
    let s := send_to_client s (s.game k).owner_fd msg
    if (s.game k).opponent_fd ≠ -1 then send_to_client s (s.game k).opponent_fd msg else s

/-! ## C library functions used on the command text

The command text is the list of the characters of the C string (without the
terminating NUL). -/

/-- `isspace` in the C locale. -/
def isspace (c : Char) : Bool :=
  c == ' ' || c == '\t' || c == '\n' || c == '\x0b' || c == '\x0c' || c == '\r'

/-- `isdigit` -/
def isdigit (c : Char) : Bool := '0' ≤ c && c ≤ '9'

/-- The value of a run of leading decimal digits, continuing from `acc`, and
the rest of the text. -/
def scan_digits : List Char → Int → Int × List Char
  | [], acc => (acc, [])
  | c :: cs, acc =>
    if isdigit c then scan_digits cs (acc * 10 + ((c.toNat : Int) - 48)) else (acc, c :: cs)

/-- A decimal integer as `strtol` and the `%d` conversion read it: leading
white space, an optional sign, at least one digit. `none` when no digit is
there. The value is the mathematical one. -/
def scan_int (text : List Char) : Option (Int × List Char) :=
  let text := text.dropWhile isspace
  let signed : Bool × List Char :=
    match text with
    | '-' :: rest => (true, rest)
    | '+' :: rest => (false, rest)
    | rest => (false, rest)
  match signed.2 with
  | [] => none
  | c :: cs =>
    if isdigit c then
      let r := scan_digits (c :: cs) 0
      some (if signed.1 then - r.1 else r.1, r.2)
    else none

/-- The `int` a parsed value is stored as: `strtol` clamps to the range of
`long` (64 bits) and the conversion to `int` keeps the low 32 bits (two's
complement). Values inside the `int` range are unchanged. -/
def to_int (v : Int) : Int :=
  let clamped := max (-(2 ^ 63)) (min v (2 ^ 63 - 1))
  (clamped + 2 ^ 31) % 2 ^ 32 - 2 ^ 31

/-- `atoi` -/
def atoi (text : List Char) : Int :=
  match scan_int text with
  | some r => to_int r.1
  | none => 0

/-- `sscanf(buffer, "move %d %d", &row, &col)`: `some (row, col)` when the
call returns 2, `none` when it returns anything else. -/
def sscanf_move (buffer : List Char) : Option (Int × Int) :=
  if buffer.take 4 = ['m', 'o', 'v', 'e'] then
    match scan_int ((buffer.drop 4).dropWhile isspace) with
    | none => none
    | some r1 =>
      match scan_int (r1.2.dropWhile isspace) with
      | none => none
      | some r2 => some (to_int r1.1, to_int r2.1)
  else none

/-! ## server.c: command handlers

`current_client` is the index of the slot the `Client *` points to. -/

/-- `INT_MAX`, the largest value of the `int` counter `next_game_id`. -/
def INT_MAX : Int := 2147483647

/-- The statements of `handle_create_command` for the free slot `game_idx`,
from `new_game->id = next_game_id++` on, when the increment is defined. -/
def create_game (s : Server) (client_fd : Int) (current_client game_idx : Nat) : Server :=
  let s := s.setGame game_idx
    { s.game game_idx with
      id := s.next_game_id, owner_fd := client_fd, opponent_fd := -1,
      state := GameState.GAME_WAITING_FOR_PLAYER, last_result := GameResult.IN_PROGRESS,
      tris_game := init_game (s.game game_idx).tris_game }
  let s := { s with next_game_id := s.next_game_id + 1 }
  let s := s.setClient current_client
    { s.client current_client with
      game_id := (s.game game_idx).id, status := PlayerStatus.PLAYER_IN_GAME,
      player_symbol := Cell.X, is_current_turn := false, wants_rematch := false }
  let s := { s with num_games := s.num_games + 1 }
  let s := send_to_client s client_fd
    ("Partita creata con successo! ID: " ++ toString (s.game game_idx).id
      ++ ". Sei il giocatore X. In attesa di un avversario...\n")
  notify_all_spectators s game_idx
    ("Nuova partita disponibile (ID: " ++ toString (s.game game_idx).id
      ++ ") in attesa di un giocatore.\n")

/-- `handle_create_command`. The increment `next_game_id++` of the `int`
counter at `INT_MAX` overflows, which is undefined (`none`). -/
def handle_create_command (s : Server) (client_fd : Int) (current_client : Nat) :
    Option Server :=
  if (s.client current_client).game_id ≠ -1 then
    some (send_to_client s client_fd
      "Sei già in una partita. Lasciala prima di crearne una nuova.\n")
  else if s.num_games ≥ MAX_GAMES then
    some (send_to_client s client_fd "Massimo numero di partite raggiunto. Riprova più tardi.\n")
  else
    match (List.range MAX_GAMES).find? (fun j => (s.game j).id == -1) with
    | some game_idx =>
      if s.next_game_id ≥ INT_MAX then none
      else some (create_game s client_fd current_client game_idx)
    | none =>
      some (send_to_client s client_fd
        "Impossibile creare una nuova partita in questo momento.\n")

/-- `handle_join_command` -/
def handle_join_command (s : Server) (client_fd : Int) (current_client : Nat)
    (buffer : List Char) : Server :=
  if (s.client current_client).game_id ≠ -1 then
    send_to_client s client_fd "Sei già in una partita. Lasciala prima di unirti a una nuova.\n"
  else
    let game_id_to_join := atoi (buffer.drop 5)
    match find_game_by_id s game_id_to_join with
    | none => send_to_client s client_fd "Partita non trovata o ID non valido.\n"
    | some k =>
      if (s.game k).id = -1 then
        send_to_client s client_fd "Partita non trovata o ID non valido.\n"
      else if (s.game k).state = GameState.GAME_IN_PROGRESS
          ∨ (s.game k).state = GameState.GAME_ENDED ∨ (s.game k).opponent_fd ≠ -1 then
        send_to_client s client_fd "La partita è già in corso, terminata o ha già un avversario.\n"
      else if (s.game k).owner_fd = client_fd then
        send_to_client s client_fd
          "Non puoi unirti alla tua stessa partita. Sei già il proprietario.\n"
      else
        let s := s.setGame k { s.game k with opponent_fd := client_fd }
        let s := s.setClient current_client
          { s.client current_client with
            game_id := (s.game k).id, status := PlayerStatus.PLAYER_WAITING_ACCEPT,
            player_symbol := Cell.O, is_current_turn := false, wants_rematch := false }
        let s := send_to_client s client_fd
          "Richiesta inviata. In attesa di accettazione dal proprietario della partita...\n"
        send_to_client s (s.game k).owner_fd
          ("Il giocatore FD " ++ toString client_fd ++ " vuole unirsi alla tua partita "
            ++ toString (s.game k).id ++ ". Digita 'accept' o 'reject'.\n")

/-- `handle_accept_command` -/
def handle_accept_command (s : Server) (client_fd : Int) (current_client : Nat) : Server :=
  match find_game_by_player_fd s client_fd with
  | none =>
    send_to_client s client_fd
      "Questo comando è solo per i proprietari di partita in attesa di un avversario.\n"
  | some k =>
    if (s.game k).owner_fd ≠ client_fd then
      send_to_client s client_fd
        "Questo comando è solo per i proprietari di partita in attesa di un avversario.\n"
    else if (s.game k).state ≠ GameState.GAME_WAITING_FOR_PLAYER ∨ (s.game k).opponent_fd = -1 then
      send_to_client s client_fd
        "Nessun giocatore in attesa di accettazione o la partita non è in stato di attesa.\n"
    else
      let s := s.setGame k { s.game k with state := GameState.GAME_IN_PROGRESS }
      let s :=
        match find_client_by_fd s (s.game k).opponent_fd with
        | some opponent_client =>
          let s := s.setClient opponent_client
            { s.client opponent_client with status := PlayerStatus.PLAYER_IN_GAME }
          let s := s.setClient current_client
            { s.client current_client with is_current_turn := true }
          s.setClient opponent_client { s.client opponent_client with is_current_turn := false }
        | none => s
      let s := send_to_client s client_fd "Hai accettato il giocatore. La partita è iniziata!\n"
      let s :=
        if (s.game k).opponent_fd ≠ -1 then
          send_to_client s (s.game k).opponent_fd
            "La tua richiesta è stata accettata. La partita è iniziata!\n"
        else s
      send_game_state_to_players s k

/-- `handle_reject_command` -/
def handle_reject_command (s : Server) (client_fd : Int) (_current_client : Nat) : Server :=
  match find_game_by_player_fd s client_fd with
  | none =>
    send_to_client s client_fd
      "Questo comando è solo per i proprietari di partita in attesa di un avversario.\n"
  | some k =>
    if (s.game k).owner_fd ≠ client_fd then
      send_to_client s client_fd
        "Questo comando è solo per i proprietari di partita in attesa di un avversario.\n"
    else if (s.game k).state ≠ GameState.GAME_WAITING_FOR_PLAYER ∨ (s.game k).opponent_fd = -1 then
      send_to_client s client_fd
        "Nessun giocatore in attesa di rifiuto o la partita non è in stato di attesa.\n"
    else
      let s :=
        match find_client_by_fd s (s.game k).opponent_fd with
        | some opponent_client =>
          let s := send_to_client s (s.client opponent_client).fd
            "La tua richiesta di unirti alla partita è stata rifiutata.\n"
          s.setClient opponent_client (reset_client (s.client opponent_client))
        | none => s
      let s := s.setGame k { s.game k with opponent_fd := -1 }
      let s := send_to_client s client_fd
        "Hai rifiutato il giocatore. La tua partita è di nuovo in attesa di un avversario.\n"
      notify_all_spectators s k
        ("La partita ID " ++ toString (s.game k).id
          ++ " è tornata disponibile in attesa di un giocatore.\n")

/-- `handle_leave_command` -/
def handle_leave_command (s : Server) (client_fd : Int) (current_client : Nat) : Server :=
  if (s.client current_client).game_id = -1 then
    send_to_client s client_fd "Non sei in una partita da lasciare.\n"
  else
    match find_game_by_id s (s.client current_client).game_id with
    | none =>
      let s := send_to_client s client_fd
        "Errore interno: partita non trovata. Riprova o disconnetti.\n"
      s.setClient current_client (reset_client (s.client current_client))
    | some _ =>
      let s := send_to_client s client_fd "Hai lasciato la partita.\n"
      remove_client_from_game s client_fd

/-- The three messages `send_to_client` gives the loser of a round, sent only
when `loser_client` is not `NULL` and is not the winner. -/
def send_loss (s : Server) (loser_client : Option Nat) (winner_client : Nat)
    (board_str : String) : Server :=
  match loser_client with
  | some l =>
    if (s.client l).fd ≠ (s.client winner_client).fd then
      let s := send_to_client s (s.client l).fd "\nLa partita è terminata!\n"
      let s := send_to_client s (s.client l).fd board_str
      send_to_client s (s.client l).fd "Hai perso.\n"
    else s
  | none => s

/-- `handle_move_command`; `none` when the code dereferences a `NULL`
`owner_client`. -/
def handle_move_command (s : Server) (sd : Int) (buffer : List Char) : Option Server :=
  match find_client_by_fd s sd with
  | none => some (send_to_client s sd "Non sei in una partita. Digita 'join <game_id>' o 'create'.\n")
  | some current_client =>
    if (s.client current_client).status ≠ PlayerStatus.PLAYER_IN_GAME then
      some (send_to_client s sd "Non sei in una partita. Digita 'join <game_id>' o 'create'.\n")
    else
      match find_game_by_id s (s.client current_client).game_id with
      | none => some (send_to_client s sd "La partita non è in corso o non valida.\n")
      | some k =>
        if (s.game k).state ≠ GameState.GAME_IN_PROGRESS then
          if (s.game k).state = GameState.GAME_ENDED then
            some (send_to_client s sd
              "La partita è terminata. Digita 'rematch' per rigiocare o 'leave' per uscire.\n")
          else
            some (send_to_client s sd "La partita non è in corso o non valida.\n")
        else if (s.client current_client).is_current_turn = false then
          some (send_to_client s sd "Non è il tuo turno.\n")
        else
          match sscanf_move buffer with
          | none =>
            some (send_to_client s sd
              "Formato comando 'move' non valido. Usa: move <riga> <colonna> (es. move 0 0).\n")
          | some rc =>
            let moved := make_move (s.game k).tris_game rc.1 rc.2
            let s := s.setGame k { s.game k with tris_game := moved.2 }
            if moved.1 = 0 then
              let result := check_winner (s.game k).tris_game
              let owner_client := find_client_by_fd s (s.game k).owner_fd
              let opponent_client :=
                if (s.game k).opponent_fd ≠ -1 then find_client_by_fd s (s.game k).opponent_fd
                else none
              let board_str := String.mk (print_board (s.game k).tris_game)
              if result = GameResult.WIN then
                match owner_client with
                | none => none
                | some oc =>
                  let winner_client := current_client
                  let loser_client :=
                    if (s.client winner_client).fd = (s.client oc).fd then opponent_client
                    else some oc
                  let s := send_to_client s (s.client winner_client).fd "\nLa partita è terminata!\n"
                  let s := send_to_client s (s.client winner_client).fd board_str
                  let s := send_to_client s (s.client winner_client).fd "Hai vinto!\n"
                  let s := send_loss s loser_client winner_client board_str
                  let s := s.setGame k
                    { s.game k with
                      owner_fd := (s.client winner_client).fd, opponent_fd := -1,
                      state := GameState.GAME_WAITING_FOR_PLAYER,
                      tris_game := init_game (s.game k).tris_game,
                      last_result := GameResult.IN_PROGRESS }
                  let s := s.setClient winner_client
                    { s.client winner_client with
                      game_id := (s.game k).id, status := PlayerStatus.PLAYER_IN_GAME,
                      player_symbol := Cell.X, is_current_turn := false, wants_rematch := false }
                  let s := send_to_client s (s.client winner_client).fd
                    ("Sei diventato il proprietario della partita " ++ toString (s.game k).id
                      ++ " e attendi un nuovo giocatore (X).\n")
                  match loser_client with
                  | some l =>
                    if (s.client l).fd ≠ (s.client winner_client).fd then
                      let s := send_to_client s (s.client l).fd
                        "Sei stato rimosso dalla partita. Digita 'list' per vedere altre partite o 'create' per crearne una nuova.\n"
                      some (remove_client_from_game s (s.client l).fd)
                    else some s
                  | none => some s
              else if result = GameResult.DRAW then
                let msg_draw_board := "\nLa partita è terminata in pareggio!\n" ++ board_str
                let prompt :=
                  "Vuoi giocare un'altra partita? Digita 'rematch' per rigiocare o 'leave' per uscire.\n"
                let s := send_to_client s (s.game k).owner_fd msg_draw_board
                let s := send_to_client s (s.game k).owner_fd prompt
                let s :=
                  if (s.game k).opponent_fd ≠ -1 then
                    let s := send_to_client s (s.game k).opponent_fd msg_draw_board
                    send_to_client s (s.game k).opponent_fd prompt
                  else s
                let s := s.setGame k
                  { s.game k with state := GameState.GAME_ENDED, last_result := GameResult.DRAW }
                let s := set_turn s owner_client false
                some (set_turn s opponent_client false)
              else
                some (send_game_state_to_players s k)
            else
              some (send_to_client s sd
                "Mossa non valida. Controlla riga/colonna o se la cella è già occupata.\n")

/-- The `else` branch of the rematch test: the other player is told of the
request; `none` when the code dereferences a `NULL` `owner_client`. -/
def rematch_notify (s : Server) (current_client k : Nat)
    (owner_client opponent_client : Option Nat) : Option Server :=
  match owner_client with
  | none => none
  | some oc =>
    let other_player :=
      if (s.client current_client).fd = (s.client oc).fd then opponent_client else some oc
    match other_player with
    | some o =>
      if (s.client o).game_id = (s.game k).id then
        some (send_to_client s (s.client o).fd
          "L'altro giocatore ha richiesto una rivincita. Digita 'rematch' per accettare o 'leave' per uscire.\n")
      else some s
    | none => some s

/-- The `if` branch of the rematch test: both players asked for a rematch and
a new round starts. `oc` and `pc` are the slots `owner_client` and
`opponent_client` point to. -/
def rematch_restart (s : Server) (k oc pc : Nat) : Server :=
  let s := s.setGame k { s.game k with tris_game := init_game (s.game k).tris_game }
  let s := s.setGame k { s.game k with state := GameState.GAME_IN_PROGRESS }
  let s := s.setGame k { s.game k with last_result := GameResult.IN_PROGRESS }
  let s :=
    if (s.game k).tris_game.turn = 0 then
      let s := s.setGame k
        { s.game k with tris_game := { (s.game k).tris_game with turn := 1 } }
      let s := s.setClient oc { s.client oc with is_current_turn := false }
      s.setClient pc { s.client pc with is_current_turn := true }
    else
      let s := s.setGame k
        { s.game k with tris_game := { (s.game k).tris_game with turn := 0 } }
      let s := s.setClient oc { s.client oc with is_current_turn := true }
      s.setClient pc { s.client pc with is_current_turn := false }
  let s := s.setClient oc { s.client oc with wants_rematch := false }
  let s := s.setClient pc { s.client pc with wants_rematch := false }
  let s := send_to_client s (s.client oc).fd
    "Entrambi avete richiesto una rivincita! La nuova partita inizia.\n"
  let s := send_to_client s (s.client pc).fd
    "Entrambi avete richiesto una rivincita! La nuova partita inizia.\n"
  send_game_state_to_players s k

/-- `handle_rematch_command` -/
def handle_rematch_command (s : Server) (sd : Int) : Option Server :=
  match find_client_by_fd s sd with
  | none =>
    some (send_to_client s sd "Non sei in una partita terminata per richiedere una rivincita.\n")
  | some current_client =>
    if (s.client current_client).game_id = -1 then
      some (send_to_client s sd "Non sei in una partita terminata per richiedere una rivincita.\n")
    else
      match find_game_by_id s (s.client current_client).game_id with
      | none =>
        some (send_to_client s sd "Questa partita non è in stato di pareggio per una rivincita.\n")
      | some k =>
        if (s.game k).state ≠ GameState.GAME_ENDED
            ∨ (s.game k).last_result ≠ GameResult.DRAW then
          some (send_to_client s sd "Questa partita non è in stato di pareggio per una rivincita.\n")
        else
          let s := s.setClient current_client
            { s.client current_client with wants_rematch := true }
          let s := send_to_client s sd
            "Richiesta di rivincita inviata. In attesa dell'altro giocatore...\n"
          let owner_client := find_client_by_fd s (s.game k).owner_fd
          let opponent_client := find_client_by_fd s (s.game k).opponent_fd
          match owner_client, opponent_client with
          | some oc, some pc =>
            if (s.client oc).wants_rematch = true ∧ (s.client pc).wants_rematch = true then
              some (rematch_restart s k oc pc)
            else rematch_notify s current_client k owner_client opponent_client
          | _, _ => rematch_notify s current_client k owner_client opponent_client

/-- The usage text sent for an unknown command. -/
def usage_text : String :=
  "Digita <create> per creare una stanza, <join> per unirti, <accept> per accettare una richiesta, <reject> per rifiutare una richiesta, <leave> per disconetterti dalla partita, <move> <riga> <colonna> per fare la tua mossa, <quit> per uscire dal gioco.\n"

/-- The command dispatch of `handle_client_data`, on the command text `line`
(the C string left in the buffer after the two terminators are written). -/
def dispatch (s : Server) (sd : Int) (line : List Char) : Option Server :=
  match find_client_by_fd s sd with
  | none => some (send_to_client s sd "Errore interno del server, client non trovato.\n")
  | some current_client =>
    if line = "list".toList then some (print_game_list s sd)
    else if line = "create".toList then handle_create_command s sd current_client
    else if line.take 5 = "join ".toList then some (handle_join_command s sd current_client line)
    else if line = "accept".toList then some (handle_accept_command s sd current_client)
    else if line = "reject".toList then some (handle_reject_command s sd current_client)
    else if line = "leave".toList then some (handle_leave_command s sd current_client)
    else if line.take 5 = "move ".toList then handle_move_command s sd line
    else if line = "rematch".toList then handle_rematch_command s sd
    else if line = "quit".toList then some (remove_client (send_to_client s sd "Arrivederci!\n") sd)
    else some (send_to_client s sd usage_text)

/-- The C string held by a character array: the characters before the first
NUL. -/
def c_string (buffer : List Char) : List Char := buffer.takeWhile (fun c => c != '\x00')

/-- `handle_client_data`: `buffer` is the content of the array of
`BUFFER_SIZE` characters after the `read`, `valread` the value `read`
returned. The write `buffer[valread] = 0` outside the array is undefined
(`none`); inside, it ends the string at `valread`, and the second write ends it
at the first newline. -/
def handle_client_data (s : Server) (sd : Int) (buffer : List Char) (valread : Int) :
    Option Server :=
  if valread < 0 ∨ valread ≥ BUFFER_SIZE then none
  else
    let text := c_string (buffer.take valread.toNat)
    let line := text.takeWhile (fun c => c != '\n')
    dispatch s sd line

/-! ## server.c: the events of the main loop -/

/-- The branch of the main loop for a new connection: `FD_SET`, the update of
`max_sd`, then `initialize_client`. -/
def accept_connection (s : Server) (new_socket : Int) : Server :=
  let s := { s with master_fds :=
    if new_socket ∈ s.master_fds then s.master_fds else new_socket :: s.master_fds }
  let s := if new_socket > s.max_sd then { s with max_sd := new_socket } else s
  initialize_client s new_socket

/-- The branch of the main loop for a readable client socket `sd`: `valread`
is the result of `read`, `buffer` the array after it. -/
def client_readable (s : Server) (sd : Int) (buffer : List Char) (valread : Int) :
    Option Server :=
  if valread = 0 then some (remove_client s sd) else handle_client_data s sd buffer valread

/-- An event handled by one pass of the main loop. -/
inductive Event where
  | connect (new_socket : Int)
  | readable (sd : Int) (buffer : List Char) (valread : Int)
  deriving DecidableEq, Repr

/-- The handling of one event. -/
def step (s : Server) (e : Event) : Option Server :=
  match e with
  | Event.connect new_socket => some (accept_connection s new_socket)
  | Event.readable sd buffer valread => client_readable s sd buffer valread

/-- The handling of a sequence of events, in order. -/
def run (s : Server) : List Event → Option Server
  | [] => some s
  | e :: es =>
    match step s e with
    | some s1 => run s1 es
    | none => none

/-- A session is registered with descriptor `sd`: the main loop only reads
from descriptors `clients[i].fd` that are positive. -/
def registered (s : Server) (sd : Int) : Prop :=
  0 < sd ∧ ∃ i, i < MAX_CLIENTS ∧ (s.client i).fd = sd

/-- The states the server can be in after handling any number of events.
`accept` returns a positive descriptor that is not in use (neither the
listening socket nor the descriptor of a registered session); a client socket
is read only when it is registered. -/
inductive Reachable (master_socket : Int) : Server → Prop where
  | init : Reachable master_socket (init_server master_socket)
  | connect (s : Server) (new_socket : Int) :
      Reachable master_socket s → 0 < new_socket → new_socket ≠ master_socket →
      (∀ i, i < MAX_CLIENTS → (s.client i).fd ≠ new_socket) →
      Reachable master_socket (accept_connection s new_socket)
  | readable (s s1 : Server) (sd : Int) (buffer : List Char) (valread : Int) :
      Reachable master_socket s → registered s sd →
      client_readable s sd buffer valread = some s1 →
      Reachable master_socket s1

/-! ## Definitions used to state the properties -/

/-- The 8 lines of the board: 3 rows, 3 columns, 2 diagonals, each as its
three positions. -/
def lines : List ((Fin 3 × Fin 3) × (Fin 3 × Fin 3) × (Fin 3 × Fin 3)) :=
  [((0, 0), (0, 1), (0, 2)), ((1, 0), (1, 1), (1, 2)), ((2, 0), (2, 1), (2, 2)),
   ((0, 0), (1, 0), (2, 0)), ((0, 1), (1, 1), (2, 1)), ((0, 2), (1, 2), (2, 2)),
   ((0, 0), (1, 1), (2, 2)), ((0, 2), (1, 1), (2, 0))]

/-- The three cells of the line hold the same mark and are not `EMPTY`. -/
def line_uniform (game : TrisGame) (l : (Fin 3 × Fin 3) × (Fin 3 × Fin 3) × (Fin 3 × Fin 3)) : Prop :=
  game.cell l.1.1 l.1.2 ≠ Cell.EMPTY ∧
  game.cell l.1.1 l.1.2 = game.cell l.2.1.1 l.2.1.2 ∧
  game.cell l.2.1.1 l.2.1.2 = game.cell l.2.2.1 l.2.2.2

/-- The refusal condition of `make_move(game, row, col)` in words: `row` or
`col` is outside `0..2`, or the target cell is not `EMPTY`. -/
def move_refused (game : TrisGame) (row col : Int) : Prop :=
  row < 0 ∨ 2 < row ∨ col < 0 ∨ 2 < col ∨
    ∃ r c : Fin 3, (r.val : Int) = row ∧ (c.val : Int) = col ∧ game.cell r c ≠ Cell.EMPTY

/-- The games after a sequence of `make_move` calls (the return codes are
dropped). -/
def play (game : TrisGame) : List (Int × Int) → TrisGame
  | [] => game
  | m :: ms => play (make_move game m.1 m.2).2 ms

/-- The number of calls of the sequence that return 0. -/
def successes (game : TrisGame) : List (Int × Int) → Nat
  | [] => 0
  | m :: ms =>
    (if (make_move game m.1 m.2).1 = 0 then 1 else 0) + successes (make_move game m.1 m.2).2 ms

/-- The part of the server state the structural invariant speaks about. -/
structure Core where
  n : Int
  next : Int
  cfd : Nat → Int
  cgid : Nat → Int
  gid : Nat → Int
  gown : Nat → Int
  gopp : Nat → Int
  gst : Nat → GameState

/-- The structural invariant of the two tables. -/
structure CInv (c : Core) : Prop where
  n_range : 0 ≤ c.n ∧ c.n ≤ 10
  next_pos : 0 < c.next
  reg : ∀ i : Nat, i < 10 → ((i : Int) < c.n → 0 < c.cfd i) ∧ (c.n ≤ (i : Int) → c.cfd i = 0)
  fd_inj : ∀ i j : Nat, (i : Int) < c.n → (j : Int) < c.n → c.cfd i = c.cfd j → i = j
  gid_range : ∀ k : Nat, k < 5 → c.gid k = -1 ∨ (0 < c.gid k ∧ c.gid k < c.next)
  gid_inj : ∀ k l : Nat, k < 5 → l < 5 → c.gid k ≠ -1 → c.gid k = c.gid l → k = l
  g_free : ∀ k : Nat, k < 5 → c.gid k = -1 → c.gst k = GameState.GAME_NEW
  g_occ : ∀ k : Nat, k < 5 → c.gid k ≠ -1 →
    c.gst k ≠ GameState.GAME_NEW ∧ (c.gopp k = -1 → c.gst k = GameState.GAME_WAITING_FOR_PLAYER)
  g_owner : ∀ k : Nat, k < 5 → c.gid k ≠ -1 →
    ∃ i : Nat, (i : Int) < c.n ∧ c.cfd i = c.gown k ∧ c.cgid i = c.gid k
  g_opp : ∀ k : Nat, k < 5 → c.gid k ≠ -1 → c.gopp k ≠ -1 →
    c.gopp k ≠ c.gown k ∧ ∃ j : Nat, (j : Int) < c.n ∧ c.cfd j = c.gopp k ∧ c.cgid j = c.gid k
  c_game : ∀ i : Nat, (i : Int) < c.n → c.cgid i ≠ -1 →
    ∃ k : Nat, k < 5 ∧ c.gid k = c.cgid i ∧ (c.gown k = c.cfd i ∨ c.gopp k = c.cfd i)

/-- Only the state of an occupied game changes, to a state allowed for its
opponent reference. -/
def Core.setState (c : Core) (k : Nat) (st : GameState) : Core :=
  { c with gst := fun l => if l = k then st else c.gst l }

/-- A new session is registered in the first free slot. -/
def Core.register (c : Core) (fd : Int) : Core :=
  { c with n := c.n + 1,
           cfd := fun j => if j = c.n.toNat then fd else c.cfd j,
           cgid := fun j => if j = c.n.toNat then -1 else c.cgid j }

/-- A session that is in no game is removed: the last active slot is moved
into its place and the last slot is freed. -/
def Core.unregister (c : Core) (i : Nat) : Core :=
  { c with n := c.n - 1,
           cfd := fun j => if j = (c.n - 1).toNat then 0
                           else if j = i then c.cfd (c.n - 1).toNat else c.cfd j,
           cgid := fun j => if j = i then c.cgid (c.n - 1).toNat else c.cgid j }

/-- A session in no game creates a game in a free slot. -/
def Core.create (c : Core) (i k : Nat) : Core :=
  { c with next := c.next + 1,
           cgid := fun j => if j = i then c.next else c.cgid j,
           gid := fun l => if l = k then c.next else c.gid l,
           gown := fun l => if l = k then c.cfd i else c.gown l,
           gopp := fun l => if l = k then -1 else c.gopp l,
           gst := fun l => if l = k then GameState.GAME_WAITING_FOR_PLAYER else c.gst l }

/-- A session in no game becomes the opponent of a game that has none. -/
def Core.join (c : Core) (i k : Nat) : Core :=
  { c with cgid := fun j => if j = i then c.gid k else c.cgid j,
           gopp := fun l => if l = k then c.cfd i else c.gopp l }

/-- One participant `w` of a game with two participants keeps the game, as its
owner and without opponent; the other participant `l` is detached. -/
def Core.promote (c : Core) (w l k : Nat) : Core :=
  { c with cgid := fun j => if j = l then -1 else c.cgid j,
           gown := fun m => if m = k then c.cfd w else c.gown m,
           gopp := fun m => if m = k then -1 else c.gopp m,
           gst := fun m => if m = k then GameState.GAME_WAITING_FOR_PLAYER else c.gst m }

/-- The opponent `j` of a game is detached; the game waits for a new one. -/
def Core.detachOpp (c : Core) (j k : Nat) : Core :=
  { c with cgid := fun x => if x = j then -1 else c.cgid x,
           gopp := fun m => if m = k then -1 else c.gopp m,
           gst := fun m => if m = k then GameState.GAME_WAITING_FOR_PLAYER else c.gst m }

/-- The owner `i` of a game leaves: the opponent `j`, when there is one, is
detached and the slot is freed. -/
def Core.teardown (c : Core) (i j k : Nat) : Core :=
  { c with cgid := fun x => if x = i ∨ (c.gopp k ≠ -1 ∧ x = j) then -1 else c.cgid x,
           gid := fun m => if m = k then -1 else c.gid m,
           gown := fun m => if m = k then -1 else c.gown m,
           gopp := fun m => if m = k then -1 else c.gopp m,
           gst := fun m => if m = k then GameState.GAME_NEW else c.gst m }

/-- The core of a server state. -/
def core (s : Server) : Core :=
  { n := s.num_clients,
    next := s.next_game_id,
    cfd := fun i => (s.client i).fd,
    cgid := fun i => (s.client i).game_id,
    gid := fun k => (s.game k).id,
    gown := fun k => (s.game k).owner_fd,
    gopp := fun k => (s.game k).opponent_fd,
    gst := fun k => (s.game k).state }

/-- The structural invariant of a server state: the two tables have their
declared sizes and reference each other consistently. -/
def Inv (s : Server) : Prop :=
  s.clients.length = 10 ∧ s.games.length = 5 ∧ CInv (core s)

/-! ## Event sequences -/

/-- The readable event of a client socket on which the line `text`, ended by a
newline, has arrived. -/
def cmd (sd : Int) (text : String) : Event :=
  Event.readable sd (text ++ "\n").toList ((text.length : Int) + 1)

/-- The side conditions `Reachable` puts on an event, as a test on the state
the event arrives in. -/
def admissible (master_socket : Int) (s : Server) : Event → Bool
  | Event.connect new_socket =>
    decide (0 < new_socket) && decide (new_socket ≠ master_socket) &&
      (List.range MAX_CLIENTS).all (fun i => (s.client i).fd != new_socket)
  | Event.readable sd _ _ =>
    decide (0 < sd) && (List.range MAX_CLIENTS).any (fun i => (s.client i).fd == sd)

/-- `run` on a sequence of events each of which is admissible when it
arrives. -/
def run_admissible (master_socket : Int) (s : Server) : List Event → Option Server
  | [] => some s
  | e :: es =>
    if admissible master_socket s e then
      match step s e with
      | some s1 => run_admissible master_socket s1 es
      | none => none
    else none

/-- The state of a server started on `master_socket` after the events `es`
(the start state if the sequence is not admissible). -/
def state_after (master_socket : Int) (es : List Event) : Server :=
  (run_admissible master_socket (init_server master_socket) es).getD (init_server master_socket)

/-- Nine moves that fill the board without a line; `a` moves first. -/
def draw_moves (a b : Int) : List Event :=
  [cmd a "move 0 0", cmd b "move 0 1", cmd a "move 0 2", cmd b "move 1 1", cmd a "move 1 0",
   cmd b "move 1 2", cmd a "move 2 1", cmd b "move 2 0", cmd a "move 2 2"]

/-- Two sessions, 4 and 5; 4 creates game 1, 5 joins and is accepted. -/
def trace_started : List Event :=
  [Event.connect 4, Event.connect 5, cmd 4 "create", cmd 5 "join 1", cmd 4 "accept"]

/-- The first round of game 1 played up to the last move of a draw. -/
def trace_before_draw : List Event :=
  trace_started ++ (draw_moves 4 5).take 8

/-- The first round of game 1 played to a draw. -/
def trace_draw : List Event := trace_started ++ draw_moves 4 5

/-- Both players ask for a rematch after the first draw. -/
def trace_rematch : List Event := trace_draw ++ [cmd 4 "rematch", cmd 5 "rematch"]

/-- The second round, started by 5, played to a draw. -/
def trace_draw2 : List Event := trace_rematch ++ draw_moves 5 4

/-- Both players ask for a rematch after the second draw. -/
def trace_rematch2 : List Event := trace_draw2 ++ [cmd 5 "rematch", cmd 4 "rematch"]

/-- Session 5 leaves game 1 after one move, session 6 joins in its place. -/
def trace_rejoined : List Event :=
  [Event.connect 4, Event.connect 5, Event.connect 6,
   cmd 4 "create", cmd 5 "join 1", cmd 4 "accept", cmd 4 "move 0 0", cmd 5 "leave",
   cmd 6 "join 1"]

/-- A round of game 1 in which 4 is one move from a line. -/
def trace_before_win : List Event :=
  trace_started ++ [cmd 4 "move 0 0", cmd 5 "move 1 0", cmd 4 "move 0 1", cmd 5 "move 1 1"]

/-! ## Definitions used to state the properties of the commands -/

/-- Nothing but the output log differs between `s` and `s1`: the two tables
(with the boards), the counters, the next id and the watched descriptors are
the same. -/
def unchanged (s s1 : Server) : Prop :=
  s1.clients = s.clients ∧ s1.games = s.games ∧ s1.num_clients = s.num_clients ∧
  s1.num_games = s.num_games ∧ s1.next_game_id = s.next_game_id ∧
  s1.master_fds = s.master_fds ∧ s1.max_sd = s.max_sd

/-- The command of the session `sd` is answered with one message and nothing
else happens: `s1` is `s` after a `send_to_client` to `sd`, and nothing but
the output log differs. -/
def rejected (s : Server) (sd : Int) (s1 : Server) : Prop :=
  (∃ m, s1 = send_to_client s sd m) ∧ unchanged s s1

/-- The number of occupied game slots (`id != -1`). -/
def occupied (s : Server) : Nat :=
  ((List.range MAX_GAMES).filter (fun k => (s.game k).id != -1)).length

/-- The ids of the game slots that are free in `s` and occupied in `s1`. -/
def new_ids (s s1 : Server) : List Int :=
  ((List.range MAX_GAMES).filter (fun k => (s.game k).id == -1 && (s1.game k).id != -1)).map
    (fun k => (s1.game k).id)

/-- The ids given to new games along a sequence of events, in order. -/
def handed_out (s : Server) : List Event → List Int
  | [] => []
  | e :: es =>
    match step s e with
    | some s1 => new_ids s s1 ++ handed_out s1 es
    | none => []

/-- The three ways one event acts on the ids of the game table and on the
counters `next_game_id` and `num_games`: nothing changes; the first free slot
receives the id `next_game_id`, and both counters are incremented; an occupied
slot is freed and `num_games` is decremented (not below 0). -/
def IdStep (s s1 : Server) : Prop :=
  ((∀ m, (s1.game m).id = (s.game m).id) ∧ s1.next_game_id = s.next_game_id ∧
      s1.num_games = s.num_games) ∨
  (∃ k, k < 5 ∧ (s.game k).id = -1 ∧ (∀ m, m < k → (s.game m).id ≠ -1) ∧
      (∀ m, (s1.game m).id = if m = k then s.next_game_id else (s.game m).id) ∧
      s1.next_game_id = s.next_game_id + 1 ∧ s1.num_games = s.num_games + 1 ∧
      s.num_games < 5) ∨
  (∃ k, k < 5 ∧ (s.game k).id ≠ -1 ∧
      (∀ m, (s1.game m).id = if m = k then -1 else (s.game m).id) ∧
      s1.next_game_id = s.next_game_id ∧
      s1.num_games = if s.num_games - 1 < 0 then 0 else s.num_games - 1)

/-- Six sessions, 4 to 9, connect; the first five create a game each. -/
def trace_full : List Event :=
  [Event.connect 4, Event.connect 5, Event.connect 6, Event.connect 7, Event.connect 8,
   Event.connect 9, cmd 4 "create", cmd 5 "create", cmd 6 "create", cmd 7 "create",
   cmd 8 "create"]

/-- Sessions 4, 5 and 6 connect; 4 creates game 1 and 5 asks to join it. -/
def trace_pending : List Event :=
  [Event.connect 4, Event.connect 5, Event.connect 6, cmd 4 "create", cmd 5 "join 1"]

/-- Sessions 4 and 5 connect; 4 creates game 1. -/
def trace_created : List Event :=
  [Event.connect 4, Event.connect 5, cmd 4 "create"]

/-- Sessions 4 and 5 connect. -/
def trace_connected : List Event := [Event.connect 4, Event.connect 5]

/-- Sessions 4 and 5 connect; 4 creates game 1 and leaves it. -/
def trace_torn_down : List Event :=
  [Event.connect 4, Event.connect 5, cmd 4 "create", cmd 4 "leave"]

/-! ## The end-to-end scenario -/

/-- Two sessions, `a` in slot 0 and `b` in slot 1, play game 1 in slot 0 on
the board `t`, `a` being the owner; the turn flags are the ones
`send_game_state_to_players` writes for `t`. -/
def playing (master_socket : Int) (s : Server) (a b : Int) (t : TrisGame) : Prop :=
  Reachable master_socket s ∧ s.num_clients = 2 ∧
  (s.client 0).fd = a ∧ (s.client 0).status = PlayerStatus.PLAYER_IN_GAME ∧
  (s.client 0).game_id = 1 ∧ (s.client 0).is_current_turn = decide (t.turn = 0) ∧
  (s.client 1).fd = b ∧ (s.client 1).status = PlayerStatus.PLAYER_IN_GAME ∧
  (s.client 1).game_id = 1 ∧ (s.client 1).is_current_turn = decide (t.turn ≠ 0) ∧
  (s.game 0).id = 1 ∧ (s.game 0).owner_fd = a ∧ (s.game 0).opponent_fd = b ∧
  (s.game 0).state = GameState.GAME_IN_PROGRESS ∧ (s.game 0).tris_game = t

/-- The sessions `a` and `b` connect, in this order. -/
def scenario_connected (a b : Int) : List Event := [Event.connect a, Event.connect b]

/-- Then `a` creates a game. -/
def scenario_created (a b : Int) : List Event := scenario_connected a b ++ [cmd a "create"]

/-- Then `b` asks to join game 1. -/
def scenario_joined (a b : Int) : List Event := scenario_created a b ++ [cmd b "join 1"]

/-- Then `a` accepts. -/
def scenario_accepted (a b : Int) : List Event := scenario_joined a b ++ [cmd a "accept"]

/-- The four moves before the winning one. -/
def scenario_moves (a b : Int) : List Event :=
  [cmd a "move 0 0", cmd b "move 1 1", cmd a "move 0 1", cmd b "move 1 0"]

/-- The scenario up to the move before the winning one. -/
def scenario_before_win (a b : Int) : List Event := scenario_accepted a b ++ scenario_moves a b

/-- The whole scenario: `a` completes the top row. -/
def scenario_won (a b : Int) : List Event := scenario_before_win a b ++ [cmd a "move 0 2"]

/-! ## The texts the specification describes -/

/-- The text of row `i` of the board as the specification describes it: the
three cells, each between two blanks, separated by vertical bars, and a
newline. -/
def row_text (game : TrisGame) (i : Fin 3) : List Char :=
  [' ', cell_char (game.cell i 0), ' ', '|', ' ', cell_char (game.cell i 1), ' ', '|',
   ' ', cell_char (game.cell i 2), ' ', '\n']

/-- The text of the board as the specification describes it: the three rows,
separated by two lines `---+---+---`, each followed by a newline. -/
def board_text (game : TrisGame) : List Char :=
  row_text game 0 ++ "---+---+---\n".toList ++ row_text game 1 ++ "---+---+---\n".toList ++
    row_text game 2

/-- The words of the game list for the state of a game, as the specification
describes the list (a human-readable state): one label for each state. -/
def state_words : GameState → String
  | GameState.GAME_NEW => "NUOVA (in attesa del proprietario)"
  | GameState.GAME_WAITING_FOR_PLAYER => "IN ATTESA DI GIOCATORE"
  | GameState.GAME_IN_PROGRESS => "IN CORSO"
  | GameState.GAME_ENDED => "TERMINATA"

/-- The line of the game list for one game, as the specification describes
it: the id, the state in words and the owner label. -/
def game_line (g : Game) : String :=
  "ID: " ++ toString g.id ++ " | Stato: " ++ state_words g.state ++ " | Proprietario: FD " ++
    toString g.owner_fd ++ "\n"

/-- The strings of a list, one after the other. -/
def concat_lines : List String → String
  | [] => ""
  | x :: xs => x ++ concat_lines xs

/-- The occupied slots of the game table, in ascending order. -/
def occupied_slots (s : Server) : List Nat :=
  (List.range MAX_GAMES).filter (fun k => (s.game k).id != -1)

/-- The text of the game list as the specification describes it: the header,
one line per occupied slot in slot order, the line that says there are no
games when no slot is occupied, and the footer. -/
def game_list_text (s : Server) : String :=
  "--- Lista Partite ---\n" ++
    concat_lines ((occupied_slots s).map (fun k => game_line (s.game k))) ++
    (if occupied_slots s = [] then
      "Nessuna partita disponibile. Crea una nuova partita con 'create'.\n"
     else "") ++
    "---------------------\n"

/-- The commands of a list, dispatched one after the other, as the
specification describes the handling of a chunk of several commands. -/
def dispatch_commands (s : Server) (sd : Int) : List (List Char) → Option Server
  | [] => some s
  | c :: cs =>
    match dispatch s sd c with
    | some s1 => dispatch_commands s1 sd cs
    | none => none

/-- The chunk made of the commands of a list, each followed by a newline. -/
def chunk_of (commands : List (List Char)) : List Char :=
  commands.flatMap (fun c => c ++ ['\n'])

/-- The state `s` with the outputs `pre` put before its output log. -/
def log_prepend (pre : List Output) (s : Server) : Server :=
  { s with out := pre ++ s.out }

/-! ## The invariant of the session fields -/

/-- The invariant that ties the status, the mark and the turn flag of the
registered sessions to the game table: a session has a game reference exactly
when its status is `PLAYER_IN_GAME` or `PLAYER_WAITING_ACCEPT`; the owner of an
occupied game has mark `X` and its opponent mark `O`; the owner and the
opponent of an occupied game do not both have the turn flag. -/
structure SInv (s : Server) : Prop where
  status : ∀ i : Nat, (i : Int) < s.num_clients →
    ((s.client i).game_id ≠ -1 ↔
      ((s.client i).status = PlayerStatus.PLAYER_IN_GAME ∨
        (s.client i).status = PlayerStatus.PLAYER_WAITING_ACCEPT))
  marks : ∀ i k : Nat, (i : Int) < s.num_clients → k < 5 → (s.game k).id ≠ -1 →
    ((s.client i).fd = (s.game k).owner_fd → (s.client i).player_symbol = Cell.X) ∧
    ((s.client i).fd = (s.game k).opponent_fd → (s.client i).player_symbol = Cell.O)
  turn : ∀ i j k : Nat, (i : Int) < s.num_clients → (j : Int) < s.num_clients → k < 5 →
    (s.game k).id ≠ -1 → (s.client i).fd = (s.game k).owner_fd →
    (s.client j).fd = (s.game k).opponent_fd →
    ¬ ((s.client i).is_current_turn = true ∧ (s.client j).is_current_turn = true)

/-! ## The client registry and the games in progress -/

/-- Ten sessions, 4 to 13, connect: the client table is full. -/
def trace_ten : List Event :=
  [Event.connect 4, Event.connect 5, Event.connect 6, Event.connect 7, Event.connect 8,
   Event.connect 9, Event.connect 10, Event.connect 11, Event.connect 12, Event.connect 13]

/-- The registered sessions are the slots below `num_clients`: these hold a
positive descriptor, the other slots hold 0, no descriptor is held twice, and
`num_clients` is the number of slots in use. -/
def contiguous (s : Server) : Prop :=
  (0 ≤ s.num_clients ∧ s.num_clients ≤ 10) ∧
  (∀ i : Nat, i < 10 →
    ((i : Int) < s.num_clients → 0 < (s.client i).fd) ∧
    (s.num_clients ≤ (i : Int) → (s.client i).fd = 0)) ∧
  (∀ i j : Nat, (i : Int) < s.num_clients → (j : Int) < s.num_clients →
    (s.client i).fd = (s.client j).fd → i = j) ∧
  s.num_clients = (((List.range MAX_CLIENTS).filter (fun i => (s.client i).fd != 0)).length : Int)

/-- The invariant of the games: the turn indicator of a board is 0 or 1; no
board holds a completed line; in a game in progress the owner has the turn
flag exactly when the turn indicator is 0 and the opponent exactly when it is
not; the owner of an occupied game has status `PLAYER_IN_GAME`, and so has its
opponent unless the game waits for a player. -/
structure GInv (s : Server) : Prop where
  turn01 : ∀ k : Nat, k < 5 →
    (s.game k).tris_game.turn = 0 ∨ (s.game k).tris_game.turn = 1
  noline : ∀ k : Nat, k < 5 → check_winner (s.game k).tris_game ≠ GameResult.WIN
  sync : ∀ i k : Nat, (i : Int) < s.num_clients → k < 5 → (s.game k).id ≠ -1 →
    (s.game k).state = GameState.GAME_IN_PROGRESS →
    ((s.client i).fd = (s.game k).owner_fd →
      (s.client i).is_current_turn = decide ((s.game k).tris_game.turn = 0)) ∧
    ((s.client i).fd = (s.game k).opponent_fd →
      (s.client i).is_current_turn = decide ((s.game k).tris_game.turn ≠ 0))
  owner_status : ∀ i k : Nat, (i : Int) < s.num_clients → k < 5 → (s.game k).id ≠ -1 →
    (s.client i).fd = (s.game k).owner_fd →
    (s.client i).status = PlayerStatus.PLAYER_IN_GAME
  opp_status : ∀ i k : Nat, (i : Int) < s.num_clients → k < 5 → (s.game k).id ≠ -1 →
    (s.client i).fd = (s.game k).opponent_fd →
    (s.game k).state ≠ GameState.GAME_WAITING_FOR_PLAYER →
    (s.client i).status = PlayerStatus.PLAYER_IN_GAME

/-! ## Theorems: the board engine -/

theorem lines_iff (game : TrisGame) :
    (∃ l ∈ lines, line_uniform game l) ↔
      (line_uniform game ((0, 0), (0, 1), (0, 2)) ∨ line_uniform game ((1, 0), (1, 1), (1, 2)) ∨
       line_uniform game ((2, 0), (2, 1), (2, 2)) ∨ line_uniform game ((0, 0), (1, 0), (2, 0)) ∨
       line_uniform game ((0, 1), (1, 1), (2, 1)) ∨ line_uniform game ((0, 2), (1, 2), (2, 2)) ∨
       line_uniform game ((0, 0), (1, 1), (2, 2)) ∨ line_uniform game ((0, 2), (1, 1), (2, 0))) := by
  unfold lines
  simp only [List.exists_mem_cons_iff, List.not_mem_nil, false_and, exists_false, or_false]

theorem scan_iff (game : TrisGame) :
    (idx3.any (fun i =>
        (game.cell i 0 != Cell.EMPTY && game.cell i 0 == game.cell i 1 && game.cell i 1 == game.cell i 2) ||
        (game.cell 0 i != Cell.EMPTY && game.cell 0 i == game.cell 1 i && game.cell 1 i == game.cell 2 i)) = true
       ∨ (game.cell 0 0 != Cell.EMPTY && game.cell 0 0 == game.cell 1 1 && game.cell 1 1 == game.cell 2 2) = true
       ∨ (game.cell 0 2 != Cell.EMPTY && game.cell 0 2 == game.cell 1 1 && game.cell 1 1 == game.cell 2 0) = true)
    ↔ (line_uniform game ((0, 0), (0, 1), (0, 2)) ∨ line_uniform game ((1, 0), (1, 1), (1, 2)) ∨
       line_uniform game ((2, 0), (2, 1), (2, 2)) ∨ line_uniform game ((0, 0), (1, 0), (2, 0)) ∨
       line_uniform game ((0, 1), (1, 1), (2, 1)) ∨ line_uniform game ((0, 2), (1, 2), (2, 2)) ∨
       line_uniform game ((0, 0), (1, 1), (2, 2)) ∨ line_uniform game ((0, 2), (1, 1), (2, 0))) := by
  simp only [line_uniform, idx3, List.any_cons, List.any_nil, Bool.or_false, Bool.or_eq_true,
      Bool.and_eq_true, bne_iff_ne, beq_iff_eq, and_assoc]
  generalize (game.cell 0 0 ≠ Cell.EMPTY ∧ game.cell 0 0 = game.cell 0 1 ∧ game.cell 0 1 = game.cell 0 2) = p1
  generalize (game.cell 1 0 ≠ Cell.EMPTY ∧ game.cell 1 0 = game.cell 1 1 ∧ game.cell 1 1 = game.cell 1 2) = p2
  generalize (game.cell 2 0 ≠ Cell.EMPTY ∧ game.cell 2 0 = game.cell 2 1 ∧ game.cell 2 1 = game.cell 2 2) = p3
  generalize (game.cell 0 0 ≠ Cell.EMPTY ∧ game.cell 0 0 = game.cell 1 0 ∧ game.cell 1 0 = game.cell 2 0) = p4
  generalize (game.cell 0 1 ≠ Cell.EMPTY ∧ game.cell 0 1 = game.cell 1 1 ∧ game.cell 1 1 = game.cell 2 1) = p5
  generalize (game.cell 0 2 ≠ Cell.EMPTY ∧ game.cell 0 2 = game.cell 1 2 ∧ game.cell 1 2 = game.cell 2 2) = p6
  generalize (game.cell 0 0 ≠ Cell.EMPTY ∧ game.cell 0 0 = game.cell 1 1 ∧ game.cell 1 1 = game.cell 2 2) = p7
  generalize (game.cell 0 2 ≠ Cell.EMPTY ∧ game.cell 0 2 = game.cell 1 1 ∧ game.cell 1 1 = game.cell 2 0) = p8
  tauto

theorem mem_idx3 (i : Fin 3) : i ∈ idx3 := by
  revert i; decide

theorem any_empty_iff (game : TrisGame) :
    idx3.any (fun i => idx3.any (fun j => game.cell i j == Cell.EMPTY)) = true ↔
      ∃ i j, game.cell i j = Cell.EMPTY := by
  simp only [List.any_eq_true, beq_iff_eq]
  constructor
  · rintro ⟨i, _, j, _, h⟩; exact ⟨i, j, h⟩
  · rintro ⟨i, j, h⟩; exact ⟨i, mem_idx3 i, j, mem_idx3 j, h⟩

/-- C1: for every board, `check_winner` returns `WIN` if and only if one of the
8 lines (3 rows, 3 columns, 2 diagonals) holds three equal non-empty cells,
`DRAW` if and only if no line is uniform and no cell is `EMPTY`, and
`IN_PROGRESS` in the remaining case (no uniform line, some cell `EMPTY`). -/
theorem check_winner_spec (game : TrisGame) :
    (check_winner game = GameResult.WIN ↔ ∃ l ∈ lines, line_uniform game l) ∧
    (check_winner game = GameResult.DRAW ↔
      (¬ ∃ l ∈ lines, line_uniform game l) ∧ ∀ i j, game.cell i j ≠ Cell.EMPTY) ∧
    (check_winner game = GameResult.IN_PROGRESS ↔
      (¬ ∃ l ∈ lines, line_uniform game l) ∧ ¬ ∀ i j, game.cell i j ≠ Cell.EMPTY) := by
  have hall : (∀ i j, game.cell i j ≠ Cell.EMPTY) ↔ ¬ ∃ i j, game.cell i j = Cell.EMPTY := by
    simp
  rw [lines_iff, ← scan_iff, hall, ← any_empty_iff]
  unfold check_winner
  simp only []
  split_ifs <;> simp only [*, true_or, or_true, false_or, or_false, not_true_eq_false,
    not_false_eq_true, true_and, and_true, false_and, and_false, reduceCtorEq, not_not, and_self]

theorem Vec3.get_set {α : Type} (v : Vec3 α) (i j : Fin 3) (x : α) :
    (v.set i x).get j = if j = i then x else v.get j := by
  fin_cases i <;> fin_cases j <;> rfl

theorem Vec3.get_fill {α : Type} (x : α) (i : Fin 3) : (Vec3.fill x).get i = x := by
  fin_cases i <;> rfl

theorem cell_init_game (g : TrisGame) (i j : Fin 3) : (init_game g).cell i j = Cell.EMPTY := by
  simp [init_game, TrisGame.cell, Vec3.get_fill]

/-- What `make_move` does on an in-range pair. -/
theorem make_move_in_range (game : TrisGame) (r c : Fin 3) :
    make_move game (r.val : Int) (c.val : Int) =
      if game.cell r c ≠ Cell.EMPTY then (-1, game)
      else (0, { board := game.board.set r
                   ((game.board.get r).set c (if game.turn = 0 then Cell.X else Cell.O)),
                 turn := 1 - game.turn }) := by
  unfold make_move
  have h : ¬ ((r.val : Int) < 0 ∨ (r.val : Int) ≥ SIZE ∨ (c.val : Int) < 0 ∨ (c.val : Int) ≥ SIZE) := by
    simp only [SIZE]; omega
  rw [dif_neg h]
  simp only [Int.toNat_ofNat, Fin.eta]

theorem make_move_out_of_range (game : TrisGame) (row col : Int)
    (h : row < 0 ∨ 2 < row ∨ col < 0 ∨ 2 < col) : make_move game row col = (-1, game) := by
  unfold make_move
  have h' : row < 0 ∨ row ≥ SIZE ∨ col < 0 ∨ col ≥ SIZE := by
    simp only [SIZE]; omega
  rw [dif_pos h']

theorem in_range_cases (row col : Int) :
    (row < 0 ∨ 2 < row ∨ col < 0 ∨ 2 < col) ∨ ∃ r c : Fin 3, (r.val : Int) = row ∧ (c.val : Int) = col := by
  by_cases h : row < 0 ∨ 2 < row ∨ col < 0 ∨ 2 < col
  · exact Or.inl h
  · right
    refine ⟨⟨row.toNat, by omega⟩, ⟨col.toNat, by omega⟩, ?_, ?_⟩ <;> simp <;> omega

theorem cell_make_move (game : TrisGame) (r c i j : Fin 3) (h : game.cell r c = Cell.EMPTY) :
    (make_move game (r.val : Int) (c.val : Int)).2.cell i j =
      if i = r ∧ j = c then (if game.turn = 0 then Cell.X else Cell.O) else game.cell i j := by
  rw [make_move_in_range, if_neg (by simp [h])]
  simp only [TrisGame.cell, Vec3.get_set]
  by_cases hi : i = r
  · subst hi; simp [Vec3.get_set]
  · simp [hi]

/-- C2: for every game state and every integer pair `(row, col)`, `make_move`
returns -1 and leaves the game state (board and turn) unchanged exactly when
`row` or `col` is outside `0..2` or the target cell is not `EMPTY`; it returns
-1 in no other case, and in every other case it returns 0. -/
theorem make_move_refusal (game : TrisGame) (row col : Int) :
    (((make_move game row col).1 = -1 ∧ (make_move game row col).2 = game) ↔
      move_refused game row col) ∧
    ((make_move game row col).1 = -1 ↔ move_refused game row col) ∧
    (¬ move_refused game row col → (make_move game row col).1 = 0) := by
  suffices hs : ((make_move game row col).1 = -1 ↔ move_refused game row col) ∧
      (move_refused game row col → (make_move game row col).2 = game) ∧
      (¬ move_refused game row col → (make_move game row col).1 = 0) from
    ⟨⟨fun x => hs.1.1 x.1, fun x => ⟨hs.1.2 x, hs.2.1 x⟩⟩, hs.1, hs.2.2⟩
  rcases in_range_cases row col with h | ⟨r, c, hr, hc⟩
  · have hm := make_move_out_of_range game row col h
    have hb : move_refused game row col := by
      unfold move_refused; tauto
    simp [hm, hb]
  · subst hr; subst hc
    have hiff : move_refused game r.val c.val ↔ game.cell r c ≠ Cell.EMPTY := by
      unfold move_refused
      constructor
      · rintro (h | h | h | h | ⟨r', c', h1, h2, h3⟩)
        · omega
        · omega
        · omega
        · omega
        · have e1 : r' = r := Fin.ext (by exact_mod_cast h1)
          have e2 : c' = c := Fin.ext (by exact_mod_cast h2)
          subst e1; subst e2; exact h3
      · intro h; exact Or.inr (Or.inr (Or.inr (Or.inr ⟨r, c, rfl, rfl, h⟩)))
    rw [hiff, make_move_in_range]
    by_cases h : game.cell r c = Cell.EMPTY <;> simp [h]

/-- C3: for every game state with `turn` in `{0, 1}` and every in-range
`(r, c)` whose cell is `EMPTY`, `make_move` returns 0, writes `X` into that
cell when `turn` is 0 and `O` when `turn` is 1, changes `turn` to the other
value of `{0, 1}`, and leaves the other 8 cells unchanged. -/
theorem make_move_places_mark (game : TrisGame) (r c : Fin 3)
    (hturn : game.turn = 0 ∨ game.turn = 1) (hempty : game.cell r c = Cell.EMPTY) :
    (make_move game (r.val : Int) (c.val : Int)).1 = 0 ∧
    (game.turn = 0 → (make_move game (r.val : Int) (c.val : Int)).2.cell r c = Cell.X) ∧
    (game.turn = 1 → (make_move game (r.val : Int) (c.val : Int)).2.cell r c = Cell.O) ∧
    (make_move game (r.val : Int) (c.val : Int)).2.turn ≠ game.turn ∧
    ((make_move game (r.val : Int) (c.val : Int)).2.turn = 0 ∨
      (make_move game (r.val : Int) (c.val : Int)).2.turn = 1) ∧
    (∀ i j : Fin 3, ¬ (i = r ∧ j = c) →
      (make_move game (r.val : Int) (c.val : Int)).2.cell i j = game.cell i j) := by
  have hne : ¬ game.cell r c ≠ Cell.EMPTY := by simp [hempty]
  refine ⟨?_, ?_, ?_, ?_, ?_, ?_⟩
  · rw [make_move_in_range, if_neg hne]
  · intro h; rw [cell_make_move game r c r c hempty]; simp [h]
  · intro h; rw [cell_make_move game r c r c hempty]; simp [h]
  · rw [make_move_in_range, if_neg hne]; simp only; omega
  · rw [make_move_in_range, if_neg hne]; simp only; omega
  · intro i j hij; rw [cell_make_move game r c i j hempty]; simp [hij]

/-- The move of C3 at row 1, column 2 of a freshly initialised game. -/
theorem make_move_places_mark_witness :
    (make_move (init_game ⟨Vec3.fill (Vec3.fill Cell.O), 7⟩) ((1 : Fin 3).val : Int) ((2 : Fin 3).val : Int)).1 = 0 ∧
    (make_move (init_game ⟨Vec3.fill (Vec3.fill Cell.O), 7⟩) ((1 : Fin 3).val : Int) ((2 : Fin 3).val : Int)).2.turn
      ≠ (init_game ⟨Vec3.fill (Vec3.fill Cell.O), 7⟩).turn :=
  ⟨(make_move_places_mark (init_game ⟨Vec3.fill (Vec3.fill Cell.O), 7⟩) 1 2 (Or.inl rfl) rfl).1,
   (make_move_places_mark (init_game ⟨Vec3.fill (Vec3.fill Cell.O), 7⟩) 1 2 (Or.inl rfl) rfl).2.2.2.1⟩

/-- C5: after `init_game`, whatever the game state held before, all 9 cells
are `EMPTY` and `turn` is 0. -/
theorem init_game_clears (game : TrisGame) :
    (∀ i j : Fin 3, (init_game game).cell i j = Cell.EMPTY) ∧ (init_game game).turn = 0 :=
  ⟨fun i j => cell_init_game game i j, rfl⟩

theorem play_append (g : TrisGame) (a b : List (Int × Int)) :
    play g (a ++ b) = play (play g a) b := by
  induction a generalizing g with
  | nil => rfl
  | cons m ms ih => simp only [List.cons_append, play]; exact ih _

theorem make_move_keeps_mark (g : TrisGame) (row col : Int) (i j : Fin 3)
    (h : g.cell i j ≠ Cell.EMPTY) : (make_move g row col).2.cell i j = g.cell i j := by
  rcases in_range_cases row col with hr | ⟨r, c, hr, hc⟩
  · rw [make_move_out_of_range g row col hr]
  · subst hr; subst hc
    by_cases he : g.cell r c = Cell.EMPTY
    · rw [cell_make_move g r c i j he]
      have : ¬ (i = r ∧ j = c) := by
        rintro ⟨rfl, rfl⟩; exact h he
      simp [this]
    · rw [make_move_in_range, if_pos he]

theorem play_keeps_mark (g : TrisGame) (ms : List (Int × Int)) (i j : Fin 3)
    (h : g.cell i j ≠ Cell.EMPTY) : (play g ms).cell i j = g.cell i j := by
  induction ms generalizing g with
  | nil => rfl
  | cons m ms ih =>
    simp only [play]
    have h1 := make_move_keeps_mark g m.1 m.2 i j h
    rw [ih _ (by rw [h1]; exact h), h1]

theorem make_move_turn (g : TrisGame) (row col : Int) :
    (make_move g row col).2.turn =
      if (make_move g row col).1 = 0 then 1 - g.turn else g.turn := by
  rcases in_range_cases row col with hr | ⟨r, c, hr, hc⟩
  · rw [make_move_out_of_range g row col hr]; simp
  · subst hr; subst hc
    rw [make_move_in_range]
    by_cases he : g.cell r c = Cell.EMPTY <;> simp [he]

theorem play_turn (g : TrisGame) (ms : List (Int × Int)) (n : Nat)
    (h : g.turn = ((n % 2 : Nat) : Int)) :
    (play g ms).turn = (((n + successes g ms) % 2 : Nat) : Int) := by
  induction ms generalizing g n with
  | nil => simpa [play, successes] using h
  | cons m ms ih =>
    simp only [play, successes]
    by_cases hm : (make_move g m.1 m.2).1 = 0
    · have ht : (make_move g m.1 m.2).2.turn = (((n + 1) % 2 : Nat) : Int) := by
        rw [make_move_turn, if_pos hm, h]; omega
      rw [ih _ (n + 1) ht, if_pos hm]
      congr 2; omega
    · have ht : (make_move g m.1 m.2).2.turn = ((n % 2 : Nat) : Int) := by
        rw [make_move_turn, if_neg hm, h]
      rw [ih _ n ht, if_neg hm]
      congr 2; omega

/-- C4: for every sequence `moves` of `make_move` calls on a freshly initialised
game, a cell that is non-empty after `moves` keeps its mark after any further
calls `later`; the turn indicator after `moves` is the number of successful
calls modulo 2; and a further call that succeeds fills a cell that was `EMPTY`
with `X` when that number is even and `O` when it is odd, so the marks are
placed X, O, X, O, ... -/
theorem play_marks_once_and_alternates (game : TrisGame) (moves later : List (Int × Int))
    (row col : Int) :
    (∀ i j : Fin 3, (play (init_game game) moves).cell i j ≠ Cell.EMPTY →
      (play (init_game game) (moves ++ later)).cell i j = (play (init_game game) moves).cell i j) ∧
    (play (init_game game) moves).turn = ((successes (init_game game) moves % 2 : Nat) : Int) ∧
    ((make_move (play (init_game game) moves) row col).1 = 0 →
      ∃ r c : Fin 3, (r.val : Int) = row ∧ (c.val : Int) = col ∧
        (play (init_game game) moves).cell r c = Cell.EMPTY ∧
        (make_move (play (init_game game) moves) row col).2.cell r c =
          (if successes (init_game game) moves % 2 = 0 then Cell.X else Cell.O)) := by
  have hturn := play_turn (init_game game) moves 0 rfl
  rw [Nat.zero_add] at hturn
  refine ⟨?_, hturn, ?_⟩
  · intro i j h
    rw [play_append]
    exact play_keeps_mark _ later i j h
  · intro hok
    rcases in_range_cases row col with hr | ⟨r, c, hr, hc⟩
    · rw [make_move_out_of_range _ row col hr] at hok
      simp at hok
    · subst hr; subst hc
      by_cases he : (play (init_game game) moves).cell r c = Cell.EMPTY
      · refine ⟨r, c, rfl, rfl, he, ?_⟩
        rw [cell_make_move _ r c r c he, hturn]
        simp only [and_self, if_true]
        by_cases hp : successes (init_game game) moves % 2 = 0
        · simp [hp]
        · have : successes (init_game game) moves % 2 = 1 := by omega
          simp [this]
      · rw [make_move_in_range, if_pos he] at hok
        simp at hok

/-! ## Theorems: the structural invariant of the server -/

namespace CInv

variable {c : Core}

theorem fd_pos (h : CInv c) {i : Nat} (hi : (i : Int) < c.n) : 0 < c.cfd i := by
  have := h.n_range
  exact (h.reg i (by omega)).1 hi

theorem owner_gid (h : CInv c) {k i : Nat} (hk : k < 5) (ho : c.gid k ≠ -1)
    (hi : (i : Int) < c.n) (hfd : c.cfd i = c.gown k) : c.cgid i = c.gid k := by
  obtain ⟨i', hi', hfd', hg'⟩ := h.g_owner k hk ho
  have : i = i' := h.fd_inj i i' hi hi' (by rw [hfd, hfd'])
  subst this; exact hg'

theorem opp_gid (h : CInv c) {k i : Nat} (hk : k < 5) (ho : c.gid k ≠ -1)
    (hi : (i : Int) < c.n) (hfd : c.cfd i = c.gopp k) : c.cgid i = c.gid k := by
  have hne : c.gopp k ≠ -1 := by
    have := h.fd_pos hi; omega
  obtain ⟨_, i', hi', hfd', hg'⟩ := h.g_opp k hk ho hne
  have : i = i' := h.fd_inj i i' hi hi' (by rw [hfd, hfd'])
  subst this; exact hg'

theorem role_of_gid (h : CInv c) {k i : Nat} (hk : k < 5)
    (hi : (i : Int) < c.n) (hg : c.cgid i ≠ -1) (hid : c.gid k = c.cgid i) :
    c.gown k = c.cfd i ∨ c.gopp k = c.cfd i := by
  obtain ⟨k', hk', hid', hr⟩ := h.c_game i hi hg
  have : k = k' := h.gid_inj k k' hk hk' (by rw [hid]; exact hg) (by rw [hid, hid'])
  subst this; exact hr

theorem owner_pos (h : CInv c) {k : Nat} (hk : k < 5) (ho : c.gid k ≠ -1) : 0 < c.gown k := by
  obtain ⟨i, hi, hfd, _⟩ := h.g_owner k hk ho
  rw [← hfd]; exact h.fd_pos hi

theorem opp_pos (h : CInv c) {k : Nat} (hk : k < 5) (ho : c.gid k ≠ -1) (hp : c.gopp k ≠ -1) :
    0 < c.gopp k := by
  obtain ⟨_, i, hi, hfd, _⟩ := h.g_opp k hk ho hp
  rw [← hfd]; exact h.fd_pos hi

end CInv

theorem CInv.setState {c : Core} (h : CInv c) {k : Nat} (st : GameState) (hk : k < 5)
    (ho : c.gid k ≠ -1) (hst : st ≠ GameState.GAME_NEW)
    (hw : c.gopp k = -1 → st = GameState.GAME_WAITING_FOR_PLAYER) : CInv (c.setState k st) := by
  refine ⟨h.n_range, h.next_pos, h.reg, h.fd_inj, h.gid_range, h.gid_inj, ?_, ?_, h.g_owner,
    h.g_opp, h.c_game⟩
  · intro l hl hfree
    simp only [Core.setState]
    split_ifs with e
    · subst e; exact absurd hfree ho
    · exact h.g_free l hl hfree
  · intro l hl hocc
    simp only [Core.setState]
    split_ifs with e
    · subst e; exact ⟨hst, hw⟩
    · exact h.g_occ l hl hocc

theorem CInv.register {c : Core} (h : CInv c) (fd : Int) (hn : c.n < 10) (hfd : 0 < fd)
    (hfresh : ∀ i : Nat, (i : Int) < c.n → c.cfd i ≠ fd) : CInv (c.register fd) := by
  have hr := h.n_range
  constructor
  · simp only [Core.register]; omega
  · exact h.next_pos
  · intro i hi
    simp only [Core.register]
    split_ifs with e
    · subst e; constructor <;> intro _ <;> omega
    · have := h.reg i hi
      constructor
      · intro hlt; exact this.1 (by omega)
      · intro hge; exact this.2 (by omega)
  · intro i j hi hj
    simp only [Core.register] at hi hj ⊢
    split_ifs with e1 e2 e2
    · intro _; omega
    · intro hh; exact absurd hh.symm (hfresh j (by omega))
    · intro hh; exact absurd hh (hfresh i (by omega))
    · exact h.fd_inj i j (by omega) (by omega)
  · exact h.gid_range
  · exact h.gid_inj
  · exact h.g_free
  · exact h.g_occ
  · intro k hk ho
    obtain ⟨i, hi, h1, h2⟩ := h.g_owner k hk ho
    refine ⟨i, ?_, ?_, ?_⟩ <;> simp only [Core.register]
    · omega
    · rw [if_neg (by omega)]; exact h1
    · rw [if_neg (by omega)]; exact h2
  · intro k hk ho hp
    obtain ⟨hne, i, hi, h1, h2⟩ := h.g_opp k hk ho hp
    refine ⟨hne, i, ?_, ?_, ?_⟩ <;> simp only [Core.register]
    · omega
    · rw [if_neg (by omega)]; exact h1
    · rw [if_neg (by omega)]; exact h2
  · intro i hi hg
    simp only [Core.register] at hi hg ⊢
    split_ifs at hg ⊢ with e
    · exact absurd rfl hg
    · exact h.c_game i (by omega) hg

theorem CInv.unregister {c : Core} (h : CInv c) {i : Nat} (hi : (i : Int) < c.n)
    (hg : c.cgid i = -1) : CInv (c.unregister i) := by
  have hr := h.n_range
  -- the slot in which an old session other than `i` is found afterwards
  have remap : ∀ j : Nat, (j : Int) < c.n → j ≠ i →
      ∃ j' : Nat, (j' : Int) < c.n - 1 ∧ (c.unregister i).cfd j' = c.cfd j ∧
        (c.unregister i).cgid j' = c.cgid j := by
    intro j hj hji
    by_cases hl : j = (c.n - 1).toNat
    · have hil : i ≠ (c.n - 1).toNat := by omega
      refine ⟨i, by omega, ?_, ?_⟩
      · simp only [Core.unregister, if_neg hil, if_true, hl]
      · simp only [Core.unregister, if_true, hl]
    · refine ⟨j, by omega, ?_, ?_⟩
      · simp only [Core.unregister, if_neg hl, if_neg hji]
      · simp only [Core.unregister, if_neg hji]
  -- every session afterwards is an old session other than `i`
  have back : ∀ j' : Nat, (j' : Int) < c.n - 1 →
      ((if j' = i then (c.n - 1).toNat else j' : Nat) : Int) < c.n ∧
      (if j' = i then (c.n - 1).toNat else j') ≠ i ∧
      (c.unregister i).cfd j' = c.cfd (if j' = i then (c.n - 1).toNat else j') ∧
      (c.unregister i).cgid j' = c.cgid (if j' = i then (c.n - 1).toNat else j') := by
    intro j' hj'
    have hjl : j' ≠ (c.n - 1).toNat := by omega
    by_cases hji : j' = i
    · simp only [Core.unregister, if_neg hjl, if_pos hji, and_self, and_true]
      constructor <;> omega
    · simp only [Core.unregister, if_neg hjl, if_neg hji, and_self, and_true]
      exact ⟨by omega, hji⟩
  constructor
  · simp only [Core.unregister]; omega
  · exact h.next_pos
  · intro j hj
    constructor
    · intro hlt
      obtain ⟨hj0, _, e, _⟩ := back j hlt
      rw [e]; exact h.fd_pos hj0
    · intro hge
      simp only [Core.unregister] at hge ⊢
      split_ifs with e1 e2
      · rfl
      · omega
      · exact (h.reg j hj).2 (by omega)
  · intro a b ha hb hab
    obtain ⟨ha0, hai, ea, _⟩ := back a ha
    obtain ⟨hb0, hbi, eb, _⟩ := back b hb
    have hab0 := h.fd_inj _ _ ha0 hb0 (by rw [← ea, ← eb]; exact hab)
    simp only [Core.unregister] at ha hb
    split_ifs at hab0 <;> omega
  · exact h.gid_range
  · exact h.gid_inj
  · exact h.g_free
  · exact h.g_occ
  · intro k hk ho
    obtain ⟨j, hj, h1, h2⟩ := h.g_owner k hk ho
    have hji : j ≠ i := by
      rintro rfl; rw [hg] at h2; exact ho h2.symm
    obtain ⟨j', hj', e1, e2⟩ := remap j hj hji
    exact ⟨j', hj', by rw [e1]; exact h1, by rw [e2]; exact h2⟩
  · intro k hk ho hp
    obtain ⟨hne, j, hj, h1, h2⟩ := h.g_opp k hk ho hp
    have hji : j ≠ i := by
      rintro rfl; rw [hg] at h2; exact ho h2.symm
    obtain ⟨j', hj', e1, e2⟩ := remap j hj hji
    exact ⟨hne, j', hj', by rw [e1]; exact h1, by rw [e2]; exact h2⟩
  · intro j' hj' hgj
    obtain ⟨hj, _, e1, e2⟩ := back j' hj'
    rw [e2] at hgj
    obtain ⟨k, hk, hid, hrole⟩ := h.c_game _ hj hgj
    exact ⟨k, hk, by rw [e2]; exact hid, by rw [e1]; exact hrole⟩

theorem CInv.create {c : Core} (h : CInv c) {i k : Nat} (hi : (i : Int) < c.n)
    (hg : c.cgid i = -1) (hk : k < 5) (hfree : c.gid k = -1) : CInv (c.create i k) := by
  have hnext := h.next_pos
  -- no occupied game refers to session `i`
  have hno : ∀ l : Nat, l < 5 → c.gid l ≠ -1 → ∀ j : Nat, (j : Int) < c.n →
      c.cgid j = c.gid l → j ≠ i := by
    intro l _ ho j _ e hji
    subst hji; rw [hg] at e; exact ho e.symm
  constructor
  · exact h.n_range
  · simp only [Core.create]; omega
  · exact h.reg
  · exact h.fd_inj
  · intro l hl
    simp only [Core.create]
    split_ifs with e
    · right; omega
    · rcases h.gid_range l hl with h1 | h1
      · exact Or.inl h1
      · right; omega
  · intro a b ha hb
    simp only [Core.create]
    split_ifs with e1 e2 e2
    · intro _ _; omega
    · intro _ hh
      rcases h.gid_range b hb with h1 | h1 <;> omega
    · intro _ hh
      rcases h.gid_range a ha with h1 | h1 <;> omega
    · exact h.gid_inj a b ha hb
  · intro l hl
    simp only [Core.create]
    split_ifs with e
    · intro hh; omega
    · exact h.g_free l hl
  · intro l hl
    simp only [Core.create]
    split_ifs with e
    · intro _; exact ⟨by decide, fun _ => rfl⟩
    · exact h.g_occ l hl
  · intro l hl
    simp only [Core.create]
    split_ifs with e
    · intro _; exact ⟨i, hi, rfl, by rw [if_pos rfl]⟩
    · intro ho
      obtain ⟨j, hj, h1, h2⟩ := h.g_owner l hl ho
      exact ⟨j, hj, h1, by rw [if_neg (hno l hl ho j hj h2)]; exact h2⟩
  · intro l hl
    simp only [Core.create]
    split_ifs with e
    · intro _ hh; exact absurd rfl hh
    · intro ho hp
      obtain ⟨hne, j, hj, h1, h2⟩ := h.g_opp l hl ho hp
      exact ⟨hne, j, hj, h1, by rw [if_neg (hno l hl ho j hj h2)]; exact h2⟩
  · intro j hj
    simp only [Core.create]
    split_ifs with e
    · intro _; subst e
      exact ⟨k, hk, by rw [if_pos rfl], Or.inl (by rw [if_pos rfl])⟩
    · intro hgj
      obtain ⟨l, hl, hid, hrole⟩ := h.c_game j hj hgj
      have hlk : l ≠ k := by
        rintro rfl; rw [hfree] at hid; exact hgj hid.symm
      refine ⟨l, hl, by rw [if_neg hlk]; exact hid, ?_⟩
      rw [if_neg hlk, if_neg hlk]; exact hrole

theorem CInv.join {c : Core} (h : CInv c) {i k : Nat} (hi : (i : Int) < c.n)
    (hg : c.cgid i = -1) (hk : k < 5) (ho : c.gid k ≠ -1) (hp : c.gopp k = -1)
    (hown : c.gown k ≠ c.cfd i) : CInv (c.join i k) := by
  have hpos := h.fd_pos hi
  have hno : ∀ l : Nat, l < 5 → c.gid l ≠ -1 → ∀ j : Nat, (j : Int) < c.n →
      c.cgid j = c.gid l → j ≠ i := by
    intro l _ ho j _ e hji
    subst hji; rw [hg] at e; exact ho e.symm
  refine ⟨h.n_range, h.next_pos, h.reg, h.fd_inj, h.gid_range, h.gid_inj, h.g_free, ?_, ?_, ?_, ?_⟩
  · intro l hl hocc
    simp only [Core.join]
    split_ifs with e
    · subst e; exact ⟨(h.g_occ l hl hocc).1, fun hh => by omega⟩
    · exact h.g_occ l hl hocc
  · intro l hl hocc
    obtain ⟨j, hj, h1, h2⟩ := h.g_owner l hl hocc
    refine ⟨j, hj, h1, ?_⟩
    simp only [Core.join]
    rw [if_neg (hno l hl hocc j hj h2)]; exact h2
  · intro l hl hocc
    simp only [Core.join]
    split_ifs with e
    · subst e
      intro _
      exact ⟨fun hh => hown hh.symm, i, hi, rfl, by rw [if_pos rfl]⟩
    · intro hpl
      obtain ⟨hne, j, hj, h1, h2⟩ := h.g_opp l hl hocc hpl
      exact ⟨hne, j, hj, h1, by rw [if_neg (hno l hl hocc j hj h2)]; exact h2⟩
  · intro j hj
    simp only [Core.join]
    split_ifs with e
    · intro _; subst e
      exact ⟨k, hk, rfl, Or.inr (by rw [if_pos rfl])⟩
    · intro hgj
      obtain ⟨l, hl, hid, hrole⟩ := h.c_game j hj hgj
      refine ⟨l, hl, hid, ?_⟩
      split_ifs with e2
      · subst e2
        rcases hrole with h1 | h1
        · exact Or.inl h1
        · rw [hp] at h1; have := h.fd_pos hj; omega
      · exact hrole

theorem CInv.promote {c : Core} (h : CInv c) {w l k : Nat} (hw : (w : Int) < c.n)
    (hl : (l : Int) < c.n) (hk : k < 5) (ho : c.gid k ≠ -1)
    (hrole : (c.cfd w = c.gown k ∧ c.cfd l = c.gopp k) ∨
      (c.cfd w = c.gopp k ∧ c.cfd l = c.gown k)) : CInv (c.promote w l k) := by
  have hwpos := h.fd_pos hw
  have hlpos := h.fd_pos hl
  have hp : c.gopp k ≠ -1 := by
    rcases hrole with ⟨_, e⟩ | ⟨e, _⟩ <;> omega
  obtain ⟨hne, _⟩ := h.g_opp k hk ho hp
  have hwl : w ≠ l := by
    rintro rfl
    rcases hrole with ⟨e1, e2⟩ | ⟨e1, e2⟩ <;> exact hne (by rw [← e1, ← e2])
  have hgw : c.cgid w = c.gid k := by
    rcases hrole with ⟨e1, _⟩ | ⟨e1, _⟩
    · exact h.owner_gid hk ho hw e1
    · exact h.opp_gid hk ho hw e1
  have hgl : c.cgid l = c.gid k := by
    rcases hrole with ⟨_, e1⟩ | ⟨_, e1⟩
    · exact h.opp_gid hk ho hl e1
    · exact h.owner_gid hk ho hl e1
  -- a session attached to another game is not `l`
  have hno : ∀ m : Nat, m < 5 → m ≠ k → c.gid m ≠ -1 → ∀ j : Nat, (j : Int) < c.n →
      c.cgid j = c.gid m → j ≠ l := by
    intro m hm hmk hom j _ e hjl
    subst hjl
    exact hmk (h.gid_inj m k hm hk hom (by rw [← e, hgl]))
  refine ⟨h.n_range, h.next_pos, h.reg, h.fd_inj, h.gid_range, h.gid_inj, ?_, ?_, ?_, ?_, ?_⟩
  · intro m hm hfree
    simp only [Core.promote]
    split_ifs with e
    · subst e; exact absurd hfree ho
    · exact h.g_free m hm hfree
  · intro m hm hocc
    simp only [Core.promote]
    split_ifs with e
    · exact ⟨by decide, fun _ => rfl⟩
    · exact h.g_occ m hm hocc
  · intro m hm hocc
    simp only [Core.promote]
    split_ifs with e
    · subst e
      exact ⟨w, hw, rfl, by rw [if_neg hwl]; exact hgw⟩
    · obtain ⟨j, hj, h1, h2⟩ := h.g_owner m hm hocc
      exact ⟨j, hj, h1, by rw [if_neg (hno m hm e hocc j hj h2)]; exact h2⟩
  · intro m hm hocc
    simp only [Core.promote]
    split_ifs with e
    · intro hh; exact absurd rfl hh
    · intro hpm
      obtain ⟨hne', j, hj, h1, h2⟩ := h.g_opp m hm hocc hpm
      exact ⟨hne', j, hj, h1, by rw [if_neg (hno m hm e hocc j hj h2)]; exact h2⟩
  · intro j hj
    simp only [Core.promote]
    split_ifs with e
    · intro hh; exact absurd rfl hh
    · intro hgj
      obtain ⟨m, hm, hid, hr⟩ := h.c_game j hj hgj
      refine ⟨m, hm, hid, ?_⟩
      split_ifs with e2
      · subst e2
        -- `j` is a participant of game `k` other than `l`, hence it is `w`
        left
        rcases hrole with ⟨e1, e3⟩ | ⟨e1, e3⟩
        · rcases hr with hr | hr
          · rw [e1, hr]
          · exact absurd (h.fd_inj j l hj hl (by rw [← hr, e3])) e
        · rcases hr with hr | hr
          · exact absurd (h.fd_inj j l hj hl (by rw [← hr, e3])) e
          · rw [e1, hr]
      · exact hr

theorem CInv.detachOpp {c : Core} (h : CInv c) {j k : Nat} (hj : (j : Int) < c.n)
    (hk : k < 5) (ho : c.gid k ≠ -1) (hfd : c.cfd j = c.gopp k) : CInv (c.detachOpp j k) := by
  obtain ⟨w, hw, hwfd, _⟩ := h.g_owner k hk ho
  have e : c.detachOpp j k = c.promote w j k := by
    simp only [Core.detachOpp, Core.promote]
    congr 1
    funext m
    split_ifs with e
    · subst e; exact hwfd.symm
    · rfl
  rw [e]
  exact h.promote hw hj hk ho (Or.inl ⟨hwfd, hfd⟩)

theorem CInv.teardown {c : Core} (h : CInv c) {i j k : Nat} (hi : (i : Int) < c.n)
    (hk : k < 5) (ho : c.gid k ≠ -1) (hfd : c.cfd i = c.gown k)
    (hj : c.gopp k ≠ -1 → (j : Int) < c.n ∧ c.cfd j = c.gopp k) : CInv (c.teardown i j k) := by
  have hgi : c.cgid i = c.gid k := h.owner_gid hk ho hi hfd
  -- a session attached to another game is not reset
  have hno : ∀ m : Nat, m < 5 → m ≠ k → c.gid m ≠ -1 → ∀ x : Nat, (x : Int) < c.n →
      c.cgid x = c.gid m → ¬ (x = i ∨ (c.gopp k ≠ -1 ∧ x = j)) := by
    intro m hm hmk hom x _ e hx
    rcases hx with rfl | ⟨hp, rfl⟩
    · exact hmk (h.gid_inj m k hm hk hom (by rw [← e, hgi]))
    · obtain ⟨hjn, hjfd⟩ := hj hp
      exact hmk (h.gid_inj m k hm hk hom (by rw [← e, h.opp_gid hk ho hjn hjfd]))
  refine ⟨h.n_range, h.next_pos, h.reg, h.fd_inj, ?_, ?_, ?_, ?_, ?_, ?_, ?_⟩
  · intro m hm
    simp only [Core.teardown]
    split_ifs with e
    · exact Or.inl rfl
    · exact h.gid_range m hm
  · intro a b ha hb
    simp only [Core.teardown]
    split_ifs with e1 e2 e2
    · intro hh; exact absurd rfl hh
    · intro hh; exact absurd rfl hh
    · intro hh1 hh2; exact absurd hh2 hh1
    · exact h.gid_inj a b ha hb
  · intro m hm
    simp only [Core.teardown]
    split_ifs with e
    · intro _; rfl
    · exact h.g_free m hm
  · intro m hm
    simp only [Core.teardown]
    split_ifs with e
    · intro hh; exact absurd rfl hh
    · exact h.g_occ m hm
  · intro m hm
    simp only [Core.teardown]
    split_ifs with e
    · intro hh; exact absurd rfl hh
    · intro hocc
      obtain ⟨x, hx, h1, h2⟩ := h.g_owner m hm hocc
      exact ⟨x, hx, h1, by rw [if_neg (hno m hm e hocc x hx h2)]; exact h2⟩
  · intro m hm
    simp only [Core.teardown]
    split_ifs with e
    · intro hh; exact absurd rfl hh
    · intro hocc hpm
      obtain ⟨hne', x, hx, h1, h2⟩ := h.g_opp m hm hocc hpm
      exact ⟨hne', x, hx, h1, by rw [if_neg (hno m hm e hocc x hx h2)]; exact h2⟩
  · intro x hx
    simp only [Core.teardown]
    split_ifs with e
    · intro hh; exact absurd rfl hh
    · intro hgx
      obtain ⟨m, hm, hid, hr⟩ := h.c_game x hx hgx
      have hmk : m ≠ k := by
        rintro rfl
        apply e
        rcases hr with hr | hr
        · exact Or.inl (h.fd_inj x i hx hi (by rw [← hr, hfd]))
        · have hp : c.gopp m ≠ -1 := by
            have := h.fd_pos hx; omega
          obtain ⟨hjn, hjfd⟩ := hj hp
          exact Or.inr ⟨hp, h.fd_inj x j hx hjn (by rw [← hr, hjfd])⟩
      refine ⟨m, hm, by rw [if_neg hmk]; exact hid, ?_⟩
      rw [if_neg hmk, if_neg hmk]; exact hr

/-! ### The invariant on server states -/

theorem getD_set {α : Type} (l : List α) (i j : Nat) (a d : α) :
    (l.set i a).getD j d = if j = i ∧ i < l.length then a else l.getD j d := by
  simp only [List.getD_eq_getElem?_getD, List.getElem?_set]
  by_cases hji : j = i
  · subst hji
    by_cases hlt : j < l.length
    · simp [hlt]
    · have hn : l[j]? = none := List.getElem?_eq_none (by omega)
      simp [hlt, hn]
  · have : ¬ i = j := fun e => hji e.symm
    simp [hji, this]

@[simp] theorem client_setClient (s : Server) (i j : Nat) (c : Client) :
    (s.setClient i c).client j = if j = i ∧ i < s.clients.length then c else s.client j := by
  simp only [Server.setClient, Server.client, getD_set]

@[simp] theorem game_setGame (s : Server) (k l : Nat) (g : Game) :
    (s.setGame k g).game l = if l = k ∧ k < s.games.length then g else s.game l := by
  simp only [Server.setGame, Server.game, getD_set]

@[simp] theorem game_setClient (s : Server) (i k : Nat) (c : Client) :
    (s.setClient i c).game k = s.game k := rfl

@[simp] theorem client_setGame (s : Server) (i k : Nat) (g : Game) :
    (s.setGame k g).client i = s.client i := rfl

@[simp] theorem clients_length_setClient (s : Server) (i : Nat) (c : Client) :
    (s.setClient i c).clients.length = s.clients.length := by
  simp [Server.setClient]

@[simp] theorem games_setClient (s : Server) (i : Nat) (c : Client) :
    (s.setClient i c).games = s.games := rfl

@[simp] theorem clients_setGame (s : Server) (k : Nat) (g : Game) :
    (s.setGame k g).clients = s.clients := rfl

@[simp] theorem games_length_setGame (s : Server) (k : Nat) (g : Game) :
    (s.setGame k g).games.length = s.games.length := by
  simp [Server.setGame]

@[simp] theorem num_clients_setClient (s : Server) (i : Nat) (c : Client) :
    (s.setClient i c).num_clients = s.num_clients := rfl

@[simp] theorem num_clients_setGame (s : Server) (k : Nat) (g : Game) :
    (s.setGame k g).num_clients = s.num_clients := rfl

@[simp] theorem next_game_id_setClient (s : Server) (i : Nat) (c : Client) :
    (s.setClient i c).next_game_id = s.next_game_id := rfl

@[simp] theorem next_game_id_setGame (s : Server) (k : Nat) (g : Game) :
    (s.setGame k g).next_game_id = s.next_game_id := rfl

@[simp] theorem client_send (s : Server) (fd : Int) (m : String) (i : Nat) :
    (send_to_client s fd m).client i = s.client i := by
  unfold send_to_client; split_ifs <;> rfl

@[simp] theorem game_send (s : Server) (fd : Int) (m : String) (k : Nat) :
    (send_to_client s fd m).game k = s.game k := by
  unfold send_to_client; split_ifs <;> rfl

@[simp] theorem clients_send (s : Server) (fd : Int) (m : String) :
    (send_to_client s fd m).clients = s.clients := by
  unfold send_to_client; split_ifs <;> rfl

@[simp] theorem games_send (s : Server) (fd : Int) (m : String) :
    (send_to_client s fd m).games = s.games := by
  unfold send_to_client; split_ifs <;> rfl

@[simp] theorem num_clients_send (s : Server) (fd : Int) (m : String) :
    (send_to_client s fd m).num_clients = s.num_clients := by
  unfold send_to_client; split_ifs <;> rfl

@[simp] theorem next_game_id_send (s : Server) (fd : Int) (m : String) :
    (send_to_client s fd m).next_game_id = s.next_game_id := by
  unfold send_to_client; split_ifs <;> rfl

@[simp] theorem num_games_send (s : Server) (fd : Int) (m : String) :
    (send_to_client s fd m).num_games = s.num_games := by
  unfold send_to_client; split_ifs <;> rfl

@[simp] theorem core_send (s : Server) (fd : Int) (m : String) :
    core (send_to_client s fd m) = core s := by
  simp [core]

theorem find_client_some {s : Server} {fd : Int} {i : Nat}
    (h : find_client_by_fd s fd = some i) : i < 10 ∧ (s.client i).fd = fd := by
  unfold find_client_by_fd at h
  have h1 := List.find?_some h
  have h2 := List.mem_of_find?_eq_some h
  simp only [List.mem_range, MAX_CLIENTS] at h2
  exact ⟨h2, by simpa using h1⟩

theorem find_client_none {s : Server} {fd : Int}
    (h : find_client_by_fd s fd = none) (i : Nat) (hi : i < 10) : (s.client i).fd ≠ fd := by
  unfold find_client_by_fd at h
  rw [List.find?_eq_none] at h
  have := h i (by simp [MAX_CLIENTS, hi])
  simpa using this

theorem find_game_some {s : Server} {id : Int} {k : Nat}
    (h : find_game_by_id s id = some k) : k < 5 ∧ (s.game k).id = id := by
  unfold find_game_by_id at h
  have h1 := List.find?_some h
  have h2 := List.mem_of_find?_eq_some h
  simp only [List.mem_range, MAX_GAMES] at h2
  exact ⟨h2, by simpa using h1⟩

theorem find_game_none {s : Server} {id : Int}
    (h : find_game_by_id s id = none) (k : Nat) (hk : k < 5) : (s.game k).id ≠ id := by
  unfold find_game_by_id at h
  rw [List.find?_eq_none] at h
  have := h k (by simp [MAX_GAMES, hk])
  simpa using this

namespace Inv

variable {s : Server}

theorem cinv (h : Inv s) : CInv (core s) := h.2.2

/-- A lookup by a positive descriptor finds a registered session. -/
theorem find_client_reg (h : Inv s) {fd : Int} {i : Nat} (hfd : 0 < fd)
    (hf : find_client_by_fd s fd = some i) :
    (i : Int) < s.num_clients ∧ (s.client i).fd = fd := by
  obtain ⟨hi, e⟩ := find_client_some hf
  refine ⟨?_, e⟩
  by_contra hge
  have := (h.cinv.reg i hi).2 (by simp only [core]; omega)
  simp only [core] at this
  omega

/-- A registered session is the one its descriptor is looked up to. -/
theorem find_client_of_reg (h : Inv s) {i : Nat} (hi : (i : Int) < s.num_clients) :
    find_client_by_fd s (s.client i).fd = some i := by
  have hpos : 0 < (s.client i).fd := h.cinv.fd_pos hi
  cases hf : find_client_by_fd s (s.client i).fd with
  | none =>
    have hr := h.cinv.n_range
    simp only [core] at hr
    exact absurd rfl (find_client_none hf i (by omega))
  | some j =>
    obtain ⟨hj, e⟩ := h.find_client_reg hpos hf
    have := h.cinv.fd_inj j i hj hi e
    rw [this]

/-- An occupied game is the one its id is looked up to. -/
theorem find_game_of_occ (h : Inv s) {k : Nat} (hk : k < 5) (ho : (s.game k).id ≠ -1) :
    find_game_by_id s (s.game k).id = some k := by
  cases hf : find_game_by_id s (s.game k).id with
  | none => exact absurd rfl (find_game_none hf k hk)
  | some l =>
    obtain ⟨hl, e⟩ := find_game_some hf
    have := h.cinv.gid_inj k l hk hl ho e.symm
    rw [this]

end Inv

theorem inv_send {s : Server} (h : Inv s) (fd : Int) (m : String) :
    Inv (send_to_client s fd m) := by
  unfold Inv
  rw [core_send, clients_send, games_send]
  exact h

theorem inv_join {s : Server} (h : Inv s) (client_fd : Int) (cur : Nat) (buffer : List Char)
    (hcur : (cur : Int) < s.num_clients) (hfd : (s.client cur).fd = client_fd) :
    Inv (handle_join_command s client_fd cur buffer) := by
  unfold handle_join_command
  split_ifs with h1
  · exact inv_send h _ _
  · simp only []
    split
    · exact inv_send h _ _
    · rename_i k hk
      obtain ⟨hk5, hid⟩ := find_game_some hk
      split_ifs with h2 h3 h4
      · exact inv_send h _ _
      · exact inv_send h _ _
      · exact inv_send h _ _
      · apply inv_send
        apply inv_send
        have hr := h.cinv.n_range
        simp only [core] at hr
        have hc10 : cur < 10 := by omega
        refine ⟨by simp [h.1], by simp [h.2.1], ?_⟩
        have e : core ((s.setGame k { s.game k with opponent_fd := client_fd }).setClient cur
            { (s.setGame k { s.game k with opponent_fd := client_fd }).client cur with
              game_id := ((s.setGame k { s.game k with opponent_fd := client_fd }).game k).id,
              status := PlayerStatus.PLAYER_WAITING_ACCEPT,
              player_symbol := Cell.O, is_current_turn := false, wants_rematch := false })
            = (core s).join cur k := by
          simp only [core, Core.join, client_setClient, game_setGame, game_setClient,
            client_setGame, clients_setGame, num_clients_setClient, num_clients_setGame,
            next_game_id_setClient, next_game_id_setGame, h.1, h.2.1, hk5, hc10, and_true,
            Core.mk.injEq, true_and]
          refine ⟨?_, ?_, ?_, ?_, ?_, ?_⟩ <;> funext x <;> split_ifs <;> simp_all
        rw [e]
        push_neg at h3
        exact h.cinv.join hcur (by simpa [core] using h1) hk5 (by simpa [core] using h2)
          (by simpa [core] using h3.2.2) (by simp only [core]; rw [hfd]; exact h4)

theorem find_range_first (p : Nat → Bool) (n i : Nat)
    (h : (List.range n).find? p = some i) : ∀ j : Nat, j < i → p j = false := by
  induction n with
  | zero => simp at h
  | succ n ih =>
    rw [List.range_succ, List.find?_append] at h
    cases hf : (List.range n).find? p with
    | some a =>
      rw [hf] at h
      have : a = i := by simpa using h
      subst this
      exact ih hf
    | none =>
      rw [hf] at h
      have hi : i = n := by
        have := List.mem_of_find?_eq_some h
        simpa using this
      subst hi
      intro j hj
      rw [List.find?_eq_none] at hf
      have := hf j (by simp [hj])
      simpa using this

theorem find_range_some (p : Nat → Bool) (n i : Nat)
    (h : (List.range n).find? p = some i) : i < n ∧ p i = true := by
  have h1 := List.find?_some h
  have h2 := List.mem_of_find?_eq_some h
  exact ⟨by simpa using h2, h1⟩

theorem find_range_none (p : Nat → Bool) (n : Nat)
    (h : (List.range n).find? p = none) : ∀ j : Nat, j < n → p j = false := by
  intro j hj
  rw [List.find?_eq_none] at h
  have := h j (by simp [hj])
  simpa using this

/-- A write to a client slot that keeps `fd` and `game_id` keeps the core. -/
theorem core_setClient_soft (s : Server) (i : Nat) (c : Client)
    (hfd : c.fd = (s.client i).fd) (hg : c.game_id = (s.client i).game_id) :
    core (s.setClient i c) = core s := by
  simp only [core, client_setClient, game_setClient, num_clients_setClient,
    next_game_id_setClient, Core.mk.injEq, true_and, and_true]
  constructor <;> funext x <;> split_ifs with e
  · rw [hfd, e.1]
  · rfl
  · rw [hg, e.1]
  · rfl

/-- A write to a game slot that keeps `id`, `owner_fd`, `opponent_fd` and
`state` keeps the core. -/
theorem core_setGame_soft (s : Server) (k : Nat) (g : Game)
    (hid : g.id = (s.game k).id) (ho : g.owner_fd = (s.game k).owner_fd)
    (hp : g.opponent_fd = (s.game k).opponent_fd) (hst : g.state = (s.game k).state) :
    core (s.setGame k g) = core s := by
  simp only [core, client_setGame, game_setGame, num_clients_setGame,
    next_game_id_setGame, Core.mk.injEq, true_and]
  refine ⟨?_, ?_, ?_, ?_⟩ <;> funext x <;> split_ifs with e
  · rw [hid, e.1]
  · rfl
  · rw [ho, e.1]
  · rfl
  · rw [hp, e.1]
  · rfl
  · rw [hst, e.1]
  · rfl

theorem inv_of_core_eq {s s1 : Server} (h : Inv s) (hc : s1.clients.length = s.clients.length)
    (hg : s1.games.length = s.games.length) (e : core s1 = core s) : Inv s1 := by
  unfold Inv
  rw [hc, hg, e]
  exact h

theorem inv_setClient_soft {s : Server} (h : Inv s) (i : Nat) (c : Client)
    (hfd : c.fd = (s.client i).fd) (hg : c.game_id = (s.client i).game_id) :
    Inv (s.setClient i c) :=
  inv_of_core_eq h (by simp) (by simp) (core_setClient_soft s i c hfd hg)

theorem inv_setGame_soft {s : Server} (h : Inv s) (k : Nat) (g : Game)
    (hid : g.id = (s.game k).id) (ho : g.owner_fd = (s.game k).owner_fd)
    (hp : g.opponent_fd = (s.game k).opponent_fd) (hst : g.state = (s.game k).state) :
    Inv (s.setGame k g) :=
  inv_of_core_eq h (by simp) (by simp) (core_setGame_soft s k g hid ho hp hst)

/-- A write to an occupied game slot that changes only its state (and the
fields outside the core) to a state allowed for its opponent reference. -/
theorem inv_setGame_state {s : Server} (h : Inv s) (k : Nat) (g : Game) (hk : k < 5)
    (hocc : (s.game k).id ≠ -1)
    (hid : g.id = (s.game k).id) (ho : g.owner_fd = (s.game k).owner_fd)
    (hp : g.opponent_fd = (s.game k).opponent_fd) (hst : g.state ≠ GameState.GAME_NEW)
    (hw : (s.game k).opponent_fd = -1 → g.state = GameState.GAME_WAITING_FOR_PLAYER) :
    Inv (s.setGame k g) := by
  refine ⟨by simp [h.1], by simp [h.2.1], ?_⟩
  have e : core (s.setGame k g) = (core s).setState k g.state := by
    simp only [core, Core.setState, client_setGame, game_setGame, num_clients_setGame,
      next_game_id_setGame, Core.mk.injEq, true_and, h.2.1, hk, and_true]
    refine ⟨?_, ?_, ?_, ?_⟩ <;> funext x <;> split_ifs with e
    · rw [hid, e]
    · rfl
    · rw [ho, e]
    · rfl
    · rw [hp, e]
    · rfl
    · rfl
    · rfl
  rw [e]
  exact h.cinv.setState g.state hk hocc hst hw

theorem inv_set_turn {s : Server} (h : Inv s) (c : Option Nat) (b : Bool) :
    Inv (set_turn s c b) := by
  unfold set_turn
  cases c with
  | none => exact h
  | some i => exact inv_setClient_soft h i _ rfl rfl

@[simp] theorem game_set_turn (s : Server) (c : Option Nat) (b : Bool) (k : Nat) :
    (set_turn s c b).game k = s.game k := by
  unfold set_turn
  cases c <;> rfl

theorem inv_send_game_state {s : Server} (h : Inv s) (k : Nat) :
    Inv (send_game_state_to_players s k) := by
  unfold send_game_state_to_players
  simp only []
  split_ifs <;>
    first
    | exact inv_send (inv_send (inv_set_turn (inv_set_turn h _ _) _ _) _ _) _ _
    | exact inv_send (inv_set_turn (inv_set_turn h _ _) _ _) _ _
    | exact inv_send (inv_send h _ _) _ _
    | exact inv_send h _ _

theorem inv_print_game_list {s : Server} (h : Inv s) (fd : Int) : Inv (print_game_list s fd) := by
  unfold print_game_list
  exact inv_send h _ _

theorem inv_notify_aux (k : Nat) (m : String) (l : List Nat) (s : Server) (h : Inv s) :
    Inv (l.foldl (fun s i =>
      if (s.client i).fd > 0 ∧ (s.client i).fd ≠ (s.game k).owner_fd
          ∧ (s.client i).fd ≠ (s.game k).opponent_fd then
        send_to_client s (s.client i).fd m
      else s) s) := by
  induction l generalizing s with
  | nil => exact h
  | cons a l ih =>
    simp only [List.foldl_cons]
    apply ih
    split_ifs
    · exact inv_send h _ _
    · exact h

theorem inv_notify {s : Server} (h : Inv s) (k : Nat) (m : String) :
    Inv (notify_all_spectators s k m) := by
  unfold notify_all_spectators
  exact inv_notify_aux k m _ s h

theorem inv_initialize_client {s : Server} (h : Inv s) (fd : Int) (hfd : 0 < fd)
    (hfresh : ∀ i : Nat, i < MAX_CLIENTS → (s.client i).fd ≠ fd) :
    Inv (initialize_client s fd) := by
  have hr := h.cinv.n_range
  simp only [core] at hr
  unfold initialize_client
  split
  · rename_i i hi
    have hfirst := find_range_first _ _ _ hi
    obtain ⟨hi10, hi0⟩ := find_range_some _ _ _ hi
    simp only [MAX_CLIENTS] at hi10
    simp only [beq_iff_eq] at hi0
    have hge : s.num_clients ≤ (i : Int) := by
      by_contra hlt
      have := h.cinv.fd_pos (show ((i : Nat) : Int) < (core s).n by simp only [core]; omega)
      simp only [core] at this
      omega
    have hin : i = s.num_clients.toNat := by
      by_contra hne
      have hlt : s.num_clients.toNat < i := by omega
      have h1 := hfirst _ hlt
      have h2 := (h.cinv.reg s.num_clients.toNat (by omega)).2 (by simp only [core]; omega)
      simp only [core] at h2
      simp [h2] at h1
    simp only []
    iterate 8 apply inv_send
    refine ⟨?_, ?_, ?_⟩
    · simp only [Server.setClient, List.length_set]; exact h.1
    · exact h.2.1
    · have e : core { s.setClient i
          { s.client i with
            fd := fd, status := PlayerStatus.PLAYER_CONNECTED, game_id := -1,
            player_symbol := Cell.EMPTY, is_current_turn := false, wants_rematch := false,
            username := "Giocatore" ++ toString fd } with
          num_clients := (s.setClient i
          { s.client i with
            fd := fd, status := PlayerStatus.PLAYER_CONNECTED, game_id := -1,
            player_symbol := Cell.EMPTY, is_current_turn := false, wants_rematch := false,
            username := "Giocatore" ++ toString fd }).num_clients + 1 }
          = (core s).register fd := by
        simp only [core, Core.register, Server.client, Server.game, Server.setClient, getD_set,
          h.1, hi10, and_true, Core.mk.injEq, true_and, ← hin]
        constructor <;> funext x <;> split_ifs <;> rfl
      rw [e]
      apply h.cinv.register fd
      · simp only [core]; omega
      · exact hfd
      · intro j hj
        simp only [core] at hj ⊢
        exact hfresh j (by simp only [MAX_CLIENTS]; omega)
  · exact inv_send h _ _

theorem inv_accept_connection {s : Server} (h : Inv s) (fd : Int) (hfd : 0 < fd)
    (hfresh : ∀ i : Nat, i < MAX_CLIENTS → (s.client i).fd ≠ fd) :
    Inv (accept_connection s fd) := by
  unfold accept_connection
  simp only []
  apply inv_initialize_client _ fd hfd
  · split_ifs <;> exact hfresh
  · split_ifs <;> exact h

theorem find_client_congr (s s1 : Server) (h : ∀ i, (s1.client i).fd = (s.client i).fd) (fd : Int) :
    find_client_by_fd s1 fd = find_client_by_fd s fd := by
  unfold find_client_by_fd
  congr 1
  funext i
  rw [h i]

theorem find_game_congr (s s1 : Server) (h : ∀ k, (s1.game k).id = (s.game k).id) (id : Int) :
    find_game_by_id s1 id = find_game_by_id s id := by
  unfold find_game_by_id
  congr 1
  funext k
  rw [h k]

@[simp] theorem find_client_send (s : Server) (fd : Int) (m : String) (x : Int) :
    find_client_by_fd (send_to_client s fd m) x = find_client_by_fd s x :=
  find_client_congr _ _ (fun i => by simp) x

@[simp] theorem find_game_send (s : Server) (fd : Int) (m : String) (x : Int) :
    find_game_by_id (send_to_client s fd m) x = find_game_by_id s x :=
  find_game_congr _ _ (fun i => by simp) x

@[simp] theorem find_client_setGame (s : Server) (k : Nat) (g : Game) (x : Int) :
    find_client_by_fd (s.setGame k g) x = find_client_by_fd s x :=
  find_client_congr _ _ (fun i => by simp) x

@[simp] theorem find_game_setClient (s : Server) (i : Nat) (c : Client) (x : Int) :
    find_game_by_id (s.setClient i c) x = find_game_by_id s x :=
  find_game_congr _ _ (fun i => by simp) x

@[simp] theorem client_cleanup_game (s : Server) (k i : Nat) :
    (cleanup_game s k).client i = s.client i := by
  unfold cleanup_game
  simp only []
  split_ifs <;> rfl

theorem games_cleanup_game (s : Server) (k : Nat) :
    (cleanup_game s k).games = s.games.set k
        { s.game k with
          id := -1, state := GameState.GAME_NEW, owner_fd := -1, opponent_fd := -1,
          last_result := GameResult.IN_PROGRESS } := by
  unfold cleanup_game
  simp only []
  split_ifs <;> rfl

@[simp] theorem game_cleanup_game (s : Server) (k m : Nat) :
    (cleanup_game s k).game m =
      if m = k ∧ k < s.games.length then
        { s.game k with
          id := -1, state := GameState.GAME_NEW, owner_fd := -1, opponent_fd := -1,
          last_result := GameResult.IN_PROGRESS }
      else s.game m := by
  simp only [Server.game, games_cleanup_game, getD_set]

@[simp] theorem clients_cleanup_game (s : Server) (k : Nat) :
    (cleanup_game s k).clients = s.clients := by
  unfold cleanup_game
  simp only []
  split_ifs <;> rfl

@[simp] theorem games_length_cleanup_game (s : Server) (k : Nat) :
    (cleanup_game s k).games.length = s.games.length := by
  unfold cleanup_game
  simp only []
  split_ifs <;> simp [Server.setGame]

@[simp] theorem num_clients_cleanup_game (s : Server) (k : Nat) :
    (cleanup_game s k).num_clients = s.num_clients := by
  unfold cleanup_game
  simp only []
  split_ifs <;> rfl

@[simp] theorem next_game_id_cleanup_game (s : Server) (k : Nat) :
    (cleanup_game s k).next_game_id = s.next_game_id := by
  unfold cleanup_game
  simp only []
  split_ifs <;> rfl

@[simp] theorem reset_client_fd (c : Client) : (reset_client c).fd = c.fd := rfl

@[simp] theorem reset_client_game_id (c : Client) : (reset_client c).game_id = -1 := rfl

/-- The three ways `remove_client_from_game` acts on a state that satisfies the
invariant: nothing to do, the opponent of a game leaves, the owner of a game
leaves. -/
theorem remove_from_game_cases {s : Server} (h : Inv s) (fd : Int) (hfd : 0 < fd) :
    (remove_client_from_game s fd).clients.length = 10 ∧
    (remove_client_from_game s fd).games.length = 5 ∧
    ((remove_client_from_game s fd = s ∧
        ∀ i, find_client_by_fd s fd = some i → (s.client i).game_id = -1) ∨
     (∃ (i k : Nat), find_client_by_fd s fd = some i ∧ (i : Int) < s.num_clients ∧ k < 5 ∧
        (s.game k).id ≠ -1 ∧ (s.client i).fd = (s.game k).opponent_fd ∧
        core (remove_client_from_game s fd) = (core s).detachOpp i k) ∨
     (∃ (i j k : Nat), find_client_by_fd s fd = some i ∧ (i : Int) < s.num_clients ∧ k < 5 ∧
        (s.game k).id ≠ -1 ∧ (s.client i).fd = (s.game k).owner_fd ∧
        ((s.game k).opponent_fd ≠ -1 →
          (j : Int) < s.num_clients ∧ (s.client j).fd = (s.game k).opponent_fd) ∧
        core (remove_client_from_game s fd) = (core s).teardown i j k)) := by
  have hr := h.cinv.n_range
  simp only [core] at hr
  unfold remove_client_from_game
  split
  · rename_i hnone
    exact ⟨h.1, h.2.1, Or.inl ⟨rfl, fun i hi => by rw [hnone] at hi; exact absurd hi (by simp)⟩⟩
  · rename_i i hi
    obtain ⟨hin, hifd⟩ := h.find_client_reg hfd hi
    have hi10 : i < 10 := by omega
    split_ifs with hg
    · refine ⟨h.1, h.2.1, Or.inl ⟨rfl, fun i' hi' => ?_⟩⟩
      rw [hi] at hi'
      have : i = i' := by simpa using hi'
      subst this; exact hg
    · obtain ⟨k0, hk0, hid0, hrole0⟩ := h.cinv.c_game i hin hg
      simp only [core] at hid0 hrole0
      split
      · rename_i hnone
        exact absurd hid0 (find_game_none hnone k0 hk0)
      · rename_i k hk
        obtain ⟨hk5, hid⟩ := find_game_some hk
        have hkk : k0 = k := h.cinv.gid_inj k0 k hk0 hk5 (by simp only [core]; rw [hid0]; exact hg)
          (by simp only [core]; rw [hid0, hid])
        subst hkk
        have hocc : (s.game k0).id ≠ -1 := by rw [hid0]; exact hg
        have hocc' : (core s).gid k0 ≠ -1 := hocc
        simp only [game_setGame, game_send, h.2.1, hk0, and_true, if_true, find_client_send,
          client_send]
        split_ifs with h1 h2 h3 h4
        · -- the opponent leaves
          refine ⟨by simp [h.1], by simp [h.2.1], Or.inr (Or.inl ⟨i, k0, hi, hin, hk0, hocc,
            h1.symm, ?_⟩)⟩
          simp only [core, Core.detachOpp, client_setClient, game_setGame, game_setClient,
            client_setGame, clients_setGame, num_clients_setClient, num_clients_setGame,
            next_game_id_setClient, next_game_id_setGame, h.1, h.2.1, hk0, hi10, and_true,
            Core.mk.injEq, true_and, client_send, game_send, clients_send, games_send,
            num_clients_send, next_game_id_send, games_length_setGame]
          refine ⟨?_, ?_, ?_, ?_, ?_, ?_⟩ <;> funext x <;> split_ifs <;> simp_all
        · exfalso
          have := h.cinv.owner_pos hk0 hocc'
          simp only [core] at this
          simp only [ne_eq, not_not] at h2
          omega
        · -- the owner leaves, an opponent is attached
          obtain ⟨_, j, hjn, hjfd, _⟩ := h.cinv.g_opp k0 hk0 hocc' (by simp only [core]; exact h4)
          simp only [core] at hjn hjfd
          have hj10 : j < 10 := by omega
          have hfj : find_client_by_fd s (s.game k0).opponent_fd = some j := by
            rw [← hjfd]; exact h.find_client_of_reg hjn
          rw [hfj]
          simp only []
          refine ⟨by simp [h.1], by simp [h.2.1], Or.inr (Or.inr ⟨i, j, k0, hi, hin, hk0, hocc,
            h3.symm, fun _ => ⟨hjn, hjfd⟩, ?_⟩)⟩
          simp only [core, Core.teardown, client_setClient, game_setGame, game_setClient,
            client_setGame, clients_setGame, num_clients_setClient, num_clients_setGame,
            next_game_id_setClient, next_game_id_setGame, h.1, h.2.1, hk0, hi10, hj10, and_true,
            Core.mk.injEq, true_and, client_send, game_send, clients_send, games_send,
            num_clients_send, next_game_id_send, games_length_setGame, client_cleanup_game,
            game_cleanup_game, clients_cleanup_game, games_setClient, clients_length_setClient,
            num_clients_cleanup_game, next_game_id_cleanup_game]
          refine ⟨?_, ?_, ?_, ?_, ?_, ?_⟩ <;> funext x <;> split_ifs <;> simp_all
        · -- the owner leaves, no opponent
          refine ⟨by simp [h.1], by simp [h.2.1], Or.inr (Or.inr ⟨i, 0, k0, hi, hin, hk0, hocc,
            h3.symm, fun hp => absurd (by simpa using h4) hp, ?_⟩)⟩
          simp only [core, Core.teardown, client_setClient, game_setGame, game_setClient,
            client_setGame, clients_setGame, num_clients_setClient, num_clients_setGame,
            next_game_id_setClient, next_game_id_setGame, h.1, h.2.1, hk0, hi10, and_true,
            Core.mk.injEq, true_and, client_cleanup_game,
            game_cleanup_game, clients_cleanup_game, games_setClient, clients_length_setClient,
            num_clients_cleanup_game, next_game_id_cleanup_game]
          refine ⟨?_, ?_, ?_, ?_, ?_, ?_⟩ <;> funext x <;> split_ifs <;> simp_all
        · exfalso
          rcases hrole0 with e | e
          · exact h3 e
          · exact h1 e

theorem inv_remove_client_from_game {s : Server} (h : Inv s) (fd : Int) (hfd : 0 < fd) :
    Inv (remove_client_from_game s fd) := by
  obtain ⟨hl1, hl2, hc⟩ := remove_from_game_cases h fd hfd
  rcases hc with ⟨e, _⟩ | ⟨i, k, _, hin, hk, hocc, hrole, e⟩ | ⟨i, j, k, _, hin, hk, hocc, hrole, hj, e⟩
  · rw [e]; exact h
  · refine ⟨hl1, hl2, ?_⟩
    rw [e]
    exact h.cinv.detachOpp hin hk hocc hrole
  · refine ⟨hl1, hl2, ?_⟩
    rw [e]
    exact h.cinv.teardown hin hk hocc hrole hj

/-- `remove_client_from_game` keeps the descriptors and the number of
sessions, and leaves the session of `fd` in no game. -/
theorem remove_from_game_post {s : Server} (h : Inv s) (fd : Int) (hfd : 0 < fd) :
    (remove_client_from_game s fd).num_clients = s.num_clients ∧
    (∀ j, ((remove_client_from_game s fd).client j).fd = (s.client j).fd) ∧
    (∀ i, find_client_by_fd s fd = some i →
      ((remove_client_from_game s fd).client i).game_id = -1) := by
  obtain ⟨hl1, hl2, hc⟩ := remove_from_game_cases h fd hfd
  rcases hc with ⟨e, hg⟩ | ⟨i, k, hfi, hin, hk, hocc, hrole, e⟩ |
      ⟨i, j, k, hfi, hin, hk, hocc, hrole, hj, e⟩
  · rw [e]; exact ⟨rfl, fun _ => rfl, hg⟩
  · have e1 := congrArg Core.n e
    have e2 := congrArg Core.cfd e
    have e3 := congrArg Core.cgid e
    simp only [core, Core.detachOpp] at e1 e2 e3
    refine ⟨e1, fun j => congrFun e2 j, fun i' hi' => ?_⟩
    rw [hfi] at hi'
    have : i = i' := by simpa using hi'
    subst this
    have := congrFun e3 i
    simpa using this
  · have e1 := congrArg Core.n e
    have e2 := congrArg Core.cfd e
    have e3 := congrArg Core.cgid e
    simp only [core, Core.teardown] at e1 e2 e3
    refine ⟨e1, fun j => congrFun e2 j, fun i' hi' => ?_⟩
    rw [hfi] at hi'
    have : i = i' := by simpa using hi'
    subst this
    have := congrFun e3 i
    simpa using this

theorem inv_remove_client {s : Server} (h : Inv s) (sd : Int) (hsd : 0 < sd) :
    Inv (remove_client s sd) := by
  have h1 := inv_remove_client_from_game h sd hsd
  obtain ⟨hn, hfds, hgid⟩ := remove_from_game_post h sd hsd
  have hr := h1.cinv.n_range
  simp only [core] at hr
  unfold remove_client
  simp only []
  split
  · rename_i i hi
    obtain ⟨hilt, hifd⟩ := find_range_some _ _ _ hi
    simp only [beq_iff_eq] at hifd
    have hifd' : ((remove_client_from_game s sd).client i).fd = sd := hifd
    have hin' : (i : Int) < (remove_client_from_game s sd).num_clients := by
      have : i < (remove_client_from_game s sd).num_clients.toNat := hilt
      omega
    have hin : (i : Int) < s.num_clients := by rw [← hn]; exact hin'
    have hfi : find_client_by_fd s sd = some i := by
      have := h.find_client_of_reg hin
      rw [← hfds i, hifd'] at this
      exact this
    have hg := hgid i hfi
    have hi10 : i < 10 := by omega
    have hl10 : ((remove_client_from_game s sd).num_clients - 1).toNat < 10 := by omega
    refine ⟨?_, ?_, ?_⟩
    · simp only [Server.setClient, List.length_set]; exact h1.1
    · exact h1.2.1
    · have e : core { ((({ ({ remove_client_from_game s sd with
            out := (remove_client_from_game s sd).out ++ [Output.closed sd] } : Server) with
            master_fds := List.filter (fun x => x != sd) (remove_client_from_game s sd).master_fds } : Server).setClient i
              ((remove_client_from_game s sd).client ((remove_client_from_game s sd).num_clients - 1).toNat)).setClient
              ((remove_client_from_game s sd).num_clients - 1).toNat
              { ((({ ({ remove_client_from_game s sd with
                  out := (remove_client_from_game s sd).out ++ [Output.closed sd] } : Server) with
                  master_fds := List.filter (fun x => x != sd) (remove_client_from_game s sd).master_fds } : Server).setClient i
                  ((remove_client_from_game s sd).client ((remove_client_from_game s sd).num_clients - 1).toNat)).client
                  ((remove_client_from_game s sd).num_clients - 1).toNat) with fd := 0 }) with
            num_clients := (remove_client_from_game s sd).num_clients - 1 }
          = (core (remove_client_from_game s sd)).unregister i := by
        simp only [core, Core.unregister, Server.client, Server.game, Server.setClient, getD_set,
          List.length_set, h1.1, hi10, hl10, and_true, Core.mk.injEq, true_and]
        constructor <;> funext x <;> split_ifs <;> simp_all
      exact e ▸ h1.cinv.unregister hin' hg
  · exact h1

/-- The cases in which `handle_create_command` returns: a refusal, which is one
message to the requester, or the creation of a game in the first free slot,
with the counter `next_game_id` below `INT_MAX`. -/
theorem create_cases {s s1 : Server} {sd : Int} {cur : Nat}
    (e : handle_create_command s sd cur = some s1) :
    (∃ m, s1 = send_to_client s sd m) ∨
    (∃ k, (s.client cur).game_id = -1 ∧ s.num_games < 5 ∧
      (List.range MAX_GAMES).find? (fun j => (s.game j).id == -1) = some k ∧
      s.next_game_id < INT_MAX ∧ s1 = create_game s sd cur k) := by
  unfold handle_create_command at e
  by_cases h1 : (s.client cur).game_id ≠ -1
  · rw [if_pos h1] at e
    exact Or.inl ⟨_, (Option.some.inj e).symm⟩
  · rw [if_neg h1] at e
    by_cases h2 : s.num_games ≥ MAX_GAMES
    · rw [if_pos h2] at e
      exact Or.inl ⟨_, (Option.some.inj e).symm⟩
    · rw [if_neg h2] at e
      cases hk : (List.range MAX_GAMES).find? (fun j => (s.game j).id == -1) with
      | none =>
        rw [hk] at e
        exact Or.inl ⟨_, (Option.some.inj e).symm⟩
      | some k =>
        rw [hk] at e
        simp only [] at e
        by_cases h3 : s.next_game_id ≥ INT_MAX
        · rw [if_pos h3] at e
          exact Option.noConfusion e
        · rw [if_neg h3] at e
          refine Or.inr ⟨k, by simpa using h1, ?_, rfl, by omega, (Option.some.inj e).symm⟩
          simp only [MAX_GAMES] at h2
          omega

/-- `handle_create_command` returns the state of `create_game` when the
requester is in no game, a slot is free and the counter is below `INT_MAX`. -/
theorem create_returns (s : Server) (sd : Int) (cur k : Nat)
    (hg : (s.client cur).game_id = -1) (hn : s.num_games < 5)
    (hk : (List.range MAX_GAMES).find? (fun j => (s.game j).id == -1) = some k)
    (hnext : s.next_game_id < INT_MAX) :
    handle_create_command s sd cur = some (create_game s sd cur k) := by
  unfold handle_create_command
  rw [if_neg (by simp [hg]), if_neg (by simp only [MAX_GAMES]; omega), hk]
  simp only []
  rw [if_neg (by omega)]

/-- `handle_create_command` is undefined when it reaches the increment of the
counter at `INT_MAX`. -/
theorem create_overflow (s : Server) (sd : Int) (cur k : Nat)
    (hg : (s.client cur).game_id = -1) (hn : s.num_games < 5)
    (hk : (List.range MAX_GAMES).find? (fun j => (s.game j).id == -1) = some k)
    (hnext : INT_MAX ≤ s.next_game_id) :
    handle_create_command s sd cur = none := by
  unfold handle_create_command
  rw [if_neg (by simp [hg]), if_neg (by simp only [MAX_GAMES]; omega), hk]
  simp only []
  rw [if_pos (by omega)]

theorem inv_create_game {s : Server} (h : Inv s) (client_fd : Int) (cur k : Nat)
    (hcur : (cur : Int) < s.num_clients) (hfd : (s.client cur).fd = client_fd)
    (h1 : (s.client cur).game_id = -1)
    (hk : (List.range MAX_GAMES).find? (fun j => (s.game j).id == -1) = some k) :
    Inv (create_game s client_fd cur k) := by
  have hr := h.cinv.n_range
  simp only [core] at hr
  have hc10 : cur < 10 := by omega
  obtain ⟨hk5, hfree⟩ := find_range_some _ _ _ hk
  simp only [MAX_GAMES] at hk5
  simp only [beq_iff_eq] at hfree
  unfold create_game
  simp only []
  apply inv_notify
  apply inv_send
  refine ⟨?_, ?_, ?_⟩
  · simp only [Server.setClient, Server.setGame, List.length_set]; exact h.1
  · simp only [Server.setClient, Server.setGame, List.length_set]; exact h.2.1
  · have key : ∀ t : Server, core t = (core s).create cur k → CInv (core t) :=
      fun t et => et ▸ h.cinv.create hcur (by simpa [core] using h1) hk5 hfree
    apply key
    simp only [core, Core.create, Server.client, Server.game, Server.setClient,
      Server.setGame, getD_set, List.length_set, h.1, h.2.1, hc10, hk5, and_true,
      Core.mk.injEq, true_and]
    refine ⟨?_, ?_, ?_, ?_, ?_, ?_⟩ <;> funext x <;> split_ifs <;> simp_all [Server.client]

theorem inv_create {s s1 : Server} (h : Inv s) (client_fd : Int) (cur : Nat)
    (hcur : (cur : Int) < s.num_clients) (hfd : (s.client cur).fd = client_fd)
    (e : handle_create_command s client_fd cur = some s1) : Inv s1 := by
  rcases create_cases e with ⟨m, hm⟩ | ⟨k, hg, _, hk, _, hm⟩
  · rw [hm]
    exact inv_send h _ _
  · rw [hm]
    exact inv_create_game h client_fd cur k hcur hfd hg hk

theorem find_game_by_player_some {s : Server} {fd : Int} {k : Nat}
    (h : find_game_by_player_fd s fd = some k) :
    ∃ i : Nat, find_client_by_fd s fd = some i ∧ (s.client i).game_id ≠ -1 ∧
      find_game_by_id s (s.client i).game_id = some k := by
  unfold find_game_by_player_fd at h
  split at h
  · rename_i i hi
    split_ifs at h with hg
    exact ⟨i, hi, hg, h⟩
  · exact absurd h (by simp)

theorem inv_accept {s : Server} (h : Inv s) (client_fd : Int) (cur : Nat) :
    Inv (handle_accept_command s client_fd cur) := by
  unfold handle_accept_command
  split
  · exact inv_send h _ _
  · rename_i k hk
    obtain ⟨i, _, hg, hfk⟩ := find_game_by_player_some hk
    obtain ⟨hk5, hid⟩ := find_game_some hfk
    split_ifs with h1 h2
    · exact inv_send h _ _
    · exact inv_send h _ _
    · push_neg at h2
      have hs1 : Inv (s.setGame k { s.game k with state := GameState.GAME_IN_PROGRESS }) := by
        refine inv_setGame_state h k _ hk5 (by rw [hid]; exact hg) rfl rfl rfl ?_ ?_
        · simp
        · intro e; exact absurd e h2.2
      simp only []
      apply inv_send_game_state
      split_ifs
      · apply inv_send
        apply inv_send
        split
        · refine inv_setClient_soft ?_ _ _ rfl rfl
          refine inv_setClient_soft ?_ _ _ rfl rfl
          refine inv_setClient_soft ?_ _ _ rfl rfl
          exact hs1
        · exact hs1
      · apply inv_send
        split
        · refine inv_setClient_soft ?_ _ _ rfl rfl
          refine inv_setClient_soft ?_ _ _ rfl rfl
          refine inv_setClient_soft ?_ _ _ rfl rfl
          exact hs1
        · exact hs1

theorem inv_leave {s : Server} (h : Inv s) (client_fd : Int) (cur : Nat) (hfd : 0 < client_fd)
    (hcur : (cur : Int) < s.num_clients) :
    Inv (handle_leave_command s client_fd cur) := by
  unfold handle_leave_command
  split_ifs with h1
  · exact inv_send h _ _
  · split
    · rename_i hnone
      exfalso
      obtain ⟨k, hk, hid, _⟩ := h.cinv.c_game cur hcur h1
      exact find_game_none hnone k hk hid
    · exact inv_remove_client_from_game (inv_send h _ _) client_fd hfd

theorem inv_reject {s : Server} (h : Inv s) (client_fd : Int) (cur : Nat) :
    Inv (handle_reject_command s client_fd cur) := by
  have hr := h.cinv.n_range
  simp only [core] at hr
  unfold handle_reject_command
  split
  · exact inv_send h _ _
  · rename_i k hk
    obtain ⟨i, _, hg, hfk⟩ := find_game_by_player_some hk
    obtain ⟨hk5, hid⟩ := find_game_some hfk
    have hocc : (core s).gid k ≠ -1 := by simp only [core]; rw [hid]; exact hg
    split_ifs with h1 h2
    · exact inv_send h _ _
    · exact inv_send h _ _
    · push_neg at h2
      obtain ⟨_, j, hjn, hjfd, _⟩ := h.cinv.g_opp k hk5 hocc (by simp only [core]; exact h2.2)
      simp only [core] at hjn hjfd
      have hj10 : j < 10 := by omega
      have hfj : find_client_by_fd s (s.game k).opponent_fd = some j := by
        rw [← hjfd]; exact h.find_client_of_reg hjn
      rw [hfj]
      simp only []
      apply inv_notify
      apply inv_send
      refine ⟨by simp [h.1], by simp [h.2.1], ?_⟩
      have e : core (((send_to_client s (s.client j).fd
              "La tua richiesta di unirti alla partita è stata rifiutata.\n").setClient j
              (reset_client ((send_to_client s (s.client j).fd
                "La tua richiesta di unirti alla partita è stata rifiutata.\n").client j))).setGame k
            { (((send_to_client s (s.client j).fd
              "La tua richiesta di unirti alla partita è stata rifiutata.\n").setClient j
              (reset_client ((send_to_client s (s.client j).fd
                "La tua richiesta di unirti alla partita è stata rifiutata.\n").client j))).game k) with
              opponent_fd := -1 }) = (core s).detachOpp j k := by
        simp only [core, Core.detachOpp, client_setClient, game_setGame, game_setClient,
          client_setGame, clients_setGame, num_clients_setClient, num_clients_setGame,
          next_game_id_setClient, next_game_id_setGame, h.1, h.2.1, hk5, hj10, and_true,
          Core.mk.injEq, true_and, client_send, game_send, clients_send, games_send,
          num_clients_send, next_game_id_send, games_length_setGame, games_setClient]
        refine ⟨?_, ?_, ?_, ?_, ?_, ?_⟩ <;> funext x <;> split_ifs <;> simp_all
      rw [e]
      exact h.cinv.detachOpp hjn hk5 hocc (by simp only [core]; exact hjfd)

/-- `remove_client_from_game` on a session that points to a game of which it is
neither the owner nor the opponent: only the session is reset. -/
theorem remove_from_game_detached (s : Server) (fd : Int) (l k : Nat)
    (hl : find_client_by_fd s fd = some l) (hg : (s.client l).game_id ≠ -1)
    (hk : find_game_by_id s (s.client l).game_id = some k)
    (h1 : (s.game k).opponent_fd ≠ (s.client l).fd)
    (h2 : (s.game k).owner_fd ≠ (s.client l).fd) :
    remove_client_from_game s fd = s.setClient l (reset_client (s.client l)) := by
  unfold remove_client_from_game
  rw [hl]
  simp only [if_neg hg]
  rw [hk]
  simp only [if_neg h1, if_neg h2]

@[simp] theorem client_send_loss (s : Server) (l : Option Nat) (w : Nat) (b : String) (i : Nat) :
    (send_loss s l w b).client i = s.client i := by
  unfold send_loss
  split
  · split_ifs <;> simp
  · rfl

@[simp] theorem game_send_loss (s : Server) (l : Option Nat) (w : Nat) (b : String) (k : Nat) :
    (send_loss s l w b).game k = s.game k := by
  unfold send_loss
  split
  · split_ifs <;> simp
  · rfl

@[simp] theorem clients_send_loss (s : Server) (l : Option Nat) (w : Nat) (b : String) :
    (send_loss s l w b).clients = s.clients := by
  unfold send_loss
  split
  · split_ifs <;> simp
  · rfl

@[simp] theorem games_send_loss (s : Server) (l : Option Nat) (w : Nat) (b : String) :
    (send_loss s l w b).games = s.games := by
  unfold send_loss
  split
  · split_ifs <;> simp
  · rfl

@[simp] theorem num_clients_send_loss (s : Server) (l : Option Nat) (w : Nat) (b : String) :
    (send_loss s l w b).num_clients = s.num_clients := by
  unfold send_loss
  split
  · split_ifs <;> simp
  · rfl

@[simp] theorem next_game_id_send_loss (s : Server) (l : Option Nat) (w : Nat) (b : String) :
    (send_loss s l w b).next_game_id = s.next_game_id := by
  unfold send_loss
  split
  · split_ifs <;> simp
  · rfl

theorem inv_send_loss {s : Server} (h : Inv s) (l : Option Nat) (w : Nat) (b : String) :
    Inv (send_loss s l w b) :=
  inv_of_core_eq h (by simp) (by simp) (by simp [core])

@[simp] theorem find_client_send_loss (s : Server) (l : Option Nat) (w : Nat) (b : String)
    (x : Int) : find_client_by_fd (send_loss s l w b) x = find_client_by_fd s x :=
  find_client_congr _ _ (fun i => by simp) x

@[simp] theorem find_game_send_loss (s : Server) (l : Option Nat) (w : Nat) (b : String)
    (x : Int) : find_game_by_id (send_loss s l w b) x = find_game_by_id s x :=
  find_game_congr _ _ (fun i => by simp) x

theorem find_client_setClient (s : Server) (i : Nat) (c : Client) (x : Int)
    (hfd : c.fd = (s.client i).fd) :
    find_client_by_fd (s.setClient i c) x = find_client_by_fd s x := by
  apply find_client_congr
  intro j
  simp only [client_setClient]
  split_ifs with e
  · rw [hfd, e.1]
  · rfl

theorem find_game_setGame (s : Server) (k : Nat) (g : Game) (x : Int)
    (hid : g.id = (s.game k).id) :
    find_game_by_id (s.setGame k g) x = find_game_by_id s x := by
  apply find_game_congr
  intro j
  simp only [game_setGame]
  split_ifs with e
  · rw [hid, e.1]
  · rfl

/-- The participants of an occupied game with an opponent, as the invariant
gives them: the owner and the opponent are two registered sessions found by
their descriptors, and a session attached to the game is one of them. -/
theorem Inv.participants {s : Server} (h : Inv s) {k : Nat} (hk : k < 5)
    (hocc : (s.game k).id ≠ -1) (hp : (s.game k).opponent_fd ≠ -1) :
    ∃ oc pc : Nat, oc ≠ pc ∧ (oc : Int) < s.num_clients ∧ (pc : Int) < s.num_clients ∧
      find_client_by_fd s (s.game k).owner_fd = some oc ∧
      find_client_by_fd s (s.game k).opponent_fd = some pc ∧
      (s.client oc).fd = (s.game k).owner_fd ∧ (s.client pc).fd = (s.game k).opponent_fd ∧
      (s.client oc).game_id = (s.game k).id ∧ (s.client pc).game_id = (s.game k).id ∧
      (∀ i : Nat, (i : Int) < s.num_clients → (s.client i).game_id = (s.game k).id →
        i = oc ∨ i = pc) := by
  obtain ⟨oc, hoc, hofd, hog⟩ := h.cinv.g_owner k hk hocc
  obtain ⟨hne, pc, hpc, hpfd, hpg⟩ := h.cinv.g_opp k hk hocc hp
  simp only [core] at hoc hofd hog hne hpc hpfd hpg
  refine ⟨oc, pc, ?_, hoc, hpc, ?_, ?_, hofd, hpfd, hog, hpg, ?_⟩
  · rintro rfl; exact hne (by rw [← hofd, ← hpfd])
  · rw [← hofd]; exact h.find_client_of_reg hoc
  · rw [← hpfd]; exact h.find_client_of_reg hpc
  · intro i hi hig
    have hgne : (core s).cgid i ≠ -1 := by simp only [core]; rw [hig]; exact hocc
    rcases h.cinv.role_of_gid hk hi hgne (by simp only [core]; exact hig.symm) with e | e
    · left; exact h.cinv.fd_inj i oc hi hoc (by simp only [core] at e ⊢; rw [← e, hofd])
    · right; exact h.cinv.fd_inj i pc hi hpc (by simp only [core] at e ⊢; rw [← e, hpfd])

@[simp] theorem num_games_setClient (s : Server) (i : Nat) (c : Client) :
    (s.setClient i c).num_games = s.num_games := rfl

@[simp] theorem num_games_setGame (s : Server) (k : Nat) (g : Game) :
    (s.setGame k g).num_games = s.num_games := rfl

@[simp] theorem num_games_send_loss (s : Server) (l : Option Nat) (w : Nat) (b : String) :
    (send_loss s l w b).num_games = s.num_games := by
  unfold send_loss
  split
  · split_ifs <;> simp
  · rfl

/-- The state left by an accepted move that wins, slot by slot. -/
theorem move_win_effect {s : Server} (h : Inv s) (sd : Int) (hsd : 0 < sd) (buffer : List Char)
    (cur k : Nat) (rc : Int × Int)
    (hcur : find_client_by_fd s sd = some cur)
    (hstatus : (s.client cur).status = PlayerStatus.PLAYER_IN_GAME)
    (hk : find_game_by_id s (s.client cur).game_id = some k)
    (hstate : (s.game k).state = GameState.GAME_IN_PROGRESS)
    (hturn : (s.client cur).is_current_turn = true)
    (hrc : sscanf_move buffer = some rc)
    (hmv : (make_move (s.game k).tris_game rc.1 rc.2).1 = 0)
    (hwin : check_winner (make_move (s.game k).tris_game rc.1 rc.2).2 = GameResult.WIN) :
    ∃ (l : Nat) (s1 : Server), handle_move_command s sd buffer = some s1 ∧
      l ≠ cur ∧ (l : Int) < s.num_clients ∧ (cur : Int) < s.num_clients ∧ k < 5 ∧
      (s.game k).id ≠ -1 ∧
      (((s.client cur).fd = (s.game k).owner_fd ∧ (s.client l).fd = (s.game k).opponent_fd) ∨
        ((s.client cur).fd = (s.game k).opponent_fd ∧ (s.client l).fd = (s.game k).owner_fd)) ∧
      (∀ j, s1.client j =
        if j = l then reset_client (s.client l)
        else if j = cur then
          { s.client cur with
            game_id := (s.game k).id, status := PlayerStatus.PLAYER_IN_GAME,
            player_symbol := Cell.X, is_current_turn := false, wants_rematch := false }
        else s.client j) ∧
      (∀ m, s1.game m =
        if m = k then
          { s.game k with
            owner_fd := sd, opponent_fd := -1, state := GameState.GAME_WAITING_FOR_PLAYER,
            tris_game := init_game (make_move (s.game k).tris_game rc.1 rc.2).2,
            last_result := GameResult.IN_PROGRESS }
        else s.game m) ∧
      s1.clients.length = 10 ∧ s1.games.length = 5 ∧ s1.num_clients = s.num_clients ∧
      s1.next_game_id = s.next_game_id ∧ s1.num_games = s.num_games := by
  have hr := h.cinv.n_range
  simp only [core] at hr
  obtain ⟨hcn, hcfd⟩ := h.find_client_reg hsd hcur
  obtain ⟨hk5, hid⟩ := find_game_some hk
  have hfree := h.cinv.g_free k hk5
  simp only [core] at hfree
  have hocc : (s.game k).id ≠ -1 := by
    intro e
    rw [hfree e] at hstate
    exact absurd hstate (by decide)
  have hp : (s.game k).opponent_fd ≠ -1 := by
    intro e
    have := (h.cinv.g_occ k hk5 hocc).2 e
    simp only [core] at this
    rw [this] at hstate
    exact absurd hstate (by decide)
  obtain ⟨oc, pc, hne, hoc, hpc, hfo, hfp, hofd, hpfd, hog, hpg, hpart⟩ :=
    h.participants hk5 hocc hp
  have hc10 : cur < 10 := by omega
  have ho10 : oc < 10 := by omega
  have hp10 : pc < 10 := by omega
  have hunf : ∀ X : Option Server, (match find_client_by_fd s sd with
      | none => some (send_to_client s sd "Non sei in una partita. Digita 'join <game_id>' o 'create'.\n")
      | some current_client => X) = X := by
    intro X; rw [hcur]
  rcases hpart cur hcn hid.symm with e | e
  · -- the owner wins
    subst e
    have hfdne : (s.client pc).fd ≠ (s.client cur).fd := by
      intro e; exact hne (h.cinv.fd_inj pc cur hpc hoc e).symm
    have hne' : pc ≠ cur := fun e => hne e.symm
    refine Exists.intro pc ?_
    apply Exists.intro
    refine ⟨?eq, hne', hpc, hoc, hk5, hocc, Or.inl ⟨hofd, hpfd⟩, ?_, ?_, ?_, ?_, ?_, ?_, ?_⟩
    case eq =>
      unfold handle_move_command
      rw [hcur]
      simp only []
      rw [if_neg (by simp [hstatus]), hk]
      simp only []
      rw [if_neg (by simp [hstate]), if_neg (by simp [hturn]), hrc]
      simp only [client_send, game_send, clients_send, games_send, num_clients_send, next_game_id_send, client_setClient, game_setClient, client_setGame, game_setGame, clients_setGame, games_setClient, clients_length_setClient, games_length_setGame, num_clients_setClient, num_clients_setGame, next_game_id_setClient, next_game_id_setGame, find_client_send, find_game_send, find_client_setGame, find_game_setClient, client_send_loss, game_send_loss, clients_send_loss, games_send_loss, find_client_send_loss, find_game_send_loss, h.1, h.2.1, hk5, and_true, if_true, hmv, hwin, hfo, hfp, hp, ne_eq,
        not_false_eq_true, hc10, true_and, if_neg hne', hfdne, if_false]
      rw [remove_from_game_detached _ _ pc k]
      · rw [find_client_congr s _ (fun j => ?_)]
        · exact h.find_client_of_reg hpc
        · simp only [client_send, game_send, clients_send, games_send, num_clients_send, next_game_id_send, client_setClient, game_setClient, client_setGame, game_setGame, clients_setGame, games_setClient, clients_length_setClient, games_length_setGame, num_clients_setClient, num_clients_setGame, next_game_id_setClient, next_game_id_setGame, find_client_send, find_game_send, find_client_setGame, find_game_setClient, client_send_loss, game_send_loss, clients_send_loss, games_send_loss, find_client_send_loss, find_game_send_loss, h.1, hc10, and_true]
          split_ifs with e
          · rw [e]
          · rfl
      · simp only [client_send, game_send, clients_send, games_send, num_clients_send, next_game_id_send, client_setClient, game_setClient, client_setGame, game_setGame, clients_setGame, games_setClient, clients_length_setClient, games_length_setGame, num_clients_setClient, num_clients_setGame, next_game_id_setClient, next_game_id_setGame, find_client_send, find_game_send, find_client_setGame, find_game_setClient, client_send_loss, game_send_loss, clients_send_loss, games_send_loss, find_client_send_loss, find_game_send_loss, h.1, hc10, and_true, if_neg hne']
        rw [hpg]; exact hocc
      · rw [find_game_congr s _ (fun j => ?_)]
        · simp only [client_send, game_send, clients_send, games_send, num_clients_send, next_game_id_send, client_setClient, game_setClient, client_setGame, game_setGame, clients_setGame, games_setClient, clients_length_setClient, games_length_setGame, num_clients_setClient, num_clients_setGame, next_game_id_setClient, next_game_id_setGame, find_client_send, find_game_send, find_client_setGame, find_game_setClient, client_send_loss, game_send_loss, clients_send_loss, games_send_loss, find_client_send_loss, find_game_send_loss, h.1, hc10, and_true, if_neg hne']
          rw [hpg]
          exact h.find_game_of_occ hk5 hocc
        · simp only [client_send, game_send, clients_send, games_send, num_clients_send, next_game_id_send, client_setClient, game_setClient, client_setGame, game_setGame, clients_setGame, games_setClient, clients_length_setClient, games_length_setGame, num_clients_setClient, num_clients_setGame, next_game_id_setClient, next_game_id_setGame, find_client_send, find_game_send, find_client_setGame, find_game_setClient, client_send_loss, game_send_loss, clients_send_loss, games_send_loss, find_client_send_loss, find_game_send_loss, h.2.1, hk5, and_true]
          split_ifs with e
          · rw [e]
          · rfl
      · simp only [client_send, game_send, clients_send, games_send, num_clients_send, next_game_id_send, client_setClient, game_setClient, client_setGame, game_setGame, clients_setGame, games_setClient, clients_length_setClient, games_length_setGame, num_clients_setClient, num_clients_setGame, next_game_id_setClient, next_game_id_setGame, find_client_send, find_game_send, find_client_setGame, find_game_setClient, client_send_loss, game_send_loss, clients_send_loss, games_send_loss, find_client_send_loss, find_game_send_loss, h.1, h.2.1, hk5, hc10, and_true, if_true, if_neg hne']
        have := h.cinv.fd_pos hpc
        simp only [core] at this
        omega
      · simp only [client_send, game_send, clients_send, games_send, num_clients_send, next_game_id_send, client_setClient, game_setClient, client_setGame, game_setGame, clients_setGame, games_setClient, clients_length_setClient, games_length_setGame, num_clients_setClient, num_clients_setGame, next_game_id_setClient, next_game_id_setGame, find_client_send, find_game_send, find_client_setGame, find_game_setClient, client_send_loss, game_send_loss, clients_send_loss, games_send_loss, find_client_send_loss, find_game_send_loss, h.1, h.2.1, hk5, hc10, and_true, if_true, if_neg hne']
        exact fun e => hfdne e.symm
    · intro j
      simp only [client_send, game_send, clients_send, games_send, num_clients_send, next_game_id_send, client_setClient, game_setClient, client_setGame, game_setGame, clients_setGame, games_setClient, clients_length_setClient, games_length_setGame, num_clients_setClient, num_clients_setGame, next_game_id_setClient, next_game_id_setGame, find_client_send, find_game_send, find_client_setGame, find_game_setClient, client_send_loss, game_send_loss, clients_send_loss, games_send_loss, find_client_send_loss, find_game_send_loss, h.1, hc10, hp10, and_true, if_neg hne']
    · intro m
      simp only [client_send, game_send, clients_send, games_send, num_clients_send, next_game_id_send, client_setClient, game_setClient, client_setGame, game_setGame, clients_setGame, games_setClient, clients_length_setClient, games_length_setGame, num_clients_setClient, num_clients_setGame, next_game_id_setClient, next_game_id_setGame, find_client_send, find_game_send, find_client_setGame, find_game_setClient, client_send_loss, game_send_loss, clients_send_loss, games_send_loss, find_client_send_loss, find_game_send_loss, h.2.1, hk5, and_true]
      split_ifs <;> simp [hcfd]
    · simp [h.1]
    · simp [h.2.1]
    · simp
    · simp
    · simp
  · -- the opponent wins
    subst e
    have hfdne : (s.client oc).fd ≠ (s.client cur).fd := by
      intro e; exact hne (h.cinv.fd_inj oc cur hoc hpc e)
    have hne' : oc ≠ cur := hne
    refine Exists.intro oc ?_
    apply Exists.intro
    refine ⟨?eq, hne', hoc, hpc, hk5, hocc, Or.inr ⟨hpfd, hofd⟩, ?_, ?_, ?_, ?_, ?_, ?_, ?_⟩
    case eq =>
      unfold handle_move_command
      rw [hcur]
      simp only []
      rw [if_neg (by simp [hstatus]), hk]
      simp only []
      rw [if_neg (by simp [hstate]), if_neg (by simp [hturn]), hrc]
      simp only [client_send, game_send, clients_send, games_send, num_clients_send, next_game_id_send, client_setClient, game_setClient, client_setGame, game_setGame, clients_setGame, games_setClient, clients_length_setClient, games_length_setGame, num_clients_setClient, num_clients_setGame, next_game_id_setClient, next_game_id_setGame, find_client_send, find_game_send, find_client_setGame, find_game_setClient, client_send_loss, game_send_loss, clients_send_loss, games_send_loss, find_client_send_loss, find_game_send_loss, h.1, h.2.1, hk5, and_true, if_true, hmv, hwin, hfo, hfp, hp, ne_eq,
        not_false_eq_true, hc10, true_and, if_neg hne', hfdne, hfdne.symm, if_false]
      rw [remove_from_game_detached _ _ oc k]
      · rw [find_client_congr s _ (fun j => ?_)]
        · exact h.find_client_of_reg hoc
        · simp only [client_send, game_send, clients_send, games_send, num_clients_send, next_game_id_send, client_setClient, game_setClient, client_setGame, game_setGame, clients_setGame, games_setClient, clients_length_setClient, games_length_setGame, num_clients_setClient, num_clients_setGame, next_game_id_setClient, next_game_id_setGame, find_client_send, find_game_send, find_client_setGame, find_game_setClient, client_send_loss, game_send_loss, clients_send_loss, games_send_loss, find_client_send_loss, find_game_send_loss, h.1, hc10, and_true]
          split_ifs with e
          · rw [e]
          · rfl
      · simp only [client_send, game_send, clients_send, games_send, num_clients_send, next_game_id_send, client_setClient, game_setClient, client_setGame, game_setGame, clients_setGame, games_setClient, clients_length_setClient, games_length_setGame, num_clients_setClient, num_clients_setGame, next_game_id_setClient, next_game_id_setGame, find_client_send, find_game_send, find_client_setGame, find_game_setClient, client_send_loss, game_send_loss, clients_send_loss, games_send_loss, find_client_send_loss, find_game_send_loss, h.1, hc10, and_true, if_neg hne']
        rw [hog]; exact hocc
      · rw [find_game_congr s _ (fun j => ?_)]
        · simp only [client_send, game_send, clients_send, games_send, num_clients_send, next_game_id_send, client_setClient, game_setClient, client_setGame, game_setGame, clients_setGame, games_setClient, clients_length_setClient, games_length_setGame, num_clients_setClient, num_clients_setGame, next_game_id_setClient, next_game_id_setGame, find_client_send, find_game_send, find_client_setGame, find_game_setClient, client_send_loss, game_send_loss, clients_send_loss, games_send_loss, find_client_send_loss, find_game_send_loss, h.1, hc10, and_true, if_neg hne']
          rw [hog]
          exact h.find_game_of_occ hk5 hocc
        · simp only [client_send, game_send, clients_send, games_send, num_clients_send, next_game_id_send, client_setClient, game_setClient, client_setGame, game_setGame, clients_setGame, games_setClient, clients_length_setClient, games_length_setGame, num_clients_setClient, num_clients_setGame, next_game_id_setClient, next_game_id_setGame, find_client_send, find_game_send, find_client_setGame, find_game_setClient, client_send_loss, game_send_loss, clients_send_loss, games_send_loss, find_client_send_loss, find_game_send_loss, h.2.1, hk5, and_true]
          split_ifs with e
          · rw [e]
          · rfl
      · simp only [client_send, game_send, clients_send, games_send, num_clients_send, next_game_id_send, client_setClient, game_setClient, client_setGame, game_setGame, clients_setGame, games_setClient, clients_length_setClient, games_length_setGame, num_clients_setClient, num_clients_setGame, next_game_id_setClient, next_game_id_setGame, find_client_send, find_game_send, find_client_setGame, find_game_setClient, client_send_loss, game_send_loss, clients_send_loss, games_send_loss, find_client_send_loss, find_game_send_loss, h.1, h.2.1, hk5, hc10, and_true, if_true, if_neg hne']
        have := h.cinv.fd_pos hoc
        simp only [core] at this
        omega
      · simp only [client_send, game_send, clients_send, games_send, num_clients_send, next_game_id_send, client_setClient, game_setClient, client_setGame, game_setGame, clients_setGame, games_setClient, clients_length_setClient, games_length_setGame, num_clients_setClient, num_clients_setGame, next_game_id_setClient, next_game_id_setGame, find_client_send, find_game_send, find_client_setGame, find_game_setClient, client_send_loss, game_send_loss, clients_send_loss, games_send_loss, find_client_send_loss, find_game_send_loss, h.1, h.2.1, hk5, hc10, and_true, if_true, if_neg hne']
        exact fun e => hfdne e.symm
    · intro j
      simp only [client_send, game_send, clients_send, games_send, num_clients_send, next_game_id_send, client_setClient, game_setClient, client_setGame, game_setGame, clients_setGame, games_setClient, clients_length_setClient, games_length_setGame, num_clients_setClient, num_clients_setGame, next_game_id_setClient, next_game_id_setGame, find_client_send, find_game_send, find_client_setGame, find_game_setClient, client_send_loss, game_send_loss, clients_send_loss, games_send_loss, find_client_send_loss, find_game_send_loss, h.1, hc10, ho10, and_true, if_neg hne']
    · intro m
      simp only [client_send, game_send, clients_send, games_send, num_clients_send, next_game_id_send, client_setClient, game_setClient, client_setGame, game_setGame, clients_setGame, games_setClient, clients_length_setClient, games_length_setGame, num_clients_setClient, num_clients_setGame, next_game_id_setClient, next_game_id_setGame, find_client_send, find_game_send, find_client_setGame, find_game_setClient, client_send_loss, game_send_loss, clients_send_loss, games_send_loss, find_client_send_loss, find_game_send_loss, h.2.1, hk5, and_true]
      split_ifs <;> simp [hcfd]
    · simp [h.1]
    · simp [h.2.1]
    · simp
    · simp
    · simp

@[simp] theorem clients_set_turn_length (s : Server) (c : Option Nat) (b : Bool) :
    (set_turn s c b).clients.length = s.clients.length := by
  unfold set_turn
  cases c <;> simp

@[simp] theorem games_set_turn (s : Server) (c : Option Nat) (b : Bool) :
    (set_turn s c b).games = s.games := by
  unfold set_turn
  cases c <;> rfl

@[simp] theorem num_clients_set_turn (s : Server) (c : Option Nat) (b : Bool) :
    (set_turn s c b).num_clients = s.num_clients := by
  unfold set_turn
  cases c <;> rfl

@[simp] theorem next_game_id_set_turn (s : Server) (c : Option Nat) (b : Bool) :
    (set_turn s c b).next_game_id = s.next_game_id := by
  unfold set_turn
  cases c <;> rfl

@[simp] theorem num_games_set_turn (s : Server) (c : Option Nat) (b : Bool) :
    (set_turn s c b).num_games = s.num_games := by
  unfold set_turn
  cases c <;> rfl

theorem client_set_turn_some (s : Server) (i : Nat) (b : Bool) (j : Nat) :
    (set_turn s (some i) b).client j =
      if j = i ∧ i < s.clients.length then { s.client i with is_current_turn := b }
      else s.client j := by
  simp only [set_turn, client_setClient]

/-- The state left by an accepted move that fills the board without a line,
slot by slot. -/
theorem move_draw_effect {s : Server} (h : Inv s) (sd : Int) (hsd : 0 < sd) (buffer : List Char)
    (cur k : Nat) (rc : Int × Int)
    (hcur : find_client_by_fd s sd = some cur)
    (hstatus : (s.client cur).status = PlayerStatus.PLAYER_IN_GAME)
    (hk : find_game_by_id s (s.client cur).game_id = some k)
    (hstate : (s.game k).state = GameState.GAME_IN_PROGRESS)
    (hturn : (s.client cur).is_current_turn = true)
    (hrc : sscanf_move buffer = some rc)
    (hmv : (make_move (s.game k).tris_game rc.1 rc.2).1 = 0)
    (hdraw : check_winner (make_move (s.game k).tris_game rc.1 rc.2).2 = GameResult.DRAW) :
    ∃ (oc pc : Nat) (s1 : Server), handle_move_command s sd buffer = some s1 ∧
      oc ≠ pc ∧ (oc : Int) < s.num_clients ∧ (pc : Int) < s.num_clients ∧ k < 5 ∧
      (s.game k).id ≠ -1 ∧ (s.game k).opponent_fd ≠ -1 ∧
      (s.client oc).fd = (s.game k).owner_fd ∧ (s.client pc).fd = (s.game k).opponent_fd ∧
      (s.client oc).game_id = (s.game k).id ∧ (s.client pc).game_id = (s.game k).id ∧
      (cur = oc ∨ cur = pc) ∧
      (∀ j, s1.client j =
        if j = oc ∨ j = pc then { s.client j with is_current_turn := false } else s.client j) ∧
      (∀ m, s1.game m =
        if m = k then
          { s.game k with
            tris_game := (make_move (s.game k).tris_game rc.1 rc.2).2,
            state := GameState.GAME_ENDED, last_result := GameResult.DRAW }
        else s.game m) ∧
      s1.clients.length = 10 ∧ s1.games.length = 5 ∧ s1.num_clients = s.num_clients ∧
      s1.next_game_id = s.next_game_id ∧ s1.num_games = s.num_games := by
  have hr := h.cinv.n_range
  simp only [core] at hr
  obtain ⟨hcn, hcfd⟩ := h.find_client_reg hsd hcur
  obtain ⟨hk5, hid⟩ := find_game_some hk
  have hfree := h.cinv.g_free k hk5
  simp only [core] at hfree
  have hocc : (s.game k).id ≠ -1 := by
    intro e
    rw [hfree e] at hstate
    exact absurd hstate (by decide)
  have hp : (s.game k).opponent_fd ≠ -1 := by
    intro e
    have := (h.cinv.g_occ k hk5 hocc).2 e
    simp only [core] at this
    rw [this] at hstate
    exact absurd hstate (by decide)
  obtain ⟨oc, pc, hne, hoc, hpc, hfo, hfp, hofd, hpfd, hog, hpg, hpart⟩ :=
    h.participants hk5 hocc hp
  have hc10 : cur < 10 := by omega
  have ho10 : oc < 10 := by omega
  have hp10 : pc < 10 := by omega
  have hnw : ¬ GameResult.DRAW = GameResult.WIN := by decide
  refine Exists.intro oc (Exists.intro pc ?_)
  apply Exists.intro
  refine ⟨?eq, hne, hoc, hpc, hk5, hocc, hp, hofd, hpfd, hog, hpg, hpart cur hcn hid.symm,
    ?_, ?_, ?_, ?_, ?_, ?_, ?_⟩
  case eq =>
    unfold handle_move_command
    rw [hcur]
    simp only []
    rw [if_neg (by simp [hstatus]), hk]
    simp only []
    rw [if_neg (by simp [hstate]), if_neg (by simp [hturn]), hrc]
    simp only [client_send, game_send, clients_send, games_send, num_clients_send, next_game_id_send, client_setClient, game_setClient, client_setGame, game_setGame, clients_setGame, games_setClient, clients_length_setClient, games_length_setGame, num_clients_setClient, num_clients_setGame, next_game_id_setClient, next_game_id_setGame, find_client_send, find_game_send, find_client_setGame, find_game_setClient, client_send_loss, game_send_loss, clients_send_loss, games_send_loss, find_client_send_loss, find_game_send_loss, h.1, h.2.1, hk5, and_true, if_true, hmv, hdraw, hfo, hfp, hp, ne_eq,
      not_false_eq_true, hc10, true_and, hnw, if_false]
    rfl
  · intro j
    simp only [client_send, game_send, clients_send, games_send, num_clients_send, next_game_id_send, client_setClient, game_setClient, client_setGame, game_setGame, clients_setGame, games_setClient, clients_length_setClient, games_length_setGame, num_clients_setClient, num_clients_setGame, next_game_id_setClient, next_game_id_setGame, find_client_send, find_game_send, find_client_setGame, find_game_setClient, client_send_loss, game_send_loss, clients_send_loss, games_send_loss, find_client_send_loss, find_game_send_loss, client_set_turn_some, clients_set_turn_length, h.1, ho10, hp10, and_true]
    split_ifs <;> simp_all
  · intro m
    simp only [client_send, game_send, clients_send, games_send, num_clients_send, next_game_id_send, client_setClient, game_setClient, client_setGame, game_setGame, clients_setGame, games_setClient, clients_length_setClient, games_length_setGame, num_clients_setClient, num_clients_setGame, next_game_id_setClient, next_game_id_setGame, find_client_send, find_game_send, find_client_setGame, find_game_setClient, client_send_loss, game_send_loss, clients_send_loss, games_send_loss, find_client_send_loss, find_game_send_loss, game_set_turn, h.2.1, hk5, and_true]
    split_ifs <;> simp
  · simp [h.1]
  · simp [h.2.1]
  · simp
  · simp
  · simp

theorem move_ok {s : Server} (h : Inv s) (sd : Int) (hsd : 0 < sd) (buffer : List Char) :
    ∃ s1, handle_move_command s sd buffer = some s1 ∧ Inv s1 := by
  have hr := h.cinv.n_range
  simp only [core] at hr
  cases hcur : find_client_by_fd s sd with
  | none =>
    unfold handle_move_command
    rw [hcur]
    exact ⟨_, rfl, inv_send h _ _⟩
  | some cur =>
    obtain ⟨hcn, hcfd⟩ := h.find_client_reg hsd hcur
    by_cases h1 : (s.client cur).status ≠ PlayerStatus.PLAYER_IN_GAME
    · unfold handle_move_command
      rw [hcur]
      simp only []
      rw [if_pos h1]; exact ⟨_, rfl, inv_send h _ _⟩
    cases hk : find_game_by_id s (s.client cur).game_id with
    | none =>
      unfold handle_move_command
      rw [hcur]
      simp only []
      rw [if_neg h1, hk]
      exact ⟨_, rfl, inv_send h _ _⟩
    | some k =>
      obtain ⟨hk5, hid⟩ := find_game_some hk
      by_cases h2 : (s.game k).state ≠ GameState.GAME_IN_PROGRESS
      · unfold handle_move_command
        rw [hcur]
        simp only []
        rw [if_neg h1, hk]
        simp only []
        rw [if_pos h2]
        split_ifs <;> exact ⟨_, rfl, inv_send h _ _⟩
      by_cases h3 : (s.client cur).is_current_turn = false
      · unfold handle_move_command
        rw [hcur]
        simp only []
        rw [if_neg h1, hk]
        simp only []
        rw [if_neg h2, if_pos h3]; exact ⟨_, rfl, inv_send h _ _⟩
      cases hrc : sscanf_move buffer with
      | none =>
        unfold handle_move_command
        rw [hcur]
        simp only []
        rw [if_neg h1, hk]
        simp only []
        rw [if_neg h2, if_neg h3, hrc]
        exact ⟨_, rfl, inv_send h _ _⟩
      | some rc =>
        have hstatus : (s.client cur).status = PlayerStatus.PLAYER_IN_GAME := by
          simpa using h1
        have hstate : (s.game k).state = GameState.GAME_IN_PROGRESS := by
          simpa using h2
        have hturn : (s.client cur).is_current_turn = true := by
          simpa using h3
        have hocc : (s.game k).id ≠ -1 := by
          intro e
          have := h.cinv.g_free k hk5 e
          simp only [core] at this
          rw [this] at hstate
          exact absurd hstate (by decide)
        have hs1 : Inv (s.setGame k
            { s.game k with tris_game := (make_move (s.game k).tris_game rc.1 rc.2).2 }) :=
          inv_setGame_soft h k _ rfl rfl rfl rfl
        by_cases hmv : (make_move (s.game k).tris_game rc.1 rc.2).1 = 0
        · by_cases hwin : check_winner (make_move (s.game k).tris_game rc.1 rc.2).2 = GameResult.WIN
          · obtain ⟨l, s1, he, hlc, hln, _, _, _, hrole, hcl, hgm, hl1, hl2, hnc, hng, _⟩ :=
              move_win_effect h sd hsd buffer cur k rc hcur hstatus hk hstate hturn hrc hmv hwin
            refine ⟨s1, he, hl1, hl2, ?_⟩
            have e : core s1 = (core s).promote cur l k := by
              simp only [core, Core.promote, hcl, hgm, hnc, hng, Core.mk.injEq, true_and]
              refine ⟨?_, ?_, ?_, ?_, ?_, ?_⟩ <;> funext x <;> split_ifs <;> simp_all
            rw [e]
            exact h.cinv.promote hcn hln hk5 hocc hrole
          · by_cases hdraw : check_winner (make_move (s.game k).tris_game rc.1 rc.2).2
                = GameResult.DRAW
            · obtain ⟨oc, pc, s1, he, _, _, _, _, _, hp, _, _, _, _, _, hcl, hgm, hl1, hl2, hnc,
                hng, _⟩ :=
                move_draw_effect h sd hsd buffer cur k rc hcur hstatus hk hstate hturn hrc hmv hdraw
              refine ⟨s1, he, hl1, hl2, ?_⟩
              have e : core s1 = (core s).setState k GameState.GAME_ENDED := by
                simp only [core, Core.setState, hcl, hgm, hnc, hng, Core.mk.injEq, true_and]
                refine ⟨?_, ?_, ?_, ?_, ?_, ?_⟩ <;> funext x <;> split_ifs <;> simp_all
              rw [e]
              exact h.cinv.setState _ hk5 hocc (by decide) (fun e => absurd e hp)
            · unfold handle_move_command
              rw [hcur]
              simp only []
              rw [if_neg h1, hk]
              simp only []
              rw [if_neg h2, if_neg h3, hrc]
              simp only [client_send, game_send, clients_send, games_send, num_clients_send, next_game_id_send, client_setClient, game_setClient, client_setGame, game_setGame, clients_setGame, games_setClient, clients_length_setClient, games_length_setGame, num_clients_setClient, num_clients_setGame, next_game_id_setClient, next_game_id_setGame, find_client_send, find_game_send, find_client_setGame, find_game_setClient, client_send_loss, game_send_loss, clients_send_loss, games_send_loss, find_client_send_loss, find_game_send_loss, h.1, h.2.1, hk5, and_true, if_true, hmv, hwin, hdraw, if_false]
              exact ⟨_, rfl, inv_send_game_state hs1 k⟩
        · unfold handle_move_command
          rw [hcur]
          simp only []
          rw [if_neg h1, hk]
          simp only []
          rw [if_neg h2, if_neg h3, hrc]
          simp only [client_send, game_send, clients_send, games_send, num_clients_send, next_game_id_send, client_setClient, game_setClient, client_setGame, game_setGame, clients_setGame, games_setClient, clients_length_setClient, games_length_setGame, num_clients_setClient, num_clients_setGame, next_game_id_setClient, next_game_id_setGame, find_client_send, find_game_send, find_client_setGame, find_game_setClient, client_send_loss, game_send_loss, clients_send_loss, games_send_loss, find_client_send_loss, find_game_send_loss, h.1, h.2.1, hk5, and_true, if_true, hmv, if_false]
          exact ⟨_, rfl, inv_send hs1 _ _⟩

/-- The state left by `send_game_state_to_players` on a game in progress whose
two players are registered, slot by slot. -/
theorem send_game_state_effect (s : Server) (k oc pc : Nat) (hne : oc ≠ pc)
    (hlc : s.clients.length = 10) (ho10 : oc < 10) (hp10 : pc < 10)
    (hst : (s.game k).state = GameState.GAME_IN_PROGRESS)
    (hfo : find_client_by_fd s (s.game k).owner_fd = some oc)
    (hfp : find_client_by_fd s (s.game k).opponent_fd = some pc) :
    (∀ j, (send_game_state_to_players s k).client j =
      if j = oc then
        { s.client oc with is_current_turn := decide ((s.game k).tris_game.turn = 0) }
      else if j = pc then
        { s.client pc with is_current_turn := decide ((s.game k).tris_game.turn ≠ 0) }
      else s.client j) ∧
    (∀ m, (send_game_state_to_players s k).game m = s.game m) ∧
    (send_game_state_to_players s k).clients.length = 10 ∧
    (send_game_state_to_players s k).games = s.games ∧
    (send_game_state_to_players s k).num_clients = s.num_clients ∧
    (send_game_state_to_players s k).next_game_id = s.next_game_id ∧
    (send_game_state_to_players s k).num_games = s.num_games := by
  have hne' : pc ≠ oc := fun e => hne e.symm
  unfold send_game_state_to_players
  simp only [hst, if_true, hfo, hfp]
  by_cases ht : (s.game k).tris_game.turn = 0
  · simp only [ht, if_true]
    refine ⟨fun j => ?_, fun m => ?_, ?_, ?_, ?_, ?_, ?_⟩ <;> split_ifs <;>
      simp_all [client_set_turn_some]
  · simp only [ht, if_false]
    refine ⟨fun j => ?_, fun m => ?_, ?_, ?_, ?_, ?_, ?_⟩ <;> split_ifs <;>
      simp_all [client_set_turn_some]

/-- The state left by the restart branch of a rematch, slot by slot. -/
theorem rematch_restart_effect (s : Server) (k oc pc : Nat) (hne : oc ≠ pc)
    (hlc : s.clients.length = 10) (hlg : s.games.length = 5)
    (ho10 : oc < 10) (hp10 : pc < 10) (hk5 : k < 5)
    (hfo : find_client_by_fd s (s.game k).owner_fd = some oc)
    (hfp : find_client_by_fd s (s.game k).opponent_fd = some pc) :
    (∀ j, (rematch_restart s k oc pc).client j =
      if j = oc then { s.client oc with is_current_turn := false, wants_rematch := false }
      else if j = pc then { s.client pc with is_current_turn := true, wants_rematch := false }
      else s.client j) ∧
    (∀ m, (rematch_restart s k oc pc).game m =
      if m = k then
        { s.game k with
          tris_game := { board := Vec3.fill (Vec3.fill Cell.EMPTY), turn := 1 },
          state := GameState.GAME_IN_PROGRESS, last_result := GameResult.IN_PROGRESS }
      else s.game m) ∧
    (rematch_restart s k oc pc).clients.length = 10 ∧
    (rematch_restart s k oc pc).games.length = 5 ∧
    (rematch_restart s k oc pc).num_clients = s.num_clients ∧
    (rematch_restart s k oc pc).next_game_id = s.next_game_id ∧
    (rematch_restart s k oc pc).num_games = s.num_games := by
  have hne' : pc ≠ oc := fun e => hne e.symm
  unfold rematch_restart
  lift_lets
  intro s1 s2 s3 s4 s5 s6 a1 a2 t1 a3 t2 a4 t3 a5 t4 a6 t5 a7 t6 a8 t7 t8 t9 a9 a10
  have g6 : ∀ m, s6.game m =
      if m = k then
        { s.game k with
          tris_game := { board := Vec3.fill (Vec3.fill Cell.EMPTY), turn := 0 },
          state := GameState.GAME_IN_PROGRESS, last_result := GameResult.IN_PROGRESS }
      else s.game m := by
    intro m
    simp only [s6, s5, s4, s3, s2, s1, game_setGame, games_length_setGame, hlg, hk5, and_true,
      init_game]
    split_ifs <;> rfl
  have c6 : ∀ j, s6.client j = s.client j := fun j => rfl
  have lc6 : s6.clients.length = 10 := hlc
  have lg6 : s6.games.length = 5 := by
    simp only [s6, s4, s2, games_length_setGame, hlg]
  have n6 : s6.num_clients = s.num_clients ∧ s6.next_game_id = s.next_game_id ∧
      s6.num_games = s.num_games := ⟨rfl, rfl, rfl⟩
  have ht6 : (s6.game k).tris_game.turn = 0 := by rw [g6, if_pos rfl]
  clear_value s6
  have e5 : t5 = t2.setClient pc
      { a4 with is_current_turn := true } := if_pos ht6
  have c5 : ∀ j, t5.client j =
      if j = oc then { s.client oc with is_current_turn := false }
      else if j = pc then { s.client pc with is_current_turn := true }
      else s.client j := by
    intro j
    rw [e5]
    simp only [t2, t1, a4, a3, client_setClient, client_setGame, clients_length_setClient,
      clients_setGame, lc6, ho10, hp10, and_true, c6]
    split_ifs <;> simp_all
  have g5 : ∀ m, t5.game m =
      if m = k then
        { s.game k with
          tris_game := { board := Vec3.fill (Vec3.fill Cell.EMPTY), turn := 1 },
          state := GameState.GAME_IN_PROGRESS, last_result := GameResult.IN_PROGRESS }
      else s.game m := by
    intro m
    rw [e5]
    simp only [t2, t1, a1, a2, game_setClient, game_setGame, lg6, hk5, and_true, g6]
    split_ifs <;> simp_all
  have lc5 : t5.clients.length = 10 := by
    rw [e5]
    simp only [t2, t1, clients_length_setClient, clients_setGame, lc6]
  have lg5 : t5.games.length = 5 := by
    rw [e5]
    simp only [t2, t1, games_setClient, games_length_setGame, lg6]
  have n5 : t5.num_clients = s.num_clients ∧ t5.next_game_id = s.next_game_id ∧
      t5.num_games = s.num_games := by
    rw [e5]
    exact n6
  have c9 : ∀ j, t9.client j =
      if j = oc then { s.client oc with is_current_turn := false, wants_rematch := false }
      else if j = pc then { s.client pc with is_current_turn := true, wants_rematch := false }
      else s.client j := by
    intro j
    simp only [t9, t8, t7, t6, a7, a8, client_send, client_setClient, clients_length_setClient,
      lc5, ho10, hp10, and_true, c5]
    split_ifs <;> simp_all
  have g9 : ∀ m, t9.game m = t5.game m := by
    intro m
    simp only [t9, t8, t7, t6, game_send, game_setClient]
  have lc9 : t9.clients.length = 10 := by
    simp only [t9, t8, t7, t6, clients_send, clients_length_setClient, lc5]
  have lg9 : t9.games = t5.games := by
    simp only [t9, t8, t7, t6, games_send, games_setClient]
  have n9 : t9.num_clients = s.num_clients ∧ t9.next_game_id = s.next_game_id ∧
      t9.num_games = s.num_games := by
    simp only [t9, t8, t7, t6, num_clients_send, num_clients_setClient, next_game_id_send,
      next_game_id_setClient, num_games_send, num_games_setClient]
    exact n5
  have hfd : ∀ j, (t9.client j).fd = (s.client j).fd := by
    intro j
    rw [c9]
    split_ifs <;> simp_all
  have hgk : t9.game k = _ := (g9 k).trans ((g5 k).trans (if_pos rfl))
  have hfo9 : find_client_by_fd t9 (t9.game k).owner_fd = some oc := by
    rw [find_client_congr s t9 hfd, hgk]
    exact hfo
  have hfp9 : find_client_by_fd t9 (t9.game k).opponent_fd = some pc := by
    rw [find_client_congr s t9 hfd, hgk]
    exact hfp
  have hst9 : (t9.game k).state = GameState.GAME_IN_PROGRESS := by rw [hgk]
  have ht9 : (t9.game k).tris_game.turn = 1 := by rw [hgk]
  obtain ⟨ec, eg, el, egs, en1, en2, en3⟩ :=
    send_game_state_effect t9 k oc pc hne lc9 ho10 hp10 hst9 hfo9 hfp9
  refine ⟨fun j => ?_, fun m => ?_, el, ?_, ?_, ?_, ?_⟩
  · rw [ec, c9, c9, ht9]
    simp only [if_true, if_neg hne', a9, a10]
    split_ifs <;> simp_all
  · rw [eg, g9, g5]
  · rw [egs, lg9]
    exact lg5
  · rw [en1]
    exact n9.1
  · rw [en2]
    exact n9.2.1
  · rw [en3]
    exact n9.2.2

/-- The state left by a rematch request on a game that ended in a draw, slot by
slot: with `o` the participant other than the requester, either only the
requester's flag is set, or (when the flag of `o` was set) the round restarts. -/
theorem rematch_effect {s : Server} (h : Inv s) (sd : Int) (hsd : 0 < sd)
    (cur k : Nat)
    (hcur : find_client_by_fd s sd = some cur)
    (hgid : (s.client cur).game_id ≠ -1)
    (hk : find_game_by_id s (s.client cur).game_id = some k)
    (hstate : (s.game k).state = GameState.GAME_ENDED)
    (hres : (s.game k).last_result = GameResult.DRAW) :
    ∃ (oc pc : Nat) (s1 : Server), handle_rematch_command s sd = some s1 ∧
      oc ≠ pc ∧ (oc : Int) < s.num_clients ∧ (pc : Int) < s.num_clients ∧ k < 5 ∧
      (s.game k).id ≠ -1 ∧
      (s.client oc).fd = (s.game k).owner_fd ∧ (s.client pc).fd = (s.game k).opponent_fd ∧
      (s.client oc).game_id = (s.game k).id ∧ (s.client pc).game_id = (s.game k).id ∧
      (cur = oc ∨ cur = pc) ∧
      ((s.client (if cur = oc then pc else oc)).wants_rematch = false →
        (∀ j, s1.client j =
          if j = cur then { s.client cur with wants_rematch := true } else s.client j) ∧
        (∀ m, s1.game m = s.game m)) ∧
      ((s.client (if cur = oc then pc else oc)).wants_rematch = true →
        (∀ j, s1.client j =
          if j = oc then { s.client oc with is_current_turn := false, wants_rematch := false }
          else if j = pc then
            { s.client pc with is_current_turn := true, wants_rematch := false }
          else s.client j) ∧
        (∀ m, s1.game m =
          if m = k then
            { s.game k with
              tris_game := { board := Vec3.fill (Vec3.fill Cell.EMPTY), turn := 1 },
              state := GameState.GAME_IN_PROGRESS, last_result := GameResult.IN_PROGRESS }
          else s.game m)) ∧
      s1.clients.length = 10 ∧ s1.games.length = 5 ∧ s1.num_clients = s.num_clients ∧
      s1.next_game_id = s.next_game_id ∧ s1.num_games = s.num_games := by
  have hr := h.cinv.n_range
  simp only [core] at hr
  obtain ⟨hcn, hcfd⟩ := h.find_client_reg hsd hcur
  obtain ⟨hk5, hid⟩ := find_game_some hk
  have hfree := h.cinv.g_free k hk5
  simp only [core] at hfree
  have hocc : (s.game k).id ≠ -1 := by
    intro e
    rw [hfree e] at hstate
    exact absurd hstate (by decide)
  have hopp : (s.game k).opponent_fd ≠ -1 := by
    intro e
    have := (h.cinv.g_occ k hk5 hocc).2 e
    simp only [core] at this
    rw [this] at hstate
    exact absurd hstate (by decide)
  obtain ⟨oc, pc, hne, hon, hpn, hfo, hfp, hofd, hpfd, hog, hpg, hrole⟩ :=
    h.participants hk5 hocc hopp
  have hne' : pc ≠ oc := fun e => hne e.symm
  have hcur10 : cur < 10 := by omega
  have ho10 : oc < 10 := by omega
  have hp10 : pc < 10 := by omega
  have hrc : cur = oc ∨ cur = pc := hrole cur hcn hid.symm
  obtain ⟨s', hs'⟩ : ∃ s' : Server, s' = send_to_client
      (s.setClient cur { s.client cur with wants_rematch := true }) sd
      "Richiesta di rivincita inviata. In attesa dell'altro giocatore...\n" := ⟨_, rfl⟩
  have e : handle_rematch_command s sd =
      if (s'.client oc).wants_rematch = true ∧ (s'.client pc).wants_rematch = true then
        some (rematch_restart s' k oc pc)
      else rematch_notify s' cur k (some oc) (some pc) := by
    rw [hs']
    unfold handle_rematch_command
    simp only [hcur, hgid, hk, hstate, hres, ne_eq, not_true_eq_false, or_self, if_false,
      find_client_send, find_client_setClient, game_send, game_setClient, hfo, hfp]
  have c' : ∀ j, s'.client j =
      if j = cur then { s.client cur with wants_rematch := true } else s.client j := by
    intro j
    rw [hs']
    simp only [client_send, client_setClient, h.1, hcur10, and_true]
  have g' : ∀ m, s'.game m = s.game m := by
    intro m
    rw [hs']
    simp only [game_send, game_setClient]
  have lc' : s'.clients.length = 10 := by
    rw [hs']
    simp only [clients_send, clients_length_setClient, h.1]
  have lg' : s'.games.length = 5 := by
    rw [hs']
    simp only [games_send, games_setClient, h.2.1]
  have n' : s'.num_clients = s.num_clients ∧ s'.next_game_id = s.next_game_id ∧
      s'.num_games = s.num_games := by
    rw [hs']
    simp only [num_clients_send, num_clients_setClient, next_game_id_send,
      next_game_id_setClient, num_games_send, num_games_setClient, and_self]
  have f' : ∀ x, find_client_by_fd s' x = find_client_by_fd s x := by
    intro x
    rw [hs']
    simp only [find_client_send, find_client_setClient]
  clear hs'
  have hfdinj : (s.client cur).fd = (s.client oc).fd ↔ cur = oc := by
    constructor
    · intro e1
      exact h.cinv.fd_inj cur oc hcn hon (by simp only [core]; exact e1)
    · intro e1
      rw [e1]
  by_cases hw : (s.client (if cur = oc then pc else oc)).wants_rematch = true
  · -- the other participant asked before: the round restarts
    have hboth : (s'.client oc).wants_rematch = true ∧ (s'.client pc).wants_rematch = true := by
      rw [c', c']
      rcases hrc with e1 | e1
      · subst e1
        simp only [if_true, if_neg hne'] at hw ⊢
        exact ⟨trivial, hw⟩
      · subst e1
        simp only [if_true, if_neg hne', if_neg hne] at hw ⊢
        exact ⟨hw, trivial⟩
    rw [if_pos hboth] at e
    obtain ⟨ec, eg, el, egl, en1, en2, en3⟩ :=
      rematch_restart_effect s' k oc pc hne lc' lg' ho10 hp10 hk5
        (by rw [f', g']; exact hfo) (by rw [f', g']; exact hfp)
    refine ⟨oc, pc, _, e, hne, hon, hpn, hk5, hocc, hofd, hpfd, hog, hpg, hrc, ?_, ?_, el, egl,
      en1.trans n'.1, en2.trans n'.2.1, en3.trans n'.2.2⟩
    · intro hf
      rw [hf] at hw
      exact absurd hw (by decide)
    · intro _
      refine ⟨fun j => ?_, fun m => ?_⟩
      · rw [ec, c', c', c']
        rcases hrc with e1 | e1 <;> subst e1 <;> split_ifs <;> rfl
      · rw [eg, g', g']
  · -- the other participant has not asked: only the flag is set
    have hw' : (s.client (if cur = oc then pc else oc)).wants_rematch = false := by
      simpa using hw
    have hnot : ¬ ((s'.client oc).wants_rematch = true ∧ (s'.client pc).wants_rematch = true) := by
      rw [c', c']
      rcases hrc with e1 | e1
      · subst e1
        simp only [if_true, if_neg hne'] at hw ⊢
        exact fun x => hw x.2
      · subst e1
        simp only [if_true, if_neg hne', if_neg hne] at hw ⊢
        exact fun x => hw x.1
    rw [if_neg hnot] at e
    have e2 : rematch_notify s' cur k (some oc) (some pc) =
        some (send_to_client s' (s'.client (if cur = oc then pc else oc)).fd
          "L'altro giocatore ha richiesto una rivincita. Digita 'rematch' per accettare o 'leave' per uscire.\n") := by
      unfold rematch_notify
      rcases hrc with e1 | e1
      · subst e1
        simp only [if_true, c', if_neg hne', g', hpg]
      · subst e1
        have hx : ¬ (s.client cur).fd = (s.client oc).fd := fun x => hne' (hfdinj.1 x)
        simp only [if_true, c', if_neg hne', if_neg hne, g', hog, hx, if_false]
    rw [e2] at e
    refine ⟨oc, pc, _, e, hne, hon, hpn, hk5, hocc, hofd, hpfd, hog, hpg, hrc, ?_, ?_, ?_, ?_, ?_,
      ?_, ?_⟩
    · intro _
      refine ⟨fun j => ?_, fun m => ?_⟩
      · rw [client_send, c']
      · rw [game_send, g']
    · intro ht
      exact absurd ht hw
    · rw [clients_send]
      exact lc'
    · rw [games_send]
      exact lg'
    · rw [num_clients_send]
      exact n'.1
    · rw [next_game_id_send]
      exact n'.2.1
    · rw [num_games_send]
      exact n'.2.2

/-- `handle_rematch_command` returns and keeps the invariant. -/
theorem rematch_ok {s : Server} (h : Inv s) (sd : Int) (hsd : 0 < sd) :
    ∃ s1, handle_rematch_command s sd = some s1 ∧ Inv s1 := by
  cases hcur : find_client_by_fd s sd with
  | none =>
    unfold handle_rematch_command
    simp only [hcur]
    exact ⟨_, rfl, inv_send h sd _⟩
  | some cur =>
    by_cases hgid : (s.client cur).game_id = -1
    · unfold handle_rematch_command
      simp only [hcur, hgid, if_true]
      exact ⟨_, rfl, inv_send h sd _⟩
    · cases hk : find_game_by_id s (s.client cur).game_id with
      | none =>
        unfold handle_rematch_command
        simp only [hcur, hgid, if_false, hk]
        exact ⟨_, rfl, inv_send h sd _⟩
      | some k =>
        by_cases hc : (s.game k).state ≠ GameState.GAME_ENDED
            ∨ (s.game k).last_result ≠ GameResult.DRAW
        · unfold handle_rematch_command
          simp only [hcur, hgid, if_false, hk, if_pos hc]
          exact ⟨_, rfl, inv_send h sd _⟩
        · have hstate : (s.game k).state = GameState.GAME_ENDED := by
            by_contra x
            exact hc (Or.inl x)
          have hres : (s.game k).last_result = GameResult.DRAW := by
            by_contra x
            exact hc (Or.inr x)
          obtain ⟨oc, pc, s1, e, hne, hon, hpn, hk5, hocc, hofd, hpfd, hog, hpg, hrc, hA, hB,
            lc, lg, n1, n2, n3⟩ := rematch_effect h sd hsd cur k hcur hgid hk hstate hres
          refine ⟨s1, e, ?_⟩
          by_cases hw : (s.client (if cur = oc then pc else oc)).wants_rematch = true
          · obtain ⟨ec, eg⟩ := hB hw
            refine ⟨lc, lg, ?_⟩
            have e1 : core s1 = (core s).setState k GameState.GAME_IN_PROGRESS := by
              simp only [core, Core.setState, ec, eg, n1, n2, Core.mk.injEq, true_and]
              refine ⟨?_, ?_, ?_, ?_, ?_, ?_⟩ <;> funext x <;> split_ifs <;>
                first
                | rfl
                | (subst_vars; rfl)
            rw [e1]
            refine h.cinv.setState _ hk5 hocc (by decide) ?_
            intro x
            have := (h.cinv.g_occ k hk5 hocc).2 x
            simp only [core] at this
            rw [this] at hstate
            exact absurd hstate (by decide)
          · have hw' : (s.client (if cur = oc then pc else oc)).wants_rematch = false := by
              simpa using hw
            obtain ⟨ec, eg⟩ := hA hw'
            refine inv_of_core_eq h (lc.trans h.1.symm) (lg.trans h.2.1.symm) ?_
            simp only [core, ec, eg, n1, n2, Core.mk.injEq, true_and, and_true]
            refine ⟨?_, ?_⟩ <;> funext x <;> split_ifs <;>
              first
              | rfl
              | (subst_vars; rfl)

theorem client_init_server (ms : Int) (i : Nat) (hi : i < 10) :
    (init_server ms).client i = { Client.zero with fd := 0, game_id := -1 } := by
  simp only [Server.client, init_server, List.getD_eq_getElem?_getD, List.getElem?_replicate,
    MAX_CLIENTS, hi, if_true, Option.getD_some]

theorem game_init_server (ms : Int) (k : Nat) (hk : k < 5) :
    (init_server ms).game k = { Game.zero with id := -1 } := by
  simp only [Server.game, init_server, List.getD_eq_getElem?_getD, List.getElem?_replicate,
    MAX_GAMES, hk, if_true, Option.getD_some]

/-- The state built at start-up satisfies the invariant. -/
theorem inv_init_server (ms : Int) : Inv (init_server ms) := by
  refine ⟨by simp [init_server, MAX_CLIENTS], by simp [init_server, MAX_GAMES], ?_⟩
  have hn : (core (init_server ms)).n = 0 := rfl
  have hx : (core (init_server ms)).next = 1 := rfl
  have hc : ∀ i, i < 10 → (core (init_server ms)).cfd i = 0 := by
    intro i hi
    simp only [core, client_init_server ms i hi]
  have hg : ∀ k, k < 5 → (core (init_server ms)).gid k = -1 := by
    intro k hk
    simp only [core, game_init_server ms k hk]
  have hs : ∀ k, k < 5 → (core (init_server ms)).gst k = GameState.GAME_NEW := by
    intro k hk
    simp only [core, game_init_server ms k hk, Game.zero]
  constructor
  · rw [hn]; decide
  · rw [hx]; decide
  · intro i hi
    rw [hn]
    exact ⟨fun x => absurd x (by omega), fun _ => hc i hi⟩
  · intro i j hi
    rw [hn] at hi
    omega
  · intro k hk
    exact Or.inl (hg k hk)
  · intro k l hk _ hne
    exact absurd (hg k hk) hne
  · intro k hk _
    exact hs k hk
  · intro k hk hne
    exact absurd (hg k hk) hne
  · intro k hk hne
    exact absurd (hg k hk) hne
  · intro k hk hne
    exact absurd (hg k hk) hne
  · intro i hi
    rw [hn] at hi
    omega

/-- `handle_create_command` returns when the counter is below `INT_MAX`. -/
theorem create_ok (s : Server) (sd : Int) (cur : Nat) (hnext : s.next_game_id < INT_MAX) :
    ∃ s1, handle_create_command s sd cur = some s1 := by
  unfold handle_create_command
  by_cases h1 : (s.client cur).game_id ≠ -1
  · rw [if_pos h1]
    exact ⟨_, rfl⟩
  · rw [if_neg h1]
    by_cases h2 : s.num_games ≥ MAX_GAMES
    · rw [if_pos h2]
      exact ⟨_, rfl⟩
    · rw [if_neg h2]
      cases hk : (List.range MAX_GAMES).find? (fun j => (s.game j).id == -1) with
      | none => exact ⟨_, rfl⟩
      | some k =>
        simp only []
        rw [if_neg (by omega)]
        exact ⟨_, rfl⟩

/-- The command dispatch returns and keeps the invariant, when the counter
`next_game_id` is below `INT_MAX`. -/
theorem dispatch_ok {s : Server} (h : Inv s) (sd : Int) (hsd : 0 < sd) (line : List Char)
    (hnext : s.next_game_id < INT_MAX) :
    ∃ s1, dispatch s sd line = some s1 ∧ Inv s1 := by
  unfold dispatch
  cases hcur : find_client_by_fd s sd with
  | none => exact ⟨_, rfl, inv_send h sd _⟩
  | some cur =>
    obtain ⟨hcn, hcfd⟩ := h.find_client_reg hsd hcur
    simp only []
    split_ifs
    · exact ⟨_, rfl, inv_print_game_list h sd⟩
    · obtain ⟨s1, e⟩ := create_ok s sd cur hnext
      exact ⟨s1, e, inv_create h sd cur hcn hcfd e⟩
    · exact ⟨_, rfl, inv_join h sd cur line hcn hcfd⟩
    · exact ⟨_, rfl, inv_accept h sd cur⟩
    · exact ⟨_, rfl, inv_reject h sd cur⟩
    · exact ⟨_, rfl, inv_leave h sd cur hsd hcn⟩
    · exact move_ok h sd hsd line
    · exact rematch_ok h sd hsd
    · exact ⟨_, rfl, inv_remove_client (inv_send h sd _) sd hsd⟩
    · exact ⟨_, rfl, inv_send h sd _⟩

/-- The command dispatch keeps the invariant when it returns. -/
theorem inv_dispatch {s s1 : Server} (h : Inv s) (sd : Int) (hsd : 0 < sd) (line : List Char)
    (e : dispatch s sd line = some s1) : Inv s1 := by
  unfold dispatch at e
  cases hcur : find_client_by_fd s sd with
  | none =>
    rw [hcur] at e
    simp only [Option.some.injEq] at e
    rw [← e]
    exact inv_send h sd _
  | some cur =>
    obtain ⟨hcn, hcfd⟩ := h.find_client_reg hsd hcur
    rw [hcur] at e
    simp only [] at e
    split_ifs at e
    · simp only [Option.some.injEq] at e
      rw [← e]
      exact inv_print_game_list h sd
    · exact inv_create h sd cur hcn hcfd e
    · simp only [Option.some.injEq] at e
      rw [← e]
      exact inv_join h sd cur line hcn hcfd
    · simp only [Option.some.injEq] at e
      rw [← e]
      exact inv_accept h sd cur
    · simp only [Option.some.injEq] at e
      rw [← e]
      exact inv_reject h sd cur
    · simp only [Option.some.injEq] at e
      rw [← e]
      exact inv_leave h sd cur hsd hcn
    · obtain ⟨s2, e2, h2⟩ := move_ok h sd hsd line
      rw [e2] at e
      simp only [Option.some.injEq] at e
      rw [← e]
      exact h2
    · obtain ⟨s2, e2, h2⟩ := rematch_ok h sd hsd
      rw [e2] at e
      simp only [Option.some.injEq] at e
      rw [← e]
      exact h2
    · simp only [Option.some.injEq] at e
      rw [← e]
      exact inv_remove_client (inv_send h sd _) sd hsd
    · simp only [Option.some.injEq] at e
      rw [← e]
      exact inv_send h sd _

/-- One readable event keeps the invariant. -/
theorem inv_client_readable {s s1 : Server} (h : Inv s) (sd : Int) (hsd : 0 < sd)
    (buffer : List Char) (valread : Int)
    (e : client_readable s sd buffer valread = some s1) : Inv s1 := by
  unfold client_readable at e
  split_ifs at e with h0
  · cases e
    exact inv_remove_client h sd hsd
  · unfold handle_client_data at e
    split_ifs at e
    simp only [] at e
    exact inv_dispatch h sd hsd _ e

/-- Every reachable state satisfies the invariant. -/
theorem reachable_inv {ms : Int} {s : Server} (hr : Reachable ms s) : Inv s := by
  induction hr with
  | init => exact inv_init_server ms
  | connect s fd _ hfd _ hfresh ih => exact inv_accept_connection ih fd hfd hfresh
  | readable s s1 sd buffer valread _ hreg e ih =>
    exact inv_client_readable ih sd hreg.1 buffer valread e

/-- An admissible event leads from a reachable state to a reachable state. -/
theorem reachable_step {ms : Int} {s s1 : Server} (hr : Reachable ms s) (e : Event)
    (ha : admissible ms s e = true) (hs : step s e = some s1) : Reachable ms s1 := by
  cases e with
  | connect fd =>
    simp only [admissible, Bool.and_eq_true, decide_eq_true_eq, List.all_eq_true,
      List.mem_range, bne_iff_ne, ne_eq] at ha
    simp only [step, Option.some.injEq] at hs
    rw [← hs]
    exact Reachable.connect s fd hr ha.1.1 ha.1.2 ha.2
  | readable sd buffer valread =>
    simp only [admissible, Bool.and_eq_true, decide_eq_true_eq, List.any_eq_true,
      List.mem_range, beq_iff_eq] at ha
    exact Reachable.readable s s1 sd buffer valread hr ⟨ha.1, ha.2⟩ hs

theorem reachable_run_admissible {ms : Int} (es : List Event) :
    ∀ {s s1 : Server}, Reachable ms s → run_admissible ms s es = some s1 → Reachable ms s1 := by
  induction es with
  | nil =>
    intro s s1 hr h
    simp only [run_admissible, Option.some.injEq] at h
    rw [← h]
    exact hr
  | cons e es ih =>
    intro s s1 hr h
    simp only [run_admissible] at h
    split_ifs at h with ha
    cases hs : step s e with
    | none => rw [hs] at h; exact absurd h (by simp)
    | some s2 =>
      rw [hs] at h
      exact ih (reachable_step hr e ha hs) h

/-- The state after a sequence of events is reachable. -/
theorem reachable_state_after (ms : Int) (es : List Event) : Reachable ms (state_after ms es) := by
  unfold state_after
  cases h : run_admissible ms (init_server ms) es with
  | none => exact Reachable.init
  | some s1 => exact reachable_run_admissible es Reachable.init h

/-! ## Theorems: the session protocol -/

/-- C9: in a reachable state, when the move of session `sd` is accepted (the
session is in a game in progress, it is its turn, the text parses, `make_move`
returns 0) and `check_winner` gives `WIN`, `handle_move_command` returns a
state in which the game keeps its slot `k` and its id, its owner is the mover
(who was the owner or the opponent), it has no opponent, it waits for a
player, its board is empty with `turn = 0`, the mover has mark `X`, status
`PLAYER_IN_GAME` and turn flag false, and the other participant `l` is
connected, in no game, with mark `EMPTY` and both flags false. -/
theorem win_recycles_game (master_socket : Int) (s : Server) (sd : Int) (buffer : List Char)
    (cur k : Nat) (rc : Int × Int)
    (hr : Reachable master_socket s) (hsd : 0 < sd)
    (hcur : find_client_by_fd s sd = some cur)
    (hstatus : (s.client cur).status = PlayerStatus.PLAYER_IN_GAME)
    (hk : find_game_by_id s (s.client cur).game_id = some k)
    (hstate : (s.game k).state = GameState.GAME_IN_PROGRESS)
    (hturn : (s.client cur).is_current_turn = true)
    (hrc : sscanf_move buffer = some rc)
    (hmv : (make_move (s.game k).tris_game rc.1 rc.2).1 = 0)
    (hwin : check_winner (make_move (s.game k).tris_game rc.1 rc.2).2 = GameResult.WIN) :
    ∃ (l : Nat) (s1 : Server), handle_move_command s sd buffer = some s1 ∧
      l ≠ cur ∧
      (((s.client cur).fd = (s.game k).owner_fd ∧ (s.client l).fd = (s.game k).opponent_fd) ∨
        ((s.client cur).fd = (s.game k).opponent_fd ∧ (s.client l).fd = (s.game k).owner_fd)) ∧
      (s1.game k).id = (s.game k).id ∧ (s.game k).id ≠ -1 ∧
      (s1.game k).owner_fd = sd ∧ (s1.game k).opponent_fd = -1 ∧
      (s1.game k).state = GameState.GAME_WAITING_FOR_PLAYER ∧
      (∀ r c, (s1.game k).tris_game.cell r c = Cell.EMPTY) ∧
      (s1.game k).tris_game.turn = 0 ∧
      (s1.client cur).fd = sd ∧ (s1.client cur).game_id = (s.game k).id ∧
      (s1.client cur).player_symbol = Cell.X ∧
      (s1.client cur).status = PlayerStatus.PLAYER_IN_GAME ∧
      (s1.client cur).is_current_turn = false ∧
      (s1.client l).fd = (s.client l).fd ∧
      (s1.client l).status = PlayerStatus.PLAYER_CONNECTED ∧
      (s1.client l).game_id = -1 ∧
      (s1.client l).player_symbol = Cell.EMPTY ∧
      (s1.client l).is_current_turn = false ∧
      (s1.client l).wants_rematch = false := by
  have h := reachable_inv hr
  obtain ⟨hcn, hcfd⟩ := h.find_client_reg hsd hcur
  obtain ⟨l, s1, e, hl, _, _, _, hocc, hrole, ec, eg, _⟩ :=
    move_win_effect h sd hsd buffer cur k rc hcur hstatus hk hstate hturn hrc hmv hwin
  have hl' : cur ≠ l := fun x => hl x.symm
  refine ⟨l, s1, e, hl, hrole, ?_, hocc, ?_, ?_, ?_, ?_, ?_, ?_, ?_, ?_, ?_, ?_, ?_, ?_, ?_,
    ?_, ?_, ?_⟩
  · rw [eg, if_pos rfl]
  · rw [eg, if_pos rfl]
  · rw [eg, if_pos rfl]
  · rw [eg, if_pos rfl]
  · intro r c
    rw [eg, if_pos rfl]
    exact cell_init_game (make_move (s.game k).tris_game rc.1 rc.2).2 r c
  · rw [eg, if_pos rfl]
    rfl
  · rw [ec, if_neg hl', if_pos rfl]
    exact hcfd
  · rw [ec, if_neg hl', if_pos rfl]
  · rw [ec, if_neg hl', if_pos rfl]
  · rw [ec, if_neg hl', if_pos rfl]
  · rw [ec, if_neg hl', if_pos rfl]
  · rw [ec, if_pos rfl]
    rfl
  · rw [ec, if_pos rfl]
    rfl
  · rw [ec, if_pos rfl]
    rfl
  · rw [ec, if_pos rfl]
    rfl
  · rw [ec, if_pos rfl]
    rfl
  · rw [ec, if_pos rfl]
    rfl

/-- C10: in a reachable state, when the move of session `sd` is accepted and
`check_winner` gives `DRAW` (the board is full and no line is complete),
`handle_move_command` returns a state in which the game is `GAME_ENDED` with
last result `DRAW`, its owner `oc` and its opponent `pc` are the same two
sessions as before, still attached to it, and the turn flags of both are
false. -/
theorem draw_ends_game (master_socket : Int) (s : Server) (sd : Int) (buffer : List Char)
    (cur k : Nat) (rc : Int × Int)
    (hr : Reachable master_socket s) (hsd : 0 < sd)
    (hcur : find_client_by_fd s sd = some cur)
    (hstatus : (s.client cur).status = PlayerStatus.PLAYER_IN_GAME)
    (hk : find_game_by_id s (s.client cur).game_id = some k)
    (hstate : (s.game k).state = GameState.GAME_IN_PROGRESS)
    (hturn : (s.client cur).is_current_turn = true)
    (hrc : sscanf_move buffer = some rc)
    (hmv : (make_move (s.game k).tris_game rc.1 rc.2).1 = 0)
    (hdraw : check_winner (make_move (s.game k).tris_game rc.1 rc.2).2 = GameResult.DRAW) :
    ∃ (oc pc : Nat) (s1 : Server), handle_move_command s sd buffer = some s1 ∧
      oc ≠ pc ∧ (cur = oc ∨ cur = pc) ∧
      (s1.game k).state = GameState.GAME_ENDED ∧
      (s1.game k).last_result = GameResult.DRAW ∧
      (s1.game k).id = (s.game k).id ∧ (s1.game k).id ≠ -1 ∧
      (s1.game k).owner_fd = (s.game k).owner_fd ∧
      (s1.game k).opponent_fd = (s.game k).opponent_fd ∧
      (s1.game k).opponent_fd ≠ -1 ∧
      (s1.client oc).fd = (s1.game k).owner_fd ∧
      (s1.client pc).fd = (s1.game k).opponent_fd ∧
      (s1.client oc).game_id = (s1.game k).id ∧
      (s1.client pc).game_id = (s1.game k).id ∧
      (s1.client oc).status = (s.client oc).status ∧
      (s1.client pc).status = (s.client pc).status ∧
      (s1.client oc).is_current_turn = false ∧
      (s1.client pc).is_current_turn = false := by
  have h := reachable_inv hr
  obtain ⟨oc, pc, s1, e, hne, _, _, _, hocc, hopp, hofd, hpfd, hog, hpg, hrole, ec, eg, _⟩ :=
    move_draw_effect h sd hsd buffer cur k rc hcur hstatus hk hstate hturn hrc hmv hdraw
  have eo : s1.client oc = { s.client oc with is_current_turn := false } := by
    rw [ec, if_pos (Or.inl rfl)]
  have ep : s1.client pc = { s.client pc with is_current_turn := false } := by
    rw [ec, if_pos (Or.inr rfl)]
  have ek := eg k
  rw [if_pos rfl] at ek
  refine ⟨oc, pc, s1, e, hne, hrole, ?_, ?_, ?_, ?_, ?_, ?_, ?_, ?_, ?_, ?_, ?_, ?_, ?_, ?_, ?_⟩
  · rw [ek]
  · rw [ek]
  · rw [ek]
  · rw [ek]
    exact hocc
  · rw [ek]
  · rw [ek]
  · rw [ek]
    exact hopp
  · rw [ek, eo]
    exact hofd
  · rw [ek, ep]
    exact hpfd
  · rw [ek, eo]
    exact hog
  · rw [ek, ep]
    exact hpg
  · rw [eo]
  · rw [ep]
  · rw [eo]
  · rw [ep]

/-- C8: in a reachable state with the game of session `sd` in `GAME_ENDED`
and last result `DRAW`, `handle_rematch_command` returns, and with `o` the
other participant: if the rematch flag of `o` is not set (it has not asked),
only the flag of the requester is set, whether or not it was set before, and
every game is unchanged, so the game stays `GAME_ENDED`; if the flag of `o` is
set (it asked before), the game becomes `GAME_IN_PROGRESS` with an empty
board, last result `IN_PROGRESS` and both rematch flags false. The game is in
progress afterwards exactly when the other participant had asked. -/
theorem rematch_protocol (master_socket : Int) (s : Server) (sd : Int) (cur k : Nat)
    (hr : Reachable master_socket s) (hsd : 0 < sd)
    (hcur : find_client_by_fd s sd = some cur)
    (hk : find_game_by_id s (s.client cur).game_id = some k)
    (hstate : (s.game k).state = GameState.GAME_ENDED)
    (hres : (s.game k).last_result = GameResult.DRAW) :
    ∃ (o : Nat) (s1 : Server), handle_rematch_command s sd = some s1 ∧
      o ≠ cur ∧ (o : Int) < s.num_clients ∧
      (((s.client cur).fd = (s.game k).owner_fd ∧ (s.client o).fd = (s.game k).opponent_fd) ∨
        ((s.client cur).fd = (s.game k).opponent_fd ∧ (s.client o).fd = (s.game k).owner_fd)) ∧
      ((s.client o).wants_rematch = false →
        s1.client cur = { s.client cur with wants_rematch := true } ∧
        (∀ j, j ≠ cur → s1.client j = s.client j) ∧
        (∀ m, s1.game m = s.game m) ∧
        (s1.game k).state = GameState.GAME_ENDED) ∧
      ((s.client o).wants_rematch = true →
        (s1.game k).state = GameState.GAME_IN_PROGRESS ∧
        (∀ r c, (s1.game k).tris_game.cell r c = Cell.EMPTY) ∧
        (s1.game k).last_result = GameResult.IN_PROGRESS ∧
        (s1.client cur).wants_rematch = false ∧ (s1.client o).wants_rematch = false) ∧
      ((s1.game k).state = GameState.GAME_IN_PROGRESS ↔ (s.client o).wants_rematch = true) := by
  have h := reachable_inv hr
  obtain ⟨hk5, hid⟩ := find_game_some hk
  have hgid : (s.client cur).game_id ≠ -1 := by
    intro x
    have hfree := h.cinv.g_free k hk5
    simp only [core] at hfree
    rw [hfree (hid.trans x)] at hstate
    exact absurd hstate (by decide)
  obtain ⟨oc, pc, s1, e, hne, hon, hpn, _, _, hofd, hpfd, _, _, hrc, hA, hB, _⟩ :=
    rematch_effect h sd hsd cur k hcur hgid hk hstate hres
  have hne' : pc ≠ oc := fun x => hne x.symm
  have key : ∀ o : Nat, o = (if cur = oc then pc else oc) → o ≠ cur →
      ((s.client o).wants_rematch = false →
        s1.client cur = { s.client cur with wants_rematch := true } ∧
        (∀ j, j ≠ cur → s1.client j = s.client j) ∧
        (∀ m, s1.game m = s.game m) ∧
        (s1.game k).state = GameState.GAME_ENDED) ∧
      ((s.client o).wants_rematch = true →
        (s1.game k).state = GameState.GAME_IN_PROGRESS ∧
        (∀ r c, (s1.game k).tris_game.cell r c = Cell.EMPTY) ∧
        (s1.game k).last_result = GameResult.IN_PROGRESS ∧
        (s1.client cur).wants_rematch = false ∧ (s1.client o).wants_rematch = false) ∧
      ((s1.game k).state = GameState.GAME_IN_PROGRESS ↔ (s.client o).wants_rematch = true) := by
    intro o ho hoc
    have hco : cur = oc ∨ o = oc := by
      rcases hrc with x | x
      · exact Or.inl x
      · right
        rw [ho, if_neg (by rw [x]; exact hne')]
    have hcp : cur = pc ∨ o = pc := by
      rcases hrc with x | x
      · right
        rw [ho, if_pos x]
      · exact Or.inl x
    have h1 : (s.client o).wants_rematch = false →
        s1.client cur = { s.client cur with wants_rematch := true } ∧
        (∀ j, j ≠ cur → s1.client j = s.client j) ∧
        (∀ m, s1.game m = s.game m) ∧
        (s1.game k).state = GameState.GAME_ENDED := by
      intro hf
      obtain ⟨ec, eg⟩ := hA (ho ▸ hf)
      refine ⟨?_, ?_, eg, ?_⟩
      · rw [ec, if_pos rfl]
      · intro j hj
        rw [ec, if_neg hj]
      · rw [eg]
        exact hstate
    have h2 : (s.client o).wants_rematch = true →
        (s1.game k).state = GameState.GAME_IN_PROGRESS ∧
        (∀ r c, (s1.game k).tris_game.cell r c = Cell.EMPTY) ∧
        (s1.game k).last_result = GameResult.IN_PROGRESS ∧
        (s1.client cur).wants_rematch = false ∧ (s1.client o).wants_rematch = false := by
      intro ht
      obtain ⟨ec, eg⟩ := hB (ho ▸ ht)
      have ek := eg k
      rw [if_pos rfl] at ek
      have ew : ∀ j, j = oc ∨ j = pc → (s1.client j).wants_rematch = false := by
        intro j hj
        rw [ec]
        rcases hj with x | x
        · rw [if_pos x]
        · rw [if_neg (by rw [x]; exact hne'), if_pos x]
      refine ⟨?_, ?_, ?_, ew cur hrc, ?_⟩
      · rw [ek]
      · intro r c
        rw [ek]
        exact cell_init_game (s.game k).tris_game r c
      · rw [ek]
      · apply ew
        rcases hco with x | x
        · rcases hcp with y | y
          · exact absurd (x.symm.trans y) hne
          · exact Or.inr y
        · exact Or.inl x
    refine ⟨h1, h2, ?_⟩
    constructor
    · intro hs
      by_contra hn
      have hf : (s.client o).wants_rematch = false := by simpa using hn
      rw [(h1 hf).2.2.2] at hs
      exact absurd hs (by decide)
    · intro ht
      exact (h2 ht).1
  rcases hrc with x | x
  · have ho : pc = (if cur = oc then pc else oc) := by rw [if_pos x]
    refine ⟨pc, s1, e, by rw [x]; exact hne', hpn, ?_, key pc ho (by rw [x]; exact hne')⟩
    left
    rw [x]
    exact ⟨hofd, hpfd⟩
  · have hx : ¬ cur = oc := by rw [x]; exact hne'
    have ho : oc = (if cur = oc then pc else oc) := by rw [if_neg hx]
    refine ⟨oc, s1, e, by rw [x]; exact hne, hon, ?_, key oc ho (by rw [x]; exact hne)⟩
    right
    rw [x]
    exact ⟨hpfd, hofd⟩

set_option maxRecDepth 100000

/-- The recycle of C9 on the game of sessions 4 and 5, when 4 completes the
top row. -/
theorem win_recycles_game_witness :
    ∃ (l : Nat) (s1 : Server),
      handle_move_command (state_after 3 trace_before_win) 4 "move 0 2".toList = some s1 ∧
      l ≠ 0 ∧ (s1.game 0).owner_fd = 4 ∧ (s1.game 0).opponent_fd = -1 ∧
      (s1.game 0).state = GameState.GAME_WAITING_FOR_PLAYER ∧
      (s1.client 0).player_symbol = Cell.X ∧ (s1.client l).game_id = -1 := by
  obtain ⟨l, s1, e, hl, _, _, _, ho, hp, hs, _, _, _, _, hx, _, _, _, _, hg, _⟩ :=
    win_recycles_game 3 (state_after 3 trace_before_win) 4 "move 0 2".toList 0 0 (0, 2)
      (reachable_state_after 3 trace_before_win) (by decide) (by decide) (by decide)
      (by decide) (by decide) (by decide) (by decide) (by decide) (by decide)
  exact ⟨l, s1, e, hl, ho, hp, hs, hx, hg⟩

/-- The end of C10 on the game of sessions 4 and 5, when 4 fills the last
cell. -/
theorem draw_ends_game_witness :
    ∃ (oc pc : Nat) (s1 : Server),
      handle_move_command (state_after 3 trace_before_draw) 4 "move 2 2".toList = some s1 ∧
      oc ≠ pc ∧ (s1.game 0).state = GameState.GAME_ENDED ∧
      (s1.game 0).last_result = GameResult.DRAW ∧
      (s1.client oc).is_current_turn = false ∧ (s1.client pc).is_current_turn = false := by
  obtain ⟨oc, pc, s1, e, hne, _, hs, hres, _, _, _, _, _, _, _, _, _, _, _, hto, htp⟩ :=
    draw_ends_game 3 (state_after 3 trace_before_draw) 4 "move 2 2".toList 0 0 (2, 2)
      (reachable_state_after 3 trace_before_draw) (by decide) (by decide) (by decide)
      (by decide) (by decide) (by decide) (by decide) (by decide) (by decide)
  exact ⟨oc, pc, s1, e, hne, hs, hres, hto, htp⟩

/-- The protocol of C8 on the game of sessions 4 and 5 after their draw: the
request of 5 when 4 has not asked, and the request of 5 after 4 has asked. -/
theorem rematch_protocol_witness :
    (∃ s1 : Server,
      handle_rematch_command (state_after 3 trace_draw) 5 = some s1 ∧
      (s1.client 1).wants_rematch = true ∧ (s1.client 0).wants_rematch = false ∧
      (s1.game 0).state = GameState.GAME_ENDED) ∧
    (∃ s1 : Server,
      handle_rematch_command (state_after 3 (trace_draw ++ [cmd 4 "rematch"])) 5 = some s1 ∧
      (s1.game 0).state = GameState.GAME_IN_PROGRESS ∧
      (s1.game 0).last_result = GameResult.IN_PROGRESS ∧
      (s1.client 1).wants_rematch = false ∧ (s1.client 0).wants_rematch = false) := by
  constructor
  · obtain ⟨o, s1, e, ho, hn, _, hA, _, _⟩ :=
      rematch_protocol 3 (state_after 3 trace_draw) 5 1 0
        (reachable_state_after 3 trace_draw) (by decide) (by decide) (by decide) (by decide)
        (by decide)
    have hn2 : (state_after 3 trace_draw).num_clients = 2 := by decide
    rw [hn2] at hn
    have ho0 : o = 0 := by omega
    subst ho0
    obtain ⟨e1, e2, _, e4⟩ := hA (by decide)
    refine ⟨s1, e, ?_, ?_, e4⟩
    · rw [e1]
    · rw [e2 0 (by decide)]
      decide
  · obtain ⟨o, s1, e, ho, hn, _, _, hB, _⟩ :=
      rematch_protocol 3 (state_after 3 (trace_draw ++ [cmd 4 "rematch"])) 5 1 0
        (reachable_state_after 3 (trace_draw ++ [cmd 4 "rematch"])) (by decide) (by decide)
        (by decide) (by decide) (by decide)
    have hn2 : (state_after 3 (trace_draw ++ [cmd 4 "rematch"])).num_clients = 2 := by decide
    rw [hn2] at hn
    have ho0 : o = 0 := by omega
    subst ho0
    obtain ⟨e1, _, e3, e4, e5⟩ := hB (by decide)
    exact ⟨s1, e, e1, e3, e4, e5⟩

/-- C6, the code at the failing input: sessions 4, 5 and 6 connect, 4 creates
game 1, 5 joins and is accepted, 4 plays one move, 5 leaves and 6 joins. In
the state reached, session 4 owns the game, which waits for a player with
opponent 6 attached; `accept` from 4 puts the game in progress and the
opponent in game, but leaves the turn flag of the owner false and the turn
flag of the opponent true. -/
theorem accept_after_leave_turn_flags :
    Reachable 3 (state_after 3 trace_rejoined) ∧
    (run_admissible 3 (init_server 3) trace_rejoined).isSome = true ∧
    find_client_by_fd (state_after 3 trace_rejoined) 4 = some 0 ∧
    find_client_by_fd (state_after 3 trace_rejoined) 6 = some 2 ∧
    ((state_after 3 trace_rejoined).game 0).owner_fd = 4 ∧
    ((state_after 3 trace_rejoined).game 0).opponent_fd = 6 ∧
    ((state_after 3 trace_rejoined).game 0).state = GameState.GAME_WAITING_FOR_PLAYER ∧
    step (state_after 3 trace_rejoined) (cmd 4 "accept") =
      some (handle_accept_command (state_after 3 trace_rejoined) 4 0) ∧
    ((handle_accept_command (state_after 3 trace_rejoined) 4 0).game 0).state =
      GameState.GAME_IN_PROGRESS ∧
    ((handle_accept_command (state_after 3 trace_rejoined) 4 0).client 2).status =
      PlayerStatus.PLAYER_IN_GAME ∧
    ((handle_accept_command (state_after 3 trace_rejoined) 4 0).client 0).is_current_turn = false ∧
    ((handle_accept_command (state_after 3 trace_rejoined) 4 0).client 2).is_current_turn = true :=
  ⟨reachable_state_after 3 trace_rejoined, by decide, by decide, by decide, by decide, by decide,
    by decide, by decide, by decide, by decide, by decide, by decide⟩

/-- C7, the code at the failing input: sessions 4 (owner) and 5 (opponent)
play game 1 to a draw three rounds in a row, asking for a rematch after each
draw. Round 1 is started by 4; round 2, after the first rematch, is started by
5; round 3, after the second rematch, is started by 5 again. -/
theorem rematch_starter_repeats :
    Reachable 3 (state_after 3 trace_rematch2) ∧
    (run_admissible 3 (init_server 3) trace_rematch2).isSome = true ∧
    (((state_after 3 trace_started).game 0).tris_game.turn = 0 ∧
      ((state_after 3 trace_started).client 0).is_current_turn = true ∧
      ((state_after 3 trace_started).client 1).is_current_turn = false) ∧
    (((state_after 3 trace_draw).game 0).state = GameState.GAME_ENDED ∧
      ((state_after 3 trace_draw).game 0).last_result = GameResult.DRAW) ∧
    (((state_after 3 trace_rematch).game 0).state = GameState.GAME_IN_PROGRESS ∧
      ((state_after 3 trace_rematch).game 0).tris_game.turn = 1 ∧
      ((state_after 3 trace_rematch).client 0).is_current_turn = false ∧
      ((state_after 3 trace_rematch).client 1).is_current_turn = true) ∧
    (((state_after 3 trace_draw2).game 0).state = GameState.GAME_ENDED ∧
      ((state_after 3 trace_draw2).game 0).last_result = GameResult.DRAW) ∧
    (((state_after 3 trace_rematch2).game 0).state = GameState.GAME_IN_PROGRESS ∧
      ((state_after 3 trace_rematch2).game 0).tris_game.turn = 1 ∧
      ((state_after 3 trace_rematch2).client 0).is_current_turn = false ∧
      ((state_after 3 trace_rematch2).client 1).is_current_turn = true) :=
  ⟨reachable_state_after 3 trace_rematch2, by decide, by decide, by decide, by decide, by decide,
    by decide⟩

/-! ## Theorems: the effect of each command -/

theorem unchanged_refl (s : Server) : unchanged s s := ⟨rfl, rfl, rfl, rfl, rfl, rfl, rfl⟩

theorem unchanged_trans {s s1 s2 : Server} (h1 : unchanged s s1) (h2 : unchanged s1 s2) :
    unchanged s s2 := by
  obtain ⟨a1, a2, a3, a4, a5, a6, a7⟩ := h1
  obtain ⟨b1, b2, b3, b4, b5, b6, b7⟩ := h2
  exact ⟨b1.trans a1, b2.trans a2, b3.trans a3, b4.trans a4, b5.trans a5, b6.trans a6,
    b7.trans a7⟩

theorem unchanged_send (s : Server) (fd : Int) (m : String) :
    unchanged s (send_to_client s fd m) := by
  unfold send_to_client
  split_ifs
  · exact ⟨rfl, rfl, rfl, rfl, rfl, rfl, rfl⟩
  · exact unchanged_refl s

theorem unchanged_client {s s1 : Server} (h : unchanged s s1) (i : Nat) :
    s1.client i = s.client i := by
  simp only [Server.client, h.1]

theorem unchanged_game {s s1 : Server} (h : unchanged s s1) (k : Nat) :
    s1.game k = s.game k := by
  simp only [Server.game, h.2.1]

theorem unchanged_print_game_list (s : Server) (fd : Int) :
    unchanged s (print_game_list s fd) := by
  unfold print_game_list
  exact unchanged_send s fd _

theorem unchanged_notify_aux (k : Nat) (m : String) (l : List Nat) (s : Server) :
    unchanged s (l.foldl (fun s i =>
      if (s.client i).fd > 0 ∧ (s.client i).fd ≠ (s.game k).owner_fd
          ∧ (s.client i).fd ≠ (s.game k).opponent_fd then
        send_to_client s (s.client i).fd m
      else s) s) := by
  induction l generalizing s with
  | nil => exact unchanged_refl s
  | cons a l ih =>
    simp only [List.foldl_cons]
    refine unchanged_trans ?_ (ih _)
    split_ifs
    · exact unchanged_send s _ _
    · exact unchanged_refl s

theorem unchanged_notify (s : Server) (k : Nat) (m : String) :
    unchanged s (notify_all_spectators s k m) := by
  unfold notify_all_spectators
  exact unchanged_notify_aux k m _ s

@[simp] theorem client_notify (s : Server) (k : Nat) (m : String) (i : Nat) :
    (notify_all_spectators s k m).client i = s.client i :=
  unchanged_client (unchanged_notify s k m) i

@[simp] theorem game_notify (s : Server) (k : Nat) (m : String) (l : Nat) :
    (notify_all_spectators s k m).game l = s.game l :=
  unchanged_game (unchanged_notify s k m) l

/-- `send_game_state_to_players` changes neither the game table nor the
counters. -/
theorem send_game_state_frame (s : Server) (k : Nat) :
    (send_game_state_to_players s k).games = s.games ∧
    (send_game_state_to_players s k).num_clients = s.num_clients ∧
    (send_game_state_to_players s k).num_games = s.num_games ∧
    (send_game_state_to_players s k).next_game_id = s.next_game_id ∧
    (send_game_state_to_players s k).clients.length = s.clients.length := by
  unfold send_game_state_to_players
  simp only []
  split_ifs <;>
    simp only [games_send, games_set_turn, num_clients_send, num_clients_set_turn,
      num_games_send, num_games_set_turn, next_game_id_send, next_game_id_set_turn,
      clients_send, clients_set_turn_length, and_self]

/-- The state left by a `create` that finds a free slot, slot by slot. -/
theorem create_effect {s : Server} (h : Inv s) (sd : Int) (cur k : Nat)
    (hcn : (cur : Int) < s.num_clients)
    (_hg : (s.client cur).game_id = -1) (hn : s.num_games < 5)
    (hk : (List.range MAX_GAMES).find? (fun j => (s.game j).id == -1) = some k) :
    k < 5 ∧ (s.game k).id = -1 ∧ (∀ m, m < k → (s.game m).id ≠ -1) ∧
    (∀ j, (create_game s sd cur k).client j =
      if j = cur then
        { s.client cur with
          game_id := s.next_game_id, status := PlayerStatus.PLAYER_IN_GAME,
          player_symbol := Cell.X, is_current_turn := false, wants_rematch := false }
      else s.client j) ∧
    (∀ m, (create_game s sd cur k).game m =
      if m = k then
        { s.game k with
          id := s.next_game_id, owner_fd := sd, opponent_fd := -1,
          state := GameState.GAME_WAITING_FOR_PLAYER, last_result := GameResult.IN_PROGRESS,
          tris_game := init_game (s.game k).tris_game }
      else s.game m) ∧
    (create_game s sd cur k).clients.length = 10 ∧
    (create_game s sd cur k).games.length = 5 ∧
    (create_game s sd cur k).num_clients = s.num_clients ∧
    (create_game s sd cur k).next_game_id = s.next_game_id + 1 ∧
    (create_game s sd cur k).num_games = s.num_games + 1 := by
  have hr := h.cinv.n_range
  simp only [core] at hr
  have hc10 : cur < 10 := by omega
  obtain ⟨hk5, hfree⟩ := find_range_some _ _ _ hk
  have hfirst := find_range_first _ _ _ hk
  simp only [MAX_GAMES] at hk5
  simp only [beq_iff_eq] at hfree
  have hn' : ¬ s.num_games ≥ (MAX_GAMES : Int) := by simp only [MAX_GAMES]; omega
  refine ⟨hk5, hfree, ?_, ?_⟩
  · intro m hm
    have := hfirst m hm
    simpa using this
  unfold create_game
  simp only []
  refine ⟨fun j => ?_, fun m => ?_, ?_, ?_, ?_, ?_, ?_⟩
  · rw [client_notify, client_send]
    simp only [Server.client, Server.game, Server.setClient, Server.setGame, getD_set,
      List.length_set, h.1, h.2.1, hc10, hk5, and_true, if_true]
  · rw [game_notify, game_send]
    simp only [Server.client, Server.game, Server.setClient, Server.setGame, getD_set,
      List.length_set, h.1, h.2.1, hc10, hk5, and_true, if_true]
  · rw [(unchanged_notify _ _ _).1, clients_send]
    simp only [Server.setClient, Server.setGame, List.length_set, h.1]
  · rw [(unchanged_notify _ _ _).2.1, games_send]
    simp only [Server.setClient, Server.setGame, List.length_set, h.2.1]
  · rw [(unchanged_notify _ _ _).2.2.1, num_clients_send]
    rfl
  · rw [(unchanged_notify _ _ _).2.2.2.2.1, next_game_id_send]
    rfl
  · rw [(unchanged_notify _ _ _).2.2.2.1, num_games_send]
    rfl

/-- The state left by a `join` that attaches the requester, slot by slot. -/
theorem join_effect {s : Server} (h : Inv s) (sd : Int) (cur k : Nat) (line : List Char)
    (hcn : (cur : Int) < s.num_clients)
    (hg : (s.client cur).game_id = -1)
    (hk : find_game_by_id s (atoi (line.drop 5)) = some k)
    (hocc : (s.game k).id ≠ -1)
    (hst1 : (s.game k).state ≠ GameState.GAME_IN_PROGRESS)
    (hst2 : (s.game k).state ≠ GameState.GAME_ENDED)
    (hopp : (s.game k).opponent_fd = -1)
    (hown : (s.game k).owner_fd ≠ sd) :
    (∀ j, (handle_join_command s sd cur line).client j =
      if j = cur then
        { s.client cur with
          game_id := (s.game k).id, status := PlayerStatus.PLAYER_WAITING_ACCEPT,
          player_symbol := Cell.O, is_current_turn := false, wants_rematch := false }
      else s.client j) ∧
    (∀ m, (handle_join_command s sd cur line).game m =
      if m = k then { s.game k with opponent_fd := sd } else s.game m) ∧
    (handle_join_command s sd cur line).clients.length = 10 ∧
    (handle_join_command s sd cur line).games.length = 5 ∧
    (handle_join_command s sd cur line).num_clients = s.num_clients ∧
    (handle_join_command s sd cur line).next_game_id = s.next_game_id ∧
    (handle_join_command s sd cur line).num_games = s.num_games := by
  have hr := h.cinv.n_range
  simp only [core] at hr
  have hc10 : cur < 10 := by omega
  obtain ⟨hk5, _⟩ := find_game_some hk
  unfold handle_join_command
  rw [if_neg (by simp [hg])]
  simp only []
  rw [hk]
  simp only []
  rw [if_neg hocc, if_neg (by simp [hst1, hst2, hopp]), if_neg hown]
  refine ⟨fun j => ?_, fun m => ?_, ?_, ?_, ?_, ?_, ?_⟩
  · simp only [client_send, client_setClient, client_setGame, game_setGame, clients_setGame,
      h.1, h.2.1, hc10, hk5, and_true, if_true]
  · simp only [game_send, game_setClient, game_setGame, h.2.1, hk5, and_true]
  · simp only [clients_send, clients_length_setClient, clients_setGame, h.1]
  · simp only [games_send, games_setClient, games_length_setGame, h.2.1]
  · simp only [num_clients_send, num_clients_setClient, num_clients_setGame]
  · simp only [next_game_id_send, next_game_id_setClient, next_game_id_setGame]
  · simp only [num_games_send, num_games_setClient, num_games_setGame]

/-- The cases in which `join` only answers with a message. -/
theorem join_rejected (s : Server) (sd : Int) (cur : Nat) (line : List Char)
    (hrej : (s.client cur).game_id ≠ -1 ∨
      find_game_by_id s (atoi (line.drop 5)) = none ∨
      ∃ k, find_game_by_id s (atoi (line.drop 5)) = some k ∧
        ((s.game k).id = -1 ∨ (s.game k).state = GameState.GAME_IN_PROGRESS ∨
          (s.game k).state = GameState.GAME_ENDED ∨ (s.game k).opponent_fd ≠ -1 ∨
          (s.game k).owner_fd = sd)) :
    ∃ m, handle_join_command s sd cur line = send_to_client s sd m := by
  unfold handle_join_command
  split_ifs with h1
  · exact ⟨_, rfl⟩
  · simp only []
    rcases hrej with x | x | ⟨k, hk, x⟩
    · exact absurd x h1
    · rw [x]
      exact ⟨_, rfl⟩
    · rw [hk]
      simp only []
      split_ifs with h2 h3 h4
      · exact ⟨_, rfl⟩
      · exact ⟨_, rfl⟩
      · exact ⟨_, rfl⟩
      · exfalso
        rcases x with x | x | x | x | x
        · exact h2 x
        · exact h3 (Or.inl x)
        · exact h3 (Or.inr (Or.inl x))
        · exact h3 (Or.inr (Or.inr x))
        · exact h4 x

@[simp] theorem num_games_cleanup_game (s : Server) (k : Nat) :
    (cleanup_game s k).num_games = if s.num_games - 1 < 0 then 0 else s.num_games - 1 := by
  unfold cleanup_game
  simp only []
  split_ifs <;> first | rfl | (simp_all [Server.setGame])

/-- The state left by `remove_client_from_game` when the opponent of a game
leaves, slot by slot. -/
theorem remove_from_game_opp_effect {s : Server} (h : Inv s) (fd : Int) (hfd : 0 < fd)
    (i k : Nat) (hi : find_client_by_fd s fd = some i)
    (hg : (s.client i).game_id ≠ -1)
    (hk : find_game_by_id s (s.client i).game_id = some k)
    (hrole : (s.game k).opponent_fd = fd) :
    (∀ j, (remove_client_from_game s fd).client j =
      if j = i then reset_client (s.client i) else s.client j) ∧
    (∀ m, (remove_client_from_game s fd).game m =
      if m = k then
        { s.game k with opponent_fd := -1, state := GameState.GAME_WAITING_FOR_PLAYER }
      else s.game m) ∧
    (remove_client_from_game s fd).clients.length = 10 ∧
    (remove_client_from_game s fd).games.length = 5 ∧
    (remove_client_from_game s fd).num_clients = s.num_clients ∧
    (remove_client_from_game s fd).next_game_id = s.next_game_id ∧
    (remove_client_from_game s fd).num_games = s.num_games := by
  have hr := h.cinv.n_range
  simp only [core] at hr
  obtain ⟨hin, hifd⟩ := h.find_client_reg hfd hi
  have hi10 : i < 10 := by omega
  obtain ⟨hk5, hid⟩ := find_game_some hk
  have hocc : (core s).gid k ≠ -1 := by
    simp only [core]
    rw [hid]
    exact hg
  have hown := h.cinv.owner_pos hk5 hocc
  simp only [core] at hown
  have hown' : (s.game k).owner_fd ≠ -1 := by omega
  unfold remove_client_from_game
  rw [hi]
  simp only []
  rw [if_neg hg, hk]
  simp only [game_setGame, game_send, h.2.1, hk5, and_true, if_true, hrole, hifd, hown',
    ne_eq, not_false_eq_true]
  refine ⟨fun j => ?_, fun m => ?_, ?_, ?_, ?_, ?_, ?_⟩
  · simp only [client_setClient, client_setGame, client_send, clients_setGame, clients_send,
      h.1, hi10, and_true]
  · simp only [game_setClient, game_setGame, game_send, games_length_setGame, games_send,
      h.2.1, hk5, and_true]
    split_ifs <;> rfl
  · simp only [clients_length_setClient, clients_setGame, clients_send, h.1]
  · simp only [games_setClient, games_length_setGame, games_send, h.2.1]
  · simp only [num_clients_setClient, num_clients_setGame, num_clients_send]
  · simp only [next_game_id_setClient, next_game_id_setGame, next_game_id_send]
  · simp only [num_games_setClient, num_games_setGame, num_games_send]

/-- The state left by `remove_client_from_game` when the owner of a game
leaves while an opponent is attached, slot by slot. -/
theorem remove_from_game_owner_effect {s : Server} (h : Inv s) (fd : Int) (hfd : 0 < fd)
    (i k : Nat) (hi : find_client_by_fd s fd = some i)
    (hg : (s.client i).game_id ≠ -1)
    (hk : find_game_by_id s (s.client i).game_id = some k)
    (hrole : (s.game k).owner_fd = fd)
    (hopp : (s.game k).opponent_fd ≠ -1) :
    ∃ p : Nat, p ≠ i ∧ (p : Int) < s.num_clients ∧
      find_client_by_fd s (s.game k).opponent_fd = some p ∧
      (s.client p).fd = (s.game k).opponent_fd ∧
      (∀ j, (remove_client_from_game s fd).client j =
        if j = i then reset_client (s.client i)
        else if j = p then reset_client (s.client p) else s.client j) ∧
      (∀ m, (remove_client_from_game s fd).game m =
        if m = k then
          { s.game k with
            id := -1, state := GameState.GAME_NEW, owner_fd := -1, opponent_fd := -1,
            last_result := GameResult.IN_PROGRESS }
        else s.game m) ∧
      (remove_client_from_game s fd).clients.length = 10 ∧
      (remove_client_from_game s fd).games.length = 5 ∧
      (remove_client_from_game s fd).num_clients = s.num_clients ∧
      (remove_client_from_game s fd).next_game_id = s.next_game_id ∧
      (remove_client_from_game s fd).num_games =
        if s.num_games - 1 < 0 then 0 else s.num_games - 1 := by
  have hr := h.cinv.n_range
  simp only [core] at hr
  obtain ⟨hin, hifd⟩ := h.find_client_reg hfd hi
  have hi10 : i < 10 := by omega
  obtain ⟨hk5, hid⟩ := find_game_some hk
  have hocc : (core s).gid k ≠ -1 := by
    simp only [core]
    rw [hid]
    exact hg
  obtain ⟨hne, p, hpn, hpfd, _⟩ := h.cinv.g_opp k hk5 hocc (by simp only [core]; exact hopp)
  simp only [core] at hne hpn hpfd
  have hp10 : p < 10 := by omega
  have hfp : find_client_by_fd s (s.game k).opponent_fd = some p := by
    rw [← hpfd]
    exact h.find_client_of_reg hpn
  have hpi : p ≠ i := by
    intro e
    rw [e, hifd, ← hrole] at hpfd
    exact hne hpfd.symm
  have hx : ¬ (s.game k).opponent_fd = fd := by
    rw [← hrole]
    exact hne
  refine ⟨p, hpi, hpn, hfp, hpfd, ?_⟩
  unfold remove_client_from_game
  rw [hi]
  simp only []
  rw [if_neg hg, hk]
  simp only [hifd, if_neg hx, hrole, if_true, hopp, ne_eq, not_false_eq_true, game_send,
    find_client_send, hfp]
  refine ⟨fun j => ?_, fun m => ?_, ?_, ?_, ?_, ?_, ?_⟩
  · simp only [client_setClient, client_cleanup_game, client_send, clients_cleanup_game,
      clients_length_setClient, clients_send, h.1, hi10, hp10, and_true, if_neg hpi.symm]
  · simp only [game_setClient, game_cleanup_game, game_send, games_setClient, games_send,
      h.2.1, hk5, and_true]
  · simp only [clients_length_setClient, clients_cleanup_game, clients_send, h.1]
  · simp only [games_setClient, games_length_cleanup_game, games_send, h.2.1]
  · simp only [num_clients_setClient, num_clients_cleanup_game, num_clients_send]
  · simp only [next_game_id_setClient, next_game_id_cleanup_game, next_game_id_send]
  · simp only [num_games_setClient, num_games_cleanup_game, num_games_send]

/-- The state left by `remove_client_from_game` when the owner of a game
without opponent leaves, slot by slot. -/
theorem remove_from_game_alone_effect {s : Server} (h : Inv s) (fd : Int) (hfd : 0 < fd)
    (i k : Nat) (hi : find_client_by_fd s fd = some i)
    (hg : (s.client i).game_id ≠ -1)
    (hk : find_game_by_id s (s.client i).game_id = some k)
    (hopp : (s.game k).opponent_fd = -1) :
    (s.game k).owner_fd = fd ∧
    (∀ j, (remove_client_from_game s fd).client j =
      if j = i then reset_client (s.client i) else s.client j) ∧
    (∀ m, (remove_client_from_game s fd).game m =
      if m = k then
        { s.game k with
          id := -1, state := GameState.GAME_NEW, owner_fd := -1, opponent_fd := -1,
          last_result := GameResult.IN_PROGRESS }
      else s.game m) ∧
    (remove_client_from_game s fd).clients.length = 10 ∧
    (remove_client_from_game s fd).games.length = 5 ∧
    (remove_client_from_game s fd).num_clients = s.num_clients ∧
    (remove_client_from_game s fd).next_game_id = s.next_game_id ∧
    (remove_client_from_game s fd).num_games =
      if s.num_games - 1 < 0 then 0 else s.num_games - 1 := by
  have hr := h.cinv.n_range
  simp only [core] at hr
  obtain ⟨hin, hifd⟩ := h.find_client_reg hfd hi
  have hi10 : i < 10 := by omega
  obtain ⟨hk5, hid⟩ := find_game_some hk
  have hocc : (core s).gid k ≠ -1 := by
    simp only [core]
    rw [hid]
    exact hg
  have hrole : (s.game k).owner_fd = fd := by
    rcases h.cinv.role_of_gid hk5 hin (by simp only [core]; exact hg)
      (by simp only [core]; exact hid) with e | e
    · simp only [core] at e
      rw [e, hifd]
    · simp only [core] at e
      rw [hopp, hifd] at e
      omega
  have hx : ¬ (s.game k).opponent_fd = fd := by
    rw [hopp]
    omega
  refine ⟨hrole, ?_⟩
  unfold remove_client_from_game
  rw [hi]
  simp only []
  rw [if_neg hg, hk]
  have hx' : ¬ (-1 : Int) = fd := by omega
  simp only [hifd, hopp, if_neg hx', hrole, if_true, ne_eq, not_true_eq_false, if_false]
  refine ⟨fun j => ?_, fun m => ?_, ?_, ?_, ?_, ?_, ?_⟩
  · simp only [client_setClient, client_cleanup_game, clients_cleanup_game, h.1, hi10, and_true]
  · simp only [game_setClient, game_cleanup_game, h.2.1, hk5, and_true, hopp]
  · simp only [clients_length_setClient, clients_cleanup_game, h.1]
  · simp only [games_setClient, games_length_cleanup_game, h.2.1]
  · simp only [num_clients_setClient, num_clients_cleanup_game]
  · simp only [next_game_id_setClient, next_game_id_cleanup_game]
  · simp only [num_games_setClient, num_games_cleanup_game]

/-- The state left by `remove_client` for a registered session, in terms of
the state `remove_client_from_game` leaves: the last active slot is moved into
the slot of the session and freed. -/
theorem remove_client_effect {s : Server} (h : Inv s) (sd : Int) (hsd : 0 < sd)
    (i : Nat) (hi : find_client_by_fd s sd = some i) :
    (∀ j, (remove_client s sd).client j =
      if j = (s.num_clients - 1).toNat then
        { (remove_client_from_game s sd).client (s.num_clients - 1).toNat with fd := 0 }
      else if j = i then (remove_client_from_game s sd).client (s.num_clients - 1).toNat
      else (remove_client_from_game s sd).client j) ∧
    (remove_client s sd).games = (remove_client_from_game s sd).games ∧
    (remove_client s sd).clients.length = 10 ∧
    (remove_client s sd).num_clients = s.num_clients - 1 ∧
    (remove_client s sd).next_game_id = (remove_client_from_game s sd).next_game_id ∧
    (remove_client s sd).num_games = (remove_client_from_game s sd).num_games := by
  have h1 := inv_remove_client_from_game h sd hsd
  obtain ⟨hn, hfds, _⟩ := remove_from_game_post h sd hsd
  have hr := h.cinv.n_range
  simp only [core] at hr
  obtain ⟨hin, hifd⟩ := h.find_client_reg hsd hi
  have hi10 : i < 10 := by omega
  have hl10 : (s.num_clients - 1).toNat < 10 := by omega
  have hfind : (List.range (remove_client_from_game s sd).num_clients.toNat).find?
      (fun j => ((remove_client_from_game s sd).client j).fd == sd) = some i := by
    cases hf : (List.range (remove_client_from_game s sd).num_clients.toNat).find?
        (fun j => ((remove_client_from_game s sd).client j).fd == sd) with
    | none =>
      have := find_range_none _ _ hf i (by rw [hn]; omega)
      simp only [beq_eq_false_iff_ne, ne_eq] at this
      exact absurd ((hfds i).trans hifd) this
    | some i' =>
      obtain ⟨hlt, hfd'⟩ := find_range_some _ _ _ hf
      simp only [beq_iff_eq] at hfd'
      rw [hn] at hlt
      have hi'n : (i' : Int) < s.num_clients := by omega
      have : i' = i := h.cinv.fd_inj i' i hi'n hin (by
        simp only [core]
        rw [← hfds i', hfd', hifd])
      rw [this]
  unfold remove_client
  simp only []
  have hfind' : (List.range (remove_client_from_game s sd).num_clients.toNat).find?
      (fun j => (Server.client
        { clients := (remove_client_from_game s sd).clients,
          games := (remove_client_from_game s sd).games,
          num_clients := (remove_client_from_game s sd).num_clients,
          num_games := (remove_client_from_game s sd).num_games,
          next_game_id := (remove_client_from_game s sd).next_game_id,
          master_fds := List.filter (fun x => x != sd) (remove_client_from_game s sd).master_fds,
          max_sd := (remove_client_from_game s sd).max_sd,
          out := (remove_client_from_game s sd).out ++ [Output.closed sd] } j).fd == sd)
      = some i := hfind
  rw [hfind']
  simp only [hn]
  refine ⟨fun j => ?_, rfl, ?_, rfl, rfl, rfl⟩
  · simp only [Server.client, Server.setClient, getD_set, List.length_set, h1.1, hi10, hl10,
      and_true]
    split_ifs <;> simp_all
  · simp only [Server.setClient, List.length_set]
    exact h1.1

/-- After `remove_client` every other registered session is still found by its
descriptor, with the fields `remove_client_from_game` left it. -/
theorem remove_client_other {s : Server} (h : Inv s) (sd : Int) (hsd : 0 < sd)
    (i j : Nat) (hi : find_client_by_fd s sd = some i)
    (hjn : (j : Int) < s.num_clients) (hji : j ≠ i) :
    ∃ j1 : Nat, find_client_by_fd (remove_client s sd) (s.client j).fd = some j1 ∧
      (remove_client s sd).client j1 = (remove_client_from_game s sd).client j := by
  have h2 := inv_remove_client h sd hsd
  obtain ⟨ec, _, _, en, _⟩ := remove_client_effect h sd hsd i hi
  obtain ⟨_, hfds, _⟩ := remove_from_game_post h sd hsd
  have hr := h.cinv.n_range
  simp only [core] at hr
  obtain ⟨hin, hifd⟩ := h.find_client_reg hsd hi
  have hcl : (remove_client s sd).client (if j = (s.num_clients - 1).toNat then i else j) =
      (remove_client_from_game s sd).client j := by
    rw [ec]
    by_cases hjl : j = (s.num_clients - 1).toNat
    · have hil : ¬ i = (s.num_clients - 1).toNat := fun e => hji (hjl.trans e.symm)
      rw [if_pos hjl, if_neg hil, if_pos rfl, ← hjl]
    · rw [if_neg hjl, if_neg hjl, if_neg hji]
  have hlt : ((if j = (s.num_clients - 1).toNat then i else j : Nat) : Int) <
      (remove_client s sd).num_clients := by
    rw [en]
    split_ifs with hjl
    · have : i ≠ (s.num_clients - 1).toNat := fun e => hji (hjl.trans e.symm)
      omega
    · omega
  refine ⟨_, ?_, hcl⟩
  have := h2.find_client_of_reg hlt
  rw [hcl, hfds j] at this
  exact this

/-- After `remove_client` the descriptor of the session is found no more. -/
theorem remove_client_gone {s : Server} (h : Inv s) (sd : Int) (hsd : 0 < sd)
    (i : Nat) (hi : find_client_by_fd s sd = some i) :
    find_client_by_fd (remove_client s sd) sd = none := by
  have h2 := inv_remove_client h sd hsd
  obtain ⟨ec, _, _, en, _⟩ := remove_client_effect h sd hsd i hi
  obtain ⟨_, hfds, _⟩ := remove_from_game_post h sd hsd
  have hr := h.cinv.n_range
  simp only [core] at hr
  obtain ⟨hin, hifd⟩ := h.find_client_reg hsd hi
  cases hf : find_client_by_fd (remove_client s sd) sd with
  | none => rfl
  | some x =>
    exfalso
    obtain ⟨hxn, hxfd⟩ := h2.find_client_reg hsd hf
    rw [en] at hxn
    rw [ec] at hxfd
    have hxl : ¬ x = (s.num_clients - 1).toNat := by omega
    rw [if_neg hxl] at hxfd
    by_cases hxi : x = i
    · rw [if_pos hxi, hfds] at hxfd
      have hln : (((s.num_clients - 1).toNat : Nat) : Int) < s.num_clients := by omega
      have := h.cinv.fd_inj _ _ hln hin (by simp only [core]; rw [hxfd, hifd])
      omega
    · rw [if_neg hxi, hfds] at hxfd
      have hxn' : (x : Int) < s.num_clients := by omega
      exact hxi (h.cinv.fd_inj _ _ hxn' hin (by simp only [core]; rw [hxfd, hifd]))

/-- The state left by a `reject` of the owner of a game with a pending
opponent, slot by slot. -/
theorem reject_effect {s : Server} (h : Inv s) (sd : Int) (cur k : Nat)
    (hk : find_game_by_player_fd s sd = some k)
    (hown : (s.game k).owner_fd = sd)
    (hst : (s.game k).state = GameState.GAME_WAITING_FOR_PLAYER)
    (hopp : (s.game k).opponent_fd ≠ -1) :
    ∃ p : Nat, (p : Int) < s.num_clients ∧
      find_client_by_fd s (s.game k).opponent_fd = some p ∧
      (s.client p).fd = (s.game k).opponent_fd ∧ (s.client p).fd ≠ sd ∧
      (∀ j, (handle_reject_command s sd cur).client j =
        if j = p then reset_client (s.client p) else s.client j) ∧
      (∀ m, (handle_reject_command s sd cur).game m =
        if m = k then { s.game k with opponent_fd := -1 } else s.game m) ∧
      (handle_reject_command s sd cur).clients.length = 10 ∧
      (handle_reject_command s sd cur).games.length = 5 ∧
      (handle_reject_command s sd cur).num_clients = s.num_clients ∧
      (handle_reject_command s sd cur).next_game_id = s.next_game_id ∧
      (handle_reject_command s sd cur).num_games = s.num_games := by
  have hr := h.cinv.n_range
  simp only [core] at hr
  obtain ⟨i, hi, hg, hkk⟩ := find_game_by_player_some hk
  obtain ⟨hk5, hid⟩ := find_game_some hkk
  have hocc : (core s).gid k ≠ -1 := by
    simp only [core]
    rw [hid]
    exact hg
  obtain ⟨hne, p, hpn, hpfd, _⟩ := h.cinv.g_opp k hk5 hocc (by simp only [core]; exact hopp)
  simp only [core] at hne hpn hpfd
  have hp10 : p < 10 := by omega
  have hfp : find_client_by_fd s (s.game k).opponent_fd = some p := by
    rw [← hpfd]
    exact h.find_client_of_reg hpn
  refine ⟨p, hpn, hfp, hpfd, by rw [hpfd, ← hown]; exact hne, ?_⟩
  unfold handle_reject_command
  rw [hk]
  simp only []
  rw [if_neg (by simp [hown]), if_neg (by simp [hst, hopp]), hfp]
  simp only []
  refine ⟨fun j => ?_, fun m => ?_, ?_, ?_, ?_, ?_, ?_⟩
  · simp only [client_notify, client_send, client_setGame, client_setClient, clients_send,
      h.1, hp10, and_true]
  · simp only [game_notify, game_send, game_setGame, game_setClient, games_setClient,
      games_send, h.2.1, hk5, and_true]
  · rw [(unchanged_notify _ _ _).1]
    simp only [clients_send, clients_setGame, clients_length_setClient, h.1]
  · rw [(unchanged_notify _ _ _).2.1]
    simp only [games_send, games_length_setGame, games_setClient, h.2.1]
  · rw [(unchanged_notify _ _ _).2.2.1]
    simp only [num_clients_send, num_clients_setGame, num_clients_setClient]
  · rw [(unchanged_notify _ _ _).2.2.2.2.1]
    simp only [next_game_id_send, next_game_id_setGame, next_game_id_setClient]
  · rw [(unchanged_notify _ _ _).2.2.2.1]
    simp only [num_games_send, num_games_setGame, num_games_setClient]

/-- The cases in which `reject` only answers with a message. -/
theorem reject_rejected (s : Server) (sd : Int) (cur : Nat)
    (hrej : find_game_by_player_fd s sd = none ∨
      ∃ k, find_game_by_player_fd s sd = some k ∧
        ((s.game k).owner_fd ≠ sd ∨ (s.game k).state ≠ GameState.GAME_WAITING_FOR_PLAYER ∨
          (s.game k).opponent_fd = -1)) :
    ∃ m, handle_reject_command s sd cur = send_to_client s sd m := by
  unfold handle_reject_command
  rcases hrej with x | ⟨k, hk, x⟩
  · rw [x]
    exact ⟨_, rfl⟩
  · rw [hk]
    simp only []
    split_ifs with h1 h2
    · exact ⟨_, rfl⟩
    · exact ⟨_, rfl⟩
    · exfalso
      rcases x with x | x | x
      · exact h1 x
      · exact h2 (Or.inl x)
      · exact h2 (Or.inr x)

/-- The cases in which `accept` only answers with a message. -/
theorem accept_rejected (s : Server) (sd : Int) (cur : Nat)
    (hrej : find_game_by_player_fd s sd = none ∨
      ∃ k, find_game_by_player_fd s sd = some k ∧
        ((s.game k).owner_fd ≠ sd ∨ (s.game k).state ≠ GameState.GAME_WAITING_FOR_PLAYER ∨
          (s.game k).opponent_fd = -1)) :
    ∃ m, handle_accept_command s sd cur = send_to_client s sd m := by
  unfold handle_accept_command
  rcases hrej with x | ⟨k, hk, x⟩
  · rw [x]
    exact ⟨_, rfl⟩
  · rw [hk]
    simp only []
    by_cases h1 : (s.game k).owner_fd ≠ sd
    · rw [if_pos h1]
      exact ⟨_, rfl⟩
    · rw [if_neg h1]
      have h2 : (s.game k).state ≠ GameState.GAME_WAITING_FOR_PLAYER ∨
          (s.game k).opponent_fd = -1 := by
        rcases x with x | x | x
        · exact absurd x h1
        · exact Or.inl x
        · exact Or.inr x
      rw [if_pos h2]
      exact ⟨_, rfl⟩

@[simp] theorem game_send_game_state (s : Server) (k m : Nat) :
    (send_game_state_to_players s k).game m = s.game m := by
  simp only [Server.game, (send_game_state_frame s k).1]

@[simp] theorem num_clients_send_game_state (s : Server) (k : Nat) :
    (send_game_state_to_players s k).num_clients = s.num_clients :=
  (send_game_state_frame s k).2.1

@[simp] theorem num_games_send_game_state (s : Server) (k : Nat) :
    (send_game_state_to_players s k).num_games = s.num_games :=
  (send_game_state_frame s k).2.2.1

@[simp] theorem next_game_id_send_game_state (s : Server) (k : Nat) :
    (send_game_state_to_players s k).next_game_id = s.next_game_id :=
  (send_game_state_frame s k).2.2.2.1

/-- `accept` changes neither the ids of the games nor the counters. -/
theorem accept_frame (s : Server) (sd : Int) (cur : Nat) :
    (∀ m, ((handle_accept_command s sd cur).game m).id = (s.game m).id) ∧
    (handle_accept_command s sd cur).num_clients = s.num_clients ∧
    (handle_accept_command s sd cur).num_games = s.num_games ∧
    (handle_accept_command s sd cur).next_game_id = s.next_game_id := by
  unfold handle_accept_command
  split
  · simp only [game_send, num_clients_send, num_games_send, next_game_id_send, implies_true,
      and_self]
  · rename_i k hk
    by_cases h1 : (s.game k).owner_fd ≠ sd
    · rw [if_pos h1]
      simp only [game_send, num_clients_send, num_games_send, next_game_id_send, implies_true,
        and_self]
    · rw [if_neg h1]
      by_cases h2 : (s.game k).state ≠ GameState.GAME_WAITING_FOR_PLAYER ∨
          (s.game k).opponent_fd = -1
      · rw [if_pos h2]
        simp only [game_send, num_clients_send, num_games_send, next_game_id_send,
          implies_true, and_self]
      · rw [if_neg h2]
        simp only [game_send_game_state, num_clients_send_game_state,
          num_games_send_game_state, next_game_id_send_game_state]
        split_ifs <;> split <;>
          simp only [game_send, num_clients_send, num_games_send, next_game_id_send,
            game_setClient, game_setGame, num_clients_setClient, num_clients_setGame,
            num_games_setClient, num_games_setGame, next_game_id_setClient,
            next_game_id_setGame, and_self, and_true] <;>
          (intro m; split_ifs with e <;> first | rfl | (rw [e.1]))

/-! ## Theorems: game ids over a run -/

theorem idstep_same {s s1 : Server} (hg : ∀ m, (s1.game m).id = (s.game m).id)
    (hx : s1.next_game_id = s.next_game_id) (hn : s1.num_games = s.num_games) : IdStep s s1 :=
  Or.inl ⟨hg, hx, hn⟩

theorem idstep_unchanged {s s1 : Server} (h : unchanged s s1) : IdStep s s1 :=
  idstep_same (fun m => by rw [unchanged_game h]) h.2.2.2.2.1 h.2.2.2.1

theorem idstep_send (s : Server) (fd : Int) (m : String) : IdStep s (send_to_client s fd m) :=
  idstep_unchanged (unchanged_send s fd m)

/-- A step that keeps ids and counters, after a step of any kind. -/
theorem idstep_then_same {s s1 s2 : Server} (h : IdStep s s1)
    (hg : ∀ m, (s2.game m).id = (s1.game m).id)
    (hx : s2.next_game_id = s1.next_game_id) (hn : s2.num_games = s1.num_games) :
    IdStep s s2 := by
  rcases h with ⟨a, b, c⟩ | ⟨k, a, b, c, d, e, f, g⟩ | ⟨k, a, b, c, d, e⟩
  · exact Or.inl ⟨fun m => (hg m).trans (a m), hx.trans b, hn.trans c⟩
  · exact Or.inr (Or.inl ⟨k, a, b, c, fun m => (hg m).trans (d m), hx.trans e, hn.trans f, g⟩)
  · exact Or.inr (Or.inr ⟨k, a, b, fun m => (hg m).trans (c m), hx.trans d, hn.trans e⟩)

/-- A step of any kind, after a step that changes only the output log. -/
theorem idstep_after_unchanged {s s1 s2 : Server} (hu : unchanged s s1) (h : IdStep s1 s2) :
    IdStep s s2 := by
  have hg : ∀ m, s1.game m = s.game m := unchanged_game hu
  have hx : s1.next_game_id = s.next_game_id := hu.2.2.2.2.1
  have hn : s1.num_games = s.num_games := hu.2.2.2.1
  unfold IdStep at h ⊢
  simp only [hg, hx, hn] at h
  exact h

theorem idstep_remove_from_game {s : Server} (h : Inv s) (fd : Int) (hfd : 0 < fd) :
    IdStep s (remove_client_from_game s fd) := by
  cases hi : find_client_by_fd s fd with
  | none =>
    unfold remove_client_from_game
    rw [hi]
    exact idstep_unchanged (unchanged_refl s)
  | some i =>
    obtain ⟨hin, hifd⟩ := h.find_client_reg hfd hi
    by_cases hg : (s.client i).game_id = -1
    · unfold remove_client_from_game
      rw [hi]
      simp only []
      rw [if_pos hg]
      exact idstep_unchanged (unchanged_refl s)
    · obtain ⟨k0, hk0, hid0, _⟩ := h.cinv.c_game i hin hg
      simp only [core] at hid0
      have hocc : (s.game k0).id ≠ -1 := by rw [hid0]; exact hg
      have hk : find_game_by_id s (s.client i).game_id = some k0 := by
        rw [← hid0]
        exact h.find_game_of_occ hk0 hocc
      by_cases hopp : (s.game k0).opponent_fd = fd
      · obtain ⟨_, eg, _, _, _, ex, en⟩ := remove_from_game_opp_effect h fd hfd i k0 hi hg hk hopp
        refine idstep_same (fun m => ?_) ex en
        rw [eg]
        split_ifs with e
        · rw [e]
        · rfl
      · by_cases hnone : (s.game k0).opponent_fd = -1
        · obtain ⟨_, _, eg, _, _, _, ex, en⟩ :=
            remove_from_game_alone_effect h fd hfd i k0 hi hg hk hnone
          refine Or.inr (Or.inr ⟨k0, hk0, hocc, fun m => ?_, ex, en⟩)
          rw [eg]
          split_ifs <;> rfl
        · have hrole : (s.game k0).owner_fd = fd := by
            rcases h.cinv.role_of_gid hk0 hin (by simp only [core]; exact hg)
              (by simp only [core]; exact hid0) with e | e
            · simp only [core] at e
              rw [e, hifd]
            · simp only [core] at e
              rw [hifd] at e
              exact absurd e hopp
          obtain ⟨p, _, _, _, _, _, eg, _, _, _, ex, en⟩ :=
            remove_from_game_owner_effect h fd hfd i k0 hi hg hk hrole hnone
          refine Or.inr (Or.inr ⟨k0, hk0, hocc, fun m => ?_, ex, en⟩)
          rw [eg]
          split_ifs <;> rfl

theorem idstep_remove_client {s : Server} (h : Inv s) (sd : Int) (hsd : 0 < sd) :
    IdStep s (remove_client s sd) := by
  have h1 := idstep_remove_from_game h sd hsd
  have hgm : (remove_client s sd).games = (remove_client_from_game s sd).games ∧
      (remove_client s sd).next_game_id = (remove_client_from_game s sd).next_game_id ∧
      (remove_client s sd).num_games = (remove_client_from_game s sd).num_games := by
    unfold remove_client
    simp only []
    split <;> exact ⟨rfl, rfl, rfl⟩
  exact idstep_then_same h1 (fun m => by simp only [Server.game, hgm.1]) hgm.2.1 hgm.2.2

theorem idstep_leave {s : Server} (h : Inv s) (sd : Int) (hsd : 0 < sd) (cur : Nat) :
    IdStep s (handle_leave_command s sd cur) := by
  unfold handle_leave_command
  split_ifs
  · exact idstep_send s sd _
  · split
    · exact idstep_same (fun m => by simp only [game_setClient, game_send])
        (by simp only [next_game_id_setClient, next_game_id_send])
        (by simp only [num_games_setClient, num_games_send])
    · exact idstep_after_unchanged (unchanged_send s sd _)
        (idstep_remove_from_game (inv_send h sd _) sd hsd)

theorem idstep_create {s s1 : Server} (h : Inv s) (sd : Int) (cur : Nat)
    (hcn : (cur : Int) < s.num_clients)
    (e : handle_create_command s sd cur = some s1) : IdStep s s1 := by
  rcases create_cases e with ⟨m, hm⟩ | ⟨k, hg, hn, hk, _, hm⟩
  · rw [hm]
    exact idstep_send s sd _
  · rw [hm]
    obtain ⟨hk5, hfree, hfirst, _, eg, _, _, _, ex, en⟩ :=
      create_effect h sd cur k hcn hg hn hk
    refine Or.inr (Or.inl ⟨k, hk5, hfree, hfirst, fun m => ?_, ex, en, hn⟩)
    rw [eg]
    split_ifs <;> rfl

theorem idstep_join (s : Server) (sd : Int) (cur : Nat) (line : List Char) :
    IdStep s (handle_join_command s sd cur line) := by
  unfold handle_join_command
  split_ifs
  · exact idstep_send s sd _
  · simp only []
    split
    · exact idstep_send s sd _
    · rename_i k hk
      obtain ⟨hk5, _⟩ := find_game_some hk
      split_ifs
      · exact idstep_send s sd _
      · exact idstep_send s sd _
      · exact idstep_send s sd _
      · refine idstep_same (fun m => ?_) ?_ ?_
        · simp only [game_send, game_setClient, game_setGame]
          split_ifs with e
          · rw [e.1]
          · rfl
        · simp only [next_game_id_send, next_game_id_setClient, next_game_id_setGame]
        · simp only [num_games_send, num_games_setClient, num_games_setGame]

theorem idstep_accept (s : Server) (sd : Int) (cur : Nat) :
    IdStep s (handle_accept_command s sd cur) := by
  obtain ⟨a, _, b, c⟩ := accept_frame s sd cur
  exact idstep_same a c b

theorem idstep_reject (s : Server) (sd : Int) (cur : Nat) :
    IdStep s (handle_reject_command s sd cur) := by
  unfold handle_reject_command
  split
  · exact idstep_send s sd _
  · rename_i k hk
    by_cases h1 : (s.game k).owner_fd ≠ sd
    · rw [if_pos h1]
      exact idstep_send s sd _
    · rw [if_neg h1]
      by_cases h2 : (s.game k).state ≠ GameState.GAME_WAITING_FOR_PLAYER ∨
          (s.game k).opponent_fd = -1
      · rw [if_pos h2]
        exact idstep_send s sd _
      · rw [if_neg h2]
        cases hf : find_client_by_fd s (s.game k).opponent_fd with
        | none =>
          simp only []
          refine idstep_same (fun m => ?_) ?_ ?_
          · simp only [game_notify, game_send, game_setGame]
            split_ifs with e
            · rw [e.1]
            · rfl
          · rw [(unchanged_notify _ _ _).2.2.2.2.1]
            simp only [next_game_id_send, next_game_id_setGame]
          · rw [(unchanged_notify _ _ _).2.2.2.1]
            simp only [num_games_send, num_games_setGame]
        | some p =>
          simp only []
          refine idstep_same (fun m => ?_) ?_ ?_
          · simp only [game_notify, game_send, game_setGame, game_setClient]
            split_ifs with e
            · rw [e.1]
            · rfl
          · rw [(unchanged_notify _ _ _).2.2.2.2.1]
            simp only [next_game_id_send, next_game_id_setGame, next_game_id_setClient]
          · rw [(unchanged_notify _ _ _).2.2.2.1]
            simp only [num_games_send, num_games_setGame, num_games_setClient]

theorem setGame_self (s : Server) (k : Nat) : s.setGame k (s.game k) = s := by
  have e : s.games.set k (s.game k) = s.games := by
    apply List.ext_getElem?
    intro n
    simp only [List.getElem?_set, Server.game, List.getD_eq_getElem?_getD]
    split_ifs with h1 h2
    · subst h1
      rw [List.getElem?_eq_getElem h2]
      rfl
    · subst h1
      rw [List.getElem?_eq_none (by omega)]
    · rfl
  unfold Server.setGame
  rw [e]

/-- A call of `make_move` that does not return 0 leaves the game as it was. -/
theorem make_move_refused_same (g : TrisGame) (row col : Int)
    (h : (make_move g row col).1 ≠ 0) : (make_move g row col).2 = g := by
  rcases in_range_cases row col with hr | ⟨r, c, hr, hc⟩
  · rw [make_move_out_of_range g row col hr]
  · subst hr
    subst hc
    rw [make_move_in_range] at h ⊢
    by_cases a : g.cell r c ≠ Cell.EMPTY
    · rw [if_pos a]
    · rw [if_neg a] at h
      exact absurd rfl h

/-- The cases in which `move` only answers with a message: the session is not
in a game, the game is not found or not in progress, it is not the turn of the
session, the text does not parse, or `make_move` refuses the cell. -/
theorem move_rejected (s : Server) (sd : Int) (buffer : List Char) (cur : Nat)
    (hcur : find_client_by_fd s sd = some cur)
    (hrej : (s.client cur).status ≠ PlayerStatus.PLAYER_IN_GAME ∨
      find_game_by_id s (s.client cur).game_id = none ∨
      (∃ k, find_game_by_id s (s.client cur).game_id = some k ∧
        (s.game k).state ≠ GameState.GAME_IN_PROGRESS) ∨
      (s.client cur).is_current_turn = false ∨
      sscanf_move buffer = none ∨
      (∃ k rc, find_game_by_id s (s.client cur).game_id = some k ∧
        sscanf_move buffer = some rc ∧ (make_move (s.game k).tris_game rc.1 rc.2).1 ≠ 0)) :
    ∃ m, handle_move_command s sd buffer = some (send_to_client s sd m) := by
  unfold handle_move_command
  rw [hcur]
  simp only []
  by_cases h1 : (s.client cur).status ≠ PlayerStatus.PLAYER_IN_GAME
  · rw [if_pos h1]
    exact ⟨_, rfl⟩
  rw [if_neg h1]
  cases hk : find_game_by_id s (s.client cur).game_id with
  | none => exact ⟨_, rfl⟩
  | some k =>
    simp only []
    by_cases h2 : (s.game k).state ≠ GameState.GAME_IN_PROGRESS
    · rw [if_pos h2]
      split_ifs <;> exact ⟨_, rfl⟩
    rw [if_neg h2]
    by_cases h3 : (s.client cur).is_current_turn = false
    · rw [if_pos h3]
      exact ⟨_, rfl⟩
    rw [if_neg h3]
    cases hrc : sscanf_move buffer with
    | none => exact ⟨_, rfl⟩
    | some rc =>
      simp only []
      have hmv : (make_move (s.game k).tris_game rc.1 rc.2).1 ≠ 0 := by
        rcases hrej with x | x | ⟨k', hk', x⟩ | x | x | ⟨k', rc', hk', hrc', x⟩
        · exact absurd x h1
        · rw [hk] at x
          exact absurd x (by simp)
        · rw [hk] at hk'
          have : k = k' := by simpa using hk'
          subst this
          exact absurd x h2
        · exact absurd x h3
        · rw [hrc] at x
          exact absurd x (by simp)
        · rw [hk] at hk'
          rw [hrc] at hrc'
          have e1 : k = k' := by simpa using hk'
          have e2 : rc = rc' := by simpa using hrc'
          subst e1
          subst e2
          exact x
      rw [if_neg hmv]
      have hsame := make_move_refused_same _ _ _ hmv
      rw [hsame]
      have hx : ({ s.game k with tris_game := (s.game k).tris_game } : Game) = s.game k := rfl
      rw [hx, setGame_self]
      exact ⟨_, rfl⟩

/-- An accepted move that neither wins nor fills the board: the board is
updated and `send_game_state_to_players` passes the turn. -/
theorem move_next_effect {s : Server} (h : Inv s) (sd : Int) (buffer : List Char)
    (cur k : Nat) (rc : Int × Int)
    (hcur : find_client_by_fd s sd = some cur)
    (hstatus : (s.client cur).status = PlayerStatus.PLAYER_IN_GAME)
    (hk : find_game_by_id s (s.client cur).game_id = some k)
    (hstate : (s.game k).state = GameState.GAME_IN_PROGRESS)
    (hturn : (s.client cur).is_current_turn = true)
    (hrc : sscanf_move buffer = some rc)
    (hmv : (make_move (s.game k).tris_game rc.1 rc.2).1 = 0)
    (hwin : check_winner (make_move (s.game k).tris_game rc.1 rc.2).2 ≠ GameResult.WIN)
    (hdraw : check_winner (make_move (s.game k).tris_game rc.1 rc.2).2 ≠ GameResult.DRAW) :
    handle_move_command s sd buffer =
      some (send_game_state_to_players
        (s.setGame k { s.game k with tris_game := (make_move (s.game k).tris_game rc.1 rc.2).2 })
        k) := by
  obtain ⟨hk5, _⟩ := find_game_some hk
  unfold handle_move_command
  rw [hcur]
  simp only []
  rw [if_neg (by simp [hstatus]), hk]
  simp only []
  rw [if_neg (by simp [hstate]), if_neg (by simp [hturn]), hrc]
  simp only [client_send, game_send, clients_send, games_send, num_clients_send, next_game_id_send, client_setClient, game_setClient, client_setGame, game_setGame, clients_setGame, games_setClient, clients_length_setClient, games_length_setGame, num_clients_setClient, num_clients_setGame, next_game_id_setClient, next_game_id_setGame, find_client_send, find_game_send, find_client_setGame, find_game_setClient, client_send_loss, game_send_loss, clients_send_loss, games_send_loss, find_client_send_loss, find_game_send_loss, h.1, h.2.1, hk5, and_true, if_true, hmv, hwin, hdraw, if_false]

/-- `handle_move_command` changes neither the ids of the games nor the
counters. -/
theorem idstep_move {s s1 : Server} (h : Inv s) (sd : Int) (hsd : 0 < sd) (buffer : List Char)
    (e : handle_move_command s sd buffer = some s1) : IdStep s s1 := by
  cases hcur : find_client_by_fd s sd with
  | none =>
    unfold handle_move_command at e
    rw [hcur] at e
    simp only [Option.some.injEq] at e
    rw [← e]
    exact idstep_send s sd _
  | some cur =>
    have hrejected : ∀ m, handle_move_command s sd buffer = some (send_to_client s sd m) →
        IdStep s s1 := by
      intro m hm
      rw [hm] at e
      simp only [Option.some.injEq] at e
      rw [← e]
      exact idstep_send s sd _
    by_cases h1 : (s.client cur).status ≠ PlayerStatus.PLAYER_IN_GAME
    · obtain ⟨m, hm⟩ := move_rejected s sd buffer cur hcur (Or.inl h1)
      exact hrejected m hm
    cases hk : find_game_by_id s (s.client cur).game_id with
    | none =>
      obtain ⟨m, hm⟩ := move_rejected s sd buffer cur hcur (Or.inr (Or.inl hk))
      exact hrejected m hm
    | some k =>
      by_cases h2 : (s.game k).state ≠ GameState.GAME_IN_PROGRESS
      · obtain ⟨m, hm⟩ := move_rejected s sd buffer cur hcur (Or.inr (Or.inr (Or.inl ⟨k, hk, h2⟩)))
        exact hrejected m hm
      by_cases h3 : (s.client cur).is_current_turn = false
      · obtain ⟨m, hm⟩ := move_rejected s sd buffer cur hcur
          (Or.inr (Or.inr (Or.inr (Or.inl h3))))
        exact hrejected m hm
      cases hrc : sscanf_move buffer with
      | none =>
        obtain ⟨m, hm⟩ := move_rejected s sd buffer cur hcur
          (Or.inr (Or.inr (Or.inr (Or.inr (Or.inl hrc)))))
        exact hrejected m hm
      | some rc =>
        by_cases hmv : (make_move (s.game k).tris_game rc.1 rc.2).1 = 0
        · have hstatus : (s.client cur).status = PlayerStatus.PLAYER_IN_GAME := by
            simpa using h1
          have hstate : (s.game k).state = GameState.GAME_IN_PROGRESS := by
            simpa using h2
          have hturn : (s.client cur).is_current_turn = true := by
            simpa using h3
          by_cases hwin : check_winner (make_move (s.game k).tris_game rc.1 rc.2).2 =
              GameResult.WIN
          · obtain ⟨l, s2, he, _, _, _, _, _, _, _, eg, _, _, _, ex, en⟩ :=
              move_win_effect h sd hsd buffer cur k rc hcur hstatus hk hstate hturn hrc hmv hwin
            rw [he] at e
            simp only [Option.some.injEq] at e
            subst e
            refine idstep_same (fun m => ?_) ex en
            rw [eg]
            split_ifs with x
            · rw [x]
            · rfl
          · by_cases hdraw : check_winner (make_move (s.game k).tris_game rc.1 rc.2).2 =
                GameResult.DRAW
            · obtain ⟨oc, pc, s2, he, _, _, _, _, _, _, _, _, _, _, _, _, eg, _, _, _, ex, en⟩ :=
                move_draw_effect h sd hsd buffer cur k rc hcur hstatus hk hstate hturn hrc hmv
                  hdraw
              rw [he] at e
              simp only [Option.some.injEq] at e
              subst e
              refine idstep_same (fun m => ?_) ex en
              rw [eg]
              split_ifs with x
              · rw [x]
              · rfl
            · rw [move_next_effect h sd buffer cur k rc hcur hstatus hk hstate hturn hrc hmv
                hwin hdraw] at e
              simp only [Option.some.injEq] at e
              rw [← e]
              refine idstep_same (fun m => ?_) ?_ ?_
              · simp only [game_send_game_state, game_setGame]
                split_ifs with x
                · rw [x.1]
                · rfl
              · simp only [next_game_id_send_game_state, next_game_id_setGame]
              · simp only [num_games_send_game_state, num_games_setGame]
        · obtain ⟨m, hm⟩ := move_rejected s sd buffer cur hcur
            (Or.inr (Or.inr (Or.inr (Or.inr (Or.inr ⟨k, rc, hk, hrc, hmv⟩)))))
          exact hrejected m hm

/-- The cases in which `rematch` only answers with a message. -/
theorem rematch_rejected (s : Server) (sd : Int) (cur : Nat)
    (hcur : find_client_by_fd s sd = some cur)
    (hrej : (s.client cur).game_id = -1 ∨
      find_game_by_id s (s.client cur).game_id = none ∨
      ∃ k, find_game_by_id s (s.client cur).game_id = some k ∧
        ((s.game k).state ≠ GameState.GAME_ENDED ∨
          (s.game k).last_result ≠ GameResult.DRAW)) :
    ∃ m, handle_rematch_command s sd = some (send_to_client s sd m) := by
  unfold handle_rematch_command
  rw [hcur]
  simp only []
  by_cases h1 : (s.client cur).game_id = -1
  · rw [if_pos h1]
    exact ⟨_, rfl⟩
  rw [if_neg h1]
  rcases hrej with x | x | ⟨k, hk, x⟩
  · exact absurd x h1
  · rw [x]
    exact ⟨_, rfl⟩
  · rw [hk]
    simp only []
    rw [if_pos x]
    exact ⟨_, rfl⟩

/-- `handle_rematch_command` changes neither the ids of the games nor the
counters. -/
theorem idstep_rematch {s s1 : Server} (h : Inv s) (sd : Int) (hsd : 0 < sd)
    (e : handle_rematch_command s sd = some s1) : IdStep s s1 := by
  cases hcur : find_client_by_fd s sd with
  | none =>
    unfold handle_rematch_command at e
    rw [hcur] at e
    simp only [Option.some.injEq] at e
    rw [← e]
    exact idstep_send s sd _
  | some cur =>
    have hrejected : ∀ m, handle_rematch_command s sd = some (send_to_client s sd m) →
        IdStep s s1 := by
      intro m hm
      rw [hm] at e
      simp only [Option.some.injEq] at e
      rw [← e]
      exact idstep_send s sd _
    by_cases h1 : (s.client cur).game_id = -1
    · obtain ⟨m, hm⟩ := rematch_rejected s sd cur hcur (Or.inl h1)
      exact hrejected m hm
    cases hk : find_game_by_id s (s.client cur).game_id with
    | none =>
      obtain ⟨m, hm⟩ := rematch_rejected s sd cur hcur (Or.inr (Or.inl hk))
      exact hrejected m hm
    | some k =>
      by_cases hc : (s.game k).state ≠ GameState.GAME_ENDED
          ∨ (s.game k).last_result ≠ GameResult.DRAW
      · obtain ⟨m, hm⟩ := rematch_rejected s sd cur hcur (Or.inr (Or.inr ⟨k, hk, hc⟩))
        exact hrejected m hm
      · have hstate : (s.game k).state = GameState.GAME_ENDED := by
          by_contra x
          exact hc (Or.inl x)
        have hres : (s.game k).last_result = GameResult.DRAW := by
          by_contra x
          exact hc (Or.inr x)
        obtain ⟨oc, pc, s2, he, _, _, _, _, _, _, _, _, _, _, hA, hB, _, _, _, ex, en⟩ :=
          rematch_effect h sd hsd cur k hcur h1 hk hstate hres
        rw [he] at e
        simp only [Option.some.injEq] at e
        subst e
        by_cases hw : (s.client (if cur = oc then pc else oc)).wants_rematch = true
        · obtain ⟨_, eg⟩ := hB hw
          refine idstep_same (fun m => ?_) ex en
          rw [eg]
          split_ifs with x
          · rw [x]
          · rfl
        · obtain ⟨_, eg⟩ := hA (by simpa using hw)
          exact idstep_same (fun m => by rw [eg]) ex en

/-- `initialize_client` changes neither the game table nor the counters of
the games. -/
theorem initialize_client_frame (s : Server) (fd : Int) :
    (initialize_client s fd).games = s.games ∧
    (initialize_client s fd).next_game_id = s.next_game_id ∧
    (initialize_client s fd).num_games = s.num_games := by
  unfold initialize_client
  split
  · simp only [games_send, next_game_id_send, num_games_send]
    exact ⟨rfl, rfl, rfl⟩
  · simp only []
    refine ⟨?_, ?_, ?_⟩
    · exact games_send _ _ _
    · exact next_game_id_send _ _ _
    · exact num_games_send _ _ _

theorem idstep_accept_connection (s : Server) (fd : Int) :
    IdStep s (accept_connection s fd) := by
  unfold accept_connection
  simp only []
  obtain ⟨a, b, c⟩ := initialize_client_frame
    (if fd > s.max_sd then
      { ({ s with master_fds := if fd ∈ s.master_fds then s.master_fds else fd :: s.master_fds } :
          Server) with max_sd := fd }
    else { s with master_fds := if fd ∈ s.master_fds then s.master_fds else fd :: s.master_fds })
    fd
  refine idstep_same (fun m => ?_) ?_ ?_
  · simp only [Server.game, a]
    split_ifs <;> rfl
  · rw [b]
    split_ifs <;> rfl
  · rw [c]
    split_ifs <;> rfl

theorem idstep_dispatch {s s1 : Server} (h : Inv s) (sd : Int) (hsd : 0 < sd)
    (line : List Char) (e : dispatch s sd line = some s1) : IdStep s s1 := by
  unfold dispatch at e
  cases hcur : find_client_by_fd s sd with
  | none =>
    rw [hcur] at e
    simp only [Option.some.injEq] at e
    rw [← e]
    exact idstep_send s sd _
  | some cur =>
    obtain ⟨hcn, hcfd⟩ := h.find_client_reg hsd hcur
    rw [hcur] at e
    simp only [] at e
    split_ifs at e
    · simp only [Option.some.injEq] at e
      rw [← e]
      exact idstep_unchanged (unchanged_print_game_list s sd)
    · exact idstep_create h sd cur hcn e
    · simp only [Option.some.injEq] at e
      rw [← e]
      exact idstep_join s sd cur line
    · simp only [Option.some.injEq] at e
      rw [← e]
      exact idstep_accept s sd cur
    · simp only [Option.some.injEq] at e
      rw [← e]
      exact idstep_reject s sd cur
    · simp only [Option.some.injEq] at e
      rw [← e]
      exact idstep_leave h sd hsd cur
    · exact idstep_move h sd hsd line e
    · exact idstep_rematch h sd hsd e
    · simp only [Option.some.injEq] at e
      rw [← e]
      exact idstep_after_unchanged (unchanged_send s sd _)
        (idstep_remove_client (inv_send h sd _) sd hsd)
    · simp only [Option.some.injEq] at e
      rw [← e]
      exact idstep_send s sd _

theorem idstep_client_readable {s s1 : Server} (h : Inv s) (sd : Int) (hsd : 0 < sd)
    (buffer : List Char) (valread : Int)
    (e : client_readable s sd buffer valread = some s1) : IdStep s s1 := by
  unfold client_readable at e
  split_ifs at e
  · simp only [Option.some.injEq] at e
    rw [← e]
    exact idstep_remove_client h sd hsd
  · unfold handle_client_data at e
    split_ifs at e
    exact idstep_dispatch h sd hsd _ e

/-- Every event acts on the ids and the counters of the games in one of the
three ways of `IdStep`. -/
theorem idstep_step {ms : Int} {s s1 : Server} (h : Inv s) (ev : Event)
    (ha : admissible ms s ev = true) (e : step s ev = some s1) : IdStep s s1 := by
  cases ev with
  | connect fd =>
    simp only [step, Option.some.injEq] at e
    rw [← e]
    exact idstep_accept_connection s fd
  | readable sd buffer valread =>
    simp only [admissible, Bool.and_eq_true, decide_eq_true_eq] at ha
    exact idstep_client_readable h sd ha.1 buffer valread e

theorem occupied_eq (s : Server) :
    occupied s =
      (if (s.game 0).id = -1 then 0 else 1) + (if (s.game 1).id = -1 then 0 else 1) +
      (if (s.game 2).id = -1 then 0 else 1) + (if (s.game 3).id = -1 then 0 else 1) +
      (if (s.game 4).id = -1 then 0 else 1) := by
  unfold occupied
  rw [show List.range MAX_GAMES = [0, 1, 2, 3, 4] from rfl]
  simp only [List.filter_cons, List.filter_nil, bne_iff_ne, ne_eq, ite_not]
  split_ifs <;> rfl

/-- The invariant of the game counter survives every step of the three
kinds. -/
theorem num_games_step {s s1 : Server} (hx : 0 < s.next_game_id) (hs : IdStep s s1)
    (hn : s.num_games = (occupied s : Int)) : s1.num_games = (occupied s1 : Int) := by
  rw [occupied_eq] at hn ⊢
  rcases hs with ⟨a, _, c⟩ | ⟨k, hk, hfree, _, d, _, f, _⟩ | ⟨k, hk, hocc, c, _, e⟩
  · rw [c, hn, a 0, a 1, a 2, a 3, a 4]
  · rw [f, hn, d 0, d 1, d 2, d 3, d 4]
    have hne : ¬ s.next_game_id = -1 := by omega
    interval_cases k <;> simp only [hfree, if_true, if_false, hne, OfNat.ofNat_ne_zero,
      OfNat.zero_ne_ofNat, OfNat.one_ne_ofNat, OfNat.ofNat_ne_one, zero_ne_one, one_ne_zero,
      Nat.reduceEqDiff] <;> push_cast <;> omega
  · rw [e, hn, c 0, c 1, c 2, c 3, c 4]
    interval_cases k <;> simp only [hocc, if_true, if_false, OfNat.ofNat_ne_zero,
      OfNat.zero_ne_ofNat, OfNat.one_ne_ofNat, OfNat.ofNat_ne_one, zero_ne_one, one_ne_zero,
      Nat.reduceEqDiff] <;> push_cast <;> split_ifs <;> omega

theorem occupied_init_server (ms : Int) : occupied (init_server ms) = 0 := by
  rw [occupied_eq]
  simp only [game_init_server ms 0 (by decide), game_init_server ms 1 (by decide),
    game_init_server ms 2 (by decide), game_init_server ms 3 (by decide),
    game_init_server ms 4 (by decide), if_true]

/-- In every reachable state `num_games` is the number of occupied slots. -/
theorem reachable_num_games {ms : Int} {s : Server} (hr : Reachable ms s) :
    s.num_games = (occupied s : Int) := by
  induction hr with
  | init =>
    rw [occupied_init_server]
    rfl
  | connect s fd hr _ _ _ ih =>
    have h := reachable_inv hr
    exact num_games_step (by simpa [core] using h.cinv.next_pos)
      (idstep_accept_connection s fd) ih
  | readable s s1 sd buffer valread hr hreg e ih =>
    have h := reachable_inv hr
    exact num_games_step (by simpa [core] using h.cinv.next_pos)
      (idstep_client_readable h sd hreg.1 buffer valread e) ih

theorem find_game_none_iff (s : Server) (g : Int) :
    find_game_by_id s g = none ↔ ∀ k, k < 5 → (s.game k).id ≠ g := by
  constructor
  · intro h k hk
    exact find_game_none h k hk
  · intro h
    unfold find_game_by_id
    rw [List.find?_eq_none]
    intro k hk
    simp only [List.mem_range, MAX_GAMES] at hk
    simpa using h k hk

/-- The ids given out by one step: the old `next_game_id` when a game is
created, none otherwise. -/
theorem new_ids_step {s s1 : Server} (hx : 0 < s.next_game_id) (hs : IdStep s s1) :
    new_ids s s1 =
      (List.range (s1.next_game_id - s.next_game_id).toNat).map
        (fun i : Nat => s.next_game_id + (i : Int)) ∧
    s.next_game_id ≤ s1.next_game_id := by
  unfold new_ids
  rw [show List.range MAX_GAMES = [0, 1, 2, 3, 4] from rfl]
  rcases hs with ⟨a, b, _⟩ | ⟨k, hk, hfree, _, d, e, _, _⟩ | ⟨k, hk, hocc, c, d, _⟩
  · rw [b]
    simp only [a, sub_self, Int.toNat_zero, List.range_zero, List.map_nil, le_refl, and_true,
      List.map_eq_nil_iff, List.filter_eq_nil_iff, Bool.and_eq_true, beq_iff_eq, bne_iff_ne]
    intro m _ hm
    exact hm.2 hm.1
  · rw [e]
    have hne : ¬ s.next_game_id = -1 := by omega
    have h1 : (s.next_game_id + 1 - s.next_game_id).toNat = 1 := by
      rw [add_sub_cancel_left]
      rfl
    rw [h1, show List.range 1 = [0] from rfl]
    refine ⟨?_, by omega⟩
    simp only [d, List.filter_cons, List.filter_nil, List.map_cons, List.map_nil,
      Nat.cast_zero, add_zero]
    interval_cases k <;>
      simp [hfree, hne]
  · rw [d]
    simp only [c, sub_self, Int.toNat_zero, List.range_zero, List.map_nil, le_refl, and_true,
      List.map_eq_nil_iff, List.filter_eq_nil_iff, Bool.and_eq_true, beq_iff_eq, bne_iff_ne]
    intro m _ hm
    split_ifs at hm with x
    · exact hm.2 rfl
    · exact hm.2 hm.1

/-- An id below `next_game_id` that no slot holds is held by no slot after a
step. -/
theorem absent_step {s s1 : Server} (hs : IdStep s s1) (g : Int) (hg : g ≠ -1)
    (hlt : g < s.next_game_id) (habs : ∀ k, k < 5 → (s.game k).id ≠ g) :
    (∀ k, k < 5 → (s1.game k).id ≠ g) ∧ g < s1.next_game_id := by
  rcases hs with ⟨a, b, _⟩ | ⟨k, hk, hfree, _, d, e, _, _⟩ | ⟨k, hk, hocc, c, d, _⟩
  · refine ⟨fun m hm => ?_, by omega⟩
    rw [a]
    exact habs m hm
  · refine ⟨fun m hm => ?_, by omega⟩
    rw [d]
    split_ifs
    · omega
    · exact habs m hm
  · refine ⟨fun m hm => ?_, by omega⟩
    rw [c]
    split_ifs
    · exact fun x => hg x.symm
    · exact habs m hm

/-- The ids given out along an admissible run are the consecutive values from
the `next_game_id` of its first state up to that of its last state. -/
theorem handed_out_run {ms : Int} (es : List Event) :
    ∀ {s s1 : Server}, Reachable ms s → run_admissible ms s es = some s1 →
      handed_out s es =
        (List.range (s1.next_game_id - s.next_game_id).toNat).map
          (fun i : Nat => s.next_game_id + (i : Int)) ∧
      s.next_game_id ≤ s1.next_game_id := by
  induction es with
  | nil =>
    intro s s1 _ h
    simp only [run_admissible, Option.some.injEq] at h
    rw [← h]
    simp [handed_out]
  | cons e es ih =>
    intro s s1 hr h
    simp only [run_admissible] at h
    split_ifs at h with ha
    cases hs : step s e with
    | none => rw [hs] at h; exact absurd h (by simp)
    | some s2 =>
      rw [hs] at h
      have hinv := reachable_inv hr
      have hx : 0 < s.next_game_id := by simpa [core] using hinv.cinv.next_pos
      obtain ⟨e1, l1⟩ := new_ids_step hx (idstep_step hinv e ha hs)
      obtain ⟨e2, l2⟩ := ih (reachable_step hr e ha hs) h
      refine ⟨?_, by omega⟩
      simp only [handed_out, hs]
      rw [e1, e2]
      have hsplit : (s1.next_game_id - s.next_game_id).toNat =
          (s2.next_game_id - s.next_game_id).toNat +
            (s1.next_game_id - s2.next_game_id).toNat := by omega
      rw [hsplit, List.range_add, List.map_append, List.map_map]
      congr 1
      apply List.map_congr_left
      intro i _
      simp only [Function.comp]
      push_cast
      omega

/-- An id below `next_game_id` that no slot holds is held by no slot at any
later point of an admissible run. -/
theorem absent_run {ms : Int} (es : List Event) (g : Int) (hg : g ≠ -1) :
    ∀ {s s1 : Server}, Reachable ms s → run_admissible ms s es = some s1 →
      g < s.next_game_id → find_game_by_id s g = none → find_game_by_id s1 g = none := by
  induction es with
  | nil =>
    intro s s1 _ h _ habs
    simp only [run_admissible, Option.some.injEq] at h
    rw [← h]
    exact habs
  | cons e es ih =>
    intro s s1 hr h hlt habs
    simp only [run_admissible] at h
    split_ifs at h with ha
    cases hs : step s e with
    | none => rw [hs] at h; exact absurd h (by simp)
    | some s2 =>
      rw [hs] at h
      have hinv := reachable_inv hr
      obtain ⟨a, b⟩ := absent_step (idstep_step hinv e ha hs) g hg hlt
        ((find_game_none_iff s g).1 habs)
      exact ih (reachable_step hr e ha hs) h b ((find_game_none_iff s2 g).2 a)

/-! ## Theorems: rejections, creation and joining -/

theorem rejected_send (s : Server) (sd : Int) (m : String) :
    rejected s sd (send_to_client s sd m) :=
  ⟨⟨m, rfl⟩, unchanged_send s sd m⟩

theorem rejected_of_eq {s s1 : Server} {sd : Int} (h : ∃ m, s1 = send_to_client s sd m) :
    rejected s sd s1 := by
  obtain ⟨m, e⟩ := h
  rw [e]
  exact rejected_send s sd m

/-- A refused call of `make_move` returns -1. -/
theorem make_move_of_refused (g : TrisGame) (row col : Int) (h : move_refused g row col) :
    (make_move g row col).1 = -1 := by
  rcases in_range_cases row col with hr | ⟨r, c, hr, hc⟩
  · rw [make_move_out_of_range g row col hr]
  · subst hr
    subst hc
    rw [make_move_in_range]
    have hocc : g.cell r c ≠ Cell.EMPTY := by
      rcases h with x | x | x | x | ⟨r1, c1, e1, e2, x⟩
      · omega
      · omega
      · omega
      · omega
      · have a1 : r1 = r := Fin.ext (by exact_mod_cast e1)
        have a2 : c1 = c := Fin.ext (by exact_mod_cast e2)
        rw [a1, a2] at x
        exact x
    rw [if_pos hocc]

/-- A command whose precondition fails on the values the handlers compute (the
`int` that `atoi` returns for the id of `join`, the pair of `int` that `sscanf`
stores for `move`) is answered with one message to the requester and nothing
else in the server state changes (client table, game table with the boards,
counters, next id). This holds in every state in which `sd` is the descriptor
of the session in slot `cur`. The failing preconditions: `create` or `join`
while in a game; `join` when the converted id is not found, is the free marker,
or is the id of a game in progress, ended or with an opponent; `accept` or
`reject` by a session that owns no game or whose game has no pending opponent;
`leave` while in no game; `rematch` in no game or in a game that is not ended
in a draw; `move` when not in a game, when the game is not in progress, out of
turn, with arguments that do not parse, or when the converted cell is out of
bounds or occupied. -/
theorem failed_precondition_changes_nothing (s : Server) (sd : Int) (cur : Nat)
    (hcur : find_client_by_fd s sd = some cur) :
    ((s.client cur).game_id ≠ -1 →
      ∃ s1, handle_create_command s sd cur = some s1 ∧ rejected s sd s1) ∧
    (∀ line : List Char,
      ((s.client cur).game_id ≠ -1 ∨
        find_game_by_id s (atoi (line.drop 5)) = none ∨
        ∃ k, find_game_by_id s (atoi (line.drop 5)) = some k ∧
          ((s.game k).id = -1 ∨ (s.game k).state = GameState.GAME_IN_PROGRESS ∨
            (s.game k).state = GameState.GAME_ENDED ∨ (s.game k).opponent_fd ≠ -1)) →
      rejected s sd (handle_join_command s sd cur line)) ∧
    ((find_game_by_player_fd s sd = none ∨
        ∃ k, find_game_by_player_fd s sd = some k ∧
          ((s.game k).owner_fd ≠ sd ∨ (s.game k).state ≠ GameState.GAME_WAITING_FOR_PLAYER ∨
            (s.game k).opponent_fd = -1)) →
      rejected s sd (handle_accept_command s sd cur) ∧
      rejected s sd (handle_reject_command s sd cur)) ∧
    ((s.client cur).game_id = -1 → rejected s sd (handle_leave_command s sd cur)) ∧
    (((s.client cur).game_id = -1 ∨
        find_game_by_id s (s.client cur).game_id = none ∨
        ∃ k, find_game_by_id s (s.client cur).game_id = some k ∧
          ((s.game k).state ≠ GameState.GAME_ENDED ∨
            (s.game k).last_result ≠ GameResult.DRAW)) →
      ∃ s1, handle_rematch_command s sd = some s1 ∧ rejected s sd s1) ∧
    (∀ buffer : List Char,
      ((s.client cur).status ≠ PlayerStatus.PLAYER_IN_GAME ∨
        find_game_by_id s (s.client cur).game_id = none ∨
        (∃ k, find_game_by_id s (s.client cur).game_id = some k ∧
          (s.game k).state ≠ GameState.GAME_IN_PROGRESS) ∨
        (s.client cur).is_current_turn = false ∨
        sscanf_move buffer = none ∨
        (∃ k rc, find_game_by_id s (s.client cur).game_id = some k ∧
          sscanf_move buffer = some rc ∧
          move_refused (s.game k).tris_game rc.1 rc.2)) →
      ∃ s1, handle_move_command s sd buffer = some s1 ∧ rejected s sd s1) := by
  refine ⟨?_, ?_, ?_, ?_, ?_, ?_⟩
  · intro hg
    unfold handle_create_command
    rw [if_pos hg]
    exact ⟨_, rfl, rejected_send s sd _⟩
  · intro line hrej
    apply rejected_of_eq
    apply join_rejected
    rcases hrej with x | x | ⟨k, hk, x⟩
    · exact Or.inl x
    · exact Or.inr (Or.inl x)
    · refine Or.inr (Or.inr ⟨k, hk, ?_⟩)
      rcases x with x | x | x | x
      · exact Or.inl x
      · exact Or.inr (Or.inl x)
      · exact Or.inr (Or.inr (Or.inl x))
      · exact Or.inr (Or.inr (Or.inr (Or.inl x)))
  · intro hrej
    exact ⟨rejected_of_eq (accept_rejected s sd cur hrej),
      rejected_of_eq (reject_rejected s sd cur hrej)⟩
  · intro hg
    unfold handle_leave_command
    rw [if_pos hg]
    exact rejected_send s sd _
  · intro hrej
    obtain ⟨m, hm⟩ := rematch_rejected s sd cur hcur hrej
    exact ⟨_, hm, rejected_send s sd m⟩
  · intro buffer hrej
    have hrej' : (s.client cur).status ≠ PlayerStatus.PLAYER_IN_GAME ∨
        find_game_by_id s (s.client cur).game_id = none ∨
        (∃ k, find_game_by_id s (s.client cur).game_id = some k ∧
          (s.game k).state ≠ GameState.GAME_IN_PROGRESS) ∨
        (s.client cur).is_current_turn = false ∨
        sscanf_move buffer = none ∨
        (∃ k rc, find_game_by_id s (s.client cur).game_id = some k ∧
          sscanf_move buffer = some rc ∧
          (make_move (s.game k).tris_game rc.1 rc.2).1 ≠ 0) := by
      rcases hrej with x | x | x | x | x | ⟨k, rc, hk, hrc, x⟩
      · exact Or.inl x
      · exact Or.inr (Or.inl x)
      · exact Or.inr (Or.inr (Or.inl x))
      · exact Or.inr (Or.inr (Or.inr (Or.inl x)))
      · exact Or.inr (Or.inr (Or.inr (Or.inr (Or.inl x))))
      · refine Or.inr (Or.inr (Or.inr (Or.inr (Or.inr ⟨k, rc, hk, hrc, ?_⟩))))
        rw [make_move_of_refused _ _ _ x]
        decide
    obtain ⟨m, hm⟩ := move_rejected s sd buffer cur hcur hrej'
    exact ⟨_, hm, rejected_send s sd m⟩

/-- C12: in a reachable state in which all 5 game slots are occupied, `create`
from a session that is in no game answers that the maximum number of games is
reached and changes nothing: the game table, the game counter, the next id
and the session of the requester (with the rest of the client table) are as
before. -/
theorem create_refused_when_full (master_socket : Int) (s : Server) (sd : Int) (cur : Nat)
    (hr : Reachable master_socket s)
    (hfull : ∀ k, k < 5 → (s.game k).id ≠ -1)
    (hg : (s.client cur).game_id = -1) :
    ∃ s1, handle_create_command s sd cur = some s1 ∧
      s1 = send_to_client s sd "Massimo numero di partite raggiunto. Riprova più tardi.\n" ∧
      s1.games = s.games ∧
      s1.num_games = s.num_games ∧
      s1.next_game_id = s.next_game_id ∧
      s1.client cur = s.client cur ∧
      unchanged s s1 := by
  have hn := reachable_num_games hr
  rw [occupied_eq, if_neg (hfull 0 (by decide)), if_neg (hfull 1 (by decide)),
    if_neg (hfull 2 (by decide)), if_neg (hfull 3 (by decide)),
    if_neg (hfull 4 (by decide))] at hn
  have e : handle_create_command s sd cur =
      some (send_to_client s sd
        "Massimo numero di partite raggiunto. Riprova più tardi.\n") := by
    unfold handle_create_command
    rw [if_neg (by simp [hg]), if_pos (by rw [hn]; decide)]
  have hu : unchanged s (send_to_client s sd
      "Massimo numero di partite raggiunto. Riprova più tardi.\n") :=
    unchanged_send s sd _
  exact ⟨_, e, rfl, hu.2.1, hu.2.2.2.1, hu.2.2.2.2.1, unchanged_client hu cur, hu⟩

/-- In a reachable state in which the requester `sd` (slot `cur`) is in no game,
some game slot is free and the counter `next_game_id` is below `INT_MAX`,
`create` returns and takes the lowest free slot `k`: it gets the id
`next_game_id`, which no slot held, owner `sd`, no opponent, state
`GAME_WAITING_FOR_PLAYER`, last result `IN_PROGRESS` and an empty board with
`turn = 0`; the requester gets that id as game reference, status
`PLAYER_IN_GAME`, mark `X` and turn flag false; every other game slot and every
other client slot is unchanged, and `next_game_id` and `num_games` grow by
one. -/
theorem create_takes_first_free_slot (master_socket : Int) (s : Server) (sd : Int) (cur : Nat)
    (hr : Reachable master_socket s) (hsd : 0 < sd)
    (hcur : find_client_by_fd s sd = some cur)
    (hg : (s.client cur).game_id = -1)
    (hfree : ∃ k, k < 5 ∧ (s.game k).id = -1)
    (hnext : s.next_game_id < INT_MAX) :
    ∃ (k : Nat) (s1 : Server), handle_create_command s sd cur = some s1 ∧
      k < 5 ∧ (s.game k).id = -1 ∧ (∀ m, m < k → (s.game m).id ≠ -1) ∧
      (s1.game k).id = s.next_game_id ∧
      (∀ m, m < 5 → (s.game m).id ≠ s.next_game_id) ∧ s.next_game_id ≠ -1 ∧
      (s1.game k).owner_fd = sd ∧
      (s1.game k).opponent_fd = -1 ∧
      (s1.game k).state = GameState.GAME_WAITING_FOR_PLAYER ∧
      (s1.game k).last_result = GameResult.IN_PROGRESS ∧
      (∀ r c, (s1.game k).tris_game.cell r c = Cell.EMPTY) ∧
      (s1.game k).tris_game.turn = 0 ∧
      (s1.client cur).fd = sd ∧
      (s1.client cur).game_id = s.next_game_id ∧
      (s1.client cur).status = PlayerStatus.PLAYER_IN_GAME ∧
      (s1.client cur).player_symbol = Cell.X ∧
      (s1.client cur).is_current_turn = false ∧
      (∀ m, m ≠ k → s1.game m = s.game m) ∧
      (∀ j, j ≠ cur → s1.client j = s.client j) ∧
      s1.next_game_id = s.next_game_id + 1 ∧
      s1.num_games = s.num_games + 1 := by
  have h := reachable_inv hr
  obtain ⟨hcn, hcfd⟩ := h.find_client_reg hsd hcur
  have hn := reachable_num_games hr
  obtain ⟨k0, hk0, hfree0⟩ := hfree
  have hlt : s.num_games < 5 := by
    rw [hn, occupied_eq]
    interval_cases k0 <;> rw [if_pos hfree0] <;> split_ifs <;> simp
  cases hk : (List.range MAX_GAMES).find? (fun j => (s.game j).id == -1) with
  | none =>
    have := find_range_none _ _ hk k0 hk0
    simp only [beq_eq_false_iff_ne, ne_eq] at this
    exact absurd hfree0 this
  | some k =>
    obtain ⟨hk5, hfr, hfirst, ec, eg, _, _, _, ex, en⟩ := create_effect h sd cur k hcn hg hlt hk
    have ek := eg k
    rw [if_pos rfl] at ek
    have eo := ec cur
    rw [if_pos rfl] at eo
    have hpos : 0 < s.next_game_id := by simpa [core] using h.cinv.next_pos
    refine ⟨k, create_game s sd cur k, create_returns s sd cur k hg hlt hk hnext,
      hk5, hfr, hfirst, ?_, ?_, by omega, ?_, ?_, ?_, ?_, ?_, ?_, ?_, ?_, ?_, ?_, ?_,
      ?_, ?_, ex, en⟩
    · rw [ek]
    · intro m hm
      rcases h.cinv.gid_range m hm with x | x
      · simp only [core] at x
        rw [x]
        omega
      · simp only [core] at x
        omega
    · rw [ek]
    · rw [ek]
    · rw [ek]
    · rw [ek]
    · intro r c
      rw [ek]
      exact cell_init_game (s.game k).tris_game r c
    · rw [ek]
      rfl
    · rw [eo]
      exact hcfd
    · rw [eo]
    · rw [eo]
    · rw [eo]
    · rw [eo]
    · intro m hm
      rw [eg, if_neg hm]
    · intro j hj
      rw [ec, if_neg hj]

/-- A `join` leaves every game that has an opponent as it was. -/
theorem join_keeps_opponent (s : Server) (sd : Int) (cur : Nat) (line : List Char) (m : Nat)
    (hm : (s.game m).opponent_fd ≠ -1) :
    (handle_join_command s sd cur line).game m = s.game m := by
  unfold handle_join_command
  split_ifs
  · exact game_send _ _ _ _
  · simp only []
    split
    · exact game_send _ _ _ _
    · rename_i k hk
      split_ifs with h2 h3 h4
      · exact game_send _ _ _ _
      · exact game_send _ _ _ _
      · exact game_send _ _ _ _
      · simp only [game_send, game_setClient, game_setGame]
        rw [if_neg]
        rintro ⟨e, _⟩
        rw [e] at hm
        exact h3 (Or.inr (Or.inr hm))

/-- Along any admissible run from a reachable state `s` to `s1` (a run in
which every event has a defined result, so one in which the counter
`next_game_id` does not overflow), the ids given to new games are the
consecutive integers from the `next_game_id` of `s` to just below that of `s1`
(from the start state, whose `next_game_id` is 1: 1, 2, 3, ...), so they
increase strictly. In the reachable state the occupied slots have pairwise
distinct ids, all positive and below `next_game_id`. An id below
`next_game_id` that no slot holds (the id of a game that was torn down) is
found in no slot at any later point of the run: `find_game_by_id` returns
`none`, so a `join` naming it is rejected. -/
theorem ids_increase_and_are_not_reused (master_socket : Int) (s s1 : Server)
    (es : List Event) (hr : Reachable master_socket s)
    (hrun : run_admissible master_socket s es = some s1) :
    (init_server master_socket).next_game_id = 1 ∧
    handed_out s es =
      (List.range (s1.next_game_id - s.next_game_id).toNat).map
        (fun i : Nat => s.next_game_id + (i : Int)) ∧
    s.next_game_id ≤ s1.next_game_id ∧
    (∀ k l, k < 5 → l < 5 → (s.game k).id ≠ -1 → (s.game k).id = (s.game l).id → k = l) ∧
    (∀ k, k < 5 → (s.game k).id ≠ -1 → 0 < (s.game k).id ∧ (s.game k).id < s.next_game_id) ∧
    (∀ g : Int, g ≠ -1 → g < s.next_game_id → find_game_by_id s g = none →
      find_game_by_id s1 g = none ∧
      ∀ (sd : Int) (cur : Nat) (line : List Char), atoi (line.drop 5) = g →
        rejected s1 sd (handle_join_command s1 sd cur line)) := by
  have h := reachable_inv hr
  obtain ⟨e1, e2⟩ := handed_out_run es hr hrun
  refine ⟨rfl, e1, e2, ?_, ?_, ?_⟩
  · intro k l hk hl hocc e
    exact h.cinv.gid_inj k l hk hl hocc e
  · intro k hk hocc
    rcases h.cinv.gid_range k hk with x | x
    · exact absurd x hocc
    · exact x
  · intro g hg hlt habs
    have hn := absent_run es g hg hr hrun hlt habs
    refine ⟨hn, fun sd cur line hl => ?_⟩
    apply rejected_of_eq
    apply join_rejected
    right
    left
    rw [hl]
    exact hn

/-- C15: a `join` that names a game with an opponent attached is rejected:
nothing but the output log changes, so the game keeps its owner, its opponent
and its state, and the session of the requester is as before (connected and in
no game if it was). In general no `join`, whatever its argument, changes a game
that has an opponent, so a second opponent is never attached while one is
present. This holds in every state, so in every reachable one. -/
theorem join_rejected_when_opponent_present (s : Server) (sd : Int) (cur k : Nat)
    (line : List Char)
    (hk : find_game_by_id s (atoi (line.drop 5)) = some k)
    (hopp : (s.game k).opponent_fd ≠ -1) :
    rejected s sd (handle_join_command s sd cur line) ∧
    ((handle_join_command s sd cur line).game k).owner_fd = (s.game k).owner_fd ∧
    ((handle_join_command s sd cur line).game k).opponent_fd = (s.game k).opponent_fd ∧
    ((handle_join_command s sd cur line).game k).state = (s.game k).state ∧
    (handle_join_command s sd cur line).client cur = s.client cur ∧
    (∀ (sd1 : Int) (cur1 : Nat) (line1 : List Char) (m : Nat),
      (s.game m).opponent_fd ≠ -1 →
        (handle_join_command s sd1 cur1 line1).game m = s.game m) := by
  have hrej : rejected s sd (handle_join_command s sd cur line) := by
    apply rejected_of_eq
    apply join_rejected
    exact Or.inr (Or.inr ⟨k, hk, Or.inr (Or.inr (Or.inr (Or.inl hopp)))⟩)
  have hgk := unchanged_game hrej.2 k
  refine ⟨hrej, ?_, ?_, ?_, unchanged_client hrej.2 cur, ?_⟩
  · rw [hgk]
  · rw [hgk]
  · rw [hgk]
  · intro sd1 cur1 line1 m hm
    exact join_keeps_opponent s sd1 cur1 line1 m hm

/-- C16: in a reachable state in which the requester `sd` (slot `cur`) is in no
game and the id given to `join` is that of an occupied game `k` in
`GAME_WAITING_FOR_PLAYER` without opponent, `join` makes the requester the
opponent of the game and gives the requester the id of the game as reference,
status `PLAYER_WAITING_ACCEPT`, mark `O` and turn flag false; the id, owner,
state and board of the game, every other game and every other session are
unchanged. -/
theorem join_attaches_opponent (master_socket : Int) (s : Server) (sd : Int) (cur k : Nat)
    (line : List Char)
    (hr : Reachable master_socket s) (hsd : 0 < sd)
    (hcur : find_client_by_fd s sd = some cur)
    (hg : (s.client cur).game_id = -1)
    (hk : find_game_by_id s (atoi (line.drop 5)) = some k)
    (hocc : (s.game k).id ≠ -1)
    (hst : (s.game k).state = GameState.GAME_WAITING_FOR_PLAYER)
    (hopp : (s.game k).opponent_fd = -1) :
    ((handle_join_command s sd cur line).game k).opponent_fd = sd ∧
    ((handle_join_command s sd cur line).game k).id = (s.game k).id ∧
    ((handle_join_command s sd cur line).game k).owner_fd = (s.game k).owner_fd ∧
    ((handle_join_command s sd cur line).game k).state = GameState.GAME_WAITING_FOR_PLAYER ∧
    ((handle_join_command s sd cur line).game k).tris_game = (s.game k).tris_game ∧
    ((handle_join_command s sd cur line).game k).last_result = (s.game k).last_result ∧
    ((handle_join_command s sd cur line).client cur).fd = sd ∧
    ((handle_join_command s sd cur line).client cur).game_id = (s.game k).id ∧
    ((handle_join_command s sd cur line).client cur).status =
      PlayerStatus.PLAYER_WAITING_ACCEPT ∧
    ((handle_join_command s sd cur line).client cur).player_symbol = Cell.O ∧
    ((handle_join_command s sd cur line).client cur).is_current_turn = false ∧
    (∀ m, m ≠ k → (handle_join_command s sd cur line).game m = s.game m) ∧
    (∀ j, j ≠ cur → (handle_join_command s sd cur line).client j = s.client j) := by
  have h := reachable_inv hr
  obtain ⟨hcn, hcfd⟩ := h.find_client_reg hsd hcur
  obtain ⟨hk5, _⟩ := find_game_some hk
  have hown : (s.game k).owner_fd ≠ sd := by
    intro e
    obtain ⟨i, hin, hifd, hig⟩ := h.cinv.g_owner k hk5 (by simp only [core]; exact hocc)
    simp only [core] at hin hifd hig
    have : i = cur := h.cinv.fd_inj i cur hin hcn (by simp only [core]; rw [hifd, e, hcfd])
    rw [this, hg] at hig
    exact hocc hig.symm
  obtain ⟨ec, eg, _⟩ := join_effect h sd cur k line hcn hg hk hocc
    (by rw [hst]; decide) (by rw [hst]; decide) hopp hown
  have ek := eg k
  rw [if_pos rfl] at ek
  have eo := ec cur
  rw [if_pos rfl] at eo
  refine ⟨?_, ?_, ?_, ?_, ?_, ?_, ?_, ?_, ?_, ?_, ?_, ?_, ?_⟩
  · rw [ek]
  · rw [ek]
  · rw [ek]
  · rw [ek]
    exact hst
  · rw [ek]
  · rw [ek]
  · rw [eo]
    exact hcfd
  · rw [eo]
  · rw [eo]
  · rw [eo]
  · rw [eo]
  · intro m hm
    rw [eg, if_neg hm]
  · intro j hj
    rw [ec, if_neg hj]

theorem inv_unchanged {s t : Server} (h : Inv s) (hu : unchanged s t) : Inv t := by
  refine inv_of_core_eq h (by rw [hu.1]) (by rw [hu.2.1]) ?_
  simp only [core, unchanged_client hu, unchanged_game hu, hu.2.2.1, hu.2.2.2.2.1]

theorem find_client_unchanged {s t : Server} (hu : unchanged s t) (fd : Int) :
    find_client_by_fd t fd = find_client_by_fd s fd :=
  find_client_congr s t (fun i => by rw [unchanged_client hu]) fd

theorem find_game_unchanged {s t : Server} (hu : unchanged s t) (id : Int) :
    find_game_by_id t id = find_game_by_id s id :=
  find_game_congr s t (fun i => by rw [unchanged_game hu]) id

theorem dispatch_leave (s : Server) (sd : Int) (cur : Nat)
    (hcur : find_client_by_fd s sd = some cur) :
    dispatch s sd "leave".toList = some (handle_leave_command s sd cur) := by
  unfold dispatch
  rw [hcur]
  simp only []
  rw [if_neg (by decide), if_neg (by decide), if_neg (by decide), if_neg (by decide),
    if_neg (by decide), if_pos (by decide)]

theorem dispatch_quit (s : Server) (sd : Int) (cur : Nat)
    (hcur : find_client_by_fd s sd = some cur) :
    dispatch s sd "quit".toList =
      some (remove_client (send_to_client s sd "Arrivederci!\n") sd) := by
  unfold dispatch
  rw [hcur]
  simp only []
  rw [if_neg (by decide), if_neg (by decide), if_neg (by decide), if_neg (by decide),
    if_neg (by decide), if_neg (by decide), if_neg (by decide), if_neg (by decide),
    if_pos (by decide)]

theorem client_readable_zero (s : Server) (sd : Int) (buffer : List Char) :
    client_readable s sd buffer 0 = some (remove_client s sd) := by
  unfold client_readable
  rw [if_pos rfl]

/-- The command line that `handle_client_data` passes to `dispatch` for the
event `cmd sd text`, when `text` has no NUL and no newline. -/
theorem leave_line (s : Server) (sd : Int) :
    step s (cmd sd "leave") = dispatch s sd "leave".toList := by
  simp only [step, cmd, client_readable]
  rw [if_neg (by decide)]
  unfold handle_client_data
  rw [if_neg (by decide)]
  rfl

theorem quit_line (s : Server) (sd : Int) :
    step s (cmd sd "quit") = dispatch s sd "quit".toList := by
  simp only [step, cmd, client_readable]
  rw [if_neg (by decide)]
  unfold handle_client_data
  rw [if_neg (by decide)]
  rfl

/-- What the departure of the owner of game `k` leaves, for the departure rule
alone and for the full removal of the session. -/
theorem owner_departure_core {s : Server} (h : Inv s) (sd : Int) (k : Nat) (hk5 : k < 5)
    (hocc : (s.game k).id ≠ -1) (hown : (s.game k).owner_fd = sd)
    (hopp : (s.game k).opponent_fd ≠ -1) :
    ∀ s1, (s1 = remove_client_from_game s sd ∨ s1 = remove_client s sd) →
      (s1.game k).id = -1 ∧ (s1.game k).owner_fd = -1 ∧ (s1.game k).opponent_fd = -1 ∧
      ∃ p1, find_client_by_fd s1 (s.game k).opponent_fd = some p1 ∧
        (s1.client p1).fd = (s.game k).opponent_fd ∧
        (s1.client p1).status = PlayerStatus.PLAYER_CONNECTED ∧
        (s1.client p1).game_id = -1 ∧
        (s1.client p1).player_symbol = Cell.EMPTY ∧
        (s1.client p1).is_current_turn = false ∧
        (s1.client p1).wants_rematch = false := by
  have hocc' : (core s).gid k ≠ -1 := hocc
  have hsd : 0 < sd := by
    have := h.cinv.owner_pos hk5 hocc'
    simp only [core] at this
    rw [← hown]
    exact this
  obtain ⟨i, hin, hifd, hig⟩ := h.cinv.g_owner k hk5 hocc'
  simp only [core] at hin hifd hig
  have hi : find_client_by_fd s sd = some i := by
    rw [← hown, ← hifd]
    exact h.find_client_of_reg hin
  have hg : (s.client i).game_id ≠ -1 := by
    rw [hig]
    exact hocc
  have hk : find_game_by_id s (s.client i).game_id = some k := by
    rw [hig]
    exact h.find_game_of_occ hk5 hocc
  obtain ⟨p, hpi, hpn, hfp, hpfd, ec, eg, _⟩ :=
    remove_from_game_owner_effect h sd hsd i k hi hg hk hown hopp
  obtain ⟨_, hfds, _⟩ := remove_from_game_post h sd hsd
  have ek := eg k
  rw [if_pos rfl] at ek
  have ep := ec p
  rw [if_neg hpi, if_pos rfl] at ep
  intro s1 hs1
  rcases hs1 with e | e
  · subst e
    refine ⟨by rw [ek], by rw [ek], by rw [ek], p, ?_, ?_, ?_, ?_, ?_, ?_, ?_⟩
    · rw [find_client_congr s _ hfds]
      exact hfp
    · rw [ep]
      exact hpfd
    · rw [ep]
      rfl
    · rw [ep]
      rfl
    · rw [ep]
      rfl
    · rw [ep]
      rfl
    · rw [ep]
      rfl
  · subst e
    obtain ⟨_, egm, _⟩ := remove_client_effect h sd hsd i hi
    obtain ⟨p1, hf1, hc1⟩ := remove_client_other h sd hsd i p hi hpn hpi
    have ek1 : (remove_client s sd).game k = (remove_client_from_game s sd).game k := by
      simp only [Server.game, egm]
    rw [hpfd] at hf1
    refine ⟨by rw [ek1, ek], by rw [ek1, ek], by rw [ek1, ek], p1, hf1, ?_, ?_, ?_, ?_, ?_, ?_⟩
    · rw [hc1, ep]
      exact hpfd
    · rw [hc1, ep]
      rfl
    · rw [hc1, ep]
      rfl
    · rw [hc1, ep]
      rfl
    · rw [hc1, ep]
      rfl
    · rw [hc1, ep]
      rfl

/-- What the departure of the opponent of game `k` leaves, for the departure
rule alone and for the full removal of the session. -/
theorem opponent_departure_core {s : Server} (h : Inv s) (sd : Int) (hsd : 0 < sd) (k : Nat)
    (hk5 : k < 5) (hocc : (s.game k).id ≠ -1) (hopp : (s.game k).opponent_fd = sd) :
    ∃ i, find_client_by_fd s sd = some i ∧
      (∀ s1, (s1 = remove_client_from_game s sd ∨ s1 = remove_client s sd) →
        (s1.game k).id = (s.game k).id ∧ (s1.game k).owner_fd = (s.game k).owner_fd ∧
        (s1.game k).opponent_fd = -1 ∧
        (s1.game k).state = GameState.GAME_WAITING_FOR_PLAYER) ∧
      (remove_client_from_game s sd).client i = reset_client (s.client i) ∧
      (s.client i).fd = sd ∧
      find_client_by_fd (remove_client_from_game s sd) sd = some i ∧
      find_client_by_fd (remove_client s sd) sd = none := by
  have hocc' : (core s).gid k ≠ -1 := hocc
  have hopp' : (s.game k).opponent_fd ≠ -1 := by
    rw [hopp]
    omega
  obtain ⟨_, i, hin, hifd, hig⟩ := h.cinv.g_opp k hk5 hocc' (by simp only [core]; exact hopp')
  simp only [core] at hin hifd hig
  have hi : find_client_by_fd s sd = some i := by
    rw [← hopp, ← hifd]
    exact h.find_client_of_reg hin
  have hg : (s.client i).game_id ≠ -1 := by
    rw [hig]
    exact hocc
  have hk : find_game_by_id s (s.client i).game_id = some k := by
    rw [hig]
    exact h.find_game_of_occ hk5 hocc
  obtain ⟨ec, eg, _⟩ := remove_from_game_opp_effect h sd hsd i k hi hg hk hopp
  obtain ⟨_, hfds, _⟩ := remove_from_game_post h sd hsd
  have ek := eg k
  rw [if_pos rfl] at ek
  have ei := ec i
  rw [if_pos rfl] at ei
  obtain ⟨_, egm, _⟩ := remove_client_effect h sd hsd i hi
  have ek1 : (remove_client s sd).game k = (remove_client_from_game s sd).game k := by
    simp only [Server.game, egm]
  refine ⟨i, hi, ?_, ei, hifd.trans hopp, ?_, remove_client_gone h sd hsd i hi⟩
  · intro s1 hs1
    rcases hs1 with e | e
    · subst e
      exact ⟨by rw [ek], by rw [ek], by rw [ek], by rw [ek]⟩
    · subst e
      exact ⟨by rw [ek1, ek], by rw [ek1, ek], by rw [ek1, ek], by rw [ek1, ek]⟩
  · rw [find_client_congr s _ hfds]
    exact hi

/-- `leave` from a session that is in a game that is found: a message, then
the departure rule. -/
theorem leave_eq (s : Server) (sd : Int) (i k : Nat) (hg : (s.client i).game_id ≠ -1)
    (hk : find_game_by_id s (s.client i).game_id = some k) :
    handle_leave_command s sd i =
      remove_client_from_game (send_to_client s sd "Hai lasciato la partita.\n") sd := by
  unfold handle_leave_command
  rw [if_neg hg, hk]

/-- C17: in a reachable state in which `sd` owns the occupied game `k` and an
opponent is attached, whatever the state of the game, each way the owner can
depart (`leave`, `quit`, a read of 0 bytes) frees the slot (id, owner and
opponent reference become -1), and afterwards the former opponent is still
registered, connected, in no game, with mark `EMPTY` and both flags false. -/
theorem owner_departure_frees_slot (master_socket : Int) (s : Server) (sd : Int) (k : Nat)
    (hr : Reachable master_socket s) (hk5 : k < 5)
    (hocc : (s.game k).id ≠ -1) (hown : (s.game k).owner_fd = sd)
    (hopp : (s.game k).opponent_fd ≠ -1) :
    ∃ i, find_client_by_fd s sd = some i ∧
      step s (cmd sd "leave") = some (handle_leave_command s sd i) ∧
      step s (cmd sd "quit") =
        some (remove_client (send_to_client s sd "Arrivederci!\n") sd) ∧
      (∀ buffer, step s (Event.readable sd buffer 0) = some (remove_client s sd)) ∧
      ∀ s1, (s1 = handle_leave_command s sd i ∨
          s1 = remove_client (send_to_client s sd "Arrivederci!\n") sd ∨
          s1 = remove_client s sd) →
        (s1.game k).id = -1 ∧ (s1.game k).owner_fd = -1 ∧ (s1.game k).opponent_fd = -1 ∧
        ∃ p1, find_client_by_fd s1 (s.game k).opponent_fd = some p1 ∧
          (s1.client p1).fd = (s.game k).opponent_fd ∧
          (s1.client p1).status = PlayerStatus.PLAYER_CONNECTED ∧
          (s1.client p1).game_id = -1 ∧
          (s1.client p1).player_symbol = Cell.EMPTY ∧
          (s1.client p1).is_current_turn = false ∧
          (s1.client p1).wants_rematch = false := by
  have h := reachable_inv hr
  have hocc' : (core s).gid k ≠ -1 := hocc
  obtain ⟨i, hin, hifd, hig⟩ := h.cinv.g_owner k hk5 hocc'
  simp only [core] at hin hifd hig
  have hi : find_client_by_fd s sd = some i := by
    rw [← hown, ← hifd]
    exact h.find_client_of_reg hin
  have hg : (s.client i).game_id ≠ -1 := by
    rw [hig]
    exact hocc
  have hk : find_game_by_id s (s.client i).game_id = some k := by
    rw [hig]
    exact h.find_game_of_occ hk5 hocc
  have key : ∀ m : String, ∀ s1,
      (s1 = remove_client_from_game (send_to_client s sd m) sd ∨
        s1 = remove_client (send_to_client s sd m) sd) →
      (s1.game k).id = -1 ∧ (s1.game k).owner_fd = -1 ∧ (s1.game k).opponent_fd = -1 ∧
      ∃ p1, find_client_by_fd s1 (s.game k).opponent_fd = some p1 ∧
        (s1.client p1).fd = (s.game k).opponent_fd ∧
        (s1.client p1).status = PlayerStatus.PLAYER_CONNECTED ∧
        (s1.client p1).game_id = -1 ∧
        (s1.client p1).player_symbol = Cell.EMPTY ∧
        (s1.client p1).is_current_turn = false ∧
        (s1.client p1).wants_rematch = false := by
    intro m s1 hs1
    have := owner_departure_core (inv_send h sd m) sd k hk5
      (by rw [game_send]; exact hocc) (by rw [game_send]; exact hown)
      (by rw [game_send]; exact hopp) s1 hs1
    rw [game_send] at this
    exact this
  refine ⟨i, hi, ?_, ?_, ?_, ?_⟩
  · rw [leave_line, dispatch_leave s sd i hi]
  · rw [quit_line, dispatch_quit s sd i hi]
  · intro buffer
    simp only [step]
    exact client_readable_zero s sd buffer
  · intro s1 hs1
    rcases hs1 with e | e | e
    · rw [leave_eq s sd i k hg hk] at e
      exact key _ s1 (Or.inl e)
    · exact key _ s1 (Or.inr e)
    · exact owner_departure_core h sd k hk5 hocc hown hopp s1 (Or.inr e)

/-- C18: in a reachable state in which `sd` is the opponent of the occupied
game `k`, whatever the state of the game, each way the opponent can depart
(`leave`, `quit`, a read of 0 bytes) leaves the game with its id and owner,
without opponent and in `GAME_WAITING_FOR_PLAYER`. The departure rule resets
the session (connected, in no game, mark `EMPTY`, both flags false): after
`leave` the session is registered in that condition; after `quit` or a read of
0 bytes it has then been removed from the client table. -/
theorem opponent_departure_reopens_game (master_socket : Int) (s : Server) (sd : Int)
    (k : Nat) (hr : Reachable master_socket s) (hsd : 0 < sd) (hk5 : k < 5)
    (hocc : (s.game k).id ≠ -1) (hopp : (s.game k).opponent_fd = sd) :
    ∃ i, find_client_by_fd s sd = some i ∧
      step s (cmd sd "leave") = some (handle_leave_command s sd i) ∧
      step s (cmd sd "quit") =
        some (remove_client (send_to_client s sd "Arrivederci!\n") sd) ∧
      (∀ buffer, step s (Event.readable sd buffer 0) = some (remove_client s sd)) ∧
      (∀ s1, (s1 = handle_leave_command s sd i ∨
          s1 = remove_client (send_to_client s sd "Arrivederci!\n") sd ∨
          s1 = remove_client s sd) →
        (s1.game k).id = (s.game k).id ∧ (s1.game k).owner_fd = (s.game k).owner_fd ∧
        (s1.game k).opponent_fd = -1 ∧
        (s1.game k).state = GameState.GAME_WAITING_FOR_PLAYER) ∧
      (find_client_by_fd (handle_leave_command s sd i) sd = some i ∧
        (handle_leave_command s sd i).client i = reset_client (s.client i)) ∧
      (∀ t, (t = send_to_client s sd "Arrivederci!\n" ∨ t = s) →
        (remove_client_from_game t sd).client i = reset_client (s.client i) ∧
        find_client_by_fd (remove_client t sd) sd = none) ∧
      (reset_client (s.client i)).fd = sd ∧
      (reset_client (s.client i)).status = PlayerStatus.PLAYER_CONNECTED ∧
      (reset_client (s.client i)).game_id = -1 ∧
      (reset_client (s.client i)).player_symbol = Cell.EMPTY ∧
      (reset_client (s.client i)).is_current_turn = false ∧
      (reset_client (s.client i)).wants_rematch = false := by
  have h := reachable_inv hr
  obtain ⟨i, hi, _, _, hifd, _, _⟩ := opponent_departure_core h sd hsd k hk5 hocc hopp
  obtain ⟨hin, _⟩ := h.find_client_reg hsd hi
  have hg : (s.client i).game_id ≠ -1 := by
    intro e
    have hopp' : (core s).gopp k ≠ -1 := by
      simp only [core]
      rw [hopp]
      omega
    obtain ⟨_, j, hjn, hjfd, hjg⟩ := h.cinv.g_opp k hk5 hocc hopp'
    simp only [core] at hjn hjfd hjg
    have : j = i := h.cinv.fd_inj j i hjn hin (by simp only [core]; rw [hjfd, hopp, hifd])
    rw [this, e] at hjg
    exact hocc hjg.symm
  obtain ⟨k0, hk0, hid0, _⟩ := h.cinv.c_game i hin hg
  simp only [core] at hid0
  have hk : find_game_by_id s (s.client i).game_id = some k0 := by
    rw [← hid0]
    exact h.find_game_of_occ hk0 (by rw [hid0]; exact hg)
  have key : ∀ t, unchanged s t →
      (∀ s1, (s1 = remove_client_from_game t sd ∨ s1 = remove_client t sd) →
        (s1.game k).id = (s.game k).id ∧ (s1.game k).owner_fd = (s.game k).owner_fd ∧
        (s1.game k).opponent_fd = -1 ∧
        (s1.game k).state = GameState.GAME_WAITING_FOR_PLAYER) ∧
      (remove_client_from_game t sd).client i = reset_client (s.client i) ∧
      find_client_by_fd (remove_client_from_game t sd) sd = some i ∧
      find_client_by_fd (remove_client t sd) sd = none := by
    intro t hu
    have hgk := unchanged_game hu k
    obtain ⟨i1, hi1, a, b, _, c, d⟩ := opponent_departure_core (inv_unchanged h hu) sd hsd k hk5
      (by rw [hgk]; exact hocc) (by rw [hgk]; exact hopp)
    rw [find_client_unchanged hu, hi] at hi1
    have : i = i1 := by simpa using hi1
    subst this
    rw [hgk] at a
    rw [unchanged_client hu] at b
    exact ⟨a, b, c, d⟩
  obtain ⟨a1, b1, c1, _⟩ := key (send_to_client s sd "Hai lasciato la partita.\n")
    (unchanged_send s sd _)
  obtain ⟨a2, b2, _, d2⟩ := key (send_to_client s sd "Arrivederci!\n") (unchanged_send s sd _)
  obtain ⟨a3, b3, _, d3⟩ := key s (unchanged_refl s)
  have hl := leave_eq s sd i k0 hg hk
  refine ⟨i, hi, ?_, ?_, ?_, ?_, ?_, ?_, hifd, rfl, rfl, rfl, rfl, rfl⟩
  · rw [leave_line, dispatch_leave s sd i hi]
  · rw [quit_line, dispatch_quit s sd i hi]
  · intro buffer
    simp only [step]
    exact client_readable_zero s sd buffer
  · intro s1 hs1
    rcases hs1 with e | e | e
    · rw [hl] at e
      exact a1 s1 (Or.inl e)
    · exact a2 s1 (Or.inr e)
    · exact a3 s1 (Or.inr e)
  · rw [hl]
    exact ⟨c1, b1⟩
  · intro t ht
    rcases ht with e | e
    · rw [e]
      exact ⟨b2, d2⟩
    · rw [e]
      exact ⟨b3, d3⟩

/-- C19: in a reachable state in which `sd` owns the occupied game `k`, the
game is in `GAME_WAITING_FOR_PLAYER` and an opponent is pending, `reject`
clears the opponent reference of the game and leaves its state, id, owner and
board as they were; the rejected session (slot `p`) becomes connected, in no
game, with mark `EMPTY` and both flags false; the session of the owner (slot
`i`) and every other session and game are unchanged. -/
theorem reject_detaches_opponent (master_socket : Int) (s : Server) (sd : Int) (cur k : Nat)
    (hr : Reachable master_socket s) (hk5 : k < 5)
    (hocc : (s.game k).id ≠ -1) (hown : (s.game k).owner_fd = sd)
    (hst : (s.game k).state = GameState.GAME_WAITING_FOR_PLAYER)
    (hopp : (s.game k).opponent_fd ≠ -1) :
    ∃ i p, find_client_by_fd s sd = some i ∧
      find_client_by_fd s (s.game k).opponent_fd = some p ∧ p ≠ i ∧
      ((handle_reject_command s sd cur).game k).opponent_fd = -1 ∧
      ((handle_reject_command s sd cur).game k).state = GameState.GAME_WAITING_FOR_PLAYER ∧
      ((handle_reject_command s sd cur).game k).id = (s.game k).id ∧
      ((handle_reject_command s sd cur).game k).owner_fd = sd ∧
      ((handle_reject_command s sd cur).game k).tris_game = (s.game k).tris_game ∧
      ((handle_reject_command s sd cur).client p).fd = (s.game k).opponent_fd ∧
      ((handle_reject_command s sd cur).client p).status = PlayerStatus.PLAYER_CONNECTED ∧
      ((handle_reject_command s sd cur).client p).game_id = -1 ∧
      ((handle_reject_command s sd cur).client p).player_symbol = Cell.EMPTY ∧
      ((handle_reject_command s sd cur).client p).is_current_turn = false ∧
      ((handle_reject_command s sd cur).client p).wants_rematch = false ∧
      (handle_reject_command s sd cur).client i = s.client i ∧
      (∀ j, j ≠ p → (handle_reject_command s sd cur).client j = s.client j) ∧
      (∀ m, m ≠ k → (handle_reject_command s sd cur).game m = s.game m) := by
  have h := reachable_inv hr
  have hocc' : (core s).gid k ≠ -1 := hocc
  obtain ⟨i, hin, hifd, hig⟩ := h.cinv.g_owner k hk5 hocc'
  simp only [core] at hin hifd hig
  have hi : find_client_by_fd s sd = some i := by
    rw [← hown, ← hifd]
    exact h.find_client_of_reg hin
  have hg : (s.client i).game_id ≠ -1 := by
    rw [hig]
    exact hocc
  have hk : find_game_by_id s (s.client i).game_id = some k := by
    rw [hig]
    exact h.find_game_of_occ hk5 hocc
  have hfp : find_game_by_player_fd s sd = some k := by
    unfold find_game_by_player_fd
    rw [hi]
    simp only []
    rw [if_pos hg, hk]
  obtain ⟨p, hpn, hp, hpfd, hpne, ec, eg, _⟩ := reject_effect h sd cur k hfp hown hst hopp
  have hpi : p ≠ i := by
    intro e
    rw [e, hifd, hown] at hpne
    exact hpne rfl
  have ek := eg k
  rw [if_pos rfl] at ek
  have ep := ec p
  rw [if_pos rfl] at ep
  refine ⟨i, p, hi, hp, hpi, ?_, ?_, ?_, ?_, ?_, ?_, ?_, ?_, ?_, ?_, ?_, ?_, ?_, ?_⟩
  · rw [ek]
  · rw [ek]
    exact hst
  · rw [ek]
  · rw [ek]
    exact hown
  · rw [ek]
  · rw [ep]
    exact hpfd
  · rw [ep]
    rfl
  · rw [ep]
    rfl
  · rw [ep]
    rfl
  · rw [ep]
    rfl
  · rw [ep]
    rfl
  · rw [ec, if_neg (fun e => hpi e.symm)]
  · intro j hj
    rw [ec, if_neg hj]
  · intro m hm
    rw [eg, if_neg hm]

/-- The rejections for session 5, the opponent of a game in progress in which
it is the turn of the owner: `create`, `join`, `accept` and an out-of-turn
`move`. -/
theorem failed_precondition_changes_nothing_witness :
    (∃ s1, handle_create_command (state_after 3 trace_started) 5 1 = some s1 ∧
      rejected (state_after 3 trace_started) 5 s1) ∧
    rejected (state_after 3 trace_started) 5
      (handle_join_command (state_after 3 trace_started) 5 1 "join 1".toList) ∧
    rejected (state_after 3 trace_started) 5
      (handle_accept_command (state_after 3 trace_started) 5 1) ∧
    (∃ s1, handle_move_command (state_after 3 trace_started) 5 "move 0 0".toList = some s1 ∧
      rejected (state_after 3 trace_started) 5 s1) :=
  ⟨(failed_precondition_changes_nothing (state_after 3 trace_started) 5 1 (by decide)).1
      (by decide),
    (failed_precondition_changes_nothing (state_after 3 trace_started) 5 1 (by decide)).2.1
      "join 1".toList (Or.inl (by decide)),
    ((failed_precondition_changes_nothing (state_after 3 trace_started) 5 1 (by decide)).2.2.1
      (Or.inr ⟨0, by decide, Or.inl (by decide)⟩)).1,
    (failed_precondition_changes_nothing (state_after 3 trace_started) 5 1
      (by decide)).2.2.2.2.2 "move 0 0".toList
      (Or.inr (Or.inr (Or.inr (Or.inl (by decide)))))⟩

/-- The refusal of C12 for session 9 when sessions 4 to 8 each own a game. -/
theorem create_refused_when_full_witness :
    ∃ s1, handle_create_command (state_after 3 trace_full) 9 5 = some s1 ∧
      s1 = send_to_client (state_after 3 trace_full) 9
        "Massimo numero di partite raggiunto. Riprova più tardi.\n" ∧
      s1.games = (state_after 3 trace_full).games := by
  obtain ⟨s1, e, a, b, _⟩ :=
    create_refused_when_full 3 (state_after 3 trace_full) 9 5
      (reachable_state_after 3 trace_full) (by decide) (by decide)
  exact ⟨s1, e, a, b⟩

/-- The creation by session 4 on a server with no game. -/
theorem create_takes_first_free_slot_witness :
    ∃ (k : Nat) (s1 : Server),
      handle_create_command (state_after 3 trace_connected) 4 0 = some s1 ∧ k < 5 ∧
      (s1.game k).id = 1 ∧ (s1.game k).owner_fd = 4 ∧ (s1.client 0).game_id = 1 := by
  obtain ⟨k, s1, e, hk, _, _, a, _, _, b, _, _, _, _, _, _, c, _⟩ :=
    create_takes_first_free_slot 3 (state_after 3 trace_connected) 4 0
      (reachable_state_after 3 trace_connected) (by decide) (by decide) (by decide)
      ⟨0, by decide, by decide⟩ (by decide)
  exact ⟨k, s1, e, hk, a, b, c⟩

/-- The ids on a run in which game 1 was created and torn down: the next game
gets id 2, and id 1 is not found again. -/
theorem ids_increase_and_are_not_reused_witness :
    handed_out (state_after 3 trace_torn_down) [cmd 5 "create"] = [2] ∧
    find_game_by_id (state_after 3 (trace_torn_down ++ [cmd 5 "create"])) 1 = none ∧
    rejected (state_after 3 (trace_torn_down ++ [cmd 5 "create"])) 4
      (handle_join_command (state_after 3 (trace_torn_down ++ [cmd 5 "create"])) 4 0
        "join 1".toList) := by
  obtain ⟨_, a, _, _, _, c⟩ :=
    ids_increase_and_are_not_reused 3 (state_after 3 trace_torn_down)
      (state_after 3 (trace_torn_down ++ [cmd 5 "create"])) [cmd 5 "create"]
      (reachable_state_after 3 trace_torn_down) (by decide)
  obtain ⟨c1, c2⟩ := c 1 (by decide) (by decide) (by decide)
  refine ⟨?_, c1, c2 4 0 "join 1".toList (by decide)⟩
  rw [a]
  decide

/-- The rejection of C15 for session 6 when session 5 is already attached to
game 1. -/
theorem join_rejected_when_opponent_present_witness :
    rejected (state_after 3 trace_pending) 6
      (handle_join_command (state_after 3 trace_pending) 6 2 "join 1".toList) ∧
    ((handle_join_command (state_after 3 trace_pending) 6 2 "join 1".toList).game 0).opponent_fd
      = 5 := by
  obtain ⟨a, _, b, _⟩ :=
    join_rejected_when_opponent_present (state_after 3 trace_pending) 6 2 0 "join 1".toList
      (by decide) (by decide)
  refine ⟨a, ?_⟩
  rw [b]
  decide

/-- The attachment of C16 for session 5 joining game 1 of session 4. -/
theorem join_attaches_opponent_witness :
    ((handle_join_command (state_after 3 trace_created) 5 1 "join 1".toList).game 0).opponent_fd
      = 5 ∧
    ((handle_join_command (state_after 3 trace_created) 5 1 "join 1".toList).client 1).status
      = PlayerStatus.PLAYER_WAITING_ACCEPT :=
  ⟨(join_attaches_opponent 3 (state_after 3 trace_created) 5 1 0 "join 1".toList
      (reachable_state_after 3 trace_created) (by decide) (by decide) (by decide) (by decide)
      (by decide) (by decide) (by decide)).1,
    (join_attaches_opponent 3 (state_after 3 trace_created) 5 1 0 "join 1".toList
      (reachable_state_after 3 trace_created) (by decide) (by decide) (by decide) (by decide)
      (by decide) (by decide) (by decide)).2.2.2.2.2.2.2.2.1⟩

/-- The departure of C17 when session 4, owner of a game in progress with
session 5, quits. -/
theorem owner_departure_frees_slot_witness :
    ∃ s1, step (state_after 3 trace_started) (cmd 4 "quit") = some s1 ∧
      (s1.game 0).id = -1 ∧
      ∃ p1, find_client_by_fd s1 5 = some p1 ∧ (s1.client p1).game_id = -1 := by
  obtain ⟨i, _, _, hq, _, hpost⟩ :=
    owner_departure_frees_slot 3 (state_after 3 trace_started) 4 0
      (reachable_state_after 3 trace_started) (by decide) (by decide) (by decide) (by decide)
  obtain ⟨a, _, _, p1, b, _, _, c, _⟩ := hpost _ (Or.inr (Or.inl rfl))
  have e : ((state_after 3 trace_started).game 0).opponent_fd = 5 := by decide
  rw [e] at b
  exact ⟨_, hq, a, p1, b, c⟩

/-- The departure of C18 when session 5, opponent of a game in progress with
session 4, leaves. -/
theorem opponent_departure_reopens_game_witness :
    ∃ s1, step (state_after 3 trace_started) (cmd 5 "leave") = some s1 ∧
      (s1.game 0).opponent_fd = -1 ∧ (s1.game 0).state = GameState.GAME_WAITING_FOR_PLAYER := by
  obtain ⟨i, _, hl, _, _, hpost, _⟩ :=
    opponent_departure_reopens_game 3 (state_after 3 trace_started) 5 0
      (reachable_state_after 3 trace_started) (by decide) (by decide) (by decide) (by decide)
  obtain ⟨_, _, a, b⟩ := hpost _ (Or.inl rfl)
  exact ⟨_, hl, a, b⟩

/-- The rejection of C19 when session 4 rejects session 5. -/
theorem reject_detaches_opponent_witness :
    ((handle_reject_command (state_after 3 trace_pending) 4 0).game 0).opponent_fd = -1 ∧
    ∃ p, find_client_by_fd (state_after 3 trace_pending) 5 = some p ∧
      ((handle_reject_command (state_after 3 trace_pending) 4 0).client p).game_id = -1 := by
  obtain ⟨i, p, _, hp, _, a, _, _, _, _, _, _, b, _⟩ :=
    reject_detaches_opponent 3 (state_after 3 trace_pending) 4 0 0
      (reachable_state_after 3 trace_pending) (by decide) (by decide) (by decide) (by decide)
      (by decide)
  have e : ((state_after 3 trace_pending).game 0).opponent_fd = 5 := by decide
  rw [e] at hp
  exact ⟨a, p, hp, b⟩

/-! ## Theorems: the end-to-end scenario -/

/-- The state left by a new connection when the client table is not full, slot
by slot: the first free slot is the one after the registered sessions. -/
theorem accept_connection_effect {s : Server} (h : Inv s) (fd : Int)
    (hn : s.num_clients < 10) :
    (∀ j, (accept_connection s fd).client j =
      if j = s.num_clients.toNat then
        { s.client s.num_clients.toNat with
          fd := fd, status := PlayerStatus.PLAYER_CONNECTED, game_id := -1,
          player_symbol := Cell.EMPTY, is_current_turn := false, wants_rematch := false,
          username := "Giocatore" ++ toString fd }
      else s.client j) ∧
    (accept_connection s fd).games = s.games ∧
    (accept_connection s fd).num_clients = s.num_clients + 1 ∧
    (accept_connection s fd).next_game_id = s.next_game_id ∧
    (accept_connection s fd).num_games = s.num_games := by
  have hr := h.cinv.n_range
  simp only [core] at hr
  have hfree : (s.client s.num_clients.toNat).fd = 0 := by
    have := (h.cinv.reg s.num_clients.toNat (by omega)).2 (by simp only [core]; omega)
    simpa [core] using this
  have key : ∀ t : Server, t.clients = s.clients → t.num_clients = s.num_clients →
      (∀ j, (initialize_client t fd).client j =
        if j = s.num_clients.toNat then
          { s.client s.num_clients.toNat with
            fd := fd, status := PlayerStatus.PLAYER_CONNECTED, game_id := -1,
            player_symbol := Cell.EMPTY, is_current_turn := false, wants_rematch := false,
            username := "Giocatore" ++ toString fd }
        else s.client j) ∧
      (initialize_client t fd).num_clients = s.num_clients + 1 := by
    intro t hc hnc
    have hcl : ∀ j, t.client j = s.client j := fun j => by simp only [Server.client, hc]
    unfold initialize_client
    cases hf : (List.range MAX_CLIENTS).find? (fun i => (t.client i).fd == 0) with
    | none =>
      exfalso
      have := find_range_none _ _ hf s.num_clients.toNat (by simp only [MAX_CLIENTS]; omega)
      rw [hcl, hfree] at this
      exact absurd this (by decide)
    | some i =>
      have hfirst := find_range_first _ _ _ hf
      obtain ⟨hi10, hi0⟩ := find_range_some _ _ _ hf
      simp only [MAX_CLIENTS] at hi10
      simp only [beq_iff_eq] at hi0
      rw [hcl] at hi0
      have hge : s.num_clients ≤ (i : Int) := by
        by_contra hlt
        have := h.cinv.fd_pos (show ((i : Nat) : Int) < (core s).n by simp only [core]; omega)
        simp only [core] at this
        omega
      have hin : i = s.num_clients.toNat := by
        by_contra hne
        have hlt : s.num_clients.toNat < i := by omega
        have h1 := hfirst _ hlt
        rw [hcl, hfree] at h1
        exact absurd h1 (by decide)
      have hlt10 : s.num_clients.toNat < 10 := by omega
      simp only []
      refine ⟨fun j => ?_, ?_⟩
      · simp only [client_send]
        simp only [Server.client, Server.setClient, getD_set, hc, h.1, hlt10, and_true, hin]
      · simp only [num_clients_send]
        rw [← hnc]
        rfl
  unfold accept_connection
  simp only []
  split_ifs <;>
    refine ⟨?_, (initialize_client_frame _ _).1, ?_, (initialize_client_frame _ _).2.1,
      (initialize_client_frame _ _).2.2⟩ <;>
    first
    | (refine (key _ ?_ ?_).1 <;> rfl)
    | (refine (key _ ?_ ?_).2 <;> rfl)

/-- The state left by an `accept` of the owner of a game with a pending
opponent, slot by slot: the game is in progress and
`send_game_state_to_players` gives the turn by the `turn` of the board. -/
theorem accept_effect {s : Server} (h : Inv s) (sd : Int) (hsd : 0 < sd) (cur k : Nat)
    (hcur : find_client_by_fd s sd = some cur)
    (hk5 : k < 5) (hocc : (s.game k).id ≠ -1)
    (hown : (s.game k).owner_fd = sd)
    (hst : (s.game k).state = GameState.GAME_WAITING_FOR_PLAYER)
    (hopp : (s.game k).opponent_fd ≠ -1) :
    ∃ p : Nat, p ≠ cur ∧ (p : Int) < s.num_clients ∧
      find_client_by_fd s (s.game k).opponent_fd = some p ∧
      (s.client p).fd = (s.game k).opponent_fd ∧
      (∀ j, (handle_accept_command s sd cur).client j =
        if j = cur then
          { s.client cur with is_current_turn := decide ((s.game k).tris_game.turn = 0) }
        else if j = p then
          { s.client p with
            status := PlayerStatus.PLAYER_IN_GAME,
            is_current_turn := decide ((s.game k).tris_game.turn ≠ 0) }
        else s.client j) ∧
      (∀ m, (handle_accept_command s sd cur).game m =
        if m = k then { s.game k with state := GameState.GAME_IN_PROGRESS } else s.game m) ∧
      (handle_accept_command s sd cur).clients.length = 10 ∧
      (handle_accept_command s sd cur).games.length = 5 ∧
      (handle_accept_command s sd cur).num_clients = s.num_clients ∧
      (handle_accept_command s sd cur).next_game_id = s.next_game_id ∧
      (handle_accept_command s sd cur).num_games = s.num_games := by
  have hr := h.cinv.n_range
  simp only [core] at hr
  obtain ⟨hcn, hcfd⟩ := h.find_client_reg hsd hcur
  have hc10 : cur < 10 := by omega
  have hocc' : (core s).gid k ≠ -1 := hocc
  obtain ⟨i, hin, hifd, hig⟩ := h.cinv.g_owner k hk5 hocc'
  simp only [core] at hin hifd hig
  have hic : i = cur := h.cinv.fd_inj i cur hin hcn (by simp only [core]; rw [hifd, hown, hcfd])
  subst hic
  have hg : (s.client i).game_id ≠ -1 := by
    rw [hig]
    exact hocc
  have hk : find_game_by_id s (s.client i).game_id = some k := by
    rw [hig]
    exact h.find_game_of_occ hk5 hocc
  have hfp : find_game_by_player_fd s sd = some k := by
    unfold find_game_by_player_fd
    rw [hcur]
    simp only []
    rw [if_pos hg, hk]
  obtain ⟨hne, p, hpn, hpfd, _⟩ := h.cinv.g_opp k hk5 hocc' (by simp only [core]; exact hopp)
  simp only [core] at hne hpn hpfd
  have hp10 : p < 10 := by omega
  have hfo : find_client_by_fd s (s.game k).opponent_fd = some p := by
    rw [← hpfd]
    exact h.find_client_of_reg hpn
  have hpi : p ≠ i := by
    intro e
    rw [e, hifd] at hpfd
    exact hne hpfd.symm
  have hip : i ≠ p := fun e => hpi e.symm
  obtain ⟨X, hX, xc, xg, xl, xgl, xn, xx, xng⟩ : ∃ X : Server,
      handle_accept_command s sd i = send_game_state_to_players X k ∧
      (∀ j, X.client j =
        if j = i then { s.client i with is_current_turn := true }
        else if j = p then
          { s.client p with status := PlayerStatus.PLAYER_IN_GAME, is_current_turn := false }
        else s.client j) ∧
      (∀ m, X.game m =
        if m = k then { s.game k with state := GameState.GAME_IN_PROGRESS } else s.game m) ∧
      X.clients.length = 10 ∧ X.games.length = 5 ∧ X.num_clients = s.num_clients ∧
      X.next_game_id = s.next_game_id ∧ X.num_games = s.num_games := by
    apply Exists.intro
    refine ⟨?eq, ?_, ?_, ?_, ?_, ?_, ?_, ?_⟩
    case eq =>
      unfold handle_accept_command
      rw [hfp]
      simp only []
      rw [if_neg (by simp [hown]), if_neg (by simp [hst, hopp])]
    · intro j
      simp only [client_send, game_send, clients_send, games_send, num_clients_send, next_game_id_send, client_setClient, game_setClient, client_setGame, game_setGame, clients_setGame, games_setClient, clients_length_setClient, games_length_setGame, num_clients_setClient, num_clients_setGame, next_game_id_setClient, next_game_id_setGame, find_client_send, find_game_send, find_client_setGame, find_game_setClient, client_send_loss, game_send_loss, clients_send_loss, games_send_loss, find_client_send_loss, find_game_send_loss, num_games_send, num_games_setClient, num_games_setGame, h.1, h.2.1, hk5, hc10, hp10, and_true, if_true, hfo, hopp, ne_eq, not_false_eq_true, if_neg hip, if_neg hpi]
      split_ifs <;> first | rfl | (exfalso; omega)
    · intro m
      simp only [client_send, game_send, clients_send, games_send, num_clients_send, next_game_id_send, client_setClient, game_setClient, client_setGame, game_setGame, clients_setGame, games_setClient, clients_length_setClient, games_length_setGame, num_clients_setClient, num_clients_setGame, next_game_id_setClient, next_game_id_setGame, find_client_send, find_game_send, find_client_setGame, find_game_setClient, client_send_loss, game_send_loss, clients_send_loss, games_send_loss, find_client_send_loss, find_game_send_loss, num_games_send, num_games_setClient, num_games_setGame, h.1, h.2.1, hk5, hc10, hp10, and_true, if_true, hfo, hopp, ne_eq, not_false_eq_true, if_neg hip, if_neg hpi]
    all_goals simp only [client_send, game_send, clients_send, games_send, num_clients_send, next_game_id_send, client_setClient, game_setClient, client_setGame, game_setGame, clients_setGame, games_setClient, clients_length_setClient, games_length_setGame, num_clients_setClient, num_clients_setGame, next_game_id_setClient, next_game_id_setGame, find_client_send, find_game_send, find_client_setGame, find_game_setClient, client_send_loss, game_send_loss, clients_send_loss, games_send_loss, find_client_send_loss, find_game_send_loss, num_games_send, num_games_setClient, num_games_setGame, h.1, h.2.1, hk5, hc10, hp10, and_true, if_true, hfo, hopp, ne_eq, not_false_eq_true, if_neg hip, if_neg hpi]
  have hxk := xg k
  rw [if_pos rfl] at hxk
  have hfd : ∀ j, (X.client j).fd = (s.client j).fd := by
    intro j
    rw [xc]
    split_ifs with e1 e2
    · rw [e1]
    · rw [e2]
    · rfl
  obtain ⟨ec, eg, el, egs, en1, en2, en3⟩ :=
    send_game_state_effect X k i p hip xl hc10 hp10 (by rw [hxk])
      (by rw [find_client_congr s X hfd, hxk, hown]; exact hcur)
      (by rw [find_client_congr s X hfd, hxk]; exact hfo)
  rw [hX]
  refine ⟨p, hpi, hpn, hfo, hpfd, fun j => ?_, fun m => ?_, el, ?_, en1.trans xn,
    en2.trans xx, en3.trans xng⟩
  · rw [ec, hxk]
    by_cases e1 : j = i
    · subst e1
      rw [if_pos rfl, if_pos rfl, xc, if_pos rfl]
    · rw [if_neg e1, if_neg e1]
      by_cases e2 : j = p
      · subst e2
        rw [if_pos rfl, if_pos rfl, xc, if_neg e1, if_pos rfl]
      · rw [if_neg e2, if_neg e2, xc, if_neg e1, if_neg e2]
  · rw [eg, xg]
  · rw [egs]
    exact xgl

/-- The command line that `handle_client_data` passes to `dispatch` for the
event `cmd sd text`, when `text` fits the buffer and has no NUL and no
newline. -/
theorem cmd_line (s : Server) (sd : Int) (text : String)
    (hlen : text.length + 1 < 1024)
    (hch : ∀ c ∈ text.toList, (c != '\x00') = true ∧ (c != '\n') = true) :
    step s (cmd sd text) = dispatch s sd text.toList := by
  have hl : (text ++ "\n").toList = text.toList ++ ['\n'] := by
    show (text ++ "\n").data = text.data ++ ['\n']
    rw [String.data_append]
  have hlen' : text.toList.length = text.length := rfl
  simp only [step, cmd, client_readable]
  rw [if_neg (by omega)]
  unfold handle_client_data
  rw [if_neg (by simp only [BUFFER_SIZE]; omega)]
  simp only []
  have hn : ((text.length : Int) + 1).toNat = (text.toList ++ ['\n']).length := by
    rw [List.length_append, hlen']
    simp
  rw [hl, hn, List.take_length]
  have h1 : c_string (text.toList ++ ['\n']) = text.toList ++ ['\n'] := by
    unfold c_string
    rw [List.takeWhile_eq_self_iff]
    intro c hc
    rw [List.mem_append] at hc
    rcases hc with hc | hc
    · exact (hch c hc).1
    · rw [List.mem_singleton] at hc
      rw [hc]
      decide
  rw [h1, List.takeWhile_append_of_pos (fun c hc => (hch c hc).2)]
  simp

theorem dispatch_create (s : Server) (sd : Int) (cur : Nat)
    (hcur : find_client_by_fd s sd = some cur) :
    dispatch s sd "create".toList = handle_create_command s sd cur := by
  unfold dispatch
  rw [hcur]
  simp only []
  rw [if_neg (by decide), if_pos (by decide)]

theorem dispatch_join (s : Server) (sd : Int) (cur : Nat) (line : List Char)
    (hcur : find_client_by_fd s sd = some cur)
    (h1 : line ≠ "list".toList) (h2 : line ≠ "create".toList)
    (h3 : line.take 5 = "join ".toList) :
    dispatch s sd line = some (handle_join_command s sd cur line) := by
  unfold dispatch
  rw [hcur]
  simp only []
  rw [if_neg h1, if_neg h2, if_pos h3]

theorem dispatch_accept (s : Server) (sd : Int) (cur : Nat)
    (hcur : find_client_by_fd s sd = some cur) :
    dispatch s sd "accept".toList = some (handle_accept_command s sd cur) := by
  unfold dispatch
  rw [hcur]
  simp only []
  rw [if_neg (by decide), if_neg (by decide), if_neg (by decide), if_pos (by decide)]

theorem dispatch_move (s : Server) (sd : Int) (cur : Nat) (line : List Char)
    (hcur : find_client_by_fd s sd = some cur)
    (h3 : line.take 5 = "move ".toList) :
    dispatch s sd line = handle_move_command s sd line := by
  have hne : ∀ t : List Char, t.take 5 ≠ "move ".toList → line ≠ t := by
    intro t ht e
    rw [e] at h3
    exact ht h3
  unfold dispatch
  rw [hcur]
  simp only []
  rw [if_neg (hne _ (by decide)), if_neg (hne _ (by decide)),
    if_neg (by rw [h3]; decide), if_neg (hne _ (by decide)), if_neg (hne _ (by decide)),
    if_neg (hne _ (by decide)), if_pos h3]

theorem run_admissible_cons {ms : Int} {s s1 : Server} {e : Event} (es : List Event)
    (ha : admissible ms s e = true) (hs : step s e = some s1) :
    run_admissible ms s (e :: es) = run_admissible ms s1 es := by
  simp only [run_admissible, ha, if_true, hs]

theorem run_admissible_append (ms : Int) (es fs : List Event) :
    ∀ (s s1 : Server), run_admissible ms s es = some s1 →
      run_admissible ms s (es ++ fs) = run_admissible ms s1 fs := by
  induction es with
  | nil =>
    intro s s1 h
    simp only [run_admissible, Option.some.injEq] at h
    rw [h]
    rfl
  | cons e es ih =>
    intro s s1 h
    simp only [run_admissible, List.cons_append] at h ⊢
    split_ifs at h ⊢ with ha
    cases hs : step s e with
    | none => rw [hs] at h; exact absurd h (by simp)
    | some s2 =>
      rw [hs] at h
      exact ih s2 s1 h

/-- A registered descriptor passes the test of `admissible`. -/
theorem admissible_readable (ms : Int) (s : Server) (sd : Int) (buffer : List Char)
    (valread : Int) (i : Nat) (hsd : 0 < sd) (hi : i < 10) (hfd : (s.client i).fd = sd) :
    admissible ms s (Event.readable sd buffer valread) = true := by
  simp only [admissible, Bool.and_eq_true, decide_eq_true_eq, List.any_eq_true, List.mem_range,
    beq_iff_eq, MAX_CLIENTS]
  exact ⟨hsd, i, hi, hfd⟩

/-- A move of the player whose turn it is, in a game between two sessions,
when the move neither wins nor fills the board: the game goes on, on the
board after the move. -/
theorem playing_move (ms a b : Int) (ha : 0 < a) (hb : 0 < b) (s : Server) (t : TrisGame)
    (hp : playing ms s a b t) (text : String) (rc : Int × Int)
    (hlen : text.length + 1 < 1024)
    (hch : ∀ c ∈ text.toList, (c != '\x00') = true ∧ (c != '\n') = true)
    (h5 : text.toList.take 5 = "move ".toList)
    (hrc : sscanf_move text.toList = some rc)
    (hmv : (make_move t rc.1 rc.2).1 = 0)
    (hres : check_winner (make_move t rc.1 rc.2).2 = GameResult.IN_PROGRESS) :
    ∃ s1, run_admissible ms s [cmd (if t.turn = 0 then a else b) text] = some s1 ∧
      playing ms s1 a b (make_move t rc.1 rc.2).2 := by
  obtain ⟨hr, hn, a1, a2, a3, a4, b1, b2, b3, b4, g1, g2, g3, g4, g5⟩ := hp
  have hinv := reachable_inv hr
  have hf0 : find_client_by_fd s a = some 0 := by
    rw [← a1]
    exact hinv.find_client_of_reg (by rw [hn]; decide)
  have hf1 : find_client_by_fd s b = some 1 := by
    rw [← b1]
    exact hinv.find_client_of_reg (by rw [hn]; decide)
  have hocc : (s.game 0).id ≠ -1 := by rw [g1]; decide
  have hk : find_game_by_id s 1 = some 0 := by
    rw [← g1]
    exact hinv.find_game_of_occ (by decide) hocc
  have key : ∀ (cur : Nat) (sd : Int), cur < 2 → (s.client cur).fd = sd → 0 < sd →
      find_client_by_fd s sd = some cur →
      (s.client cur).status = PlayerStatus.PLAYER_IN_GAME → (s.client cur).game_id = 1 →
      (s.client cur).is_current_turn = true →
      ∃ s1, run_admissible ms s [cmd sd text] = some s1 ∧
        playing ms s1 a b (make_move t rc.1 rc.2).2 := by
    intro cur sd hc2 hfd hsd hcur hstatus hgid hturn
    have hstep : step s (cmd sd text) = handle_move_command s sd text.toList :=
      (cmd_line s sd text hlen hch).trans (dispatch_move s sd cur _ hcur h5)
    have heff := move_next_effect hinv sd text.toList cur 0 rc hcur hstatus
      (by rw [hgid]; exact hk) g4 hturn hrc (by rw [g5]; exact hmv)
      (by rw [g5, hres]; decide) (by rw [g5, hres]; decide)
    rw [g5] at heff
    have xg : (s.setGame 0 { s.game 0 with tris_game := (make_move t rc.1 rc.2).2 }).game 0 =
        { s.game 0 with tris_game := (make_move t rc.1 rc.2).2 } := by
      rw [game_setGame, if_pos ⟨rfl, by rw [hinv.2.1]; decide⟩]
    obtain ⟨ec, eg, el, egs, en1, en2, en3⟩ :=
      send_game_state_effect
        (s.setGame 0 { s.game 0 with tris_game := (make_move t rc.1 rc.2).2 }) 0 0 1
        (by decide) (by rw [clients_setGame]; exact hinv.1) (by decide) (by decide)
        (by rw [xg]; exact g4)
        (by rw [find_client_setGame, xg]; simp only []; rw [g2]; exact hf0)
        (by rw [find_client_setGame, xg]; simp only []; rw [g3]; exact hf1)
    have hadm : admissible ms s (cmd sd text) = true :=
      admissible_readable ms s sd _ _ cur hsd (by omega) hfd
    refine ⟨_, ?_, reachable_step hr _ hadm (hstep.trans heff), ?_⟩
    · rw [run_admissible_cons [] hadm (hstep.trans heff)]
      rfl
    · have c0 := ec 0
      have c1 := ec 1
      have g0 := eg 0
      rw [if_pos rfl, client_setGame, xg] at c0
      rw [if_neg (by decide), if_pos rfl, client_setGame, xg] at c1
      rw [xg] at g0
      rw [en1, num_clients_setGame, c0, c1, g0]
      exact ⟨hn, a1, a2, a3, rfl, b1, b2, b3, rfl, g1, g2, g3, g4, rfl⟩
  by_cases ht : t.turn = 0
  · rw [if_pos ht]
    exact key 0 a (by decide) a1 ha hf0 a2 a3 (by rw [a4]; simp [ht])
  · rw [if_neg ht]
    exact key 1 b (by decide) b1 hb hf1 b2 b3 (by rw [b4]; simp [ht])

/-- A positive descriptor that is neither the listening socket nor in use
passes the test of `admissible`. -/
theorem admissible_connect (ms : Int) (s : Server) (fd : Int) (hfd : 0 < fd) (hms : fd ≠ ms)
    (hnew : ∀ i, i < 10 → (s.client i).fd ≠ fd) :
    admissible ms s (Event.connect fd) = true := by
  simp only [admissible, Bool.and_eq_true, decide_eq_true_eq, List.all_eq_true, List.mem_range,
    bne_iff_ne, ne_eq, MAX_CLIENTS]
  exact ⟨⟨hfd, hms⟩, hnew⟩

/-- The state after two sessions have connected to a server that has just
started. -/
theorem scenario_connected_state (ms a b : Int) (ha : 0 < a) (hb : 0 < b) (hab : a ≠ b)
    (ham : a ≠ ms) (hbm : b ≠ ms) :
    ∃ s, run_admissible ms (init_server ms) (scenario_connected a b) = some s ∧
      Reachable ms s ∧ s.num_clients = 2 ∧ s.next_game_id = 1 ∧ s.num_games = 0 ∧
      (s.client 0).fd = a ∧ (s.client 0).game_id = -1 ∧
      (s.client 1).fd = b ∧ (s.client 1).game_id = -1 ∧
      (s.client 1).status = PlayerStatus.PLAYER_CONNECTED ∧
      (∀ m, m < 5 → (s.game m).id = -1) := by
  have hi := inv_init_server ms
  have hn0 : (init_server ms).num_clients = 0 := rfl
  obtain ⟨c1, g1, n1, x1, m1⟩ := accept_connection_effect hi a (by rw [hn0]; decide)
  rw [hn0] at c1 n1
  have hadm1 : admissible ms (init_server ms) (Event.connect a) = true := by
    refine admissible_connect ms _ a ha ham (fun i hi10 => ?_)
    rw [client_init_server ms i hi10]
    intro e
    change (0 : Int) = a at e
    omega
  have hr1 : Reachable ms (accept_connection (init_server ms) a) :=
    reachable_step Reachable.init _ hadm1 rfl
  have hi1 := reachable_inv hr1
  obtain ⟨c2, g2, n2, x2, m2⟩ := accept_connection_effect hi1 b (by rw [n1]; decide)
  rw [n1] at c2 n2
  have hadm2 : admissible ms (accept_connection (init_server ms) a) (Event.connect b) = true := by
    refine admissible_connect ms _ b hb hbm (fun i hi10 => ?_)
    rw [c1]
    split_ifs with e
    · exact hab
    · rw [client_init_server ms i hi10]
      intro e
      change (0 : Int) = b at e
      omega
  have hr2 : Reachable ms (accept_connection (accept_connection (init_server ms) a) b) :=
    reachable_step hr1 _ hadm2 rfl
  refine ⟨_, ?_, hr2, n2, ?_, ?_, ?_, ?_, ?_, ?_, ?_, ?_⟩
  · unfold scenario_connected
    rw [run_admissible_cons _ hadm1 rfl, run_admissible_cons _ hadm2 rfl]
    rfl
  · rw [x2, x1]
    rfl
  · rw [m2, m1]
    rfl
  · rw [c2, if_neg (by decide), c1, if_pos (by decide)]
  · rw [c2, if_neg (by decide), c1, if_pos (by decide)]
  · rw [c2, if_pos (by decide)]
  · rw [c2, if_pos (by decide)]
  · rw [c2, if_pos (by decide)]
  · intro m hm
    simp only [Server.game]
    rw [g2, g1]
    exact congrArg Game.id (game_init_server ms m hm)

/-- The state after the owner-to-be has sent `create`. -/
theorem scenario_created_state (ms a b : Int) (ha : 0 < a) (s : Server)
    (hr : Reachable ms s) (hn : s.num_clients = 2) (hx : s.next_game_id = 1)
    (hm : s.num_games = 0) (a1 : (s.client 0).fd = a) (a3 : (s.client 0).game_id = -1)
    (b1 : (s.client 1).fd = b) (b3 : (s.client 1).game_id = -1)
    (b2 : (s.client 1).status = PlayerStatus.PLAYER_CONNECTED)
    (hg : ∀ m, m < 5 → (s.game m).id = -1) :
    ∃ s1, run_admissible ms s [cmd a "create"] = some s1 ∧
      Reachable ms s1 ∧ s1.num_clients = 2 ∧
      (s1.client 0).fd = a ∧ (s1.client 0).status = PlayerStatus.PLAYER_IN_GAME ∧
      (s1.client 0).game_id = 1 ∧
      (s1.client 1).fd = b ∧ (s1.client 1).game_id = -1 ∧
      (s1.client 1).status = PlayerStatus.PLAYER_CONNECTED ∧
      (s1.game 0).id = 1 ∧ (s1.game 0).owner_fd = a ∧ (s1.game 0).opponent_fd = -1 ∧
      (s1.game 0).state = GameState.GAME_WAITING_FOR_PLAYER ∧
      (s1.game 0).tris_game = { board := Vec3.fill (Vec3.fill Cell.EMPTY), turn := 0 } := by
  have hinv := reachable_inv hr
  have hcur : find_client_by_fd s a = some 0 := by
    rw [← a1]
    exact hinv.find_client_of_reg (by rw [hn]; decide)
  have hk : (List.range MAX_GAMES).find? (fun j => (s.game j).id == -1) = some 0 := by
    cases hf : (List.range MAX_GAMES).find? (fun j => (s.game j).id == -1) with
    | none =>
      have := find_range_none _ _ hf 0 (by decide)
      simp only [hg 0 (by decide)] at this
      exact absurd this (by decide)
    | some k =>
      have := find_range_first _ _ _ hf
      cases k with
      | zero => rfl
      | succ k =>
        have := this 0 (by omega)
        simp only [hg 0 (by decide)] at this
        exact absurd this (by decide)
  obtain ⟨_, _, _, ec, eg, _, _, en, _, _⟩ :=
    create_effect hinv a 0 0 (by rw [hn]; decide) a3 (by rw [hm]; decide) hk
  have hstep : step s (cmd a "create") = some (create_game s a 0 0) :=
    ((cmd_line s a "create" (by decide) (by decide)).trans (dispatch_create s a 0 hcur)).trans
      (create_returns s a 0 0 a3 (by rw [hm]; decide) hk (by rw [hx]; decide))
  have hadm : admissible ms s (cmd a "create") = true :=
    admissible_readable ms s a _ _ 0 ha (by decide) a1
  have c0 := ec 0
  have c1 := ec 1
  have g0 := eg 0
  rw [if_pos rfl] at c0 g0
  rw [if_neg (by decide)] at c1
  refine ⟨_, ?_, reachable_step hr _ hadm hstep, ?_⟩
  · rw [run_admissible_cons [] hadm hstep]
    rfl
  · rw [en, c0, c1, g0]
    exact ⟨hn, a1, rfl, hx, b1, b3, b2, hx, rfl, rfl, rfl, rfl⟩

/-- The state after the second session has asked to join game 1. -/
theorem scenario_joined_state (ms a b : Int) (hb : 0 < b) (hab : a ≠ b) (s : Server)
    (hr : Reachable ms s) (hn : s.num_clients = 2)
    (a1 : (s.client 0).fd = a) (a2 : (s.client 0).status = PlayerStatus.PLAYER_IN_GAME)
    (a3 : (s.client 0).game_id = 1)
    (b1 : (s.client 1).fd = b) (b3 : (s.client 1).game_id = -1)
    (g1 : (s.game 0).id = 1) (g2 : (s.game 0).owner_fd = a) (g3 : (s.game 0).opponent_fd = -1)
    (g4 : (s.game 0).state = GameState.GAME_WAITING_FOR_PLAYER)
    (g5 : (s.game 0).tris_game = { board := Vec3.fill (Vec3.fill Cell.EMPTY), turn := 0 }) :
    ∃ s1, run_admissible ms s [cmd b "join 1"] = some s1 ∧
      Reachable ms s1 ∧ s1.num_clients = 2 ∧
      (s1.client 0).fd = a ∧ (s1.client 0).status = PlayerStatus.PLAYER_IN_GAME ∧
      (s1.client 0).game_id = 1 ∧
      (s1.client 1).fd = b ∧ (s1.client 1).game_id = 1 ∧
      (s1.client 1).status = PlayerStatus.PLAYER_WAITING_ACCEPT ∧
      (s1.game 0).id = 1 ∧ (s1.game 0).owner_fd = a ∧ (s1.game 0).opponent_fd = b ∧
      (s1.game 0).state = GameState.GAME_WAITING_FOR_PLAYER ∧
      (s1.game 0).tris_game = { board := Vec3.fill (Vec3.fill Cell.EMPTY), turn := 0 } := by
  have hinv := reachable_inv hr
  have hcur : find_client_by_fd s b = some 1 := by
    rw [← b1]
    exact hinv.find_client_of_reg (by rw [hn]; decide)
  have hocc : (s.game 0).id ≠ -1 := by rw [g1]; decide
  have hk : find_game_by_id s (atoi ("join 1".toList.drop 5)) = some 0 := by
    have e : atoi ("join 1".toList.drop 5) = 1 := by decide
    rw [e, ← g1]
    exact hinv.find_game_of_occ (by decide) hocc
  obtain ⟨ec, eg, _, _, en, _, _⟩ :=
    join_effect hinv b 1 0 "join 1".toList (by rw [hn]; decide) b3 hk hocc
      (by rw [g4]; decide) (by rw [g4]; decide) g3 (by rw [g2]; exact hab)
  have hstep : step s (cmd b "join 1") = some (handle_join_command s b 1 "join 1".toList) :=
    (cmd_line s b "join 1" (by decide) (by decide)).trans
      (dispatch_join s b 1 _ hcur (by decide) (by decide) (by decide))
  have hadm : admissible ms s (cmd b "join 1") = true :=
    admissible_readable ms s b _ _ 1 hb (by decide) b1
  have c0 := ec 0
  have c1 := ec 1
  have g0 := eg 0
  rw [if_pos rfl] at c1 g0
  rw [if_neg (by decide)] at c0
  refine ⟨_, ?_, reachable_step hr _ hadm hstep, ?_⟩
  · rw [run_admissible_cons [] hadm hstep]
    rfl
  · rw [en, c0, c1, g0]
    exact ⟨hn, a1, a2, a3, b1, g1, rfl, g1, g2, rfl, g4, g5⟩

/-- The state after the owner has accepted: the two sessions play, and the
owner is to move. -/
theorem scenario_accepted_state (ms a b : Int) (ha : 0 < a) (s : Server)
    (hr : Reachable ms s) (hn : s.num_clients = 2)
    (a1 : (s.client 0).fd = a) (a2 : (s.client 0).status = PlayerStatus.PLAYER_IN_GAME)
    (a3 : (s.client 0).game_id = 1)
    (b1 : (s.client 1).fd = b) (b3 : (s.client 1).game_id = 1)
    (g1 : (s.game 0).id = 1) (g2 : (s.game 0).owner_fd = a) (g3 : (s.game 0).opponent_fd = b)
    (hb : 0 < b)
    (g4 : (s.game 0).state = GameState.GAME_WAITING_FOR_PLAYER)
    (g5 : (s.game 0).tris_game = { board := Vec3.fill (Vec3.fill Cell.EMPTY), turn := 0 }) :
    ∃ s1, run_admissible ms s [cmd a "accept"] = some s1 ∧
      playing ms s1 a b { board := Vec3.fill (Vec3.fill Cell.EMPTY), turn := 0 } := by
  have hinv := reachable_inv hr
  have hcur : find_client_by_fd s a = some 0 := by
    rw [← a1]
    exact hinv.find_client_of_reg (by rw [hn]; decide)
  have hf1 : find_client_by_fd s b = some 1 := by
    rw [← b1]
    exact hinv.find_client_of_reg (by rw [hn]; decide)
  have hocc : (s.game 0).id ≠ -1 := by rw [g1]; decide
  obtain ⟨p, _, _, hfp, _, ec, eg, _, _, en, _, _⟩ :=
    accept_effect hinv a ha 0 0 hcur (by decide) hocc g2 g4 (by rw [g3]; omega)
  rw [g3, hf1] at hfp
  have hp : p = 1 := (Option.some.inj hfp).symm
  subst hp
  have hstep : step s (cmd a "accept") = some (handle_accept_command s a 0) :=
    (cmd_line s a "accept" (by decide) (by decide)).trans (dispatch_accept s a 0 hcur)
  have hadm : admissible ms s (cmd a "accept") = true :=
    admissible_readable ms s a _ _ 0 ha (by decide) a1
  have c0 := ec 0
  have c1 := ec 1
  have g0 := eg 0
  rw [if_pos rfl] at c0 g0
  rw [if_neg (by decide), if_pos rfl] at c1
  refine ⟨_, ?_, reachable_step hr _ hadm hstep, ?_⟩
  · rw [run_admissible_cons [] hadm hstep]
    rfl
  · rw [en, c0, c1, g0, g5]
    exact ⟨hn, a1, a2, a3, rfl, b1, rfl, b3, rfl, g1, g2, g3, rfl, rfl⟩

theorem out_send_pos (s : Server) (fd : Int) (m : String) (h : 0 < fd) :
    (send_to_client s fd m).out = s.out ++ [Output.sent fd m] := by
  unfold send_to_client
  rw [if_pos h]

theorem out_setClient (s : Server) (i : Nat) (c : Client) : (s.setClient i c).out = s.out := rfl

theorem out_setGame (s : Server) (k : Nat) (g : Game) : (s.setGame k g).out = s.out := rfl

theorem out_send_loss (s : Server) (l w : Nat) (b : String)
    (hne : (s.client l).fd ≠ (s.client w).fd) (hpos : 0 < (s.client l).fd) :
    (send_loss s (some l) w b).out =
      s.out ++ [Output.sent (s.client l).fd "\nLa partita è terminata!\n",
        Output.sent (s.client l).fd b, Output.sent (s.client l).fd "Hai perso.\n"] := by
  unfold send_loss
  simp only []
  rw [if_pos hne]
  simp only [client_send]
  rw [out_send_pos _ _ _ hpos, out_send_pos _ _ _ hpos, out_send_pos _ _ _ hpos]
  simp only [List.append_assoc, List.singleton_append, List.cons_append, List.nil_append]

/-- The messages of an accepted move with which the owner of the game wins:
the winner is told the game is over, shown the board and told it has won; the
loser likewise, and told it has lost; then each is told of its new role. -/
theorem move_win_owner_out {s : Server} (h : Inv s) (sd : Int) (hsd : 0 < sd)
    (buffer : List Char) (cur k : Nat) (rc : Int × Int)
    (hcur : find_client_by_fd s sd = some cur)
    (hstatus : (s.client cur).status = PlayerStatus.PLAYER_IN_GAME)
    (hk : find_game_by_id s (s.client cur).game_id = some k)
    (hstate : (s.game k).state = GameState.GAME_IN_PROGRESS)
    (hturn : (s.client cur).is_current_turn = true)
    (hrc : sscanf_move buffer = some rc)
    (hmv : (make_move (s.game k).tris_game rc.1 rc.2).1 = 0)
    (hwin : check_winner (make_move (s.game k).tris_game rc.1 rc.2).2 = GameResult.WIN)
    (hown : (s.game k).owner_fd = sd) :
    ∃ s1, handle_move_command s sd buffer = some s1 ∧
      s1.out = s.out ++
        [Output.sent sd "\nLa partita è terminata!\n",
         Output.sent sd (String.mk (print_board (make_move (s.game k).tris_game rc.1 rc.2).2)),
         Output.sent sd "Hai vinto!\n",
         Output.sent (s.game k).opponent_fd "\nLa partita è terminata!\n",
         Output.sent (s.game k).opponent_fd
           (String.mk (print_board (make_move (s.game k).tris_game rc.1 rc.2).2)),
         Output.sent (s.game k).opponent_fd "Hai perso.\n",
         Output.sent sd ("Sei diventato il proprietario della partita " ++
           toString (s.game k).id ++ " e attendi un nuovo giocatore (X).\n"),
         Output.sent (s.game k).opponent_fd
           "Sei stato rimosso dalla partita. Digita 'list' per vedere altre partite o 'create' per crearne una nuova.\n"] := by
  have hr := h.cinv.n_range
  simp only [core] at hr
  obtain ⟨hcn, hcfd⟩ := h.find_client_reg hsd hcur
  obtain ⟨hk5, hid⟩ := find_game_some hk
  have hfree := h.cinv.g_free k hk5
  simp only [core] at hfree
  have hocc : (s.game k).id ≠ -1 := by
    intro e
    rw [hfree e] at hstate
    exact absurd hstate (by decide)
  have hp : (s.game k).opponent_fd ≠ -1 := by
    intro e
    have := (h.cinv.g_occ k hk5 hocc).2 e
    simp only [core] at this
    rw [this] at hstate
    exact absurd hstate (by decide)
  obtain ⟨oc, pc, hne, hoc, hpc, hfo, hfp, hofd, hpfd, hog, hpg, hpart⟩ :=
    h.participants hk5 hocc hp
  have hc10 : cur < 10 := by omega
  have ho10 : oc < 10 := by omega
  have hp10 : pc < 10 := by omega
  have e : cur = oc := h.cinv.fd_inj cur oc hcn hoc (by simp only [core]; rw [hcfd, hofd, hown])
  subst e
  have hfdne : (s.client pc).fd ≠ (s.client cur).fd := by
    intro e; exact hne (h.cinv.fd_inj pc cur hpc hoc e).symm
  have hne' : pc ≠ cur := fun e => hne e.symm
  have hppos : 0 < (s.client pc).fd := by
    have := h.cinv.fd_pos hpc
    simpa only [core] using this
  apply Exists.intro
  refine ⟨?eq, ?_⟩
  case eq =>
    unfold handle_move_command
    rw [hcur]
    simp only []
    rw [if_neg (by simp [hstatus]), hk]
    simp only []
    rw [if_neg (by simp [hstate]), if_neg (by simp [hturn]), hrc]
    simp only [client_send, game_send, clients_send, games_send, num_clients_send, next_game_id_send, client_setClient, game_setClient, client_setGame, game_setGame, clients_setGame, games_setClient, clients_length_setClient, games_length_setGame, num_clients_setClient, num_clients_setGame, next_game_id_setClient, next_game_id_setGame, find_client_send, find_game_send, find_client_setGame, find_game_setClient, client_send_loss, game_send_loss, clients_send_loss, games_send_loss, find_client_send_loss, find_game_send_loss, h.1, h.2.1, hk5, and_true, if_true, hmv, hwin, hfo, hfp, hp, ne_eq,
      not_false_eq_true, hc10, true_and, if_neg hne', hfdne, if_false]
    rw [remove_from_game_detached _ _ pc k]
    · rw [find_client_congr s _ (fun j => ?_)]
      · exact h.find_client_of_reg hpc
      · simp only [client_send, game_send, clients_send, games_send, num_clients_send, next_game_id_send, client_setClient, game_setClient, client_setGame, game_setGame, clients_setGame, games_setClient, clients_length_setClient, games_length_setGame, num_clients_setClient, num_clients_setGame, next_game_id_setClient, next_game_id_setGame, find_client_send, find_game_send, find_client_setGame, find_game_setClient, client_send_loss, game_send_loss, clients_send_loss, games_send_loss, find_client_send_loss, find_game_send_loss, h.1, hc10, and_true]
        split_ifs with e
        · rw [e]
        · rfl
    · simp only [client_send, game_send, clients_send, games_send, num_clients_send, next_game_id_send, client_setClient, game_setClient, client_setGame, game_setGame, clients_setGame, games_setClient, clients_length_setClient, games_length_setGame, num_clients_setClient, num_clients_setGame, next_game_id_setClient, next_game_id_setGame, find_client_send, find_game_send, find_client_setGame, find_game_setClient, client_send_loss, game_send_loss, clients_send_loss, games_send_loss, find_client_send_loss, find_game_send_loss, h.1, hc10, and_true, if_neg hne']
      rw [hpg]; exact hocc
    · rw [find_game_congr s _ (fun j => ?_)]
      · simp only [client_send, game_send, clients_send, games_send, num_clients_send, next_game_id_send, client_setClient, game_setClient, client_setGame, game_setGame, clients_setGame, games_setClient, clients_length_setClient, games_length_setGame, num_clients_setClient, num_clients_setGame, next_game_id_setClient, next_game_id_setGame, find_client_send, find_game_send, find_client_setGame, find_game_setClient, client_send_loss, game_send_loss, clients_send_loss, games_send_loss, find_client_send_loss, find_game_send_loss, h.1, hc10, and_true, if_neg hne']
        rw [hpg]
        exact h.find_game_of_occ hk5 hocc
      · simp only [client_send, game_send, clients_send, games_send, num_clients_send, next_game_id_send, client_setClient, game_setClient, client_setGame, game_setGame, clients_setGame, games_setClient, clients_length_setClient, games_length_setGame, num_clients_setClient, num_clients_setGame, next_game_id_setClient, next_game_id_setGame, find_client_send, find_game_send, find_client_setGame, find_game_setClient, client_send_loss, game_send_loss, clients_send_loss, games_send_loss, find_client_send_loss, find_game_send_loss, h.2.1, hk5, and_true]
        split_ifs with e
        · rw [e]
        · rfl
    · simp only [client_send, game_send, clients_send, games_send, num_clients_send, next_game_id_send, client_setClient, game_setClient, client_setGame, game_setGame, clients_setGame, games_setClient, clients_length_setClient, games_length_setGame, num_clients_setClient, num_clients_setGame, next_game_id_setClient, next_game_id_setGame, find_client_send, find_game_send, find_client_setGame, find_game_setClient, client_send_loss, game_send_loss, clients_send_loss, games_send_loss, find_client_send_loss, find_game_send_loss, h.1, h.2.1, hk5, hc10, and_true, if_true, if_neg hne']
      omega
    · simp only [client_send, game_send, clients_send, games_send, num_clients_send, next_game_id_send, client_setClient, game_setClient, client_setGame, game_setGame, clients_setGame, games_setClient, clients_length_setClient, games_length_setGame, num_clients_setClient, num_clients_setGame, next_game_id_setClient, next_game_id_setGame, find_client_send, find_game_send, find_client_setGame, find_game_setClient, client_send_loss, game_send_loss, clients_send_loss, games_send_loss, find_client_send_loss, find_game_send_loss, h.1, h.2.1, hk5, hc10, and_true, if_true, if_neg hne']
      exact fun e => hfdne e.symm
  have hcpos : 0 < (s.client cur).fd := by rw [hcfd]; exact hsd
  rw [out_setClient, out_send_pos _ _ _ hppos, out_send_pos _ _ _ hcpos, out_setClient,
    out_setGame, out_send_loss _ pc cur _ (by simp only [client_send, client_setGame]; exact hfdne)
      (by simp only [client_send, client_setGame]; exact hppos),
    out_send_pos _ _ _ hcpos, out_send_pos _ _ _ hcpos, out_send_pos _ _ _ hcpos, out_setGame]
  simp only [client_send, client_setGame, hcfd, hpfd, List.append_assoc, List.singleton_append,
    List.cons_append, List.nil_append]

/-- The four moves of the scenario before the winning one. -/
theorem scenario_moves_state (ms a b : Int) (ha : 0 < a) (hb : 0 < b) (s : Server)
    (hp : playing ms s a b { board := Vec3.fill (Vec3.fill Cell.EMPTY), turn := 0 }) :
    ∃ s1, run_admissible ms s (scenario_moves a b) = some s1 ∧
      playing ms s1 a b
        (play { board := Vec3.fill (Vec3.fill Cell.EMPTY), turn := 0 }
          [(0, 0), (1, 1), (0, 1), (1, 0)]) := by
  obtain ⟨s1, h1, p1⟩ := playing_move ms a b ha hb s _ hp "move 0 0" (0, 0) (by decide)
    (by decide) (by decide) (by decide) (by decide) (by decide)
  obtain ⟨s2, h2, p2⟩ := playing_move ms a b ha hb s1 _ p1 "move 1 1" (1, 1) (by decide)
    (by decide) (by decide) (by decide) (by decide) (by decide)
  obtain ⟨s3, h3, p3⟩ := playing_move ms a b ha hb s2 _ p2 "move 0 1" (0, 1) (by decide)
    (by decide) (by decide) (by decide) (by decide) (by decide)
  obtain ⟨s4, h4, p4⟩ := playing_move ms a b ha hb s3 _ p3 "move 1 0" (1, 0) (by decide)
    (by decide) (by decide) (by decide) (by decide) (by decide)
  rw [if_pos (by decide)] at h1 h3
  rw [if_neg (by decide)] at h2 h4
  refine ⟨s4, ?_, p4⟩
  unfold scenario_moves
  exact (run_admissible_append ms [cmd a "move 0 0"]
      [cmd b "move 1 1", cmd a "move 0 1", cmd b "move 1 0"] s s1 h1).trans
    ((run_admissible_append ms [cmd b "move 1 1"] [cmd a "move 0 1", cmd b "move 1 0"]
      s1 s2 h2).trans
      ((run_admissible_append ms [cmd a "move 0 1"] [cmd b "move 1 0"] s2 s3 h3).trans h4))

/-- The winning move of the owner, on a board `t` on which `move 0 2` wins. -/
theorem scenario_won_state (ms a b : Int) (ha : 0 < a) (s : Server) (t : TrisGame)
    (hp : playing ms s a b t) (ht : t.turn = 0) (hmv : (make_move t 0 2).1 = 0)
    (hwin : check_winner (make_move t 0 2).2 = GameResult.WIN) :
    ∃ s1, run_admissible ms s [cmd a "move 0 2"] = some s1 ∧ Reachable ms s1 ∧
      s1.out = s.out ++
        [Output.sent a "\nLa partita è terminata!\n",
         Output.sent a (String.mk (print_board (make_move t 0 2).2)),
         Output.sent a "Hai vinto!\n",
         Output.sent b "\nLa partita è terminata!\n",
         Output.sent b (String.mk (print_board (make_move t 0 2).2)),
         Output.sent b "Hai perso.\n",
         Output.sent a ("Sei diventato il proprietario della partita " ++
           toString (1 : Int) ++ " e attendi un nuovo giocatore (X).\n"),
         Output.sent b
           "Sei stato rimosso dalla partita. Digita 'list' per vedere altre partite o 'create' per crearne una nuova.\n"] ∧
      s1.num_clients = 2 ∧
      (s1.client 0).fd = a ∧ (s1.client 0).status = PlayerStatus.PLAYER_IN_GAME ∧
      (s1.client 0).game_id = 1 ∧
      (s1.client 1).fd = b ∧ (s1.client 1).status = PlayerStatus.PLAYER_CONNECTED ∧
      (s1.client 1).game_id = -1 ∧
      (s1.game 0).id = 1 ∧ (s1.game 0).owner_fd = a ∧ (s1.game 0).opponent_fd = -1 ∧
      (s1.game 0).state = GameState.GAME_WAITING_FOR_PLAYER ∧
      (s1.game 0).tris_game = { board := Vec3.fill (Vec3.fill Cell.EMPTY), turn := 0 } := by
  obtain ⟨hr, hn, a1, a2, a3, a4, b1, b2, b3, b4, g1, g2, g3, g4, g5⟩ := hp
  have hinv := reachable_inv hr
  have hcur : find_client_by_fd s a = some 0 := by
    rw [← a1]
    exact hinv.find_client_of_reg (by rw [hn]; decide)
  have hocc : (s.game 0).id ≠ -1 := by rw [g1]; decide
  have hk : find_game_by_id s (s.client 0).game_id = some 0 := by
    rw [a3, ← g1]
    exact hinv.find_game_of_occ (by decide) hocc
  have hturn : (s.client 0).is_current_turn = true := by rw [a4]; simp [ht]
  have hrc : sscanf_move "move 0 2".toList = some (0, 2) := by decide
  have hmv' : (make_move (s.game 0).tris_game (0, 2).1 (0, 2).2).1 = 0 := by rw [g5]; exact hmv
  have hwin' : check_winner (make_move (s.game 0).tris_game (0, 2).1 (0, 2).2).2 =
      GameResult.WIN := by rw [g5]; exact hwin
  obtain ⟨l, s1, e1, hl0, hln, _, _, _, _, ec, eg, _, _, en, _, _⟩ :=
    move_win_effect hinv a ha "move 0 2".toList 0 0 (0, 2) hcur a2 hk g4 hturn hrc hmv' hwin'
  obtain ⟨s1', e1', eo⟩ :=
    move_win_owner_out hinv a ha "move 0 2".toList 0 0 (0, 2) hcur a2 hk g4 hturn hrc hmv'
      hwin' g2
  rw [e1] at e1'
  have e := Option.some.inj e1'
  subst e
  have hl : l = 1 := by
    rw [hn] at hln
    have : (l : Int) < 2 := hln
    omega
  subst hl
  have hstep : step s (cmd a "move 0 2") = some s1 :=
    ((cmd_line s a "move 0 2" (by decide) (by decide)).trans
      (dispatch_move s a 0 _ hcur (by decide))).trans e1
  have hadm : admissible ms s (cmd a "move 0 2") = true :=
    admissible_readable ms s a _ _ 0 ha (by decide) a1
  have c0 := ec 0
  have c1 := ec 1
  have g0 := eg 0
  rw [if_neg (by decide), if_pos rfl] at c0
  rw [if_pos rfl] at c1 g0
  refine ⟨s1, ?_, reachable_step hr _ hadm hstep, ?_, ?_⟩
  · rw [run_admissible_cons [] hadm hstep]
    rfl
  · rw [eo, g5, g3, g1]
  · rw [en, c0, c1, g0]
    exact ⟨hn, a1, rfl, g1, b1, rfl, rfl, g1, rfl, rfl, rfl, rfl⟩

/-- C20. End-to-end scenario, for every listening socket `ms` and every two
distinct positive descriptors `a` and `b` other than `ms`: on a server that has
just started, `a` and `b` connect, then `a` sends `create`, `b` sends
`join 1`, `a` sends `accept`, and the moves `0 0` (a), `1 1` (b), `0 1` (a),
`1 0` (b), `0 2` (a) follow. Every event is admissible and handled. After
`create`, game 1 exists (slot 0) with owner `a`, waiting for a player, and the
session of `a` is in game 1; after `join 1` the session of `b` waits for
acceptance; after `accept` the game is in progress and `a` has the turn;
the last move sends `a` the message that it has won and `b` the message that
it has lost, and leaves game 1 occupied with owner `a`, waiting for a player,
with an empty board and no opponent, and the session of `b` connected with no
game. -/
theorem scenario_owner_wins (ms a b : Int) (ha : 0 < a) (hb : 0 < b) (hab : a ≠ b)
    (ham : a ≠ ms) (hbm : b ≠ ms) :
    run_admissible ms (init_server ms) (scenario_won a b) =
      some (state_after ms (scenario_won a b)) ∧
    (find_client_by_fd (state_after ms (scenario_created a b)) a = some 0 ∧
      find_game_by_id (state_after ms (scenario_created a b)) 1 = some 0 ∧
      ((state_after ms (scenario_created a b)).game 0).id = 1 ∧
      ((state_after ms (scenario_created a b)).game 0).owner_fd = a ∧
      ((state_after ms (scenario_created a b)).game 0).state =
        GameState.GAME_WAITING_FOR_PLAYER ∧
      ((state_after ms (scenario_created a b)).client 0).status = PlayerStatus.PLAYER_IN_GAME ∧
      ((state_after ms (scenario_created a b)).client 0).game_id = 1) ∧
    (find_client_by_fd (state_after ms (scenario_joined a b)) b = some 1 ∧
      ((state_after ms (scenario_joined a b)).client 1).status =
        PlayerStatus.PLAYER_WAITING_ACCEPT ∧
      ((state_after ms (scenario_joined a b)).client 1).game_id = 1 ∧
      ((state_after ms (scenario_joined a b)).game 0).opponent_fd = b) ∧
    (((state_after ms (scenario_accepted a b)).game 0).id = 1 ∧
      ((state_after ms (scenario_accepted a b)).game 0).state = GameState.GAME_IN_PROGRESS ∧
      ((state_after ms (scenario_accepted a b)).client 0).is_current_turn = true ∧
      ((state_after ms (scenario_accepted a b)).client 1).is_current_turn = false) ∧
    (state_after ms (scenario_won a b)).out =
      (state_after ms (scenario_before_win a b)).out ++
        [Output.sent a "\nLa partita è terminata!\n",
         Output.sent a (String.mk (print_board
           (play { board := Vec3.fill (Vec3.fill Cell.EMPTY), turn := 0 }
             [(0, 0), (1, 1), (0, 1), (1, 0), (0, 2)]))),
         Output.sent a "Hai vinto!\n",
         Output.sent b "\nLa partita è terminata!\n",
         Output.sent b (String.mk (print_board
           (play { board := Vec3.fill (Vec3.fill Cell.EMPTY), turn := 0 }
             [(0, 0), (1, 1), (0, 1), (1, 0), (0, 2)]))),
         Output.sent b "Hai perso.\n",
         Output.sent a ("Sei diventato il proprietario della partita " ++
           toString (1 : Int) ++ " e attendi un nuovo giocatore (X).\n"),
         Output.sent b
           "Sei stato rimosso dalla partita. Digita 'list' per vedere altre partite o 'create' per crearne una nuova.\n"] ∧
    (find_client_by_fd (state_after ms (scenario_won a b)) a = some 0 ∧
      find_client_by_fd (state_after ms (scenario_won a b)) b = some 1 ∧
      find_game_by_id (state_after ms (scenario_won a b)) 1 = some 0 ∧
      ((state_after ms (scenario_won a b)).game 0).id = 1 ∧
      ((state_after ms (scenario_won a b)).game 0).owner_fd = a ∧
      ((state_after ms (scenario_won a b)).game 0).state = GameState.GAME_WAITING_FOR_PLAYER ∧
      ((state_after ms (scenario_won a b)).game 0).tris_game.board =
        Vec3.fill (Vec3.fill Cell.EMPTY) ∧
      ((state_after ms (scenario_won a b)).game 0).opponent_fd = -1 ∧
      ((state_after ms (scenario_won a b)).client 0).status = PlayerStatus.PLAYER_IN_GAME ∧
      ((state_after ms (scenario_won a b)).client 0).game_id = 1 ∧
      ((state_after ms (scenario_won a b)).client 1).status = PlayerStatus.PLAYER_CONNECTED ∧
      ((state_after ms (scenario_won a b)).client 1).game_id = -1) := by
  obtain ⟨s0, h0, r0, n0, x0, m0, ca0, cg0, cb0, cbg0, cbs0, gg0⟩ :=
    scenario_connected_state ms a b ha hb hab ham hbm
  obtain ⟨s1, h1, r1, n1, a11, a12, a13, b11, b13, b12, g11, g12, g13, g14, g15⟩ :=
    scenario_created_state ms a b ha s0 r0 n0 x0 m0 ca0 cg0 cb0 cbg0 cbs0 gg0
  obtain ⟨s2, h2, r2, n2, a21, a22, a23, b21, b23, b22, g21, g22, g23, g24, g25⟩ :=
    scenario_joined_state ms a b hb hab s1 r1 n1 a11 a12 a13 b11 b13 g11 g12 g13 g14 g15
  obtain ⟨s3, h3, p3⟩ :=
    scenario_accepted_state ms a b ha s2 r2 n2 a21 a22 a23 b21 b23 g21 g22 g23 hb g24 g25
  obtain ⟨s4, h4, p4⟩ := scenario_moves_state ms a b ha hb s3 p3
  obtain ⟨s5, h5, r5, o5, n5, a51, a52, a53, b51, b52, b53, g51, g52, g53, g54, g55⟩ :=
    scenario_won_state ms a b ha s4 _ p4 (by decide) (by decide) (by decide)
  have e1 : run_admissible ms (init_server ms) (scenario_created a b) = some s1 :=
    (run_admissible_append ms _ _ _ _ h0).trans h1
  have e2 : run_admissible ms (init_server ms) (scenario_joined a b) = some s2 :=
    (run_admissible_append ms _ _ _ _ e1).trans h2
  have e3 : run_admissible ms (init_server ms) (scenario_accepted a b) = some s3 :=
    (run_admissible_append ms _ _ _ _ e2).trans h3
  have e4 : run_admissible ms (init_server ms) (scenario_before_win a b) = some s4 :=
    (run_admissible_append ms _ _ _ _ e3).trans h4
  have e5 : run_admissible ms (init_server ms) (scenario_won a b) = some s5 :=
    (run_admissible_append ms _ _ _ _ e4).trans h5
  have f1 : state_after ms (scenario_created a b) = s1 := by
    unfold state_after
    rw [e1]
    rfl
  have f2 : state_after ms (scenario_joined a b) = s2 := by
    unfold state_after
    rw [e2]
    rfl
  have f3 : state_after ms (scenario_accepted a b) = s3 := by
    unfold state_after
    rw [e3]
    rfl
  have f4 : state_after ms (scenario_before_win a b) = s4 := by
    unfold state_after
    rw [e4]
    rfl
  have f5 : state_after ms (scenario_won a b) = s5 := by
    unfold state_after
    rw [e5]
    rfl
  obtain ⟨_, _, a31, a32, a33, a34, b31, b32, b33, b34, g31, g32, g33, g34, g35⟩ := p3
  have i1 := reachable_inv r1
  have i2 := reachable_inv r2
  have i5 := reachable_inv r5
  rw [f1, f2, f3, f4, f5]
  refine ⟨e5, ⟨?_, ?_, g11, g12, g14, a12, a13⟩, ⟨?_, b22, b23, g23⟩,
    ⟨g31, g34, a34, b34⟩, o5, ?_, ?_, ?_, g51, g52, g54, ?_, g53, a52, a53, b52, b53⟩
  · rw [← a11]
    exact i1.find_client_of_reg (by rw [n1]; decide)
  · rw [← g11]
    exact i1.find_game_of_occ (by decide) (by rw [g11]; decide)
  · rw [← b21]
    exact i2.find_client_of_reg (by rw [n2]; decide)
  · rw [← a51]
    exact i5.find_client_of_reg (by rw [n5]; decide)
  · rw [← b51]
    exact i5.find_client_of_reg (by rw [n5]; decide)
  · rw [← g51]
    exact i5.find_game_of_occ (by decide) (by rw [g51]; decide)
  · rw [g55]

theorem scenario_owner_wins_witness :
    ((0 : Int) < 4 ∧ (0 : Int) < 5 ∧ (4 : Int) ≠ 5 ∧ (4 : Int) ≠ 3 ∧ (5 : Int) ≠ 3) ∧
    ((state_after 3 (scenario_won 4 5)).game 0).owner_fd = 4 ∧
    ((state_after 3 (scenario_won 4 5)).client 1).game_id = -1 :=
  ⟨by decide,
    (scenario_owner_wins 3 4 5 (by decide) (by decide) (by decide) (by decide)
      (by decide)).2.2.2.2.2.2.2.2.2.1,
    (scenario_owner_wins 3 4 5 (by decide) (by decide) (by decide) (by decide)
      (by decide)).2.2.2.2.2.2.2.2.2.2.2.2.2.2.2.2⟩

/-! ## Theorems: the texts sent to the clients -/

theorem cell_char_injective (a b : Cell) (h : cell_char a = cell_char b) : a = b := by
  cases a <;> cases b <;> first | rfl | exact absurd h (by decide)

theorem Vec3.ext_get {α : Type} (v w : Vec3 α) (h : ∀ i : Fin 3, v.get i = w.get i) : v = w := by
  cases v
  cases w
  have h0 := h 0
  have h1 := h 1
  have h2 := h 2
  simp only [Vec3.get] at h0 h1 h2
  rw [h0, h1, h2]

theorem print_board_eq (game : TrisGame) : print_board game = board_text game := rfl

/-- C27: for every board, `print_board` writes the 60 characters of three
rows ` a | b | c ` and, between them, two lines `---+---+---`, each of the five
followed by a newline, where a cell is shown as `.` when `EMPTY`, `X` when `X`
and `O` when `O`. The text is a function of the 9 cells alone (two games with
the same cells give the same text, whatever their `turn`), and two games that
give the same text have the same cells. -/
theorem print_board_layout (game : TrisGame) :
    print_board game = board_text game ∧
    (print_board game).length = 60 ∧
    (cell_char Cell.EMPTY = '.' ∧ cell_char Cell.X = 'X' ∧ cell_char Cell.O = 'O') ∧
    (∀ other : TrisGame, (∀ i j, other.cell i j = game.cell i j) →
      print_board other = print_board game) ∧
    (∀ other : TrisGame, print_board other = print_board game →
      (∀ i j, other.cell i j = game.cell i j) ∧ other.board = game.board) := by
  refine ⟨rfl, rfl, ⟨rfl, rfl, rfl⟩, ?_, ?_⟩
  · intro other h
    rw [print_board_eq, print_board_eq]
    simp only [board_text, row_text, h]
  · intro other h
    rw [print_board_eq, print_board_eq] at h
    have hs : "---+---+---\n".toList =
        ['-', '-', '-', '+', '-', '-', '-', '+', '-', '-', '-', '\n'] := rfl
    simp only [board_text, row_text, hs, List.cons_append, List.nil_append, List.append_assoc,
      List.cons.injEq, true_and] at h
    have hc : ∀ i j : Fin 3, other.cell i j = game.cell i j := by
      intro i j
      apply cell_char_injective
      fin_cases i <;> fin_cases j <;> simp only [h] <;> tauto
    refine ⟨hc, Vec3.ext_get _ _ (fun i => Vec3.ext_get _ _ (fun j => hc i j))⟩

/-- The text `print_game_list` chooses for a state is the label of that
state. -/
theorem state_str_eq (st : GameState) : state_str st = state_words st := by
  cases st <;> rfl

theorem foldl_game_lines (s : Server) (l : List Nat) (acc : String) :
    l.foldl (fun acc k =>
      acc ++ "ID: " ++ toString (s.game k).id ++ " | Stato: " ++ state_str (s.game k).state
          ++ " | Proprietario: FD " ++ toString (s.game k).owner_fd ++ "\n") acc =
      acc ++ concat_lines (l.map (fun k => game_line (s.game k))) := by
  induction l generalizing acc with
  | nil => simp [concat_lines]
  | cons k l ih =>
    rw [List.foldl_cons, ih]
    simp only [List.map_cons, concat_lines, game_line, state_str_eq, String.append_assoc]

/-- C26: for every game table, `print_game_list` sends the requester one text:
the header line, one line per occupied slot in ascending slot order with the id,
the state in words and the owner label `FD owner_fd` of that slot, then the
footer line; the line that says no game is available is there when no slot is
occupied and only then. The words for the state are the four labels of
`state_words`, which `print_game_list` uses: they are not empty and differ from
state to state, so the state can be read from the line. Nothing but the output
log changes. -/
theorem print_game_list_text (s : Server) (client_fd : Int) :
    print_game_list s client_fd = send_to_client s client_fd (game_list_text s) ∧
    (0 < client_fd →
      (print_game_list s client_fd).out = s.out ++ [Output.sent client_fd (game_list_text s)]) ∧
    (∀ k, k ∈ occupied_slots s ↔ k < 5 ∧ (s.game k).id ≠ -1) ∧
    (occupied_slots s).Sorted (fun a b => a < b) ∧
    ((∀ k, k < 5 → (s.game k).id = -1) →
      game_list_text s = "--- Lista Partite ---\n" ++
        "Nessuna partita disponibile. Crea una nuova partita con 'create'.\n" ++
        "---------------------\n") ∧
    ((∃ k, k < 5 ∧ (s.game k).id ≠ -1) →
      game_list_text s = "--- Lista Partite ---\n" ++
        concat_lines ((occupied_slots s).map (fun k => game_line (s.game k))) ++
        "---------------------\n") ∧
    (state_str GameState.GAME_NEW = "NUOVA (in attesa del proprietario)" ∧
      state_str GameState.GAME_WAITING_FOR_PLAYER = "IN ATTESA DI GIOCATORE" ∧
      state_str GameState.GAME_IN_PROGRESS = "IN CORSO" ∧
      state_str GameState.GAME_ENDED = "TERMINATA") ∧
    (∀ st, state_str st = state_words st ∧ state_words st ≠ "") ∧
    (∀ a b, state_words a = state_words b → a = b) ∧
    unchanged s (print_game_list s client_fd) := by
  have hmem : ∀ k, k ∈ occupied_slots s ↔ k < 5 ∧ (s.game k).id ≠ -1 := by
    intro k
    simp only [occupied_slots, List.mem_filter, List.mem_range, MAX_GAMES, bne_iff_ne, ne_eq]
  have heq : print_game_list s client_fd = send_to_client s client_fd (game_list_text s) := by
    unfold print_game_list game_list_text
    simp only [foldl_game_lines, List.isEmpty_iff, occupied_slots]
    split_ifs
    · rfl
    · simp
  refine ⟨heq, ?_, hmem, ?_, ?_, ?_, ⟨rfl, rfl, rfl, rfl⟩,
    fun st => ⟨state_str_eq st, by cases st <;> decide⟩,
    fun a b => by cases a <;> cases b <;> decide, unchanged_print_game_list s client_fd⟩
  · intro hpos
    rw [heq, out_send_pos _ _ _ hpos]
  · unfold occupied_slots
    exact List.Sorted.filter _ (List.sorted_lt_range _)
  · intro hnone
    have he : occupied_slots s = [] := by
      rw [List.eq_nil_iff_forall_not_mem]
      intro k hk
      exact ((hmem k).1 hk).2 (hnone k ((hmem k).1 hk).1)
    unfold game_list_text
    rw [he]
    simp [concat_lines]
  · rintro ⟨k, hk5, hocc⟩
    have hne : occupied_slots s ≠ [] := by
      intro he
      have := (hmem k).2 ⟨hk5, hocc⟩
      rw [he] at this
      exact absurd this (List.not_mem_nil k)
    unfold game_list_text
    rw [if_neg hne]
    simp

/-! ## Theorems: reads, connections and removals -/

/-- C21, the code at the failing input: sessions 4 and 5 are connected and the
`read` on the socket of session 4 returns -1. The main loop tests only
`valread == 0`, so it calls `handle_client_data` with `valread = -1`, whose
first statement writes `buffer[-1]`, outside the array: the session is not
torn down by `remove_client`. A `read` that returns 0 does tear it down. -/
theorem read_error_not_torn_down :
    Reachable 3 (state_after 3 trace_connected) ∧
    registered (state_after 3 trace_connected) 4 ∧
    (∀ buffer : List Char,
      client_readable (state_after 3 trace_connected) 4 buffer (-1) =
        handle_client_data (state_after 3 trace_connected) 4 buffer (-1) ∧
      handle_client_data (state_after 3 trace_connected) 4 buffer (-1) = none ∧
      client_readable (state_after 3 trace_connected) 4 buffer (-1) ≠
        some (remove_client (state_after 3 trace_connected) 4) ∧
      client_readable (state_after 3 trace_connected) 4 buffer 0 =
        some (remove_client (state_after 3 trace_connected) 4)) ∧
    find_client_by_fd (remove_client (state_after 3 trace_connected) 4) 4 = none := by
  refine ⟨reachable_state_after 3 _, ⟨by decide, 0, by decide, by decide⟩, fun buffer => ?_,
    by decide⟩
  have h1 : client_readable (state_after 3 trace_connected) 4 buffer (-1) =
      handle_client_data (state_after 3 trace_connected) 4 buffer (-1) := by
    unfold client_readable
    rw [if_neg (by decide)]
  have h2 : handle_client_data (state_after 3 trace_connected) 4 buffer (-1) = none := by
    unfold handle_client_data
    rw [if_pos (Or.inl (by decide))]
  refine ⟨h1, h2, ?_, ?_⟩
  · rw [h1, h2]
    exact fun e => Option.noConfusion e
  · unfold client_readable
    rw [if_pos rfl]

/-- What `handle_client_data` passes to `dispatch` for a chunk of commands:
the first command. -/
theorem handle_client_data_chunk (s : Server) (sd : Int) (c : List Char)
    (rest : List (List Char)) (stale : List Char)
    (hc : ∀ x ∈ c, (x != '\x00') = true ∧ (x != '\n') = true)
    (hlen : (chunk_of (c :: rest)).length < BUFFER_SIZE) :
    handle_client_data s sd (chunk_of (c :: rest) ++ stale) (chunk_of (c :: rest)).length =
      dispatch s sd c := by
  have hch : chunk_of (c :: rest) = c ++ '\n' :: chunk_of rest := by
    simp [chunk_of]
  unfold handle_client_data
  rw [if_neg (by omega)]
  simp only [Int.toNat_ofNat, List.take_left']
  have h1 : (c_string (chunk_of (c :: rest))).takeWhile (fun x => x != '\n') = c := by
    unfold c_string
    rw [hch, List.takeWhile_append_of_pos (fun x hx => (hc x hx).1)]
    rw [List.takeWhile_cons_of_pos (by decide)]
    rw [List.takeWhile_append_of_pos (fun x hx => (hc x hx).2)]
    rw [List.takeWhile_cons_of_neg (by decide)]
    simp
  rw [h1]

/-- C22, the code at the failing input: sessions 4 and 5 are connected and the
chunk `create`, newline, `leave`, newline arrives from session 4 in one read.
`handle_client_data` ends the string at the first newline and dispatches
`create` only, so game 1 exists afterwards and `leave` is lost; dispatching the
two commands one after the other leaves no game. -/
theorem chunk_second_command_dropped :
    Reachable 3 (state_after 3 trace_connected) ∧
    registered (state_after 3 trace_connected) 4 ∧
    ¬ (handle_client_data (state_after 3 trace_connected) 4
        (chunk_of ["create".toList, "leave".toList])
        (chunk_of ["create".toList, "leave".toList]).length =
      dispatch_commands (state_after 3 trace_connected) 4 ["create".toList, "leave".toList]) ∧
    handle_client_data (state_after 3 trace_connected) 4
        (chunk_of ["create".toList, "leave".toList])
        (chunk_of ["create".toList, "leave".toList]).length =
      dispatch (state_after 3 trace_connected) 4 "create".toList ∧
    (∃ s1 s2,
      dispatch (state_after 3 trace_connected) 4 "create".toList = some s1 ∧
      dispatch_commands (state_after 3 trace_connected) 4 ["create".toList, "leave".toList] =
        some s2 ∧
      (s1.game 0).id = 1 ∧ (s2.game 0).id = -1) := by
  refine ⟨reachable_state_after 3 _, ⟨by decide, 0, by decide, by decide⟩, by decide,
    by decide, ?_⟩
  refine ⟨(dispatch (state_after 3 trace_connected) 4 "create".toList).getD (init_server 3),
    (dispatch_commands (state_after 3 trace_connected) 4
      ["create".toList, "leave".toList]).getD (init_server 3), by decide, by decide, by decide,
    by decide⟩

/-- For every chunk of one or more commands, each followed by a newline, whose
first command holds no NUL and which is shorter than the buffer,
`handle_client_data` dispatches the first command and nothing else (the text
after the first newline is dropped, as are the bytes left in the buffer by
earlier reads): the state and the messages are those of dispatching the first
command alone. For a chunk of one command that is what the commands dispatched
in order give. In a reachable state with the counter `next_game_id` below
`INT_MAX`, for a positive descriptor, the call returns a state. -/
theorem handle_client_data_first_command (s : Server) (sd : Int) (c : List Char)
    (rest : List (List Char)) (stale : List Char)
    (hc : ∀ x ∈ c, (x != '\x00') = true ∧ (x != '\n') = true)
    (hlen : (chunk_of (c :: rest)).length < BUFFER_SIZE) :
    handle_client_data s sd (chunk_of (c :: rest) ++ stale) (chunk_of (c :: rest)).length =
      dispatch s sd c ∧
    handle_client_data s sd (chunk_of (c :: rest) ++ stale) (chunk_of (c :: rest)).length =
      dispatch_commands s sd [c] ∧
    (rest = [] →
      handle_client_data s sd (chunk_of (c :: rest) ++ stale) (chunk_of (c :: rest)).length =
        dispatch_commands s sd (c :: rest)) ∧
    (∀ master_socket, Reachable master_socket s → 0 < sd → s.next_game_id < INT_MAX →
      ∃ s1, handle_client_data s sd (chunk_of (c :: rest) ++ stale)
        (chunk_of (c :: rest)).length = some s1) := by
  have h := handle_client_data_chunk s sd c rest stale hc hlen
  have h1 : dispatch_commands s sd [c] = dispatch s sd c := by
    simp only [dispatch_commands]
    cases dispatch s sd c <;> rfl
  refine ⟨h, by rw [h, h1], ?_, ?_⟩
  · intro hr
    subst hr
    rw [h, h1]
  · intro ms hr hsd hnext
    obtain ⟨s1, e, _⟩ := dispatch_ok (reachable_inv hr) sd hsd c hnext
    exact ⟨s1, by rw [h, e]⟩

theorem handle_client_data_first_command_witness :
    handle_client_data (state_after 3 trace_connected) 4
        (chunk_of ["create".toList, "leave".toList] ++ "xyz".toList)
        (chunk_of ["create".toList, "leave".toList]).length =
      dispatch (state_after 3 trace_connected) 4 "create".toList :=
  (handle_client_data_first_command (state_after 3 trace_connected) 4 "create".toList
    ["leave".toList] "xyz".toList (by decide) (by decide)).1

theorem clients_length_send (s : Server) (fd : Int) (m : String) :
    (send_to_client s fd m).clients.length = s.clients.length := by
  rw [clients_send]

/-- In a state that satisfies the invariant, a slot with `fd = 0` exists
exactly when fewer than 10 sessions are registered, and the first such slot is
the one after the registered sessions. -/
theorem first_free_client (s : Server) (h : Inv s) :
    (s.num_clients < 10 →
      (List.range MAX_CLIENTS).find? (fun i => (s.client i).fd == 0) =
        some s.num_clients.toNat) ∧
    (¬ s.num_clients < 10 →
      (List.range MAX_CLIENTS).find? (fun i => (s.client i).fd == 0) = none) := by
  have hr := h.cinv.n_range
  simp only [core] at hr
  constructor
  · intro hn
    have hfree : (s.client s.num_clients.toNat).fd = 0 := by
      have := (h.cinv.reg s.num_clients.toNat (by omega)).2 (by simp only [core]; omega)
      simpa [core] using this
    cases hf : (List.range MAX_CLIENTS).find? (fun i => (s.client i).fd == 0) with
    | none =>
      exfalso
      have := find_range_none _ _ hf s.num_clients.toNat (by simp only [MAX_CLIENTS]; omega)
      rw [hfree] at this
      exact absurd this (by decide)
    | some i =>
      have hfirst := find_range_first _ _ _ hf
      obtain ⟨hi10, hi0⟩ := find_range_some _ _ _ hf
      simp only [MAX_CLIENTS] at hi10
      simp only [beq_iff_eq] at hi0
      have hge : s.num_clients ≤ (i : Int) := by
        by_contra hlt
        have := h.cinv.fd_pos (show ((i : Nat) : Int) < (core s).n by simp only [core]; omega)
        simp only [core] at this
        omega
      have hin : i = s.num_clients.toNat := by
        by_contra hne
        have hlt : s.num_clients.toNat < i := by omega
        have h1 := hfirst _ hlt
        rw [hfree] at h1
        exact absurd h1 (by decide)
      rw [hin]
  · intro hn
    cases hf : (List.range MAX_CLIENTS).find? (fun i => (s.client i).fd == 0) with
    | none => rfl
    | some i =>
      exfalso
      obtain ⟨hi10, hi0⟩ := find_range_some _ _ _ hf
      simp only [MAX_CLIENTS] at hi10
      simp only [beq_iff_eq] at hi0
      have := h.cinv.fd_pos (show ((i : Nat) : Int) < (core s).n by simp only [core]; omega)
      simp only [core] at this
      omega

/-- C23: in a reachable state, `initialize_client` on a new positive
descriptor adds an entry exactly when fewer than 10 sessions are registered
(which is when some slot has `fd = 0`). The entry goes to the slot after the
registered ones, with the descriptor, status `PLAYER_CONNECTED`, no game, mark
`EMPTY` and both flags false; the other slots are as before and `num_clients`
grows by one. When 10 sessions are registered the client table and
`num_clients` (and the game table) are unchanged, and the only outputs are the
message that the server is full and the `close` of the descriptor. -/
theorem initialize_client_capacity (master_socket : Int) (s : Server) (fd : Int)
    (hr : Reachable master_socket s) (hfd : 0 < fd) :
    (s.num_clients < 10 ↔ ∃ i, i < 10 ∧ (s.client i).fd = 0) ∧
    ((initialize_client s fd).num_clients = s.num_clients + 1 ↔ s.num_clients < 10) ∧
    (s.num_clients < 10 →
      ((initialize_client s fd).client s.num_clients.toNat).fd = fd ∧
      ((initialize_client s fd).client s.num_clients.toNat).status =
        PlayerStatus.PLAYER_CONNECTED ∧
      ((initialize_client s fd).client s.num_clients.toNat).game_id = -1 ∧
      ((initialize_client s fd).client s.num_clients.toNat).player_symbol = Cell.EMPTY ∧
      ((initialize_client s fd).client s.num_clients.toNat).is_current_turn = false ∧
      ((initialize_client s fd).client s.num_clients.toNat).wants_rematch = false ∧
      (∀ j, j ≠ s.num_clients.toNat → (initialize_client s fd).client j = s.client j) ∧
      ((∀ i, i < 10 → (s.client i).fd ≠ fd) →
        find_client_by_fd (initialize_client s fd) fd = some s.num_clients.toNat)) ∧
    (¬ s.num_clients < 10 →
      (initialize_client s fd).clients = s.clients ∧
      (initialize_client s fd).num_clients = s.num_clients ∧
      (initialize_client s fd).games = s.games ∧
      (initialize_client s fd).out =
        s.out ++ [Output.sent fd "Server pieno, riprova più tardi.\n", Output.closed fd] ∧
      find_client_by_fd (initialize_client s fd) fd = find_client_by_fd s fd) := by
  have h := reachable_inv hr
  have hrng := h.cinv.n_range
  simp only [core] at hrng
  obtain ⟨hfree, hfull⟩ := first_free_client s h
  have hyes : s.num_clients < 10 →
      (∀ j, (initialize_client s fd).client j =
        if j = s.num_clients.toNat then
          { s.client s.num_clients.toNat with
            fd := fd, status := PlayerStatus.PLAYER_CONNECTED, game_id := -1,
            player_symbol := Cell.EMPTY, is_current_turn := false, wants_rematch := false,
            username := "Giocatore" ++ toString fd }
        else s.client j) ∧
      (initialize_client s fd).num_clients = s.num_clients + 1 := by
    intro hn
    have hlt10 : s.num_clients.toNat < 10 := by omega
    unfold initialize_client
    rw [hfree hn]
    simp only []
    refine ⟨fun j => ?_, ?_⟩
    · simp only [client_send]
      simp only [Server.client, Server.setClient, getD_set, h.1, hlt10, and_true]
    · simp only [num_clients_send]
      rfl
  have hno : ¬ s.num_clients < 10 →
      initialize_client s fd =
        { send_to_client s fd "Server pieno, riprova più tardi.\n" with
          out := (send_to_client s fd "Server pieno, riprova più tardi.\n").out ++
            [Output.closed fd] } := by
    intro hn
    unfold initialize_client
    rw [hfull hn]
  refine ⟨?_, ?_, ?_, ?_⟩
  · constructor
    · intro hn
      refine ⟨s.num_clients.toNat, by omega, ?_⟩
      have := (h.cinv.reg s.num_clients.toNat (by omega)).2 (by simp only [core]; omega)
      simpa [core] using this
    · rintro ⟨i, hi10, hi0⟩
      by_contra hn
      have := h.cinv.fd_pos (show ((i : Nat) : Int) < (core s).n by simp only [core]; omega)
      simp only [core] at this
      omega
  · constructor
    · intro e
      by_contra hn
      rw [hno hn] at e
      simp only [num_clients_send] at e
      omega
    · intro hn
      exact (hyes hn).2
  · intro hn
    obtain ⟨ec, _⟩ := hyes hn
    have e0 := ec s.num_clients.toNat
    rw [if_pos rfl] at e0
    rw [e0]
    refine ⟨rfl, rfl, rfl, rfl, rfl, rfl, fun j hj => ?_, fun hnew => ?_⟩
    · rw [ec j, if_neg hj]
    · cases hf : find_client_by_fd (initialize_client s fd) fd with
      | none =>
        exfalso
        have := find_client_none hf s.num_clients.toNat (by omega)
        rw [e0] at this
        exact this rfl
      | some i =>
        obtain ⟨hi10, hi⟩ := find_client_some hf
        by_cases e : i = s.num_clients.toNat
        · rw [e]
        · rw [ec i, if_neg e] at hi
          exact absurd hi (hnew i hi10)
  · intro hn
    rw [hno hn]
    refine ⟨?_, ?_, ?_, ?_, ?_⟩
    · exact clients_send _ _ _
    · exact num_clients_send _ _ _
    · exact games_send _ _ _
    · simp only [out_send_pos _ _ _ hfd, List.append_assoc, List.singleton_append]
    · apply find_client_congr
      intro i
      simp only [Server.client]
      rw [show ({ send_to_client s fd "Server pieno, riprova più tardi.\n" with
          out := (send_to_client s fd "Server pieno, riprova più tardi.\n").out ++
            [Output.closed fd] } : Server).clients = s.clients from clients_send _ _ _]

theorem initialize_client_capacity_witness :
    ((initialize_client (state_after 3 trace_connected) 6).client 2).fd = 6 :=
  ((initialize_client_capacity 3 (state_after 3 trace_connected) 6
    (reachable_state_after 3 _) (by decide)).2.2.1 (by decide)).1

/-- The four ways `remove_client_from_game` acts on the session in slot `i`,
slot by slot: the session is in no game; it is the opponent of game `k`; it is
the owner of game `k`, which has the opponent in slot `p`; it is the owner of
game `k`, which has no opponent. -/
theorem remove_from_game_effect {s : Server} (h : Inv s) (fd : Int) (hfd : 0 < fd)
    (i : Nat) (hi : find_client_by_fd s fd = some i) :
    ((s.client i).game_id = -1 ∧ remove_client_from_game s fd = s) ∨
    (∃ k, k < 5 ∧ (s.game k).id ≠ -1 ∧ (s.client i).game_id = (s.game k).id ∧
      (s.game k).opponent_fd = fd ∧ (s.game k).owner_fd ≠ fd ∧
      (∀ j, (remove_client_from_game s fd).client j =
        if j = i then reset_client (s.client i) else s.client j) ∧
      (∀ m, (remove_client_from_game s fd).game m =
        if m = k then
          { s.game k with opponent_fd := -1, state := GameState.GAME_WAITING_FOR_PLAYER }
        else s.game m) ∧
      (remove_client_from_game s fd).num_clients = s.num_clients) ∨
    (∃ k p, k < 5 ∧ (s.game k).id ≠ -1 ∧ (s.client i).game_id = (s.game k).id ∧
      (s.game k).owner_fd = fd ∧ (s.game k).opponent_fd ≠ -1 ∧
      p ≠ i ∧ (p : Int) < s.num_clients ∧ (s.client p).fd = (s.game k).opponent_fd ∧
      (∀ j, (remove_client_from_game s fd).client j =
        if j = i then reset_client (s.client i)
        else if j = p then reset_client (s.client p) else s.client j) ∧
      (∀ m, (remove_client_from_game s fd).game m =
        if m = k then
          { s.game k with
            id := -1, state := GameState.GAME_NEW, owner_fd := -1, opponent_fd := -1,
            last_result := GameResult.IN_PROGRESS }
        else s.game m) ∧
      (remove_client_from_game s fd).num_clients = s.num_clients) ∨
    (∃ k, k < 5 ∧ (s.game k).id ≠ -1 ∧ (s.client i).game_id = (s.game k).id ∧
      (s.game k).owner_fd = fd ∧ (s.game k).opponent_fd = -1 ∧
      (∀ j, (remove_client_from_game s fd).client j =
        if j = i then reset_client (s.client i) else s.client j) ∧
      (∀ m, (remove_client_from_game s fd).game m =
        if m = k then
          { s.game k with
            id := -1, state := GameState.GAME_NEW, owner_fd := -1, opponent_fd := -1,
            last_result := GameResult.IN_PROGRESS }
        else s.game m) ∧
      (remove_client_from_game s fd).num_clients = s.num_clients) := by
  obtain ⟨hin, hifd⟩ := h.find_client_reg hfd hi
  by_cases hg : (s.client i).game_id = -1
  · left
    refine ⟨hg, ?_⟩
    unfold remove_client_from_game
    rw [hi]
    simp only [if_pos hg]
  · right
    obtain ⟨k, hk5, hid, hrole⟩ := h.cinv.c_game i hin hg
    simp only [core] at hid hrole
    have hocc : (s.game k).id ≠ -1 := by rw [hid]; exact hg
    have hk : find_game_by_id s (s.client i).game_id = some k := by
      rw [← hid]
      exact h.find_game_of_occ hk5 hocc
    by_cases hopp : (s.game k).opponent_fd = fd
    · left
      obtain ⟨ec, eg, _, _, en, _, _⟩ := remove_from_game_opp_effect h fd hfd i k hi hg hk hopp
      have hne := (h.cinv.g_opp k hk5 hocc (by simp only [core]; omega)).1
      simp only [core] at hne
      exact ⟨k, hk5, hocc, hid.symm, hopp, fun e => hne (by rw [hopp, e]), ec, eg, en⟩
    · right
      have hown : (s.game k).owner_fd = fd := by
        rcases hrole with e | e
        · rw [e, hifd]
        · exact absurd (e.trans hifd) hopp
      by_cases hp : (s.game k).opponent_fd = -1
      · right
        obtain ⟨_, ec, eg, _, _, en, _, _⟩ :=
          remove_from_game_alone_effect h fd hfd i k hi hg hk hp
        exact ⟨k, hk5, hocc, hid.symm, hown, hp, ec, eg, en⟩
      · left
        obtain ⟨p, hpi, hpn, _, hpfd, ec, eg, _, _, en, _, _⟩ :=
          remove_from_game_owner_effect h fd hfd i k hi hg hk hown hp
        exact ⟨k, p, hk5, hocc, hid.symm, hown, hp, hpi, hpn, hpfd, ec, eg, en⟩

/-- What `remove_client_from_game` does to the other sessions: only the
opponent of a game owned by the departing session is reset. -/
theorem remove_from_game_other {s : Server} (h : Inv s) (fd : Int) (hfd : 0 < fd)
    (i j : Nat) (hi : find_client_by_fd s fd = some i) (hjn : (j : Int) < s.num_clients)
    (hji : j ≠ i) :
    ((∃ k, k < 5 ∧ (s.game k).id ≠ -1 ∧ (s.game k).owner_fd = fd ∧
        (s.game k).opponent_fd = (s.client j).fd) →
      (remove_client_from_game s fd).client j = reset_client (s.client j)) ∧
    ((¬ ∃ k, k < 5 ∧ (s.game k).id ≠ -1 ∧ (s.game k).owner_fd = fd ∧
        (s.game k).opponent_fd = (s.client j).fd) →
      (remove_client_from_game s fd).client j = s.client j) := by
  obtain ⟨hin, hifd⟩ := h.find_client_reg hfd hi
  have hjpos : 0 < (s.client j).fd := by
    have := h.cinv.fd_pos hjn
    simpa only [core] using this
  -- the game owned by `fd`, if any, is the game of slot `i`
  have howned : ∀ k, k < 5 → (s.game k).id ≠ -1 → (s.game k).owner_fd = fd →
      (s.client i).game_id = (s.game k).id := by
    intro k hk5 hocc hown
    obtain ⟨o, hon, hofd, hog⟩ := h.cinv.g_owner k hk5 hocc
    simp only [core] at hon hofd hog
    have : o = i := h.cinv.fd_inj o i hon hin (by simp only [core]; rw [hofd, hown, hifd])
    rw [← this]
    exact hog
  rcases remove_from_game_effect h fd hfd i hi with
    ⟨hg, e⟩ | ⟨k, hk5, hocc, hid, hopp, hown, ec, _, _⟩ |
    ⟨k, p, hk5, hocc, hid, hown, hp, hpi, hpn, hpfd, ec, _, _⟩ |
    ⟨k, hk5, hocc, hid, hown, hp, ec, _, _⟩
  · rw [e]
    refine ⟨?_, fun _ => rfl⟩
    rintro ⟨k, hk5, hocc, hown, _⟩
    exact absurd ((howned k hk5 hocc hown).symm.trans hg) hocc
  · rw [ec j, if_neg hji]
    refine ⟨?_, fun _ => rfl⟩
    rintro ⟨k1, hk15, hocc1, hown1, _⟩
    have e1 := howned k1 hk15 hocc1 hown1
    have : k1 = k := h.cinv.gid_inj k1 k hk15 hk5 hocc1 (by simp only [core]; rw [← e1, hid])
    rw [this] at hown1
    exact absurd hown1 hown
  · rw [ec j, if_neg hji]
    constructor
    · rintro ⟨k1, hk15, hocc1, hown1, hopp1⟩
      have e1 := howned k1 hk15 hocc1 hown1
      have : k1 = k := h.cinv.gid_inj k1 k hk15 hk5 hocc1 (by simp only [core]; rw [← e1, hid])
      rw [this] at hopp1
      have : j = p := h.cinv.fd_inj j p hjn hpn (by simp only [core]; rw [hpfd, hopp1])
      rw [if_pos this, this]
    · intro hno
      have : j ≠ p := by
        intro e
        exact hno ⟨k, hk5, hocc, hown, by rw [e, hpfd]⟩
      rw [if_neg this]
  · rw [ec j, if_neg hji]
    refine ⟨?_, fun _ => rfl⟩
    rintro ⟨k1, hk15, hocc1, hown1, hopp1⟩
    have e1 := howned k1 hk15 hocc1 hown1
    have : k1 = k := h.cinv.gid_inj k1 k hk15 hk5 hocc1 (by simp only [core]; rw [← e1, hid])
    rw [this, hp] at hopp1
    omega

theorem client_log_prepend (pre : List Output) (s : Server) (i : Nat) :
    (log_prepend pre s).client i = s.client i := rfl

theorem game_log_prepend (pre : List Output) (s : Server) (k : Nat) :
    (log_prepend pre s).game k = s.game k := rfl

theorem find_client_log_prepend (pre : List Output) (s : Server) (fd : Int) :
    find_client_by_fd (log_prepend pre s) fd = find_client_by_fd s fd := rfl

theorem find_game_log_prepend (pre : List Output) (s : Server) (id : Int) :
    find_game_by_id (log_prepend pre s) id = find_game_by_id s id := rfl

theorem setClient_log_prepend (pre : List Output) (s : Server) (i : Nat) (c : Client) :
    (log_prepend pre s).setClient i c = log_prepend pre (s.setClient i c) := rfl

theorem setGame_log_prepend (pre : List Output) (s : Server) (k : Nat) (g : Game) :
    (log_prepend pre s).setGame k g = log_prepend pre (s.setGame k g) := rfl

theorem send_log_prepend (pre : List Output) (s : Server) (fd : Int) (m : String) :
    send_to_client (log_prepend pre s) fd m = log_prepend pre (send_to_client s fd m) := by
  unfold send_to_client
  split_ifs
  · simp only [log_prepend, List.append_assoc]
  · rfl

theorem cleanup_game_log_prepend (pre : List Output) (s : Server) (k : Nat) :
    cleanup_game (log_prepend pre s) k = log_prepend pre (cleanup_game s k) := by
  unfold cleanup_game
  simp only [log_prepend, Server.setGame, Server.game]
  split_ifs <;> rfl

theorem num_clients_log_prepend (pre : List Output) (s : Server) :
    (log_prepend pre s).num_clients = s.num_clients := rfl

/-- The departure rule does not read the output log: outputs put before the
log stay before it. -/
theorem remove_from_game_log_prepend (pre : List Output) (s : Server) (fd : Int) :
    remove_client_from_game (log_prepend pre s) fd =
      log_prepend pre (remove_client_from_game s fd) := by
  unfold remove_client_from_game
  rw [find_client_log_prepend]
  cases find_client_by_fd s fd with
  | none => rfl
  | some i =>
    simp only [client_log_prepend, find_game_log_prepend]
    split_ifs with hg
    · rfl
    · cases find_game_by_id s (s.client i).game_id with
      | none => rfl
      | some k =>
        simp only [game_log_prepend, setGame_log_prepend, send_log_prepend,
          cleanup_game_log_prepend, find_client_log_prepend, client_log_prepend,
          setClient_log_prepend]
        split_ifs <;> first
          | rfl
          | (simp only [cleanup_game_log_prepend, setClient_log_prepend, client_log_prepend])
          | (split <;>
              simp only [cleanup_game_log_prepend, setClient_log_prepend, client_log_prepend])

/-- The removal of a session does not read the output log either. -/
theorem remove_client_log_prepend (pre : List Output) (s : Server) (sd : Int) :
    remove_client (log_prepend pre s) sd = log_prepend pre (remove_client s sd) := by
  unfold remove_client
  simp only [remove_from_game_log_prepend]
  generalize remove_client_from_game s sd = R
  simp only [log_prepend, Server.client, Server.setClient, List.append_assoc]
  split <;> rfl

theorem registered_find {s : Server} {sd : Int} (hreg : registered s sd) :
    ∃ i, find_client_by_fd s sd = some i := by
  obtain ⟨_, i, hi, hfd⟩ := hreg
  cases hf : find_client_by_fd s sd with
  | none => exact absurd hfd (find_client_none hf i (by simpa only [MAX_CLIENTS] using hi))
  | some j => exact ⟨j, rfl⟩

/-- C24: in a reachable state, `remove_client` on a registered descriptor
`sd` removes that session and no other. Afterwards `sd` is found in no slot and
one session less is registered. Every other registered descriptor `h1` is
still found, in a registered slot, and the record found has the field values
the session of `h1` had before; the one exception is the opponent of a game
owned by `sd`, which the departure rule resets (its descriptor and name
stay). -/
theorem remove_client_removes_exactly (master_socket : Int) (s : Server) (sd : Int)
    (hr : Reachable master_socket s) (hreg : registered s sd) :
    find_client_by_fd (remove_client s sd) sd = none ∧
    (∀ j, j < 10 → ((remove_client s sd).client j).fd ≠ sd) ∧
    (remove_client s sd).num_clients = s.num_clients - 1 ∧
    (∀ (h1 : Int) (j : Nat), h1 ≠ sd → 0 < h1 → find_client_by_fd s h1 = some j →
      ∃ j1 : Nat, (j1 : Int) < (remove_client s sd).num_clients ∧
        find_client_by_fd (remove_client s sd) h1 = some j1 ∧
        ((∃ k, k < 5 ∧ (s.game k).id ≠ -1 ∧ (s.game k).owner_fd = sd ∧
            (s.game k).opponent_fd = h1) →
          (remove_client s sd).client j1 = reset_client (s.client j)) ∧
        ((¬ ∃ k, k < 5 ∧ (s.game k).id ≠ -1 ∧ (s.game k).owner_fd = sd ∧
            (s.game k).opponent_fd = h1) →
          (remove_client s sd).client j1 = s.client j)) := by
  have h := reachable_inv hr
  have hsd : 0 < sd := hreg.1
  obtain ⟨i, hi⟩ := registered_find hreg
  obtain ⟨hin, hifd⟩ := h.find_client_reg hsd hi
  have hgone := remove_client_gone h sd hsd i hi
  have h1inv := inv_remove_client h sd hsd
  refine ⟨hgone, fun j hj => find_client_none hgone j hj,
    (remove_client_effect h sd hsd i hi).2.2.2.1, ?_⟩
  intro h1 j hne hpos hj
  obtain ⟨hjn, hjfd⟩ := h.find_client_reg hpos hj
  have hji : j ≠ i := by
    intro e
    rw [e, hifd] at hjfd
    exact hne hjfd.symm
  obtain ⟨j1, hf1, hc1⟩ := remove_client_other h sd hsd i j hi hjn hji
  rw [hjfd] at hf1
  obtain ⟨hyes, hno⟩ := remove_from_game_other h sd hsd i j hi hjn hji
  rw [hjfd] at hyes hno
  refine ⟨j1, (h1inv.find_client_reg hpos hf1).1, hf1, fun hk => ?_, fun hk => ?_⟩
  · rw [hc1, hyes hk]
  · rw [hc1, hno hk]

/-- C25: in a reachable state, for a registered session `sd`, the `quit`
command and a `read` of 0 bytes both return a state; the two states have the
same client table, game table, counters, next id and watched descriptors (the
departure rule is applied and the slot is reclaimed in both), and the same
outputs after those of the state before, except that `quit` sends the
farewell message first. -/
theorem quit_is_disconnect (master_socket : Int) (s : Server) (sd : Int) (buffer : List Char)
    (hr : Reachable master_socket s) (hreg : registered s sd) :
    ∃ s1 s2 new,
      step s (cmd sd "quit") = some s1 ∧
      step s (Event.readable sd buffer 0) = some s2 ∧
      s2 = remove_client s sd ∧
      unchanged s2 s1 ∧
      s2.out = s.out ++ new ∧
      s1.out = s.out ++ Output.sent sd "Arrivederci!\n" :: new ∧
      find_client_by_fd s1 sd = none ∧ find_client_by_fd s2 sd = none := by
  have h := reachable_inv hr
  have hsd : 0 < sd := hreg.1
  obtain ⟨i, hi⟩ := registered_find hreg
  have hq : step s (cmd sd "quit") =
      some (remove_client (send_to_client s sd "Arrivederci!\n") sd) :=
    (quit_line s sd).trans (dispatch_quit s sd i hi)
  have hd : step s (Event.readable sd buffer 0) = some (remove_client s sd) :=
    client_readable_zero s sd buffer
  have e0 : s = log_prepend s.out { s with out := [] } := by
    simp only [log_prepend, List.append_nil]
  have e1 : send_to_client s sd "Arrivederci!\n" =
      log_prepend (s.out ++ [Output.sent sd "Arrivederci!\n"]) { s with out := [] } := by
    unfold send_to_client
    rw [if_pos hsd]
    simp only [log_prepend, List.append_nil]
  have r0 : remove_client s sd =
      log_prepend s.out (remove_client { s with out := [] } sd) := by
    rw [← remove_client_log_prepend, ← e0]
  have r1 : remove_client (send_to_client s sd "Arrivederci!\n") sd =
      log_prepend (s.out ++ [Output.sent sd "Arrivederci!\n"])
        (remove_client { s with out := [] } sd) := by
    rw [e1, remove_client_log_prepend]
  have hgone := remove_client_gone h sd hsd i hi
  refine ⟨_, _, (remove_client { s with out := [] } sd).out, hq, hd, rfl, ?_, ?_, ?_, ?_, hgone⟩
  · rw [r0, r1]
    exact ⟨rfl, rfl, rfl, rfl, rfl, rfl, rfl⟩
  · rw [r0]
    rfl
  · rw [r1]
    simp only [log_prepend, List.append_assoc, List.singleton_append]
  · rw [r1, find_client_log_prepend, ← find_client_log_prepend s.out, ← r0]
    exact hgone

theorem remove_client_removes_exactly_witness :
    find_client_by_fd (remove_client (state_after 3 trace_started) 4) 4 = none :=
  (remove_client_removes_exactly 3 (state_after 3 trace_started) 4
    (reachable_state_after 3 _) ⟨by decide, 0, by decide, by decide⟩).1

theorem quit_is_disconnect_witness :
    ∃ s1 s2 new,
      step (state_after 3 trace_started) (cmd 4 "quit") = some s1 ∧
      step (state_after 3 trace_started) (Event.readable 4 [] 0) = some s2 ∧
      s2 = remove_client (state_after 3 trace_started) 4 ∧
      unchanged s2 s1 ∧
      s2.out = (state_after 3 trace_started).out ++ new ∧
      s1.out = (state_after 3 trace_started).out ++ Output.sent 4 "Arrivederci!\n" :: new ∧
      find_client_by_fd s1 4 = none ∧ find_client_by_fd s2 4 = none :=
  quit_is_disconnect 3 (state_after 3 trace_started) 4 []
    (reachable_state_after 3 _) ⟨by decide, 0, by decide, by decide⟩

/-! ## Theorems: the invariant of the session fields -/

/-- A registered session whose descriptor is the owner reference of an
occupied game has that game as its game reference. -/
theorem Inv.owner_slot {s : Server} (h : Inv s) {i k : Nat} (hi : (i : Int) < s.num_clients)
    (hk : k < 5) (hocc : (s.game k).id ≠ -1) (hfd : (s.client i).fd = (s.game k).owner_fd) :
    (s.client i).game_id = (s.game k).id := by
  obtain ⟨o, hon, hofd, hog⟩ := h.cinv.g_owner k hk hocc
  simp only [core] at hon hofd hog
  have : o = i := h.cinv.fd_inj o i hon hi (by simp only [core]; rw [hofd, hfd])
  rw [← this]
  exact hog

/-- A registered session whose descriptor is the opponent reference of an
occupied game has that game as its game reference. -/
theorem Inv.opp_slot {s : Server} (h : Inv s) {i k : Nat} (hi : (i : Int) < s.num_clients)
    (hk : k < 5) (hocc : (s.game k).id ≠ -1) (hfd : (s.client i).fd = (s.game k).opponent_fd) :
    (s.client i).game_id = (s.game k).id := by
  have hpos : 0 < (s.client i).fd := by
    have := h.cinv.fd_pos hi
    simpa only [core] using this
  obtain ⟨_, p, hpn, hpfd, hpg⟩ := h.cinv.g_opp k hk hocc (by simp only [core]; omega)
  simp only [core] at hpn hpfd hpg
  have : p = i := h.cinv.fd_inj p i hpn hi (by simp only [core]; rw [hpfd, hfd])
  rw [← this]
  exact hpg

theorem Inv.client_fd_pos {s : Server} (h : Inv s) {i : Nat} (hi : (i : Int) < s.num_clients) :
    0 < (s.client i).fd := by
  have := h.cinv.fd_pos hi
  simpa only [core] using this

theorem Inv.client_fd_inj {s : Server} (h : Inv s) {i j : Nat} (hi : (i : Int) < s.num_clients)
    (hj : (j : Int) < s.num_clients) (e : (s.client i).fd = (s.client j).fd) : i = j :=
  h.cinv.fd_inj i j hi hj e

theorem Inv.game_id_inj {s : Server} (h : Inv s) {k l : Nat} (hk : k < 5) (hl : l < 5)
    (hocc : (s.game k).id ≠ -1) (e : (s.game k).id = (s.game l).id) : k = l :=
  h.cinv.gid_inj k l hk hl hocc e

/-- A change that keeps the descriptors, the game references and the marks of
the sessions and the ids and references of the games keeps the invariant of the
session fields, when the status stays on the same side and the owner and the
opponent of a game do not both get the turn flag. -/
theorem sinv_frame {s s1 : Server} (hs : SInv s) (hn : s1.num_clients = s.num_clients)
    (hc : ∀ i, ((s1.client i).fd = (s.client i).fd ∧
      (s1.client i).game_id = (s.client i).game_id) ∧
      (s1.client i).player_symbol = (s.client i).player_symbol)
    (hst : ∀ i : Nat, (i : Int) < s.num_clients →
      (((s1.client i).status = PlayerStatus.PLAYER_IN_GAME ∨
          (s1.client i).status = PlayerStatus.PLAYER_WAITING_ACCEPT) ↔
        ((s.client i).status = PlayerStatus.PLAYER_IN_GAME ∨
          (s.client i).status = PlayerStatus.PLAYER_WAITING_ACCEPT)))
    (hg : ∀ k, ((s1.game k).id = (s.game k).id ∧ (s1.game k).owner_fd = (s.game k).owner_fd) ∧
      (s1.game k).opponent_fd = (s.game k).opponent_fd)
    (ht : ∀ i j k : Nat, (i : Int) < s.num_clients → (j : Int) < s.num_clients → k < 5 →
      (s.game k).id ≠ -1 → (s.client i).fd = (s.game k).owner_fd →
      (s.client j).fd = (s.game k).opponent_fd →
      ¬ ((s1.client i).is_current_turn = true ∧ (s1.client j).is_current_turn = true)) :
    SInv s1 := by
  refine ⟨fun i hi => ?_, fun i k hi hk hocc => ?_, fun i j k hi hj hk hocc ho hp => ?_⟩
  · rw [hn] at hi
    rw [(hc i).1.2, hst i hi]
    exact hs.status i hi
  · rw [hn] at hi
    rw [(hg k).1.1] at hocc
    rw [(hc i).1.1, (hc i).2, (hg k).1.2, (hg k).2]
    exact hs.marks i k hi hk hocc
  · rw [hn] at hi hj
    rw [(hg k).1.1] at hocc
    rw [(hc i).1.1, (hg k).1.2] at ho
    rw [(hc j).1.1, (hg k).2] at hp
    exact ht i j k hi hj hk hocc ho hp

theorem sinv_unchanged {s s1 : Server} (hs : SInv s) (hu : unchanged s s1) : SInv s1 := by
  have hc : ∀ i, s1.client i = s.client i := unchanged_client hu
  have hg : ∀ k, s1.game k = s.game k := unchanged_game hu
  refine sinv_frame hs hu.2.2.1 (fun i => by rw [hc i]; exact ⟨⟨rfl, rfl⟩, rfl⟩)
    (fun i _ => by rw [hc i]) (fun k => by rw [hg k]; exact ⟨⟨rfl, rfl⟩, rfl⟩)
    (fun i j k hi hj hk hocc ho hp => ?_)
  rw [hc i, hc j]
  exact hs.turn i j k hi hj hk hocc ho hp

theorem sinv_send {s : Server} (hs : SInv s) (fd : Int) (m : String) :
    SInv (send_to_client s fd m) :=
  sinv_unchanged hs (unchanged_send s fd m)

/-- The start state has no registered session. -/
theorem sinv_init_server (ms : Int) : SInv (init_server ms) := by
  have hn : (init_server ms).num_clients = 0 := rfl
  refine ⟨fun i hi => ?_, fun i k hi => ?_, fun i j k hi => ?_⟩ <;>
    (rw [hn] at hi; omega)

/-- `create` keeps the invariant of the session fields. -/
theorem sinv_create {s s1 : Server} (h : Inv s) (hs : SInv s) (sd : Int) (cur : Nat)
    (hcn : (cur : Int) < s.num_clients) (hfd : (s.client cur).fd = sd)
    (hcreate : handle_create_command s sd cur = some s1) : SInv s1 := by
  rcases create_cases hcreate with ⟨m, hm⟩ | ⟨k, hg, hn, hk, _, hm⟩
  · rw [hm]
    exact sinv_send hs sd _
  · rw [hm]
    clear hm hcreate
    obtain ⟨hk5, hfree, _, ec, eg, _, _, en, _, _⟩ := create_effect h sd cur k hcn hg hn hk
    have hnext : s.next_game_id ≠ -1 := by
      have := h.cinv.next_pos
      simp only [core] at this
      omega
    have hsd : 0 < sd := by rw [← hfd]; exact h.client_fd_pos hcn
    -- the requester is neither the owner nor the opponent of a game
    have hno : ∀ m, m < 5 → (s.game m).id ≠ -1 →
        (s.client cur).fd ≠ (s.game m).owner_fd ∧
        (s.client cur).fd ≠ (s.game m).opponent_fd := by
      intro m hm hocc
      constructor
      · intro e
        exact hocc ((h.owner_slot hcn hm hocc e).symm.trans hg)
      · intro e
        exact hocc ((h.opp_slot hcn hm hocc e).symm.trans hg)
    refine ⟨fun i hi => ?_, fun i m hi hm hocc => ?_, fun i j m hi hj hm hocc ho hp => ?_⟩
    · rw [en] at hi
      rw [ec i]
      split_ifs with e
      · simp only [ne_eq, hnext, not_false_eq_true, true_or]
      · exact hs.status i hi
    · rw [en] at hi
      rw [ec i, eg m] at *
      by_cases e1 : i = cur <;> by_cases e2 : m = k
      · subst e1 e2
        simp only [if_true]
        exact ⟨fun _ => trivial, fun e => absurd e (by rw [hfd]; omega)⟩
      · subst e1
        simp only [if_true, if_neg e2] at hocc ⊢
        exact ⟨fun _ => trivial, fun e => absurd e (hno m hm hocc).2⟩
      · subst e2
        simp only [if_true, if_neg e1]
        refine ⟨fun e => ?_, fun e => ?_⟩
        · exact absurd (h.client_fd_inj hi hcn (e.trans hfd.symm)) e1
        · have := h.client_fd_pos hi
          omega
      · simp only [if_neg e1, if_neg e2] at hocc ⊢
        exact hs.marks i m hi hm hocc
    · rw [en] at hi hj
      rw [ec i, ec j]
      rw [ec i, eg m] at ho
      rw [ec j, eg m] at hp
      rw [eg m] at hocc
      by_cases e1 : i = cur
      · subst e1
        simp only [if_true]
        exact fun e => absurd e.1 (by decide)
      · by_cases e3 : j = cur
        · subst e3
          simp only [if_true]
          exact fun e => absurd e.2 (by decide)
        · by_cases e2 : m = k
          · subst e2
            simp only [if_true, if_neg e3] at hp
            have := h.client_fd_pos hj
            omega
          · simp only [if_neg e1, if_neg e2, if_neg e3] at hocc ho hp ⊢
            exact hs.turn i j m hi hj hm hocc ho hp

/-- The game of which a registered session is the owner or the opponent is
the one its game reference names. -/
theorem Inv.attached_unique {s : Server} (h : Inv s) {i k m : Nat}
    (hi : (i : Int) < s.num_clients) (hk : k < 5) (hm : m < 5)
    (hocck : (s.game k).id ≠ -1) (hoccm : (s.game m).id ≠ -1)
    (hk1 : (s.client i).fd = (s.game k).owner_fd ∨ (s.client i).fd = (s.game k).opponent_fd)
    (hm1 : (s.client i).fd = (s.game m).owner_fd ∨ (s.client i).fd = (s.game m).opponent_fd) :
    m = k := by
  have e1 : (s.client i).game_id = (s.game k).id := by
    rcases hk1 with e | e
    · exact h.owner_slot hi hk hocck e
    · exact h.opp_slot hi hk hocck e
  have e2 : (s.client i).game_id = (s.game m).id := by
    rcases hm1 with e | e
    · exact h.owner_slot hi hm hoccm e
    · exact h.opp_slot hi hm hoccm e
  exact h.game_id_inj hm hk hoccm (e2.symm.trans e1)

/-- A change of the turn flags of the owner `oc` and the opponent `pc` of game
`k` that does not give the flag to both keeps the invariant of the session
fields. -/
theorem sinv_turns {s s1 : Server} (h : Inv s) (hs : SInv s) (k oc pc : Nat) (hk : k < 5)
    (hocc : (s.game k).id ≠ -1)
    (hon : (oc : Int) < s.num_clients) (hpn : (pc : Int) < s.num_clients)
    (hofd : (s.client oc).fd = (s.game k).owner_fd)
    (hpfd : (s.client pc).fd = (s.game k).opponent_fd)
    (hn : s1.num_clients = s.num_clients)
    (hc : ∀ i, ((s1.client i).fd = (s.client i).fd ∧
      (s1.client i).game_id = (s.client i).game_id) ∧
      (s1.client i).player_symbol = (s.client i).player_symbol)
    (hst : ∀ i : Nat, (i : Int) < s.num_clients →
      (((s1.client i).status = PlayerStatus.PLAYER_IN_GAME ∨
          (s1.client i).status = PlayerStatus.PLAYER_WAITING_ACCEPT) ↔
        ((s.client i).status = PlayerStatus.PLAYER_IN_GAME ∨
          (s.client i).status = PlayerStatus.PLAYER_WAITING_ACCEPT)))
    (hg : ∀ m, ((s1.game m).id = (s.game m).id ∧ (s1.game m).owner_fd = (s.game m).owner_fd) ∧
      (s1.game m).opponent_fd = (s.game m).opponent_fd)
    (hother : ∀ i, i ≠ oc → i ≠ pc →
      (s1.client i).is_current_turn = (s.client i).is_current_turn)
    (hex : ¬ ((s1.client oc).is_current_turn = true ∧ (s1.client pc).is_current_turn = true)) :
    SInv s1 := by
  refine sinv_frame hs hn hc hst hg (fun i j m hi hj hm hoccm ho hp => ?_)
  by_cases e : m = k
  · subst e
    have e1 : i = oc := h.client_fd_inj hi hon (ho.trans hofd.symm)
    have e2 : j = pc := h.client_fd_inj hj hpn (hp.trans hpfd.symm)
    rw [e1, e2]
    exact hex
  · have n1 : i ≠ oc := by
      intro e1
      rw [e1] at ho
      exact e (h.attached_unique hon hk hm hocc hoccm (Or.inl hofd) (Or.inl ho))
    have n2 : i ≠ pc := by
      intro e1
      rw [e1] at ho
      exact e (h.attached_unique hpn hk hm hocc hoccm (Or.inr hpfd) (Or.inl ho))
    have n3 : j ≠ oc := by
      intro e1
      rw [e1] at hp
      exact e (h.attached_unique hon hk hm hocc hoccm (Or.inl hofd) (Or.inr hp))
    have n4 : j ≠ pc := by
      intro e1
      rw [e1] at hp
      exact e (h.attached_unique hpn hk hm hocc hoccm (Or.inr hpfd) (Or.inr hp))
    rw [hother i n1 n2, hother j n3 n4]
    exact hs.turn i j m hi hj hm hoccm ho hp

theorem reset_client_sinv_status (c : Client) :
    (reset_client c).game_id ≠ -1 ↔
      ((reset_client c).status = PlayerStatus.PLAYER_IN_GAME ∨
        (reset_client c).status = PlayerStatus.PLAYER_WAITING_ACCEPT) := by
  simp [reset_client]

/-- A change that resets some sessions and frees some games or clears their
opponent reference keeps the invariant of the session fields, when no session
that is reset is still referred to by a game. -/
theorem sinv_reset {s s1 : Server} (hs : SInv s) (hn : s1.num_clients = s.num_clients)
    (hc : ∀ j, s1.client j = s.client j ∨ s1.client j = reset_client (s.client j))
    (hg : ∀ m, (s1.game m).id ≠ -1 →
      (s.game m).id ≠ -1 ∧ (s1.game m).owner_fd = (s.game m).owner_fd ∧
      ((s1.game m).opponent_fd = (s.game m).opponent_fd ∨ (s1.game m).opponent_fd = -1))
    (hpos : ∀ j : Nat, (j : Int) < s.num_clients → 0 < (s.client j).fd)
    (hkeep : ∀ j m : Nat, (j : Int) < s.num_clients → m < 5 → (s1.game m).id ≠ -1 →
      ((s.client j).fd = (s1.game m).owner_fd ∨ (s.client j).fd = (s1.game m).opponent_fd) →
      s1.client j = s.client j) :
    SInv s1 := by
  have hfd : ∀ j, (s1.client j).fd = (s.client j).fd := by
    intro j
    rcases hc j with e | e <;> rw [e]
    rfl
  refine ⟨fun i hi => ?_, fun i m hi hm hocc => ?_, fun i j m hi hj hm hocc ho hp => ?_⟩
  · rw [hn] at hi
    rcases hc i with e | e <;> rw [e]
    · exact hs.status i hi
    · exact reset_client_sinv_status _
  · rw [hn] at hi
    obtain ⟨hocc0, hown, hopp⟩ := hg m hocc
    rw [hfd i]
    constructor
    · intro e
      rw [hkeep i m hi hm hocc (Or.inl e)]
      rw [hown] at e
      exact (hs.marks i m hi hm hocc0).1 e
    · intro e
      rw [hkeep i m hi hm hocc (Or.inr e)]
      rcases hopp with e1 | e1
      · rw [e1] at e
        exact (hs.marks i m hi hm hocc0).2 e
      · rw [e1] at e
        have := hpos i hi
        omega
  · rw [hn] at hi hj
    obtain ⟨hocc0, hown, hopp⟩ := hg m hocc
    rw [hfd i] at ho
    rw [hfd j] at hp
    rw [hkeep i m hi hm hocc (Or.inl ho), hkeep j m hj hm hocc (Or.inr hp)]
    rcases hopp with e1 | e1
    · rw [hown] at ho
      rw [e1] at hp
      exact hs.turn i j m hi hj hm hocc0 ho hp
    · rw [e1] at hp
      have := hpos j hj
      omega

/-- A change that moves registered sessions between slots and removes some,
without changing a record that is kept or a game, keeps the invariant of the
session fields. -/
theorem sinv_embed {s s1 : Server} (hs : SInv s)
    (hc : ∀ j : Nat, (j : Int) < s1.num_clients →
      ∃ j0 : Nat, (j0 : Int) < s.num_clients ∧ s1.client j = s.client j0)
    (hg : ∀ m, s1.game m = s.game m) : SInv s1 := by
  refine ⟨fun i hi => ?_, fun i m hi hm hocc => ?_, fun i j m hi hj hm hocc ho hp => ?_⟩
  · obtain ⟨i0, hi0, e⟩ := hc i hi
    rw [e]
    exact hs.status i0 hi0
  · obtain ⟨i0, hi0, e⟩ := hc i hi
    rw [hg m] at hocc ⊢
    rw [e]
    exact hs.marks i0 m hi0 hm hocc
  · obtain ⟨i0, hi0, e⟩ := hc i hi
    obtain ⟨j0, hj0, e'⟩ := hc j hj
    rw [hg m] at hocc ho hp
    rw [e] at ho ⊢
    rw [e'] at hp ⊢
    exact hs.turn i0 j0 m hi0 hj0 hm hocc ho hp

/-- The departure rule keeps the invariant of the session fields. -/
theorem sinv_remove_from_game {s : Server} (h : Inv s) (hs : SInv s) (fd : Int) (hfd : 0 < fd) :
    SInv (remove_client_from_game s fd) := by
  cases hi : find_client_by_fd s fd with
  | none =>
    unfold remove_client_from_game
    rw [hi]
    exact hs
  | some i =>
    obtain ⟨hin, hifd⟩ := h.find_client_reg hfd hi
    rcases remove_from_game_effect h fd hfd i hi with
      ⟨_, e⟩ | ⟨k, hk5, hocc, hid, hopp, hown, ec, eg, en⟩ |
      ⟨k, p, hk5, hocc, hid, hown, hp, hpi, hpn, hpfd, ec, eg, en⟩ |
      ⟨k, hk5, hocc, hid, hown, hp, ec, eg, en⟩
    · rw [e]
      exact hs
    · refine sinv_reset hs en (fun j => ?_) (fun m hm => ?_) (fun j hj => h.client_fd_pos hj)
        (fun j m hj hm5 hoccm hatt => ?_)
      · rw [ec j]
        split_ifs with e
        · rw [e]
          exact Or.inr rfl
        · exact Or.inl rfl
      · rw [eg m] at hm ⊢
        split_ifs at hm ⊢ with e
        · rw [e]
          exact ⟨hocc, rfl, Or.inr rfl⟩
        · exact ⟨hm, rfl, Or.inl rfl⟩
      · rw [ec j]
        split_ifs with e
        · exfalso
          rw [e, hifd] at hatt
          rw [eg m] at hoccm hatt
          split_ifs at hoccm hatt with e2
          · simp only [] at hatt
            rcases hatt with e3 | e3
            · exact hown e3.symm
            · omega
          · have hatt' : (s.client i).fd = (s.game m).owner_fd ∨
                (s.client i).fd = (s.game m).opponent_fd := by rw [hifd]; exact hatt
            exact e2 (h.attached_unique hin hk5 hm5 hocc hoccm (Or.inr (hifd.trans hopp.symm))
              hatt')
        · rfl
    · refine sinv_reset hs en (fun j => ?_) (fun m hm => ?_) (fun j hj => h.client_fd_pos hj)
        (fun j m hj hm5 hoccm hatt => ?_)
      · rw [ec j]
        split_ifs with e e2
        · rw [e]
          exact Or.inr rfl
        · rw [e2]
          exact Or.inr rfl
        · exact Or.inl rfl
      · rw [eg m] at hm ⊢
        split_ifs at hm ⊢ with e
        · exact absurd rfl hm
        · exact ⟨hm, rfl, Or.inl rfl⟩
      · rw [eg m] at hoccm hatt
        split_ifs at hoccm hatt with e2
        · exact absurd rfl hoccm
        · rw [ec j]
          split_ifs with e e3
          · exfalso
            rw [e] at hatt
            exact e2 (h.attached_unique hin hk5 hm5 hocc hoccm (Or.inl (hifd.trans hown.symm))
              hatt)
          · exfalso
            rw [e3] at hatt
            exact e2 (h.attached_unique hpn hk5 hm5 hocc hoccm (Or.inr hpfd) hatt)
          · rfl
    · refine sinv_reset hs en (fun j => ?_) (fun m hm => ?_) (fun j hj => h.client_fd_pos hj)
        (fun j m hj hm5 hoccm hatt => ?_)
      · rw [ec j]
        split_ifs with e
        · rw [e]
          exact Or.inr rfl
        · exact Or.inl rfl
      · rw [eg m] at hm ⊢
        split_ifs at hm ⊢ with e
        · exact absurd rfl hm
        · exact ⟨hm, rfl, Or.inl rfl⟩
      · rw [eg m] at hoccm hatt
        split_ifs at hoccm hatt with e2
        · exact absurd rfl hoccm
        · rw [ec j]
          split_ifs with e
          · exfalso
            rw [e] at hatt
            exact e2 (h.attached_unique hin hk5 hm5 hocc hoccm (Or.inl (hifd.trans hown.symm))
              hatt)
          · rfl

/-- The removal of a registered session keeps the invariant of the session
fields. -/
theorem sinv_remove_client {s : Server} (h : Inv s) (hs : SInv s) (sd : Int) (hsd : 0 < sd)
    (i : Nat) (hi : find_client_by_fd s sd = some i) : SInv (remove_client s sd) := by
  obtain ⟨hin, _⟩ := h.find_client_reg hsd hi
  have hr := h.cinv.n_range
  simp only [core] at hr
  have hR := sinv_remove_from_game h hs sd hsd
  obtain ⟨hn, _, _⟩ := remove_from_game_post h sd hsd
  obtain ⟨ec, eg, _, en, _, _⟩ := remove_client_effect h sd hsd i hi
  refine sinv_embed hR (fun j hj => ?_) (fun m => by simp only [Server.game, eg])
  rw [en] at hj
  rw [ec j, if_neg (by omega)]
  split_ifs with e
  · exact ⟨(s.num_clients - 1).toNat, by rw [hn]; omega, rfl⟩
  · exact ⟨j, by rw [hn]; omega, rfl⟩

/-- `leave` keeps the invariant of the session fields. -/
theorem sinv_leave {s : Server} (h : Inv s) (hs : SInv s) (sd : Int) (hsd : 0 < sd) (cur : Nat)
    (hcn : (cur : Int) < s.num_clients) :
    SInv (handle_leave_command s sd cur) := by
  by_cases hg : (s.client cur).game_id = -1
  · unfold handle_leave_command
    rw [if_pos hg]
    exact sinv_send hs sd _
  · obtain ⟨k, hk5, hid, _⟩ := h.cinv.c_game cur hcn hg
    simp only [core] at hid
    have hk : find_game_by_id s (s.client cur).game_id = some k := by
      rw [← hid]
      exact h.find_game_of_occ hk5 (by rw [hid]; exact hg)
    rw [leave_eq s sd cur k hg hk]
    exact sinv_remove_from_game (inv_send h sd _) (sinv_send hs sd _) sd hsd

/-- `reject` keeps the invariant of the session fields. -/
theorem sinv_reject {s : Server} (h : Inv s) (hs : SInv s) (sd : Int) (cur : Nat) :
    SInv (handle_reject_command s sd cur) := by
  by_cases hrej : find_game_by_player_fd s sd = none ∨
      ∃ k, find_game_by_player_fd s sd = some k ∧
        ((s.game k).owner_fd ≠ sd ∨ (s.game k).state ≠ GameState.GAME_WAITING_FOR_PLAYER ∨
          (s.game k).opponent_fd = -1)
  · obtain ⟨m, e⟩ := reject_rejected s sd cur hrej
    rw [e]
    exact sinv_send hs sd _
  · cases hk : find_game_by_player_fd s sd with
    | none => exact absurd (Or.inl hk) hrej
    | some k =>
      have hown : (s.game k).owner_fd = sd := by
        by_contra e
        exact hrej (Or.inr ⟨k, hk, Or.inl e⟩)
      have hst : (s.game k).state = GameState.GAME_WAITING_FOR_PLAYER := by
        by_contra e
        exact hrej (Or.inr ⟨k, hk, Or.inr (Or.inl e)⟩)
      have hopp : (s.game k).opponent_fd ≠ -1 := by
        intro e
        exact hrej (Or.inr ⟨k, hk, Or.inr (Or.inr e)⟩)
      obtain ⟨i, _, hgi, hkk⟩ := find_game_by_player_some hk
      obtain ⟨hk5, hid⟩ := find_game_some hkk
      have hocc : (s.game k).id ≠ -1 := by rw [hid]; exact hgi
      obtain ⟨p, hpn, _, hpfd, hpsd, ec, eg, _, _, en, _, _⟩ :=
        reject_effect h sd cur k hk hown hst hopp
      refine sinv_reset hs en (fun j => ?_) (fun m hm => ?_) (fun j hj => h.client_fd_pos hj)
        (fun j m hj hm5 hoccm hatt => ?_)
      · rw [ec j]
        split_ifs with e
        · rw [e]
          exact Or.inr rfl
        · exact Or.inl rfl
      · rw [eg m] at hm ⊢
        split_ifs at hm ⊢ with e
        · rw [e]
          exact ⟨hocc, rfl, Or.inr rfl⟩
        · exact ⟨hm, rfl, Or.inl rfl⟩
      · rw [ec j]
        split_ifs with e
        · exfalso
          rw [e] at hatt
          rw [eg m] at hoccm hatt
          split_ifs at hoccm hatt with e2
          · simp only [] at hatt
            rcases hatt with e3 | e3
            · exact hpsd (e3.trans hown)
            · have := h.client_fd_pos hpn
              omega
          · exact e2 (h.attached_unique hpn hk5 hm5 hocc hoccm (Or.inr hpfd) hatt)
        · rfl

/-- `join` keeps the invariant of the session fields. -/
theorem sinv_join {s : Server} (h : Inv s) (hs : SInv s) (sd : Int) (cur : Nat)
    (line : List Char) (hcn : (cur : Int) < s.num_clients) (hfd : (s.client cur).fd = sd) :
    SInv (handle_join_command s sd cur line) := by
  by_cases hrej : (s.client cur).game_id ≠ -1 ∨
      find_game_by_id s (atoi (line.drop 5)) = none ∨
      ∃ k, find_game_by_id s (atoi (line.drop 5)) = some k ∧
        ((s.game k).id = -1 ∨ (s.game k).state = GameState.GAME_IN_PROGRESS ∨
          (s.game k).state = GameState.GAME_ENDED ∨ (s.game k).opponent_fd ≠ -1 ∨
          (s.game k).owner_fd = sd)
  · obtain ⟨m, e⟩ := join_rejected s sd cur line hrej
    rw [e]
    exact sinv_send hs sd _
  · have hg : (s.client cur).game_id = -1 := by
      by_contra e
      exact hrej (Or.inl e)
    cases hk : find_game_by_id s (atoi (line.drop 5)) with
    | none => exact absurd (Or.inr (Or.inl hk)) hrej
    | some k =>
      have hocc : (s.game k).id ≠ -1 := fun e => hrej (Or.inr (Or.inr ⟨k, hk, Or.inl e⟩))
      have hst1 : (s.game k).state ≠ GameState.GAME_IN_PROGRESS :=
        fun e => hrej (Or.inr (Or.inr ⟨k, hk, Or.inr (Or.inl e)⟩))
      have hst2 : (s.game k).state ≠ GameState.GAME_ENDED :=
        fun e => hrej (Or.inr (Or.inr ⟨k, hk, Or.inr (Or.inr (Or.inl e))⟩))
      have hopp : (s.game k).opponent_fd = -1 := by
        by_contra e
        exact hrej (Or.inr (Or.inr ⟨k, hk, Or.inr (Or.inr (Or.inr (Or.inl e)))⟩))
      have hown : (s.game k).owner_fd ≠ sd :=
        fun e => hrej (Or.inr (Or.inr ⟨k, hk, Or.inr (Or.inr (Or.inr (Or.inr e)))⟩))
      obtain ⟨hk5, _⟩ := find_game_some hk
      obtain ⟨ec, eg, _, _, en, _, _⟩ :=
        join_effect h sd cur k line hcn hg hk hocc hst1 hst2 hopp hown
      -- the requester is neither the owner nor the opponent of a game
      have hno : ∀ m, m < 5 → (s.game m).id ≠ -1 →
          (s.client cur).fd ≠ (s.game m).owner_fd ∧
          (s.client cur).fd ≠ (s.game m).opponent_fd := by
        intro m hm hoccm
        constructor
        · intro e
          exact hoccm ((h.owner_slot hcn hm hoccm e).symm.trans hg)
        · intro e
          exact hoccm ((h.opp_slot hcn hm hoccm e).symm.trans hg)
      refine ⟨fun i hi => ?_, fun i m hi hm hoccm => ?_, fun i j m hi hj hm hoccm ho hp => ?_⟩
      · rw [en] at hi
        rw [ec i]
        split_ifs with e
        · simp only [ne_eq, hocc, not_false_eq_true, or_true]
        · exact hs.status i hi
      · rw [en] at hi
        rw [ec i, eg m] at *
        by_cases e1 : i = cur <;> by_cases e2 : m = k
        · subst e1 e2
          simp only [if_true]
          exact ⟨fun e => absurd (hfd.symm.trans e).symm hown, fun _ => trivial⟩
        · subst e1
          simp only [if_true, if_neg e2] at hoccm ⊢
          exact ⟨fun e => absurd e (hno m hm hoccm).1, fun _ => trivial⟩
        · subst e2
          simp only [if_true, if_neg e1]
          refine ⟨(hs.marks i m hi hm hocc).1, fun e => ?_⟩
          exact absurd (h.client_fd_inj hi hcn (e.trans hfd.symm)) e1
        · simp only [if_neg e1, if_neg e2] at hoccm ⊢
          exact hs.marks i m hi hm hoccm
      · rw [en] at hi hj
        rw [ec i, ec j]
        rw [ec i, eg m] at ho
        rw [ec j, eg m] at hp
        rw [eg m] at hoccm
        by_cases e1 : i = cur
        · subst e1
          simp only [if_true]
          exact fun e => absurd e.1 (by decide)
        · by_cases e3 : j = cur
          · subst e3
            simp only [if_true]
            exact fun e => absurd e.2 (by decide)
          · by_cases e2 : m = k
            · subst e2
              simp only [if_true, if_neg e3] at hp
              exact absurd (h.client_fd_inj hj hcn (hp.trans hfd.symm)) e3
            · simp only [if_neg e1, if_neg e2, if_neg e3] at hoccm ho hp ⊢
              exact hs.turn i j m hi hj hm hoccm ho hp

/-- `accept` keeps the invariant of the session fields. -/
theorem sinv_accept {s : Server} (h : Inv s) (hs : SInv s) (sd : Int) (hsd : 0 < sd) (cur : Nat)
    (hcur : find_client_by_fd s sd = some cur) :
    SInv (handle_accept_command s sd cur) := by
  by_cases hrej : find_game_by_player_fd s sd = none ∨
      ∃ k, find_game_by_player_fd s sd = some k ∧
        ((s.game k).owner_fd ≠ sd ∨ (s.game k).state ≠ GameState.GAME_WAITING_FOR_PLAYER ∨
          (s.game k).opponent_fd = -1)
  · obtain ⟨m, e⟩ := accept_rejected s sd cur hrej
    rw [e]
    exact sinv_send hs sd _
  · cases hk : find_game_by_player_fd s sd with
    | none => exact absurd (Or.inl hk) hrej
    | some k =>
      have hown : (s.game k).owner_fd = sd := by
        by_contra e
        exact hrej (Or.inr ⟨k, hk, Or.inl e⟩)
      have hst : (s.game k).state = GameState.GAME_WAITING_FOR_PLAYER := by
        by_contra e
        exact hrej (Or.inr ⟨k, hk, Or.inr (Or.inl e)⟩)
      have hopp : (s.game k).opponent_fd ≠ -1 := by
        intro e
        exact hrej (Or.inr ⟨k, hk, Or.inr (Or.inr e)⟩)
      obtain ⟨i, _, hgi, hkk⟩ := find_game_by_player_some hk
      obtain ⟨hk5, hid⟩ := find_game_some hkk
      have hocc : (s.game k).id ≠ -1 := by rw [hid]; exact hgi
      obtain ⟨hcn, hcfd⟩ := h.find_client_reg hsd hcur
      obtain ⟨p, hpc, hpn, _, hpfd, ec, eg, _, _, en, _, _⟩ :=
        accept_effect h sd hsd cur k hcur hk5 hocc hown hst hopp
      have hpg : (s.client p).game_id ≠ -1 := by
        rw [h.opp_slot hpn hk5 hocc hpfd]
        exact hocc
      refine sinv_turns h hs k cur p hk5 hocc hcn hpn (hcfd.trans hown.symm) hpfd en
        (fun j => ?_) (fun j hj => ?_) (fun m => ?_) (fun j n1 n2 => ?_) ?_
      · rw [ec j]
        split_ifs with e1 e2
        · rw [e1]
          exact ⟨⟨rfl, rfl⟩, rfl⟩
        · rw [e2]
          exact ⟨⟨rfl, rfl⟩, rfl⟩
        · exact ⟨⟨rfl, rfl⟩, rfl⟩
      · rw [ec j]
        split_ifs with e1 e2
        · rw [e1]
        · rw [e2]
          have := (hs.status p hpn).1 hpg
          simp only [true_or, true_iff]
          exact this
        · rfl
      · rw [eg m]
        split_ifs with e
        · rw [e]
          exact ⟨⟨rfl, rfl⟩, rfl⟩
        · exact ⟨⟨rfl, rfl⟩, rfl⟩
      · rw [ec j, if_neg n1, if_neg n2]
      · rw [ec cur, ec p, if_pos rfl, if_neg hpc, if_pos rfl]
        simp only [decide_eq_true_eq]
        exact fun e => e.2 e.1

/-- A new connection on an unused descriptor keeps the invariant of the session
fields. -/
theorem sinv_accept_connection {s : Server} (h : Inv s) (hs : SInv s) (fd : Int)
    (hfd : 0 < fd) (hfresh : ∀ i : Nat, i < MAX_CLIENTS → (s.client i).fd ≠ fd) :
    SInv (accept_connection s fd) := by
  have hr := h.cinv.n_range
  simp only [core] at hr
  by_cases hn : s.num_clients < 10
  · obtain ⟨ec, eg, en, _, _⟩ := accept_connection_effect h fd hn
    have hgm : ∀ m, (accept_connection s fd).game m = s.game m := fun m => by
      simp only [Server.game, eg]
    have hold : ∀ i : Nat, (i : Int) < s.num_clients →
        (accept_connection s fd).client i = s.client i := by
      intro i hi
      rw [ec i, if_neg (by omega)]
    have hnew : ∀ i : Nat, (i : Int) < (accept_connection s fd).num_clients →
        ¬ (i : Int) < s.num_clients → i = s.num_clients.toNat := by
      intro i hi hni
      rw [en] at hi
      omega
    -- the new descriptor is referred to by no game
    have hno : ∀ m, m < 5 → (s.game m).id ≠ -1 →
        fd ≠ (s.game m).owner_fd ∧ fd ≠ (s.game m).opponent_fd := by
      intro m hm hoccm
      constructor
      · intro e
        obtain ⟨o, hon, hofd, _⟩ := h.cinv.g_owner m hm hoccm
        simp only [core] at hon hofd
        exact hfresh o (by simp only [MAX_CLIENTS]; omega) (hofd.trans e.symm)
      · intro e
        by_cases hp : (s.game m).opponent_fd = -1
        · omega
        · obtain ⟨_, p, hpn, hpfd, _⟩ := h.cinv.g_opp m hm hoccm hp
          simp only [core] at hpn hpfd
          exact hfresh p (by simp only [MAX_CLIENTS]; omega) (hpfd.trans e.symm)
    have hnewc := ec s.num_clients.toNat
    rw [if_pos rfl] at hnewc
    refine ⟨fun i hi => ?_, fun i m hi hm hoccm => ?_, fun i j m hi hj hm hoccm ho hp => ?_⟩
    · by_cases e : (i : Int) < s.num_clients
      · rw [hold i e]
        exact hs.status i e
      · rw [hnew i hi e, hnewc]
        simp
    · rw [hgm m] at hoccm ⊢
      by_cases e : (i : Int) < s.num_clients
      · rw [hold i e]
        exact hs.marks i m e hm hoccm
      · rw [hnew i hi e, hnewc]
        exact ⟨fun e1 => absurd e1 (hno m hm hoccm).1, fun e1 => absurd e1 (hno m hm hoccm).2⟩
    · rw [hgm m] at hoccm ho hp
      by_cases e : (i : Int) < s.num_clients
      · by_cases e' : (j : Int) < s.num_clients
        · rw [hold i e] at ho ⊢
          rw [hold j e'] at hp ⊢
          exact hs.turn i j m e e' hm hoccm ho hp
        · rw [hnew j hj e', hnewc] at hp
          exact absurd hp (hno m hm hoccm).2
      · rw [hnew i hi e, hnewc] at ho
        exact absurd ho (hno m hm hoccm).1
  · -- the table is full: only the output log and the watched descriptors change
    have hfull := (first_free_client s h).2 hn
    have key : ∀ t : Server, t.clients = s.clients → t.games = s.games →
        t.num_clients = s.num_clients →
        (initialize_client t fd).clients = s.clients ∧
        (initialize_client t fd).games = s.games ∧
        (initialize_client t fd).num_clients = s.num_clients := by
      intro t hc hg hnc
      have hcl : ∀ j, t.client j = s.client j := fun j => by simp only [Server.client, hc]
      have hf : (List.range MAX_CLIENTS).find? (fun i => (t.client i).fd == 0) = none := by
        simp only [hcl]
        exact hfull
      unfold initialize_client
      rw [hf]
      exact ⟨(clients_send _ _ _).trans hc, (games_send _ _ _).trans hg,
        (num_clients_send _ _ _).trans hnc⟩
    have hall : (accept_connection s fd).clients = s.clients ∧
        (accept_connection s fd).games = s.games ∧
        (accept_connection s fd).num_clients = s.num_clients := by
      unfold accept_connection
      simp only []
      split_ifs <;> exact key _ rfl rfl rfl
    have hc : ∀ i, (accept_connection s fd).client i = s.client i := fun i => by
      simp only [Server.client, hall.1]
    have hg : ∀ m, (accept_connection s fd).game m = s.game m := fun m => by
      simp only [Server.game, hall.2.1]
    have hnc := hall.2.2
    refine sinv_frame hs hnc (fun i => by rw [hc i]; exact ⟨⟨rfl, rfl⟩, rfl⟩)
      (fun i _ => by rw [hc i]) (fun k => by rw [hg k]; exact ⟨⟨rfl, rfl⟩, rfl⟩)
      (fun i j k hi hj hk hocc ho hp => ?_)
    rw [hc i, hc j]
    exact hs.turn i j k hi hj hk hocc ho hp

/-- The state left by an accepted move that neither wins nor fills the board,
slot by slot: the board is updated and the turn flags of the two players are
set from its `turn`. -/
theorem move_next_state {s : Server} (h : Inv s) (k : Nat) (t : TrisGame) (hk5 : k < 5)
    (hocc : (s.game k).id ≠ -1) (hstate : (s.game k).state = GameState.GAME_IN_PROGRESS) :
    ∃ oc pc : Nat, oc ≠ pc ∧ (oc : Int) < s.num_clients ∧ (pc : Int) < s.num_clients ∧
      (s.client oc).fd = (s.game k).owner_fd ∧ (s.client pc).fd = (s.game k).opponent_fd ∧
      (∀ j, (send_game_state_to_players
          (s.setGame k { s.game k with tris_game := t }) k).client j =
        if j = oc then { s.client oc with is_current_turn := decide (t.turn = 0) }
        else if j = pc then { s.client pc with is_current_turn := decide (t.turn ≠ 0) }
        else s.client j) ∧
      (∀ m, (send_game_state_to_players
          (s.setGame k { s.game k with tris_game := t }) k).game m =
        if m = k then { s.game k with tris_game := t } else s.game m) ∧
      (send_game_state_to_players
        (s.setGame k { s.game k with tris_game := t }) k).num_clients = s.num_clients := by
  have hr := h.cinv.n_range
  simp only [core] at hr
  have hp : (s.game k).opponent_fd ≠ -1 := by
    intro e
    have := (h.cinv.g_occ k hk5 hocc).2 e
    simp only [core] at this
    rw [this] at hstate
    exact absurd hstate (by decide)
  obtain ⟨oc, pc, hne, hoc, hpc, hfo, hfp, hofd, hpfd, _, _, _⟩ := h.participants hk5 hocc hp
  have xg : (s.setGame k { s.game k with tris_game := t }).game k =
      { s.game k with tris_game := t } := by
    rw [game_setGame, if_pos ⟨rfl, by rw [h.2.1]; exact hk5⟩]
  obtain ⟨ec, eg, _, _, en, _, _⟩ :=
    send_game_state_effect (s.setGame k { s.game k with tris_game := t }) k oc pc hne
      (by rw [clients_setGame]; exact h.1) (by omega) (by omega)
      (by rw [xg]; exact hstate)
      (by rw [find_client_setGame, xg]; exact hfo)
      (by rw [find_client_setGame, xg]; exact hfp)
  refine ⟨oc, pc, hne, hoc, hpc, hofd, hpfd, fun j => ?_, fun m => ?_, ?_⟩
  · rw [ec j, xg]
    simp only [client_setGame]
  · rw [eg m, game_setGame]
    simp only [h.2.1, hk5, and_true]
  · rw [en, num_clients_setGame]

/-- `move` keeps the invariant of the session fields. -/
theorem sinv_move {s s1 : Server} (h : Inv s) (hs : SInv s) (sd : Int) (hsd : 0 < sd)
    (buffer : List Char) (e : handle_move_command s sd buffer = some s1) : SInv s1 := by
  cases hcur : find_client_by_fd s sd with
  | none =>
    unfold handle_move_command at e
    rw [hcur] at e
    simp only [Option.some.injEq] at e
    rw [← e]
    exact sinv_send hs sd _
  | some cur =>
    have hrejected : ∀ m, handle_move_command s sd buffer = some (send_to_client s sd m) →
        SInv s1 := by
      intro m hm
      rw [hm] at e
      simp only [Option.some.injEq] at e
      rw [← e]
      exact sinv_send hs sd _
    by_cases h1 : (s.client cur).status ≠ PlayerStatus.PLAYER_IN_GAME
    · obtain ⟨m, hm⟩ := move_rejected s sd buffer cur hcur (Or.inl h1)
      exact hrejected m hm
    cases hk : find_game_by_id s (s.client cur).game_id with
    | none =>
      obtain ⟨m, hm⟩ := move_rejected s sd buffer cur hcur (Or.inr (Or.inl hk))
      exact hrejected m hm
    | some k =>
      by_cases h2 : (s.game k).state ≠ GameState.GAME_IN_PROGRESS
      · obtain ⟨m, hm⟩ := move_rejected s sd buffer cur hcur (Or.inr (Or.inr (Or.inl ⟨k, hk, h2⟩)))
        exact hrejected m hm
      by_cases h3 : (s.client cur).is_current_turn = false
      · obtain ⟨m, hm⟩ := move_rejected s sd buffer cur hcur
          (Or.inr (Or.inr (Or.inr (Or.inl h3))))
        exact hrejected m hm
      cases hrc : sscanf_move buffer with
      | none =>
        obtain ⟨m, hm⟩ := move_rejected s sd buffer cur hcur
          (Or.inr (Or.inr (Or.inr (Or.inr (Or.inl hrc)))))
        exact hrejected m hm
      | some rc =>
        by_cases hmv : (make_move (s.game k).tris_game rc.1 rc.2).1 = 0
        · have hstatus : (s.client cur).status = PlayerStatus.PLAYER_IN_GAME := by
            simpa using h1
          have hstate : (s.game k).state = GameState.GAME_IN_PROGRESS := by
            simpa using h2
          have hturn : (s.client cur).is_current_turn = true := by
            simpa using h3
          obtain ⟨hcn, hcfd⟩ := h.find_client_reg hsd hcur
          by_cases hwin : check_winner (make_move (s.game k).tris_game rc.1 rc.2).2 =
              GameResult.WIN
          · obtain ⟨l, s2, he, hlc, hln, _, hk5, hocc, hrole, ec, eg, _, _, en, _, _⟩ :=
              move_win_effect h sd hsd buffer cur k rc hcur hstatus hk hstate hturn hrc hmv hwin
            rw [he] at e
            simp only [Option.some.injEq] at e
            subst e
            have hcatt : (s.client cur).fd = (s.game k).owner_fd ∨
                (s.client cur).fd = (s.game k).opponent_fd := by
              rcases hrole with x | x
              · exact Or.inl x.1
              · exact Or.inr x.1
            have hlatt : (s.client l).fd = (s.game k).owner_fd ∨
                (s.client l).fd = (s.game k).opponent_fd := by
              rcases hrole with x | x
              · exact Or.inr x.2
              · exact Or.inl x.2
            have hfds : ∀ j, (s2.client j).fd = (s.client j).fd := by
              intro j
              rw [ec j]
              split_ifs with x y
              · rw [x]
                rfl
              · rw [y]
              · rfl
            -- a session referred to by another game is neither the winner nor the loser
            have key : ∀ i m : Nat, (i : Int) < s.num_clients → m < 5 → m ≠ k →
                (s.game m).id ≠ -1 →
                ((s.client i).fd = (s.game m).owner_fd ∨
                  (s.client i).fd = (s.game m).opponent_fd) →
                s2.client i = s.client i := by
              intro i m hi hm e2 hoccm hatt
              have n1 : i ≠ l := by
                intro x
                rw [x] at hatt
                exact e2 (h.attached_unique hln hk5 hm hocc hoccm hlatt hatt)
              have n2 : i ≠ cur := by
                intro x
                rw [x] at hatt
                exact e2 (h.attached_unique hcn hk5 hm hocc hoccm hcatt hatt)
              rw [ec i, if_neg n1, if_neg n2]
            refine ⟨fun i hi => ?_, fun i m hi hm hoccm => ?_,
              fun i j m hi hj hm hoccm ho hp => ?_⟩
            · rw [en] at hi
              rw [ec i]
              split_ifs with x y
              · exact reset_client_sinv_status _
              · simp only [ne_eq, hocc, not_false_eq_true, true_or]
              · exact hs.status i hi
            · rw [en] at hi
              rw [hfds i]
              rw [eg m] at hoccm ⊢
              by_cases e2 : m = k
              · subst e2
                simp only [if_true]
                refine ⟨fun x => ?_, fun x => ?_⟩
                · have : i = cur := h.client_fd_inj hi hcn (x.trans hcfd.symm)
                  rw [this, ec cur, if_neg (fun y => hlc y.symm), if_pos rfl]
                · have := h.client_fd_pos hi
                  omega
              · simp only [if_neg e2] at hoccm ⊢
                refine ⟨fun y => ?_, fun y => ?_⟩
                · rw [key i m hi hm e2 hoccm (Or.inl y)]
                  exact (hs.marks i m hi hm hoccm).1 y
                · rw [key i m hi hm e2 hoccm (Or.inr y)]
                  exact (hs.marks i m hi hm hoccm).2 y
            · rw [en] at hi hj
              rw [hfds i] at ho
              rw [hfds j] at hp
              rw [eg m] at hoccm ho hp
              by_cases e2 : m = k
              · subst e2
                simp only [if_true] at hp
                have := h.client_fd_pos hj
                omega
              · simp only [if_neg e2] at hoccm ho hp
                rw [key i m hi hm e2 hoccm (Or.inl ho), key j m hj hm e2 hoccm (Or.inr hp)]
                exact hs.turn i j m hi hj hm hoccm ho hp
          · by_cases hdraw : check_winner (make_move (s.game k).tris_game rc.1 rc.2).2 =
                GameResult.DRAW
            · obtain ⟨oc, pc, s2, he, hne, hon, hpn, hk5, hocc, _, hofd, hpfd, _, _, _, ec, eg,
                  _, _, en, _, _⟩ :=
                move_draw_effect h sd hsd buffer cur k rc hcur hstatus hk hstate hturn hrc hmv
                  hdraw
              rw [he] at e
              simp only [Option.some.injEq] at e
              subst e
              refine sinv_turns h hs k oc pc hk5 hocc hon hpn hofd hpfd en
                (fun j => ?_) (fun j hj => ?_) (fun m => ?_) (fun j n1 n2 => ?_) ?_
              · rw [ec j]
                split_ifs <;> exact ⟨⟨rfl, rfl⟩, rfl⟩
              · rw [ec j]
                split_ifs <;> rfl
              · rw [eg m]
                split_ifs with x
                · rw [x]
                  exact ⟨⟨rfl, rfl⟩, rfl⟩
                · exact ⟨⟨rfl, rfl⟩, rfl⟩
              · rw [ec j, if_neg (by simp [n1, n2])]
              · rw [ec oc, if_pos (Or.inl rfl)]
                intro x
                exact Bool.noConfusion x.1
            · rw [move_next_effect h sd buffer cur k rc hcur hstatus hk hstate hturn hrc hmv
                hwin hdraw] at e
              simp only [Option.some.injEq] at e
              obtain ⟨hk5, hid⟩ := find_game_some hk
              have hfree := h.cinv.g_free k hk5
              simp only [core] at hfree
              have hocc : (s.game k).id ≠ -1 := by
                intro x
                rw [hfree x] at hstate
                exact absurd hstate (by decide)
              obtain ⟨oc, pc, hne, hon, hpn, hofd, hpfd, ec, eg, en⟩ :=
                move_next_state h k (make_move (s.game k).tris_game rc.1 rc.2).2 hk5 hocc hstate
              rw [← e]
              refine sinv_turns h hs k oc pc hk5 hocc hon hpn hofd hpfd en
                (fun j => ?_) (fun j hj => ?_) (fun m => ?_) (fun j n1 n2 => ?_) ?_
              · rw [ec j]
                split_ifs with x y
                · rw [x]
                  exact ⟨⟨rfl, rfl⟩, rfl⟩
                · rw [y]
                  exact ⟨⟨rfl, rfl⟩, rfl⟩
                · exact ⟨⟨rfl, rfl⟩, rfl⟩
              · rw [ec j]
                split_ifs with x y
                · rw [x]
                · rw [y]
                · rfl
              · rw [eg m]
                split_ifs with x
                · rw [x]
                  exact ⟨⟨rfl, rfl⟩, rfl⟩
                · exact ⟨⟨rfl, rfl⟩, rfl⟩
              · rw [ec j, if_neg n1, if_neg n2]
              · rw [ec oc, ec pc, if_pos rfl, if_neg (fun x => hne x.symm), if_pos rfl]
                simp only [decide_eq_true_eq]
                exact fun x => x.2 x.1
        · obtain ⟨m, hm⟩ := move_rejected s sd buffer cur hcur
            (Or.inr (Or.inr (Or.inr (Or.inr (Or.inr ⟨k, rc, hk, hrc, hmv⟩)))))
          exact hrejected m hm

/-- `rematch` keeps the invariant of the session fields. -/
theorem sinv_rematch {s s1 : Server} (h : Inv s) (hs : SInv s) (sd : Int) (hsd : 0 < sd)
    (e : handle_rematch_command s sd = some s1) : SInv s1 := by
  cases hcur : find_client_by_fd s sd with
  | none =>
    unfold handle_rematch_command at e
    rw [hcur] at e
    simp only [Option.some.injEq] at e
    rw [← e]
    exact sinv_send hs sd _
  | some cur =>
    have hrejected : ∀ m, handle_rematch_command s sd = some (send_to_client s sd m) →
        SInv s1 := by
      intro m hm
      rw [hm] at e
      simp only [Option.some.injEq] at e
      rw [← e]
      exact sinv_send hs sd _
    by_cases h1 : (s.client cur).game_id = -1
    · obtain ⟨m, hm⟩ := rematch_rejected s sd cur hcur (Or.inl h1)
      exact hrejected m hm
    cases hk : find_game_by_id s (s.client cur).game_id with
    | none =>
      obtain ⟨m, hm⟩ := rematch_rejected s sd cur hcur (Or.inr (Or.inl hk))
      exact hrejected m hm
    | some k =>
      by_cases hc : (s.game k).state ≠ GameState.GAME_ENDED
          ∨ (s.game k).last_result ≠ GameResult.DRAW
      · obtain ⟨m, hm⟩ := rematch_rejected s sd cur hcur (Or.inr (Or.inr ⟨k, hk, hc⟩))
        exact hrejected m hm
      · have hstate : (s.game k).state = GameState.GAME_ENDED := by
          by_contra x
          exact hc (Or.inl x)
        have hres : (s.game k).last_result = GameResult.DRAW := by
          by_contra x
          exact hc (Or.inr x)
        obtain ⟨oc, pc, s2, he, hne, hon, hpn, hk5, hocc, hofd, hpfd, _, _, _, hA, hB, _, _,
            en, _, _⟩ :=
          rematch_effect h sd hsd cur k hcur h1 hk hstate hres
        rw [he] at e
        simp only [Option.some.injEq] at e
        subst e
        by_cases hw : (s.client (if cur = oc then pc else oc)).wants_rematch = true
        · obtain ⟨ec, eg⟩ := hB hw
          refine sinv_turns h hs k oc pc hk5 hocc hon hpn hofd hpfd en
            (fun j => ?_) (fun j hj => ?_) (fun m => ?_) (fun j n1 n2 => ?_) ?_
          · rw [ec j]
            split_ifs with x y
            · rw [x]
              exact ⟨⟨rfl, rfl⟩, rfl⟩
            · rw [y]
              exact ⟨⟨rfl, rfl⟩, rfl⟩
            · exact ⟨⟨rfl, rfl⟩, rfl⟩
          · rw [ec j]
            split_ifs with x y
            · rw [x]
            · rw [y]
            · rfl
          · rw [eg m]
            split_ifs with x
            · rw [x]
              exact ⟨⟨rfl, rfl⟩, rfl⟩
            · exact ⟨⟨rfl, rfl⟩, rfl⟩
          · rw [ec j, if_neg n1, if_neg n2]
          · rw [ec oc, if_pos rfl]
            intro x
            exact Bool.noConfusion x.1
        · obtain ⟨ec, eg⟩ := hA (by simpa using hw)
          refine sinv_frame hs en (fun j => ?_) (fun j _ => ?_)
            (fun m => by rw [eg m]; exact ⟨⟨rfl, rfl⟩, rfl⟩)
            (fun i j m hi hj hm hoccm ho hp => ?_)
          · rw [ec j]
            split_ifs with x
            · rw [x]
              exact ⟨⟨rfl, rfl⟩, rfl⟩
            · exact ⟨⟨rfl, rfl⟩, rfl⟩
          · rw [ec j]
            split_ifs with x
            · rw [x]
            · rfl
          · have ht : ∀ j, (s2.client j).is_current_turn = (s.client j).is_current_turn := by
              intro j
              rw [ec j]
              split_ifs with x
              · rw [x]
              · rfl
            rw [ht i, ht j]
            exact hs.turn i j m hi hj hm hoccm ho hp

/-- Every command keeps the invariant of the session fields. -/
theorem sinv_dispatch {s s1 : Server} (h : Inv s) (hs : SInv s) (sd : Int) (hsd : 0 < sd)
    (line : List Char) (e : dispatch s sd line = some s1) : SInv s1 := by
  unfold dispatch at e
  cases hcur : find_client_by_fd s sd with
  | none =>
    rw [hcur] at e
    simp only [Option.some.injEq] at e
    rw [← e]
    exact sinv_send hs sd _
  | some cur =>
    obtain ⟨hcn, hcfd⟩ := h.find_client_reg hsd hcur
    rw [hcur] at e
    simp only [] at e
    split_ifs at e
    · simp only [Option.some.injEq] at e
      rw [← e]
      exact sinv_unchanged hs (unchanged_print_game_list s sd)
    · exact sinv_create h hs sd cur hcn hcfd e
    · simp only [Option.some.injEq] at e
      rw [← e]
      exact sinv_join h hs sd cur line hcn hcfd
    · simp only [Option.some.injEq] at e
      rw [← e]
      exact sinv_accept h hs sd hsd cur hcur
    · simp only [Option.some.injEq] at e
      rw [← e]
      exact sinv_reject h hs sd cur
    · simp only [Option.some.injEq] at e
      rw [← e]
      exact sinv_leave h hs sd hsd cur hcn
    · exact sinv_move h hs sd hsd line e
    · exact sinv_rematch h hs sd hsd e
    · simp only [Option.some.injEq] at e
      rw [← e]
      exact sinv_remove_client (inv_send h sd _) (sinv_send hs sd _) sd hsd cur
        (by rw [find_client_send]; exact hcur)
    · simp only [Option.some.injEq] at e
      rw [← e]
      exact sinv_send hs sd _

theorem sinv_client_readable {s s1 : Server} (h : Inv s) (hs : SInv s) (sd : Int)
    (hreg : registered s sd) (buffer : List Char) (valread : Int)
    (e : client_readable s sd buffer valread = some s1) : SInv s1 := by
  have hsd : 0 < sd := hreg.1
  unfold client_readable at e
  split_ifs at e
  · simp only [Option.some.injEq] at e
    rw [← e]
    obtain ⟨i, hi⟩ := registered_find hreg
    exact sinv_remove_client h hs sd hsd i hi
  · unfold handle_client_data at e
    split_ifs at e
    exact sinv_dispatch h hs sd hsd _ e

/-- The invariant of the session fields holds in every reachable state. -/
theorem reachable_sinv {ms : Int} {s : Server} (hr : Reachable ms s) : SInv s := by
  induction hr with
  | init => exact sinv_init_server ms
  | connect s fd hr hfd _ hfresh ih =>
    exact sinv_accept_connection (reachable_inv hr) ih fd hfd hfresh
  | readable s s1 sd buffer valread hr hreg e ih =>
    exact sinv_client_readable (reachable_inv hr) ih sd hreg buffer valread e

/-- C28: in every reachable state, a registered session has a game reference
exactly when its status is `PLAYER_IN_GAME` or `PLAYER_WAITING_ACCEPT`, and has
none exactly when its status is `PLAYER_CONNECTED`. The registered sessions
are the slots below `num_clients`, which are the slots found by a registered
descriptor. -/
theorem status_matches_game_reference (master_socket : Int) (s : Server)
    (hr : Reachable master_socket s) :
    (∀ i : Nat, (i : Int) < s.num_clients →
      ((s.client i).game_id ≠ -1 ↔
        ((s.client i).status = PlayerStatus.PLAYER_IN_GAME ∨
          (s.client i).status = PlayerStatus.PLAYER_WAITING_ACCEPT)) ∧
      ((s.client i).game_id = -1 ↔ (s.client i).status = PlayerStatus.PLAYER_CONNECTED)) ∧
    (∀ sd : Int, registered s sd →
      ∃ i : Nat, find_client_by_fd s sd = some i ∧ (i : Int) < s.num_clients ∧
        ((s.client i).game_id ≠ -1 ↔
          ((s.client i).status = PlayerStatus.PLAYER_IN_GAME ∨
            (s.client i).status = PlayerStatus.PLAYER_WAITING_ACCEPT)) ∧
        ((s.client i).game_id = -1 ↔
          (s.client i).status = PlayerStatus.PLAYER_CONNECTED)) := by
  have h := reachable_inv hr
  have hs := reachable_sinv hr
  have key : ∀ i : Nat, (i : Int) < s.num_clients →
      ((s.client i).game_id ≠ -1 ↔
        ((s.client i).status = PlayerStatus.PLAYER_IN_GAME ∨
          (s.client i).status = PlayerStatus.PLAYER_WAITING_ACCEPT)) ∧
      ((s.client i).game_id = -1 ↔ (s.client i).status = PlayerStatus.PLAYER_CONNECTED) := by
    intro i hi
    have h1 := hs.status i hi
    refine ⟨h1, ?_⟩
    by_cases hg : (s.client i).game_id = -1
    · have h2 := (not_congr h1).1 (by simpa using hg)
      constructor
      · intro _
        cases hst : (s.client i).status with
        | PLAYER_CONNECTED => rfl
        | PLAYER_IN_GAME => exact absurd (Or.inl hst) h2
        | PLAYER_WAITING_ACCEPT => exact absurd (Or.inr hst) h2
      · exact fun _ => hg
    · constructor
      · exact fun x => absurd x hg
      · intro hst
        rcases h1.1 hg with x | x <;> rw [hst] at x <;> exact absurd x (by decide)
  refine ⟨key, fun sd hreg => ?_⟩
  obtain ⟨i, hi⟩ := registered_find hreg
  obtain ⟨hin, _⟩ := h.find_client_reg hreg.1 hi
  exact ⟨i, hi, hin, key i hin⟩

/-- C29: in every reachable state, of the registered sessions attached to an
occupied game (the sessions whose game reference is the id of the game) at
most one has the turn flag: two of them that both have it are the same. -/
theorem one_turn_flag_per_game (master_socket : Int) (s : Server)
    (hr : Reachable master_socket s) :
    ∀ k i j : Nat, k < 5 → (s.game k).id ≠ -1 →
      (i : Int) < s.num_clients → (j : Int) < s.num_clients →
      (s.client i).game_id = (s.game k).id → (s.client j).game_id = (s.game k).id →
      (s.client i).is_current_turn = true → (s.client j).is_current_turn = true → i = j := by
  have h := reachable_inv hr
  have hs := reachable_sinv hr
  intro k i j hk hocc hi hj hig hjg hit hjt
  have ri := h.cinv.role_of_gid hk hi (by simp only [core]; rw [hig]; exact hocc)
    (by simp only [core]; exact hig.symm)
  have rj := h.cinv.role_of_gid hk hj (by simp only [core]; rw [hjg]; exact hocc)
    (by simp only [core]; exact hjg.symm)
  simp only [core] at ri rj
  rcases ri with a | a <;> rcases rj with b | b
  · exact h.client_fd_inj hi hj (a.symm.trans b)
  · exact absurd ⟨hit, hjt⟩ (hs.turn i j k hi hj hk hocc a.symm b.symm)
  · exact absurd ⟨hjt, hit⟩ (hs.turn j i k hj hi hk hocc b.symm a.symm)
  · exact h.client_fd_inj hi hj (a.symm.trans b)

/-- C30: in every reachable state the two tables refer to each other
consistently. The owner reference of an occupied game is the descriptor of a
registered session whose game reference is the id of the game and whose mark
is `X`. An opponent reference that is set is the descriptor of another
registered session, whose game reference is that id and whose mark is `O`. A
registered session with a game reference is the owner or the opponent of the
occupied game with that id. No two registered sessions are the owner of one
game, and no two are its opponent. -/
theorem tables_reference_each_other (master_socket : Int) (s : Server)
    (hr : Reachable master_socket s) :
    (∀ k : Nat, k < 5 → (s.game k).id ≠ -1 →
      ∃ i : Nat, (i : Int) < s.num_clients ∧
        find_client_by_fd s (s.game k).owner_fd = some i ∧
        (s.client i).fd = (s.game k).owner_fd ∧ (s.client i).game_id = (s.game k).id ∧
        (s.client i).player_symbol = Cell.X) ∧
    (∀ k : Nat, k < 5 → (s.game k).id ≠ -1 → (s.game k).opponent_fd ≠ -1 →
      (s.game k).opponent_fd ≠ (s.game k).owner_fd ∧
      ∃ j : Nat, (j : Int) < s.num_clients ∧
        find_client_by_fd s (s.game k).opponent_fd = some j ∧
        find_client_by_fd s (s.game k).owner_fd ≠ some j ∧
        (s.client j).fd = (s.game k).opponent_fd ∧ (s.client j).game_id = (s.game k).id ∧
        (s.client j).player_symbol = Cell.O) ∧
    (∀ i : Nat, (i : Int) < s.num_clients → (s.client i).game_id ≠ -1 →
      ∃ k : Nat, k < 5 ∧ (s.game k).id ≠ -1 ∧ (s.game k).id = (s.client i).game_id ∧
        ((s.game k).owner_fd = (s.client i).fd ∨ (s.game k).opponent_fd = (s.client i).fd)) ∧
    (∀ k i j : Nat, k < 5 → (s.game k).id ≠ -1 →
      (i : Int) < s.num_clients → (j : Int) < s.num_clients →
      (((s.client i).fd = (s.game k).owner_fd → (s.client j).fd = (s.game k).owner_fd → i = j) ∧
        ((s.client i).fd = (s.game k).opponent_fd → (s.client j).fd = (s.game k).opponent_fd →
          i = j))) := by
  have h := reachable_inv hr
  have hs := reachable_sinv hr
  refine ⟨fun k hk hocc => ?_, fun k hk hocc hopp => ?_, fun i hi hg => ?_,
    fun k i j hk hocc hi hj => ?_⟩
  · obtain ⟨i, hin, hifd, hig⟩ := h.cinv.g_owner k hk hocc
    simp only [core] at hin hifd hig
    refine ⟨i, hin, ?_, hifd, hig, (hs.marks i k hin hk hocc).1 hifd⟩
    rw [← hifd]
    exact h.find_client_of_reg hin
  · obtain ⟨hne, j, hjn, hjfd, hjg⟩ := h.cinv.g_opp k hk hocc hopp
    simp only [core] at hne hjn hjfd hjg
    refine ⟨hne, j, hjn, ?_, ?_, hjfd, hjg, (hs.marks j k hjn hk hocc).2 hjfd⟩
    · rw [← hjfd]
      exact h.find_client_of_reg hjn
    · intro e
      have hpos : 0 < (s.game k).owner_fd := by
        have := h.cinv.owner_pos hk hocc
        simpa only [core] using this
      have := (h.find_client_reg hpos e).2
      exact hne (hjfd.symm.trans this)
  · obtain ⟨k, hk, hid, hrole⟩ := h.cinv.c_game i hi hg
    simp only [core] at hid hrole
    exact ⟨k, hk, by rw [hid]; exact hg, hid, hrole⟩
  · exact ⟨fun a b => h.client_fd_inj hi hj (a.trans b.symm), fun a b => h.client_fd_inj hi hj (a.trans b.symm)⟩

theorem status_matches_game_reference_witness :
    ((state_after 3 trace_pending).client 1).game_id ≠ -1 ↔
      (((state_after 3 trace_pending).client 1).status = PlayerStatus.PLAYER_IN_GAME ∨
        ((state_after 3 trace_pending).client 1).status = PlayerStatus.PLAYER_WAITING_ACCEPT) :=
  ((status_matches_game_reference 3 (state_after 3 trace_pending)
    (reachable_state_after 3 _)).1 1 (by decide)).1

theorem one_turn_flag_per_game_witness :
    (((state_after 3 trace_started).game 0).id ≠ -1 ∧
      ((state_after 3 trace_started).client 0).game_id =
        ((state_after 3 trace_started).game 0).id ∧
      ((state_after 3 trace_started).client 0).is_current_turn = true) ∧
    (((state_after 3 trace_started).client 1).game_id =
        ((state_after 3 trace_started).game 0).id ∧
      ((state_after 3 trace_started).client 1).is_current_turn = false) ∧
    (0 : Nat) = 0 :=
  ⟨by decide, by decide,
    one_turn_flag_per_game 3 (state_after 3 trace_started) (reachable_state_after 3 _) 0 0 0
      (by decide) (by decide) (by decide) (by decide) (by decide) (by decide) (by decide)
      (by decide)⟩

theorem tables_reference_each_other_witness :
    ∃ i : Nat, (i : Int) < (state_after 3 trace_started).num_clients ∧
      find_client_by_fd (state_after 3 trace_started)
        ((state_after 3 trace_started).game 0).owner_fd = some i ∧
      ((state_after 3 trace_started).client i).fd =
        ((state_after 3 trace_started).game 0).owner_fd ∧
      ((state_after 3 trace_started).client i).game_id =
        ((state_after 3 trace_started).game 0).id ∧
      ((state_after 3 trace_started).client i).player_symbol = Cell.X :=
  (tables_reference_each_other 3 (state_after 3 trace_started)
    (reachable_state_after 3 _)).1 0 (by decide) (by decide)

/-! ## Theorems: the watched descriptors, the registry and the read buffer -/

/-- C37, the code at the failing inputs: sessions 4 and 5 are connected and the
`read` on the socket of session 4 returns 1024, the size of the buffer, or -1.
The main loop passes either value to `handle_client_data`, whose first
statement writes `buffer[valread]`: index 1024 and index -1 are outside the
array of 1024 characters. For 1023 the write is inside the array and the
command is dispatched. -/
theorem terminator_write_outside_buffer :
    BUFFER_SIZE = 1024 ∧
    Reachable 3 (state_after 3 trace_connected) ∧
    registered (state_after 3 trace_connected) 4 ∧
    (∀ buffer : List Char,
      client_readable (state_after 3 trace_connected) 4 buffer 1024 =
        handle_client_data (state_after 3 trace_connected) 4 buffer 1024 ∧
      handle_client_data (state_after 3 trace_connected) 4 buffer 1024 = none ∧
      client_readable (state_after 3 trace_connected) 4 buffer (-1) =
        handle_client_data (state_after 3 trace_connected) 4 buffer (-1) ∧
      handle_client_data (state_after 3 trace_connected) 4 buffer (-1) = none ∧
      ∃ s1, handle_client_data (state_after 3 trace_connected) 4 buffer 1023 = some s1) := by
  refine ⟨rfl, reachable_state_after 3 _, ⟨by decide, 0, by decide, by decide⟩,
    fun buffer => ⟨?_, ?_, ?_, ?_, ?_⟩⟩
  · unfold client_readable
    rw [if_neg (by decide)]
  · unfold handle_client_data
    rw [if_pos (Or.inr (by decide))]
  · unfold client_readable
    rw [if_neg (by decide)]
  · unfold handle_client_data
    rw [if_pos (Or.inl (by decide))]
  · unfold handle_client_data
    rw [if_neg (by decide)]
    obtain ⟨s1, e, _⟩ := dispatch_ok (reachable_inv (reachable_state_after 3 trace_connected)) 4
      (by decide) ((c_string (List.take (1023 : Int).toNat buffer)).takeWhile (fun c => c != '\n'))
      (by decide)
    exact ⟨s1, e⟩

/-- C35, the code at the failing input: sessions 4, 5 and 6 connect, 4 creates
game 1, 5 joins and is accepted, 4 plays `0 0`, 5 leaves and 6 joins. The game
waits for a player with opponent 6 pending; `accept` from 4 puts it in
progress on the board of the interrupted round: cell `0 0` holds `X` and the
turn indicator is 1, so the opponent is to move. -/
theorem accept_after_leave_stale_board :
    Reachable 3 (state_after 3 trace_rejoined) ∧
    (run_admissible 3 (init_server 3) trace_rejoined).isSome = true ∧
    ((state_after 3 trace_rejoined).game 0).id = 1 ∧
    ((state_after 3 trace_rejoined).game 0).owner_fd = 4 ∧
    ((state_after 3 trace_rejoined).game 0).opponent_fd = 6 ∧
    ((state_after 3 trace_rejoined).game 0).state = GameState.GAME_WAITING_FOR_PLAYER ∧
    step (state_after 3 trace_rejoined) (cmd 4 "accept") =
      some (handle_accept_command (state_after 3 trace_rejoined) 4 0) ∧
    ((handle_accept_command (state_after 3 trace_rejoined) 4 0).game 0).state =
      GameState.GAME_IN_PROGRESS ∧
    ((handle_accept_command (state_after 3 trace_rejoined) 4 0).game 0).tris_game.cell 0 0 =
      Cell.X ∧
    ((handle_accept_command (state_after 3 trace_rejoined) 4 0).game 0).tris_game.turn = 1 ∧
    ((handle_accept_command (state_after 3 trace_rejoined) 4 0).game 0).tris_game ≠
      { board := Vec3.fill (Vec3.fill Cell.EMPTY), turn := 0 } :=
  ⟨reachable_state_after 3 _, by decide, by decide, by decide, by decide, by decide, by decide,
    by decide, by decide, by decide, by decide⟩

/-- C31, the code at the failing input: ten sessions, 4 to 13, are connected
and a connection with descriptor 14 is accepted. The main loop puts 14 in the
watched set before `initialize_client` finds the table full; `initialize_client`
closes 14 but nothing takes it out of the set: afterwards 14 is watched and is
the descriptor of no session. -/
theorem refused_connection_stays_watched :
    Reachable 3 (state_after 3 trace_ten) ∧
    (run_admissible 3 (init_server 3) trace_ten).isSome = true ∧
    (state_after 3 trace_ten).num_clients = 10 ∧
    admissible 3 (state_after 3 trace_ten) (Event.connect 14) = true ∧
    step (state_after 3 trace_ten) (Event.connect 14) =
      some (accept_connection (state_after 3 trace_ten) 14) ∧
    (accept_connection (state_after 3 trace_ten) 14).num_clients = 10 ∧
    find_client_by_fd (accept_connection (state_after 3 trace_ten) 14) 14 = none ∧
    Output.closed 14 ∈ (accept_connection (state_after 3 trace_ten) 14).out ∧
    14 ∈ (accept_connection (state_after 3 trace_ten) 14).master_fds ∧
    (accept_connection (state_after 3 trace_ten) 14).master_fds =
      [14, 13, 12, 11, 10, 9, 8, 7, 6, 5, 4, 3] :=
  ⟨reachable_state_after 3 _, by decide, by decide, by decide, rfl, by decide, by decide,
    by decide, by decide, by decide⟩

theorem range_filter_lt_length (n : Nat) (hn : n ≤ 10) :
    ((List.range 10).filter (fun i => decide (i < n))).length = n := by
  interval_cases n <;> rfl

/-- A state that satisfies the structural invariant has its registered
sessions in the slots below `num_clients`. -/
theorem contiguous_of_inv {s : Server} (h : Inv s) : contiguous s := by
  have hr := h.cinv.n_range
  simp only [core] at hr
  have hreg : ∀ i : Nat, i < 10 →
      ((i : Int) < s.num_clients → 0 < (s.client i).fd) ∧
      (s.num_clients ≤ (i : Int) → (s.client i).fd = 0) := by
    intro i hi
    have := h.cinv.reg i hi
    simpa only [core] using this
  refine ⟨hr, hreg, fun i j hi hj e => h.cinv.fd_inj i j hi hj e, ?_⟩
  have hf : (List.range MAX_CLIENTS).filter (fun i => (s.client i).fd != 0) =
      (List.range 10).filter (fun i => decide (i < s.num_clients.toNat)) := by
    apply List.filter_congr
    intro i hi
    rw [List.mem_range] at hi
    simp only [MAX_CLIENTS] at hi
    by_cases hlt : (i : Int) < s.num_clients
    · have := (hreg i hi).1 hlt
      have h1 : ((s.client i).fd != 0) = true := by
        rw [bne_iff_ne]
        omega
      rw [h1]
      symm
      rw [decide_eq_true_eq]
      omega
    · have := (hreg i hi).2 (by omega)
      have h1 : ((s.client i).fd != 0) = false := by
        rw [this]
        rfl
      rw [h1]
      symm
      rw [decide_eq_false_iff_not]
      omega
  rw [hf, range_filter_lt_length _ (by omega)]
  omega

/-- C32: in every reachable state the registered sessions occupy exactly the
slots `0 .. num_clients - 1` of the client table: these slots hold a positive
descriptor and every slot from `num_clients` on holds 0; the descriptors of
the registered sessions are pairwise distinct; `num_clients` is the number of
slots in use. The same holds after `initialize_client` on a positive
descriptor that is not in use, and after `remove_client` on any positive
descriptor. -/
theorem registry_is_contiguous (master_socket : Int) (s : Server)
    (hr : Reachable master_socket s) :
    contiguous s ∧
    (∀ fd : Int, 0 < fd → (∀ i : Nat, i < MAX_CLIENTS → (s.client i).fd ≠ fd) →
      contiguous (initialize_client s fd)) ∧
    (∀ sd : Int, 0 < sd → contiguous (remove_client s sd)) := by
  have h := reachable_inv hr
  exact ⟨contiguous_of_inv h,
    fun fd hfd hfresh => contiguous_of_inv (inv_initialize_client h fd hfd hfresh),
    fun sd hsd => contiguous_of_inv (inv_remove_client h sd hsd)⟩

theorem registry_is_contiguous_witness :
    contiguous (state_after 3 trace_started) ∧
    contiguous (initialize_client (state_after 3 trace_started) 6) ∧
    contiguous (remove_client (state_after 3 trace_started) 4) :=
  ⟨(registry_is_contiguous 3 (state_after 3 trace_started) (reachable_state_after 3 _)).1,
    (registry_is_contiguous 3 (state_after 3 trace_started) (reachable_state_after 3 _)).2.1 6
      (by decide) (by decide),
    (registry_is_contiguous 3 (state_after 3 trace_started) (reachable_state_after 3 _)).2.2 4
      (by decide)⟩

/-! ## Theorems: the invariant of the games -/

theorem check_winner_init_game (g : TrisGame) : check_winner (init_game g) ≠ GameResult.WIN := by
  show check_winner { board := Vec3.fill (Vec3.fill Cell.EMPTY), turn := 0 } ≠ GameResult.WIN
  decide

/-- A change that keeps the descriptor, the status and the turn flag of every
session and the references, the state and the board of every game keeps the
invariant of the games. -/
theorem ginv_frame {s s1 : Server} (hg : GInv s) (hn : s1.num_clients = s.num_clients)
    (hc : ∀ i, ((s1.client i).fd = (s.client i).fd ∧
      (s1.client i).status = (s.client i).status) ∧
      (s1.client i).is_current_turn = (s.client i).is_current_turn)
    (hgm : ∀ k, (((s1.game k).id = (s.game k).id ∧
      (s1.game k).owner_fd = (s.game k).owner_fd) ∧
      ((s1.game k).opponent_fd = (s.game k).opponent_fd ∧
      (s1.game k).state = (s.game k).state)) ∧
      (s1.game k).tris_game = (s.game k).tris_game) :
    GInv s1 := by
  refine ⟨fun k hk => ?_, fun k hk => ?_, fun i k hi hk hocc hst => ?_,
    fun i k hi hk hocc ho => ?_, fun i k hi hk hocc hp hst => ?_⟩
  · rw [(hgm k).2]
    exact hg.turn01 k hk
  · rw [(hgm k).2]
    exact hg.noline k hk
  · rw [hn] at hi
    rw [(hgm k).1.1.1] at hocc
    rw [(hgm k).1.2.2] at hst
    rw [(hc i).1.1, (hc i).2, (hgm k).1.1.2, (hgm k).1.2.1, (hgm k).2]
    exact hg.sync i k hi hk hocc hst
  · rw [hn] at hi
    rw [(hgm k).1.1.1] at hocc
    rw [(hc i).1.1, (hgm k).1.1.2] at ho
    rw [(hc i).1.2]
    exact hg.owner_status i k hi hk hocc ho
  · rw [hn] at hi
    rw [(hgm k).1.1.1] at hocc
    rw [(hc i).1.1, (hgm k).1.2.1] at hp
    rw [(hgm k).1.2.2] at hst
    rw [(hc i).1.2]
    exact hg.opp_status i k hi hk hocc hp hst

theorem ginv_unchanged {s s1 : Server} (hg : GInv s) (hu : unchanged s s1) : GInv s1 := by
  have hc : ∀ i, s1.client i = s.client i := unchanged_client hu
  have hgm : ∀ k, s1.game k = s.game k := unchanged_game hu
  exact ginv_frame hg hu.2.2.1 (fun i => by rw [hc i]; exact ⟨⟨rfl, rfl⟩, rfl⟩)
    (fun k => by rw [hgm k]; exact ⟨⟨⟨rfl, rfl⟩, ⟨rfl, rfl⟩⟩, rfl⟩)

theorem ginv_send {s : Server} (hg : GInv s) (fd : Int) (m : String) :
    GInv (send_to_client s fd m) :=
  ginv_unchanged hg (unchanged_send s fd m)

/-- The start state has no registered session and empty boards. -/
theorem ginv_init_server (ms : Int) : GInv (init_server ms) := by
  have hn : (init_server ms).num_clients = 0 := rfl
  refine ⟨fun k hk => ?_, fun k hk => ?_, fun i k hi => ?_, fun i k hi => ?_,
    fun i k hi => ?_⟩
  · rw [game_init_server ms k hk]
    exact Or.inl rfl
  · rw [game_init_server ms k hk]
    decide
  · rw [hn] at hi
    omega
  · rw [hn] at hi
    omega
  · rw [hn] at hi
    omega

/-- A change that resets some sessions and frees some games or clears their
opponent reference (leaving them waiting for a player), without touching a
board, keeps the invariant of the games, when no session that is reset is
still referred to by a game. -/
theorem ginv_reset {s s1 : Server} (hg : GInv s) (hn : s1.num_clients = s.num_clients)
    (hc : ∀ j, s1.client j = s.client j ∨ s1.client j = reset_client (s.client j))
    (hb : ∀ m, (s1.game m).tris_game = (s.game m).tris_game)
    (hgm : ∀ m, (s1.game m).id ≠ -1 →
      (s.game m).id ≠ -1 ∧ (s1.game m).owner_fd = (s.game m).owner_fd ∧
      (((s1.game m).opponent_fd = (s.game m).opponent_fd ∧
          (s1.game m).state = (s.game m).state) ∨
        ((s1.game m).opponent_fd = -1 ∧
          (s1.game m).state = GameState.GAME_WAITING_FOR_PLAYER)))
    (hpos : ∀ j : Nat, (j : Int) < s.num_clients → 0 < (s.client j).fd)
    (hkeep : ∀ j m : Nat, (j : Int) < s.num_clients → m < 5 → (s1.game m).id ≠ -1 →
      ((s.client j).fd = (s1.game m).owner_fd ∨ (s.client j).fd = (s1.game m).opponent_fd) →
      s1.client j = s.client j) :
    GInv s1 := by
  have hfd : ∀ j, (s1.client j).fd = (s.client j).fd := by
    intro j
    rcases hc j with e | e <;> rw [e]
    rfl
  refine ⟨fun k hk => ?_, fun k hk => ?_, fun i k hi hk hocc hst => ?_,
    fun i k hi hk hocc ho => ?_, fun i k hi hk hocc hp hst => ?_⟩
  · rw [hb k]
    exact hg.turn01 k hk
  · rw [hb k]
    exact hg.noline k hk
  · rw [hn] at hi
    obtain ⟨hocc0, hown, hopp⟩ := hgm k hocc
    rw [hfd i, hb k]
    rcases hopp with ⟨e1, e2⟩ | ⟨_, e2⟩
    · rw [e2] at hst
      constructor
      · intro e
        rw [hkeep i k hi hk hocc (Or.inl e)]
        rw [hown] at e
        exact (hg.sync i k hi hk hocc0 hst).1 e
      · intro e
        rw [hkeep i k hi hk hocc (Or.inr e)]
        rw [e1] at e
        exact (hg.sync i k hi hk hocc0 hst).2 e
    · rw [e2] at hst
      exact absurd hst (by decide)
  · rw [hn] at hi
    obtain ⟨hocc0, hown, _⟩ := hgm k hocc
    rw [hfd i] at ho
    rw [hkeep i k hi hk hocc (Or.inl ho)]
    rw [hown] at ho
    exact hg.owner_status i k hi hk hocc0 ho
  · rw [hn] at hi
    obtain ⟨hocc0, _, hopp⟩ := hgm k hocc
    rw [hfd i] at hp
    rw [hkeep i k hi hk hocc (Or.inr hp)]
    rcases hopp with ⟨e1, e2⟩ | ⟨e1, _⟩
    · rw [e1] at hp
      rw [e2] at hst
      exact hg.opp_status i k hi hk hocc0 hp hst
    · rw [e1] at hp
      have := hpos i hi
      omega

/-- A change that moves registered sessions between slots and removes some,
without changing a record that is kept or a game, keeps the invariant of the
games. -/
theorem ginv_embed {s s1 : Server} (hg : GInv s)
    (hc : ∀ j : Nat, (j : Int) < s1.num_clients →
      ∃ j0 : Nat, (j0 : Int) < s.num_clients ∧ s1.client j = s.client j0)
    (hgm : ∀ m, s1.game m = s.game m) : GInv s1 := by
  refine ⟨fun k hk => ?_, fun k hk => ?_, fun i k hi hk hocc hst => ?_,
    fun i k hi hk hocc ho => ?_, fun i k hi hk hocc hp hst => ?_⟩
  · rw [hgm k]
    exact hg.turn01 k hk
  · rw [hgm k]
    exact hg.noline k hk
  · obtain ⟨i0, hi0, e⟩ := hc i hi
    rw [hgm k] at hocc hst ⊢
    rw [e]
    exact hg.sync i0 k hi0 hk hocc hst
  · obtain ⟨i0, hi0, e⟩ := hc i hi
    rw [hgm k] at hocc ho
    rw [e] at ho ⊢
    exact hg.owner_status i0 k hi0 hk hocc ho
  · obtain ⟨i0, hi0, e⟩ := hc i hi
    rw [hgm k] at hocc hp hst
    rw [e] at hp ⊢
    exact hg.opp_status i0 k hi0 hk hocc hp hst

/-- A change of game `k` and of its owner `oc` and opponent `pc` that keeps the
references of the game keeps the invariant of the games, when the new board,
flags and statuses of the three satisfy it. -/
theorem ginv_game_update {s s1 : Server} (h : Inv s) (hg : GInv s) (k oc pc : Nat)
    (hk : k < 5) (hocc : (s.game k).id ≠ -1)
    (hon : (oc : Int) < s.num_clients) (hpn : (pc : Int) < s.num_clients)
    (hofd : (s.client oc).fd = (s.game k).owner_fd)
    (hpfd : (s.client pc).fd = (s.game k).opponent_fd)
    (hn : s1.num_clients = s.num_clients)
    (hfd : ∀ i, (s1.client i).fd = (s.client i).fd)
    (hother : ∀ i, i ≠ oc → i ≠ pc →
      (s1.client i).status = (s.client i).status ∧
      (s1.client i).is_current_turn = (s.client i).is_current_turn)
    (hgo : ∀ m, m ≠ k → s1.game m = s.game m)
    (hgk : (s1.game k).id = (s.game k).id ∧ (s1.game k).owner_fd = (s.game k).owner_fd ∧
      (s1.game k).opponent_fd = (s.game k).opponent_fd)
    (ht01 : (s1.game k).tris_game.turn = 0 ∨ (s1.game k).tris_game.turn = 1)
    (hnl : check_winner (s1.game k).tris_game ≠ GameResult.WIN)
    (hsync : (s1.game k).state = GameState.GAME_IN_PROGRESS →
      (s1.client oc).is_current_turn = decide ((s1.game k).tris_game.turn = 0) ∧
      (s1.client pc).is_current_turn = decide ((s1.game k).tris_game.turn ≠ 0))
    (hos : (s1.client oc).status = PlayerStatus.PLAYER_IN_GAME)
    (hps : (s1.game k).state ≠ GameState.GAME_WAITING_FOR_PLAYER →
      (s1.client pc).status = PlayerStatus.PLAYER_IN_GAME) :
    GInv s1 := by
  -- a session referred to by another game is neither `oc` nor `pc`
  have key : ∀ i m : Nat, (i : Int) < s.num_clients → m < 5 → m ≠ k → (s.game m).id ≠ -1 →
      ((s.client i).fd = (s.game m).owner_fd ∨ (s.client i).fd = (s.game m).opponent_fd) →
      i ≠ oc ∧ i ≠ pc := by
    intro i m hi hm e hoccm hatt
    constructor
    · intro x
      rw [x] at hatt
      exact e (h.attached_unique hon hk hm hocc hoccm (Or.inl hofd) hatt)
    · intro x
      rw [x] at hatt
      exact e (h.attached_unique hpn hk hm hocc hoccm (Or.inr hpfd) hatt)
  refine ⟨fun m hm => ?_, fun m hm => ?_, fun i m hi hm hoccm hst => ?_,
    fun i m hi hm hoccm ho => ?_, fun i m hi hm hoccm hp hst => ?_⟩
  · by_cases e : m = k
    · rw [e]
      exact ht01
    · rw [hgo m e]
      exact hg.turn01 m hm
  · by_cases e : m = k
    · rw [e]
      exact hnl
    · rw [hgo m e]
      exact hg.noline m hm
  · rw [hn] at hi
    rw [hfd i]
    by_cases e : m = k
    · subst e
      rw [hgk.2.1, hgk.2.2]
      constructor
      · intro x
        have : i = oc := h.client_fd_inj hi hon (x.trans hofd.symm)
        rw [this]
        exact (hsync hst).1
      · intro x
        have : i = pc := h.client_fd_inj hi hpn (x.trans hpfd.symm)
        rw [this]
        exact (hsync hst).2
    · rw [hgo m e] at hoccm hst ⊢
      constructor
      · intro x
        obtain ⟨n1, n2⟩ := key i m hi hm e hoccm (Or.inl x)
        rw [(hother i n1 n2).2]
        exact (hg.sync i m hi hm hoccm hst).1 x
      · intro x
        obtain ⟨n1, n2⟩ := key i m hi hm e hoccm (Or.inr x)
        rw [(hother i n1 n2).2]
        exact (hg.sync i m hi hm hoccm hst).2 x
  · rw [hn] at hi
    rw [hfd i] at ho
    by_cases e : m = k
    · subst e
      rw [hgk.2.1] at ho
      have : i = oc := h.client_fd_inj hi hon (ho.trans hofd.symm)
      rw [this]
      exact hos
    · rw [hgo m e] at hoccm ho
      obtain ⟨n1, n2⟩ := key i m hi hm e hoccm (Or.inl ho)
      rw [(hother i n1 n2).1]
      exact hg.owner_status i m hi hm hoccm ho
  · rw [hn] at hi
    rw [hfd i] at hp
    by_cases e : m = k
    · subst e
      rw [hgk.2.2] at hp
      have : i = pc := h.client_fd_inj hi hpn (hp.trans hpfd.symm)
      rw [this]
      exact hps hst
    · rw [hgo m e] at hoccm hp hst
      obtain ⟨n1, n2⟩ := key i m hi hm e hoccm (Or.inr hp)
      rw [(hother i n1 n2).1]
      exact hg.opp_status i m hi hm hoccm hp hst

/-- `create` keeps the invariant of the games. -/
theorem ginv_create {s s1 : Server} (h : Inv s) (hg : GInv s) (sd : Int) (cur : Nat)
    (hcn : (cur : Int) < s.num_clients) (hfd : (s.client cur).fd = sd)
    (hcreate : handle_create_command s sd cur = some s1) : GInv s1 := by
  rcases create_cases hcreate with ⟨m, hm⟩ | ⟨k, hgid, hn, hk, _, hm⟩
  · rw [hm]
    exact ginv_send hg sd _
  · rw [hm]
    clear hm hcreate
    obtain ⟨hk5, hfree, _, ec, eg, _, _, en, _, _⟩ := create_effect h sd cur k hcn hgid hn hk
    have hsd : 0 < sd := by rw [← hfd]; exact h.client_fd_pos hcn
    -- the requester is neither the owner nor the opponent of a game
    have hno : ∀ m, m < 5 → (s.game m).id ≠ -1 →
        (s.client cur).fd ≠ (s.game m).owner_fd ∧
        (s.client cur).fd ≠ (s.game m).opponent_fd := by
      intro m hm hocc
      constructor
      · intro e
        exact hocc ((h.owner_slot hcn hm hocc e).symm.trans hgid)
      · intro e
        exact hocc ((h.opp_slot hcn hm hocc e).symm.trans hgid)
    have hfds : ∀ j, ((create_game s sd cur k).client j).fd = (s.client j).fd := by
      intro j
      rw [ec j]
      split_ifs with x
      · rw [x]
      · rfl
    refine ⟨fun m hm => ?_, fun m hm => ?_, fun i m hi hm hocc hst => ?_,
      fun i m hi hm hocc ho => ?_, fun i m hi hm hocc hp hst => ?_⟩
    · rw [eg m]
      split_ifs with e
      · exact Or.inl rfl
      · exact hg.turn01 m hm
    · rw [eg m]
      split_ifs with e
      · exact check_winner_init_game (s.game k).tris_game
      · exact hg.noline m hm
    · rw [en] at hi
      rw [hfds i]
      rw [eg m] at hocc hst ⊢
      by_cases e2 : m = k
      · rw [if_pos e2] at hst
        exact GameState.noConfusion hst
      · rw [if_neg e2] at hocc hst ⊢
        have hi1 : i ≠ cur → ((create_game s sd cur k).client i).is_current_turn =
            (s.client i).is_current_turn := by
          intro x
          rw [ec i, if_neg x]
        constructor
        · intro x
          rw [hi1 (fun y => (hno m hm hocc).1 (by rw [← y]; exact x))]
          exact (hg.sync i m hi hm hocc hst).1 x
        · intro x
          rw [hi1 (fun y => (hno m hm hocc).2 (by rw [← y]; exact x))]
          exact (hg.sync i m hi hm hocc hst).2 x
    · rw [en] at hi
      rw [hfds i] at ho
      rw [eg m] at hocc ho
      by_cases e1 : i = cur
      · rw [ec i, if_pos e1]
      · rw [ec i, if_neg e1]
        by_cases e2 : m = k
        · rw [if_pos e2] at ho
          exact absurd (h.client_fd_inj hi hcn (ho.trans hfd.symm)) e1
        · rw [if_neg e2] at hocc ho
          exact hg.owner_status i m hi hm hocc ho
    · rw [en] at hi
      rw [hfds i] at hp
      rw [eg m] at hocc hp hst
      by_cases e2 : m = k
      · rw [if_pos e2] at hst
        exact absurd rfl hst
      · rw [if_neg e2] at hocc hp hst
        have e1 : i ≠ cur := fun y => (hno m hm hocc).2 (by rw [← y]; exact hp)
        rw [ec i, if_neg e1]
        exact hg.opp_status i m hi hm hocc hp hst

/-- `join` keeps the invariant of the games. -/
theorem ginv_join {s : Server} (h : Inv s) (hg : GInv s) (sd : Int) (cur : Nat)
    (line : List Char) (hcn : (cur : Int) < s.num_clients) (hfd : (s.client cur).fd = sd) :
    GInv (handle_join_command s sd cur line) := by
  by_cases hrej : (s.client cur).game_id ≠ -1 ∨
      find_game_by_id s (atoi (line.drop 5)) = none ∨
      ∃ k, find_game_by_id s (atoi (line.drop 5)) = some k ∧
        ((s.game k).id = -1 ∨ (s.game k).state = GameState.GAME_IN_PROGRESS ∨
          (s.game k).state = GameState.GAME_ENDED ∨ (s.game k).opponent_fd ≠ -1 ∨
          (s.game k).owner_fd = sd)
  · obtain ⟨m, e⟩ := join_rejected s sd cur line hrej
    rw [e]
    exact ginv_send hg sd _
  · have hgid : (s.client cur).game_id = -1 := by
      by_contra e
      exact hrej (Or.inl e)
    cases hk : find_game_by_id s (atoi (line.drop 5)) with
    | none => exact absurd (Or.inr (Or.inl hk)) hrej
    | some k =>
      have hocc : (s.game k).id ≠ -1 := fun e => hrej (Or.inr (Or.inr ⟨k, hk, Or.inl e⟩))
      have hst1 : (s.game k).state ≠ GameState.GAME_IN_PROGRESS :=
        fun e => hrej (Or.inr (Or.inr ⟨k, hk, Or.inr (Or.inl e)⟩))
      have hst2 : (s.game k).state ≠ GameState.GAME_ENDED :=
        fun e => hrej (Or.inr (Or.inr ⟨k, hk, Or.inr (Or.inr (Or.inl e))⟩))
      have hopp : (s.game k).opponent_fd = -1 := by
        by_contra e
        exact hrej (Or.inr (Or.inr ⟨k, hk, Or.inr (Or.inr (Or.inr (Or.inl e)))⟩))
      have hown : (s.game k).owner_fd ≠ sd :=
        fun e => hrej (Or.inr (Or.inr ⟨k, hk, Or.inr (Or.inr (Or.inr (Or.inr e)))⟩))
      obtain ⟨hk5, _⟩ := find_game_some hk
      have hwait : (s.game k).state = GameState.GAME_WAITING_FOR_PLAYER := by
        have := (h.cinv.g_occ k hk5 hocc).2 hopp
        simp only [core] at this
        exact this
      obtain ⟨ec, eg, _, _, en, _, _⟩ :=
        join_effect h sd cur k line hcn hgid hk hocc hst1 hst2 hopp hown
      -- the requester is neither the owner nor the opponent of a game
      have hno : ∀ m, m < 5 → (s.game m).id ≠ -1 →
          (s.client cur).fd ≠ (s.game m).owner_fd ∧
          (s.client cur).fd ≠ (s.game m).opponent_fd := by
        intro m hm hoccm
        constructor
        · intro e
          exact hoccm ((h.owner_slot hcn hm hoccm e).symm.trans hgid)
        · intro e
          exact hoccm ((h.opp_slot hcn hm hoccm e).symm.trans hgid)
      have hfds : ∀ j, ((handle_join_command s sd cur line).client j).fd = (s.client j).fd := by
        intro j
        rw [ec j]
        split_ifs with x
        · rw [x]
        · rfl
      have hkeep : ∀ i, i ≠ cur → (handle_join_command s sd cur line).client i = s.client i := by
        intro i x
        rw [ec i, if_neg x]
      refine ⟨fun m hm => ?_, fun m hm => ?_, fun i m hi hm hoccm hst => ?_,
        fun i m hi hm hoccm ho => ?_, fun i m hi hm hoccm hp hst => ?_⟩
      · rw [eg m]
        split_ifs with e
        · exact hg.turn01 k hk5
        · exact hg.turn01 m hm
      · rw [eg m]
        split_ifs with e
        · exact hg.noline k hk5
        · exact hg.noline m hm
      · rw [en] at hi
        rw [hfds i]
        rw [eg m] at hoccm hst ⊢
        by_cases e2 : m = k
        · rw [if_pos e2] at hst
          exact absurd hst hst1
        · rw [if_neg e2] at hoccm hst ⊢
          constructor
          · intro x
            rw [hkeep i (fun y => (hno m hm hoccm).1 (by rw [← y]; exact x))]
            exact (hg.sync i m hi hm hoccm hst).1 x
          · intro x
            rw [hkeep i (fun y => (hno m hm hoccm).2 (by rw [← y]; exact x))]
            exact (hg.sync i m hi hm hoccm hst).2 x
      · rw [en] at hi
        rw [hfds i] at ho
        rw [eg m] at hoccm ho
        by_cases e2 : m = k
        · rw [if_pos e2] at ho hoccm
          have e1 : i ≠ cur := by
            intro y
            rw [y] at ho
            exact hown (ho.symm.trans hfd)
          rw [hkeep i e1]
          exact hg.owner_status i k hi hk5 hocc ho
        · rw [if_neg e2] at hoccm ho
          rw [hkeep i (fun y => (hno m hm hoccm).1 (by rw [← y]; exact ho))]
          exact hg.owner_status i m hi hm hoccm ho
      · rw [en] at hi
        rw [hfds i] at hp
        rw [eg m] at hoccm hp hst
        by_cases e2 : m = k
        · rw [if_pos e2] at hst
          exact absurd hwait hst
        · rw [if_neg e2] at hoccm hp hst
          rw [hkeep i (fun y => (hno m hm hoccm).2 (by rw [← y]; exact hp))]
          exact hg.opp_status i m hi hm hoccm hp hst

/-- `accept` keeps the invariant of the games. -/
theorem ginv_accept {s : Server} (h : Inv s) (hg : GInv s) (sd : Int) (hsd : 0 < sd) (cur : Nat)
    (hcur : find_client_by_fd s sd = some cur) :
    GInv (handle_accept_command s sd cur) := by
  by_cases hrej : find_game_by_player_fd s sd = none ∨
      ∃ k, find_game_by_player_fd s sd = some k ∧
        ((s.game k).owner_fd ≠ sd ∨ (s.game k).state ≠ GameState.GAME_WAITING_FOR_PLAYER ∨
          (s.game k).opponent_fd = -1)
  · obtain ⟨m, e⟩ := accept_rejected s sd cur hrej
    rw [e]
    exact ginv_send hg sd _
  · cases hk : find_game_by_player_fd s sd with
    | none => exact absurd (Or.inl hk) hrej
    | some k =>
      have hown : (s.game k).owner_fd = sd := by
        by_contra e
        exact hrej (Or.inr ⟨k, hk, Or.inl e⟩)
      have hst : (s.game k).state = GameState.GAME_WAITING_FOR_PLAYER := by
        by_contra e
        exact hrej (Or.inr ⟨k, hk, Or.inr (Or.inl e)⟩)
      have hopp : (s.game k).opponent_fd ≠ -1 := by
        intro e
        exact hrej (Or.inr ⟨k, hk, Or.inr (Or.inr e)⟩)
      obtain ⟨i, _, hgi, hkk⟩ := find_game_by_player_some hk
      obtain ⟨hk5, hid⟩ := find_game_some hkk
      have hocc : (s.game k).id ≠ -1 := by rw [hid]; exact hgi
      obtain ⟨hcn, hcfd⟩ := h.find_client_reg hsd hcur
      obtain ⟨p, hpc, hpn, _, hpfd, ec, eg, _, _, en, _, _⟩ :=
        accept_effect h sd hsd cur k hcur hk5 hocc hown hst hopp
      have egk := eg k
      rw [if_pos rfl] at egk
      have eccur := ec cur
      rw [if_pos rfl] at eccur
      have ecp := ec p
      rw [if_neg hpc, if_pos rfl] at ecp
      refine ginv_game_update h hg k cur p hk5 hocc hcn hpn (hcfd.trans hown.symm) hpfd en
        (fun j => ?_) (fun j n1 n2 => ?_) (fun m n => ?_) ?_ ?_ ?_ (fun _ => ?_) ?_ (fun _ => ?_)
      · rw [ec j]
        split_ifs with e1 e2
        · rw [e1]
        · rw [e2]
        · rfl
      · rw [ec j, if_neg n1, if_neg n2]
        exact ⟨rfl, rfl⟩
      · rw [eg m, if_neg n]
      · rw [egk]
        exact ⟨rfl, rfl, rfl⟩
      · rw [egk]
        exact hg.turn01 k hk5
      · rw [egk]
        exact hg.noline k hk5
      · rw [egk, eccur, ecp]
        exact ⟨rfl, rfl⟩
      · rw [eccur]
        exact hg.owner_status cur k hcn hk5 hocc (hcfd.trans hown.symm)
      · rw [ecp]

/-- The tables of a full server are not changed by a new connection. -/
theorem accept_connection_full {s : Server} (h : Inv s) (fd : Int)
    (hn : ¬ s.num_clients < 10) :
    (accept_connection s fd).clients = s.clients ∧
    (accept_connection s fd).games = s.games ∧
    (accept_connection s fd).num_clients = s.num_clients := by
  have hfull := (first_free_client s h).2 hn
  have key : ∀ t : Server, t.clients = s.clients → t.games = s.games →
      t.num_clients = s.num_clients →
      (initialize_client t fd).clients = s.clients ∧
      (initialize_client t fd).games = s.games ∧
      (initialize_client t fd).num_clients = s.num_clients := by
    intro t hc hg hnc
    have hcl : ∀ j, t.client j = s.client j := fun j => by simp only [Server.client, hc]
    have hf : (List.range MAX_CLIENTS).find? (fun i => (t.client i).fd == 0) = none := by
      simp only [hcl]
      exact hfull
    unfold initialize_client
    rw [hf]
    exact ⟨(clients_send _ _ _).trans hc, (games_send _ _ _).trans hg,
      (num_clients_send _ _ _).trans hnc⟩
  unfold accept_connection
  simp only []
  split_ifs <;> exact key _ rfl rfl rfl

/-- A new connection on an unused descriptor keeps the invariant of the
games. -/
theorem ginv_accept_connection {s : Server} (h : Inv s) (hg : GInv s) (fd : Int)
    (hfd : 0 < fd) (hfresh : ∀ i : Nat, i < MAX_CLIENTS → (s.client i).fd ≠ fd) :
    GInv (accept_connection s fd) := by
  have hr := h.cinv.n_range
  simp only [core] at hr
  by_cases hn : s.num_clients < 10
  · obtain ⟨ec, eg, en, _, _⟩ := accept_connection_effect h fd hn
    have hgm : ∀ m, (accept_connection s fd).game m = s.game m := fun m => by
      simp only [Server.game, eg]
    have hold : ∀ i : Nat, (i : Int) < s.num_clients →
        (accept_connection s fd).client i = s.client i := by
      intro i hi
      rw [ec i, if_neg (by omega)]
    have hnew : ∀ i : Nat, (i : Int) < (accept_connection s fd).num_clients →
        ¬ (i : Int) < s.num_clients → i = s.num_clients.toNat := by
      intro i hi hni
      rw [en] at hi
      omega
    -- the new descriptor is referred to by no game
    have hno : ∀ m, m < 5 → (s.game m).id ≠ -1 →
        fd ≠ (s.game m).owner_fd ∧ fd ≠ (s.game m).opponent_fd := by
      intro m hm hoccm
      constructor
      · intro e
        obtain ⟨o, hon, hofd, _⟩ := h.cinv.g_owner m hm hoccm
        simp only [core] at hon hofd
        exact hfresh o (by simp only [MAX_CLIENTS]; omega) (hofd.trans e.symm)
      · intro e
        by_cases hp : (s.game m).opponent_fd = -1
        · omega
        · obtain ⟨_, p, hpn, hpfd, _⟩ := h.cinv.g_opp m hm hoccm hp
          simp only [core] at hpn hpfd
          exact hfresh p (by simp only [MAX_CLIENTS]; omega) (hpfd.trans e.symm)
    have hnewc := ec s.num_clients.toNat
    rw [if_pos rfl] at hnewc
    refine ⟨fun m hm => ?_, fun m hm => ?_, fun i m hi hm hoccm hst => ?_,
      fun i m hi hm hoccm ho => ?_, fun i m hi hm hoccm hp hst => ?_⟩
    · rw [hgm m]
      exact hg.turn01 m hm
    · rw [hgm m]
      exact hg.noline m hm
    · rw [hgm m] at hoccm hst ⊢
      by_cases e : (i : Int) < s.num_clients
      · rw [hold i e]
        exact hg.sync i m e hm hoccm hst
      · rw [hnew i hi e, hnewc]
        exact ⟨fun e1 => absurd e1 (hno m hm hoccm).1, fun e1 => absurd e1 (hno m hm hoccm).2⟩
    · rw [hgm m] at hoccm ho
      by_cases e : (i : Int) < s.num_clients
      · rw [hold i e] at ho ⊢
        exact hg.owner_status i m e hm hoccm ho
      · rw [hnew i hi e, hnewc] at ho
        exact absurd ho (hno m hm hoccm).1
    · rw [hgm m] at hoccm hp hst
      by_cases e : (i : Int) < s.num_clients
      · rw [hold i e] at hp ⊢
        exact hg.opp_status i m e hm hoccm hp hst
      · rw [hnew i hi e, hnewc] at hp
        exact absurd hp (hno m hm hoccm).2
  · -- the table is full: only the output log and the watched descriptors change
    obtain ⟨h1, h2, hnc⟩ := accept_connection_full h fd hn
    have hc : ∀ i, (accept_connection s fd).client i = s.client i := fun i => by
      simp only [Server.client, h1]
    have hgm : ∀ m, (accept_connection s fd).game m = s.game m := fun m => by
      simp only [Server.game, h2]
    exact ginv_frame hg hnc (fun i => by rw [hc i]; exact ⟨⟨rfl, rfl⟩, rfl⟩)
      (fun k => by rw [hgm k]; exact ⟨⟨⟨rfl, rfl⟩, ⟨rfl, rfl⟩⟩, rfl⟩)

/-- The departure rule keeps the invariant of the games. -/
theorem ginv_remove_from_game {s : Server} (h : Inv s) (hg : GInv s) (fd : Int) (hfd : 0 < fd) :
    GInv (remove_client_from_game s fd) := by
  cases hi : find_client_by_fd s fd with
  | none =>
    unfold remove_client_from_game
    rw [hi]
    exact hg
  | some i =>
    obtain ⟨hin, hifd⟩ := h.find_client_reg hfd hi
    rcases remove_from_game_effect h fd hfd i hi with
      ⟨_, e⟩ | ⟨k, hk5, hocc, hid, hopp, hown, ec, eg, en⟩ |
      ⟨k, p, hk5, hocc, hid, hown, hp, hpi, hpn, hpfd, ec, eg, en⟩ |
      ⟨k, hk5, hocc, hid, hown, hp, ec, eg, en⟩
    · rw [e]
      exact hg
    · refine ginv_reset hg en (fun j => ?_) (fun m => ?_) (fun m hm => ?_)
        (fun j hj => h.client_fd_pos hj) (fun j m hj hm5 hoccm hatt => ?_)
      · rw [ec j]
        split_ifs with e
        · rw [e]
          exact Or.inr rfl
        · exact Or.inl rfl
      · rw [eg m]
        split_ifs with e
        · rw [e]
        · rfl
      · rw [eg m] at hm ⊢
        split_ifs at hm ⊢ with e
        · rw [e]
          exact ⟨hocc, rfl, Or.inr ⟨rfl, rfl⟩⟩
        · exact ⟨hm, rfl, Or.inl ⟨rfl, rfl⟩⟩
      · rw [ec j]
        split_ifs with e
        · exfalso
          rw [e, hifd] at hatt
          rw [eg m] at hoccm hatt
          split_ifs at hoccm hatt with e2
          · simp only [] at hatt
            rcases hatt with e3 | e3
            · exact hown e3.symm
            · omega
          · have hatt' : (s.client i).fd = (s.game m).owner_fd ∨
                (s.client i).fd = (s.game m).opponent_fd := by rw [hifd]; exact hatt
            exact e2 (h.attached_unique hin hk5 hm5 hocc hoccm (Or.inr (hifd.trans hopp.symm))
              hatt')
        · rfl
    · refine ginv_reset hg en (fun j => ?_) (fun m => ?_) (fun m hm => ?_)
        (fun j hj => h.client_fd_pos hj) (fun j m hj hm5 hoccm hatt => ?_)
      · rw [ec j]
        split_ifs with e e2
        · rw [e]
          exact Or.inr rfl
        · rw [e2]
          exact Or.inr rfl
        · exact Or.inl rfl
      · rw [eg m]
        split_ifs with e
        · rw [e]
        · rfl
      · rw [eg m] at hm ⊢
        split_ifs at hm ⊢ with e
        · exact absurd rfl hm
        · exact ⟨hm, rfl, Or.inl ⟨rfl, rfl⟩⟩
      · rw [eg m] at hoccm hatt
        split_ifs at hoccm hatt with e2
        · exact absurd rfl hoccm
        · rw [ec j]
          split_ifs with e e3
          · exfalso
            rw [e] at hatt
            exact e2 (h.attached_unique hin hk5 hm5 hocc hoccm (Or.inl (hifd.trans hown.symm))
              hatt)
          · exfalso
            rw [e3] at hatt
            exact e2 (h.attached_unique hpn hk5 hm5 hocc hoccm (Or.inr hpfd) hatt)
          · rfl
    · refine ginv_reset hg en (fun j => ?_) (fun m => ?_) (fun m hm => ?_)
        (fun j hj => h.client_fd_pos hj) (fun j m hj hm5 hoccm hatt => ?_)
      · rw [ec j]
        split_ifs with e
        · rw [e]
          exact Or.inr rfl
        · exact Or.inl rfl
      · rw [eg m]
        split_ifs with e
        · rw [e]
        · rfl
      · rw [eg m] at hm ⊢
        split_ifs at hm ⊢ with e
        · exact absurd rfl hm
        · exact ⟨hm, rfl, Or.inl ⟨rfl, rfl⟩⟩
      · rw [eg m] at hoccm hatt
        split_ifs at hoccm hatt with e2
        · exact absurd rfl hoccm
        · rw [ec j]
          split_ifs with e
          · exfalso
            rw [e] at hatt
            exact e2 (h.attached_unique hin hk5 hm5 hocc hoccm (Or.inl (hifd.trans hown.symm))
              hatt)
          · rfl

/-- The removal of a registered session keeps the invariant of the games. -/
theorem ginv_remove_client {s : Server} (h : Inv s) (hg : GInv s) (sd : Int) (hsd : 0 < sd)
    (i : Nat) (hi : find_client_by_fd s sd = some i) : GInv (remove_client s sd) := by
  obtain ⟨hin, _⟩ := h.find_client_reg hsd hi
  have hr := h.cinv.n_range
  simp only [core] at hr
  have hR := ginv_remove_from_game h hg sd hsd
  obtain ⟨hn, _, _⟩ := remove_from_game_post h sd hsd
  obtain ⟨ec, eg, _, en, _, _⟩ := remove_client_effect h sd hsd i hi
  refine ginv_embed hR (fun j hj => ?_) (fun m => by simp only [Server.game, eg])
  rw [en] at hj
  rw [ec j, if_neg (by omega)]
  split_ifs with e
  · exact ⟨(s.num_clients - 1).toNat, by rw [hn]; omega, rfl⟩
  · exact ⟨j, by rw [hn]; omega, rfl⟩

/-- `leave` keeps the invariant of the games. -/
theorem ginv_leave {s : Server} (h : Inv s) (hg : GInv s) (sd : Int) (hsd : 0 < sd) (cur : Nat)
    (hcn : (cur : Int) < s.num_clients) :
    GInv (handle_leave_command s sd cur) := by
  by_cases hgid : (s.client cur).game_id = -1
  · unfold handle_leave_command
    rw [if_pos hgid]
    exact ginv_send hg sd _
  · obtain ⟨k, hk5, hid, _⟩ := h.cinv.c_game cur hcn hgid
    simp only [core] at hid
    have hk : find_game_by_id s (s.client cur).game_id = some k := by
      rw [← hid]
      exact h.find_game_of_occ hk5 (by rw [hid]; exact hgid)
    rw [leave_eq s sd cur k hgid hk]
    exact ginv_remove_from_game (inv_send h sd _) (ginv_send hg sd _) sd hsd

/-- `reject` keeps the invariant of the games. -/
theorem ginv_reject {s : Server} (h : Inv s) (hg : GInv s) (sd : Int) (cur : Nat) :
    GInv (handle_reject_command s sd cur) := by
  by_cases hrej : find_game_by_player_fd s sd = none ∨
      ∃ k, find_game_by_player_fd s sd = some k ∧
        ((s.game k).owner_fd ≠ sd ∨ (s.game k).state ≠ GameState.GAME_WAITING_FOR_PLAYER ∨
          (s.game k).opponent_fd = -1)
  · obtain ⟨m, e⟩ := reject_rejected s sd cur hrej
    rw [e]
    exact ginv_send hg sd _
  · cases hk : find_game_by_player_fd s sd with
    | none => exact absurd (Or.inl hk) hrej
    | some k =>
      have hown : (s.game k).owner_fd = sd := by
        by_contra e
        exact hrej (Or.inr ⟨k, hk, Or.inl e⟩)
      have hst : (s.game k).state = GameState.GAME_WAITING_FOR_PLAYER := by
        by_contra e
        exact hrej (Or.inr ⟨k, hk, Or.inr (Or.inl e)⟩)
      have hopp : (s.game k).opponent_fd ≠ -1 := by
        intro e
        exact hrej (Or.inr ⟨k, hk, Or.inr (Or.inr e)⟩)
      obtain ⟨i, _, hgi, hkk⟩ := find_game_by_player_some hk
      obtain ⟨hk5, hid⟩ := find_game_some hkk
      have hocc : (s.game k).id ≠ -1 := by rw [hid]; exact hgi
      obtain ⟨p, hpn, _, hpfd, hpsd, ec, eg, _, _, en, _, _⟩ :=
        reject_effect h sd cur k hk hown hst hopp
      refine ginv_reset hg en (fun j => ?_) (fun m => ?_) (fun m hm => ?_)
        (fun j hj => h.client_fd_pos hj) (fun j m hj hm5 hoccm hatt => ?_)
      · rw [ec j]
        split_ifs with e
        · rw [e]
          exact Or.inr rfl
        · exact Or.inl rfl
      · rw [eg m]
        split_ifs with e
        · rw [e]
        · rfl
      · rw [eg m] at hm ⊢
        split_ifs at hm ⊢ with e
        · rw [e]
          exact ⟨hocc, rfl, Or.inr ⟨rfl, hst⟩⟩
        · exact ⟨hm, rfl, Or.inl ⟨rfl, rfl⟩⟩
      · rw [ec j]
        split_ifs with e
        · exfalso
          rw [e] at hatt
          rw [eg m] at hoccm hatt
          split_ifs at hoccm hatt with e2
          · simp only [] at hatt
            rcases hatt with e3 | e3
            · exact hpsd (e3.trans hown)
            · have := h.client_fd_pos hpn
              omega
          · exact e2 (h.attached_unique hpn hk5 hm5 hocc hoccm (Or.inr hpfd) hatt)
        · rfl

/-- An accepted move leaves a turn indicator of 0 or 1. -/
theorem make_move_turn01 (g : TrisGame) (row col : Int) (h : g.turn = 0 ∨ g.turn = 1) :
    (make_move g row col).2.turn = 0 ∨ (make_move g row col).2.turn = 1 := by
  rw [make_move_turn]
  split_ifs <;> omega

/-- `move` keeps the invariant of the games. -/
theorem ginv_move {s s1 : Server} (h : Inv s) (hg : GInv s) (sd : Int) (hsd : 0 < sd)
    (buffer : List Char) (e : handle_move_command s sd buffer = some s1) : GInv s1 := by
  cases hcur : find_client_by_fd s sd with
  | none =>
    unfold handle_move_command at e
    rw [hcur] at e
    simp only [Option.some.injEq] at e
    rw [← e]
    exact ginv_send hg sd _
  | some cur =>
    have hrejected : ∀ m, handle_move_command s sd buffer = some (send_to_client s sd m) →
        GInv s1 := by
      intro m hm
      rw [hm] at e
      simp only [Option.some.injEq] at e
      rw [← e]
      exact ginv_send hg sd _
    by_cases h1 : (s.client cur).status ≠ PlayerStatus.PLAYER_IN_GAME
    · obtain ⟨m, hm⟩ := move_rejected s sd buffer cur hcur (Or.inl h1)
      exact hrejected m hm
    cases hk : find_game_by_id s (s.client cur).game_id with
    | none =>
      obtain ⟨m, hm⟩ := move_rejected s sd buffer cur hcur (Or.inr (Or.inl hk))
      exact hrejected m hm
    | some k =>
      by_cases h2 : (s.game k).state ≠ GameState.GAME_IN_PROGRESS
      · obtain ⟨m, hm⟩ := move_rejected s sd buffer cur hcur (Or.inr (Or.inr (Or.inl ⟨k, hk, h2⟩)))
        exact hrejected m hm
      by_cases h3 : (s.client cur).is_current_turn = false
      · obtain ⟨m, hm⟩ := move_rejected s sd buffer cur hcur
          (Or.inr (Or.inr (Or.inr (Or.inl h3))))
        exact hrejected m hm
      cases hrc : sscanf_move buffer with
      | none =>
        obtain ⟨m, hm⟩ := move_rejected s sd buffer cur hcur
          (Or.inr (Or.inr (Or.inr (Or.inr (Or.inl hrc)))))
        exact hrejected m hm
      | some rc =>
        by_cases hmv : (make_move (s.game k).tris_game rc.1 rc.2).1 = 0
        · have hstatus : (s.client cur).status = PlayerStatus.PLAYER_IN_GAME := by
            simpa using h1
          have hstate : (s.game k).state = GameState.GAME_IN_PROGRESS := by
            simpa using h2
          have hturn : (s.client cur).is_current_turn = true := by
            simpa using h3
          have hnw : (s.game k).state ≠ GameState.GAME_WAITING_FOR_PLAYER := by
            rw [hstate]
            exact fun x => GameState.noConfusion x
          obtain ⟨hcn, hcfd⟩ := h.find_client_reg hsd hcur
          by_cases hwin : check_winner (make_move (s.game k).tris_game rc.1 rc.2).2 =
              GameResult.WIN
          · obtain ⟨l, s2, he, hlc, hln, _, hk5, hocc, hrole, ec, eg, _, _, en, _, _⟩ :=
              move_win_effect h sd hsd buffer cur k rc hcur hstatus hk hstate hturn hrc hmv hwin
            rw [he] at e
            simp only [Option.some.injEq] at e
            subst e
            have hcatt : (s.client cur).fd = (s.game k).owner_fd ∨
                (s.client cur).fd = (s.game k).opponent_fd := by
              rcases hrole with x | x
              · exact Or.inl x.1
              · exact Or.inr x.1
            have hlatt : (s.client l).fd = (s.game k).owner_fd ∨
                (s.client l).fd = (s.game k).opponent_fd := by
              rcases hrole with x | x
              · exact Or.inr x.2
              · exact Or.inl x.2
            have hfds : ∀ j, (s2.client j).fd = (s.client j).fd := by
              intro j
              rw [ec j]
              split_ifs with x y
              · rw [x]
                rfl
              · rw [y]
              · rfl
            -- a session referred to by another game is neither the winner nor the loser
            have key : ∀ i m : Nat, (i : Int) < s.num_clients → m < 5 → m ≠ k →
                (s.game m).id ≠ -1 →
                ((s.client i).fd = (s.game m).owner_fd ∨
                  (s.client i).fd = (s.game m).opponent_fd) →
                s2.client i = s.client i := by
              intro i m hi hm e2 hoccm hatt
              have n1 : i ≠ l := by
                intro x
                rw [x] at hatt
                exact e2 (h.attached_unique hln hk5 hm hocc hoccm hlatt hatt)
              have n2 : i ≠ cur := by
                intro x
                rw [x] at hatt
                exact e2 (h.attached_unique hcn hk5 hm hocc hoccm hcatt hatt)
              rw [ec i, if_neg n1, if_neg n2]
            refine ⟨fun m hm => ?_, fun m hm => ?_, fun i m hi hm hoccm hst => ?_,
              fun i m hi hm hoccm ho => ?_, fun i m hi hm hoccm hp hst => ?_⟩
            · rw [eg m]
              split_ifs with x
              · exact Or.inl rfl
              · exact hg.turn01 m hm
            · rw [eg m]
              split_ifs with x
              · exact check_winner_init_game (make_move (s.game k).tris_game rc.1 rc.2).2
              · exact hg.noline m hm
            · rw [en] at hi
              rw [hfds i]
              rw [eg m] at hoccm hst ⊢
              by_cases e2 : m = k
              · rw [if_pos e2] at hst
                exact GameState.noConfusion hst
              · rw [if_neg e2] at hoccm hst ⊢
                constructor
                · intro x
                  rw [key i m hi hm e2 hoccm (Or.inl x)]
                  exact (hg.sync i m hi hm hoccm hst).1 x
                · intro x
                  rw [key i m hi hm e2 hoccm (Or.inr x)]
                  exact (hg.sync i m hi hm hoccm hst).2 x
            · rw [en] at hi
              rw [hfds i] at ho
              rw [eg m] at hoccm ho
              by_cases e2 : m = k
              · rw [if_pos e2] at ho
                have : i = cur := h.client_fd_inj hi hcn (ho.trans hcfd.symm)
                rw [this, ec cur, if_neg (fun y => hlc y.symm), if_pos rfl]
              · rw [if_neg e2] at hoccm ho
                rw [key i m hi hm e2 hoccm (Or.inl ho)]
                exact hg.owner_status i m hi hm hoccm ho
            · rw [en] at hi
              rw [hfds i] at hp
              rw [eg m] at hoccm hp hst
              by_cases e2 : m = k
              · rw [if_pos e2] at hst
                exact absurd rfl hst
              · rw [if_neg e2] at hoccm hp hst
                rw [key i m hi hm e2 hoccm (Or.inr hp)]
                exact hg.opp_status i m hi hm hoccm hp hst
          · by_cases hdraw : check_winner (make_move (s.game k).tris_game rc.1 rc.2).2 =
                GameResult.DRAW
            · obtain ⟨oc, pc, s2, he, hne, hon, hpn, hk5, hocc, _, hofd, hpfd, _, _, _, ec, eg,
                  _, _, en, _, _⟩ :=
                move_draw_effect h sd hsd buffer cur k rc hcur hstatus hk hstate hturn hrc hmv
                  hdraw
              rw [he] at e
              simp only [Option.some.injEq] at e
              subst e
              have egk := eg k
              rw [if_pos rfl] at egk
              have ecs : ∀ j, (s2.client j).fd = (s.client j).fd ∧
                  (s2.client j).status = (s.client j).status := by
                intro j
                rw [ec j]
                split_ifs <;> exact ⟨rfl, rfl⟩
              refine ginv_game_update h hg k oc pc hk5 hocc hon hpn hofd hpfd en
                (fun j => (ecs j).1) (fun j n1 n2 => ?_) (fun m n => ?_) ?_ ?_ ?_ (fun x => ?_)
                ?_ (fun _ => ?_)
              · rw [ec j, if_neg (by simp [n1, n2])]
                exact ⟨rfl, rfl⟩
              · rw [eg m, if_neg n]
              · rw [egk]
                exact ⟨rfl, rfl, rfl⟩
              · rw [egk]
                exact make_move_turn01 _ _ _ (hg.turn01 k hk5)
              · rw [egk]
                exact hwin
              · rw [egk] at x
                exact GameState.noConfusion x
              · rw [(ecs oc).2]
                exact hg.owner_status oc k hon hk5 hocc hofd
              · rw [(ecs pc).2]
                exact hg.opp_status pc k hpn hk5 hocc hpfd hnw
            · rw [move_next_effect h sd buffer cur k rc hcur hstatus hk hstate hturn hrc hmv
                hwin hdraw] at e
              simp only [Option.some.injEq] at e
              obtain ⟨hk5, hid⟩ := find_game_some hk
              have hfree := h.cinv.g_free k hk5
              simp only [core] at hfree
              have hocc : (s.game k).id ≠ -1 := by
                intro x
                rw [hfree x] at hstate
                exact absurd hstate (by decide)
              obtain ⟨oc, pc, hne, hon, hpn, hofd, hpfd, ec, eg, en⟩ :=
                move_next_state h k (make_move (s.game k).tris_game rc.1 rc.2).2 hk5 hocc hstate
              rw [← e]
              have egk := eg k
              rw [if_pos rfl] at egk
              have ecoc := ec oc
              rw [if_pos rfl] at ecoc
              have ecpc := ec pc
              rw [if_neg (fun x => hne x.symm), if_pos rfl] at ecpc
              refine ginv_game_update h hg k oc pc hk5 hocc hon hpn hofd hpfd en
                (fun j => ?_) (fun j n1 n2 => ?_) (fun m n => ?_) ?_ ?_ ?_ (fun _ => ?_)
                ?_ (fun _ => ?_)
              · rw [ec j]
                split_ifs with x y
                · rw [x]
                · rw [y]
                · rfl
              · rw [ec j, if_neg n1, if_neg n2]
                exact ⟨rfl, rfl⟩
              · rw [eg m, if_neg n]
              · rw [egk]
                exact ⟨rfl, rfl, rfl⟩
              · rw [egk]
                exact make_move_turn01 _ _ _ (hg.turn01 k hk5)
              · rw [egk]
                exact hwin
              · rw [egk, ecoc, ecpc]
                exact ⟨rfl, rfl⟩
              · rw [ecoc]
                exact hg.owner_status oc k hon hk5 hocc hofd
              · rw [ecpc]
                exact hg.opp_status pc k hpn hk5 hocc hpfd hnw
        · obtain ⟨m, hm⟩ := move_rejected s sd buffer cur hcur
            (Or.inr (Or.inr (Or.inr (Or.inr (Or.inr ⟨k, rc, hk, hrc, hmv⟩)))))
          exact hrejected m hm

/-- `rematch` keeps the invariant of the games. -/
theorem ginv_rematch {s s1 : Server} (h : Inv s) (hg : GInv s) (sd : Int) (hsd : 0 < sd)
    (e : handle_rematch_command s sd = some s1) : GInv s1 := by
  cases hcur : find_client_by_fd s sd with
  | none =>
    unfold handle_rematch_command at e
    rw [hcur] at e
    simp only [Option.some.injEq] at e
    rw [← e]
    exact ginv_send hg sd _
  | some cur =>
    have hrejected : ∀ m, handle_rematch_command s sd = some (send_to_client s sd m) →
        GInv s1 := by
      intro m hm
      rw [hm] at e
      simp only [Option.some.injEq] at e
      rw [← e]
      exact ginv_send hg sd _
    by_cases h1 : (s.client cur).game_id = -1
    · obtain ⟨m, hm⟩ := rematch_rejected s sd cur hcur (Or.inl h1)
      exact hrejected m hm
    cases hk : find_game_by_id s (s.client cur).game_id with
    | none =>
      obtain ⟨m, hm⟩ := rematch_rejected s sd cur hcur (Or.inr (Or.inl hk))
      exact hrejected m hm
    | some k =>
      by_cases hc : (s.game k).state ≠ GameState.GAME_ENDED
          ∨ (s.game k).last_result ≠ GameResult.DRAW
      · obtain ⟨m, hm⟩ := rematch_rejected s sd cur hcur (Or.inr (Or.inr ⟨k, hk, hc⟩))
        exact hrejected m hm
      · have hstate : (s.game k).state = GameState.GAME_ENDED := by
          by_contra x
          exact hc (Or.inl x)
        have hres : (s.game k).last_result = GameResult.DRAW := by
          by_contra x
          exact hc (Or.inr x)
        have hnw : (s.game k).state ≠ GameState.GAME_WAITING_FOR_PLAYER := by
          rw [hstate]
          exact fun x => GameState.noConfusion x
        obtain ⟨oc, pc, s2, he, hne, hon, hpn, hk5, hocc, hofd, hpfd, _, _, _, hA, hB, _, _,
            en, _, _⟩ :=
          rematch_effect h sd hsd cur k hcur h1 hk hstate hres
        rw [he] at e
        simp only [Option.some.injEq] at e
        subst e
        by_cases hw : (s.client (if cur = oc then pc else oc)).wants_rematch = true
        · obtain ⟨ec, eg⟩ := hB hw
          have egk := eg k
          rw [if_pos rfl] at egk
          have ecoc := ec oc
          rw [if_pos rfl] at ecoc
          have ecpc := ec pc
          rw [if_neg (fun x => hne x.symm), if_pos rfl] at ecpc
          refine ginv_game_update h hg k oc pc hk5 hocc hon hpn hofd hpfd en
            (fun j => ?_) (fun j n1 n2 => ?_) (fun m n => ?_) ?_ ?_ ?_ (fun _ => ?_)
            ?_ (fun _ => ?_)
          · rw [ec j]
            split_ifs with x y
            · rw [x]
            · rw [y]
            · rfl
          · rw [ec j, if_neg n1, if_neg n2]
            exact ⟨rfl, rfl⟩
          · rw [eg m, if_neg n]
          · rw [egk]
            exact ⟨rfl, rfl, rfl⟩
          · rw [egk]
            exact Or.inr rfl
          · rw [egk]
            show check_winner { board := Vec3.fill (Vec3.fill Cell.EMPTY), turn := 1 } ≠
              GameResult.WIN
            decide
          · rw [egk, ecoc, ecpc]
            exact ⟨rfl, rfl⟩
          · rw [ecoc]
            exact hg.owner_status oc k hon hk5 hocc hofd
          · rw [ecpc]
            exact hg.opp_status pc k hpn hk5 hocc hpfd hnw
        · obtain ⟨ec, eg⟩ := hA (by simpa using hw)
          refine ginv_frame hg en (fun j => ?_)
            (fun m => by rw [eg m]; exact ⟨⟨⟨rfl, rfl⟩, ⟨rfl, rfl⟩⟩, rfl⟩)
          rw [ec j]
          split_ifs with x
          · rw [x]
            exact ⟨⟨rfl, rfl⟩, rfl⟩
          · exact ⟨⟨rfl, rfl⟩, rfl⟩

/-- Every command keeps the invariant of the games. -/
theorem ginv_dispatch {s s1 : Server} (h : Inv s) (hg : GInv s) (sd : Int) (hsd : 0 < sd)
    (line : List Char) (e : dispatch s sd line = some s1) : GInv s1 := by
  unfold dispatch at e
  cases hcur : find_client_by_fd s sd with
  | none =>
    rw [hcur] at e
    simp only [Option.some.injEq] at e
    rw [← e]
    exact ginv_send hg sd _
  | some cur =>
    obtain ⟨hcn, hcfd⟩ := h.find_client_reg hsd hcur
    rw [hcur] at e
    simp only [] at e
    split_ifs at e
    · simp only [Option.some.injEq] at e
      rw [← e]
      exact ginv_unchanged hg (unchanged_print_game_list s sd)
    · exact ginv_create h hg sd cur hcn hcfd e
    · simp only [Option.some.injEq] at e
      rw [← e]
      exact ginv_join h hg sd cur line hcn hcfd
    · simp only [Option.some.injEq] at e
      rw [← e]
      exact ginv_accept h hg sd hsd cur hcur
    · simp only [Option.some.injEq] at e
      rw [← e]
      exact ginv_reject h hg sd cur
    · simp only [Option.some.injEq] at e
      rw [← e]
      exact ginv_leave h hg sd hsd cur hcn
    · exact ginv_move h hg sd hsd line e
    · exact ginv_rematch h hg sd hsd e
    · simp only [Option.some.injEq] at e
      rw [← e]
      exact ginv_remove_client (inv_send h sd _) (ginv_send hg sd _) sd hsd cur
        (by rw [find_client_send]; exact hcur)
    · simp only [Option.some.injEq] at e
      rw [← e]
      exact ginv_send hg sd _

theorem ginv_client_readable {s s1 : Server} (h : Inv s) (hg : GInv s) (sd : Int)
    (hreg : registered s sd) (buffer : List Char) (valread : Int)
    (e : client_readable s sd buffer valread = some s1) : GInv s1 := by
  have hsd : 0 < sd := hreg.1
  unfold client_readable at e
  split_ifs at e
  · simp only [Option.some.injEq] at e
    rw [← e]
    obtain ⟨i, hi⟩ := registered_find hreg
    exact ginv_remove_client h hg sd hsd i hi
  · unfold handle_client_data at e
    split_ifs at e
    exact ginv_dispatch h hg sd hsd _ e

/-- The invariant of the games holds in every reachable state. -/
theorem reachable_ginv {ms : Int} {s : Server} (hr : Reachable ms s) : GInv s := by
  induction hr with
  | init => exact ginv_init_server ms
  | connect s fd hr hfd _ hfresh ih =>
    exact ginv_accept_connection (reachable_inv hr) ih fd hfd hfresh
  | readable s s1 sd buffer valread hr hreg e ih =>
    exact ginv_client_readable (reachable_inv hr) ih sd hreg buffer valread e

/-- The board has a completed line exactly when `check_winner` returns
`WIN`. -/
theorem check_winner_win_iff (game : TrisGame) :
    check_winner game = GameResult.WIN ↔ ∃ l ∈ lines, line_uniform game l := by
  rw [lines_iff, ← scan_iff]
  unfold check_winner
  simp only []
  split_ifs <;> simp only [*, true_or, or_true, false_or, or_false, not_true_eq_false,
    not_false_eq_true, true_and, and_true, false_and, and_false, reduceCtorEq, not_not, and_self]

/-- The cells after an accepted `make_move`: the target cell was `EMPTY` and
holds the mark of the side to move, the others are unchanged. -/
theorem accepted_move_cells (g : TrisGame) (row col : Int) (h : (make_move g row col).1 = 0) :
    ∃ r c : Fin 3, (r.val : Int) = row ∧ (c.val : Int) = col ∧ g.cell r c = Cell.EMPTY ∧
      ∀ i j, (make_move g row col).2.cell i j =
        if i = r ∧ j = c then (if g.turn = 0 then Cell.X else Cell.O) else g.cell i j := by
  rcases in_range_cases row col with hr | ⟨r, c, hr, hc⟩
  · rw [make_move_out_of_range g row col hr] at h
    change (-1 : Int) = 0 at h
    omega
  · subst hr
    subst hc
    by_cases he : g.cell r c = Cell.EMPTY
    · exact ⟨r, c, rfl, rfl, he, fun i j => cell_make_move g r c i j he⟩
    · rw [make_move_in_range, if_pos he] at h
      change (-1 : Int) = 0 at h
      omega

/-- A line completed by writing the mark `x` on an empty cell of a board
without a completed line consists of three cells `x`. -/
theorem new_line_cells (g g1 : TrisGame) (r c : Fin 3) (x : Cell)
    (hold : ¬ ∃ l ∈ lines, line_uniform g l)
    (hcells : ∀ i j, g1.cell i j = if i = r ∧ j = c then x else g.cell i j)
    (l : (Fin 3 × Fin 3) × (Fin 3 × Fin 3) × (Fin 3 × Fin 3)) (hl : l ∈ lines)
    (hu : line_uniform g1 l) :
    g1.cell l.1.1 l.1.2 = x ∧ g1.cell l.2.1.1 l.2.1.2 = x ∧ g1.cell l.2.2.1 l.2.2.2 = x := by
  obtain ⟨h1, h2, h3⟩ := hu
  by_cases p1 : l.1.1 = r ∧ l.1.2 = c
  · have e1 : g1.cell l.1.1 l.1.2 = x := by rw [hcells, if_pos p1]
    exact ⟨e1, h2.symm.trans e1, h3.symm.trans (h2.symm.trans e1)⟩
  · by_cases p2 : l.2.1.1 = r ∧ l.2.1.2 = c
    · have e2 : g1.cell l.2.1.1 l.2.1.2 = x := by rw [hcells, if_pos p2]
      exact ⟨h2.trans e2, e2, h3.symm.trans e2⟩
    · by_cases p3 : l.2.2.1 = r ∧ l.2.2.2 = c
      · have e3 : g1.cell l.2.2.1 l.2.2.2 = x := by rw [hcells, if_pos p3]
        exact ⟨h2.trans (h3.trans e3), h3.trans e3, e3⟩
      · exfalso
        apply hold
        refine ⟨l, hl, ?_⟩
        have e1 := hcells l.1.1 l.1.2
        have e2 := hcells l.2.1.1 l.2.1.2
        have e3 := hcells l.2.2.1 l.2.2.2
        rw [if_neg p1] at e1
        rw [if_neg p2] at e2
        rw [if_neg p3] at e3
        unfold line_uniform
        rw [← e1, ← e2, ← e3]
        exact ⟨h1, h2, h3⟩

/-- The role of a session whose game reference names the game in slot `k`. -/
theorem Inv.role_of_game {s : Server} (h : Inv s) {cur k : Nat}
    (hcn : (cur : Int) < s.num_clients)
    (hk : find_game_by_id s (s.client cur).game_id = some k)
    (hocc : (s.game k).id ≠ -1) :
    k < 5 ∧ ((s.client cur).fd = (s.game k).owner_fd ∨
      (s.client cur).fd = (s.game k).opponent_fd) := by
  obtain ⟨hk5, hid⟩ := find_game_some hk
  have r := h.cinv.role_of_gid hk5 hcn (by simp only [core]; rw [← hid]; exact hocc)
    (by simp only [core]; exact hid)
  simp only [core] at r
  rcases r with a | a
  · exact ⟨hk5, Or.inl a.symm⟩
  · exact ⟨hk5, Or.inr a.symm⟩

/-- A game in progress or ended is occupied and has an opponent. -/
theorem Inv.started_game {s : Server} (h : Inv s) {k : Nat} (hk5 : k < 5)
    (hst : (s.game k).state = GameState.GAME_IN_PROGRESS ∨
      (s.game k).state = GameState.GAME_ENDED) :
    (s.game k).id ≠ -1 ∧ (s.game k).opponent_fd ≠ -1 := by
  have hocc : (s.game k).id ≠ -1 := by
    intro x
    have hfree := h.cinv.g_free k hk5
    simp only [core] at hfree
    rw [hfree x] at hst
    rcases hst with y | y <;> exact GameState.noConfusion y
  refine ⟨hocc, fun x => ?_⟩
  have := (h.cinv.g_occ k hk5 hocc).2 x
  simp only [core] at this
  rw [this] at hst
  rcases hst with y | y <;> exact GameState.noConfusion y

/-- The mark of a session that is to move in a game in progress is the mark
`make_move` writes. -/
theorem mover_mark {s : Server} (h : Inv s) (hs : SInv s) (hg : GInv s) (sd : Int)
    (hsd : 0 < sd) (cur k : Nat) (hcur : find_client_by_fd s sd = some cur)
    (hk : find_game_by_id s (s.client cur).game_id = some k)
    (hstate : (s.game k).state = GameState.GAME_IN_PROGRESS)
    (hturn : (s.client cur).is_current_turn = true) :
    (s.client cur).player_symbol =
      (if (s.game k).tris_game.turn = 0 then Cell.X else Cell.O) := by
  obtain ⟨hcn, _⟩ := h.find_client_reg hsd hcur
  obtain ⟨hk5, _⟩ := find_game_some hk
  obtain ⟨hocc, _⟩ := h.started_game hk5 (Or.inl hstate)
  obtain ⟨_, hrole⟩ := h.role_of_game hcn hk hocc
  rcases hrole with a | a
  · have e := (hg.sync cur k hcn hk5 hocc hstate).1 a
    rw [hturn] at e
    have ht : (s.game k).tris_game.turn = 0 := by simpa using e.symm
    rw [if_pos ht]
    exact (hs.marks cur k hcn hk5 hocc).1 a
  · have e := (hg.sync cur k hcn hk5 hocc hstate).2 a
    rw [hturn] at e
    have ht : (s.game k).tris_game.turn ≠ 0 := by simpa using e.symm
    rw [if_neg ht]
    exact (hs.marks cur k hcn hk5 hocc).2 a

/-- C33: in every reachable state, in an occupied game in progress the turn
flag of the owner is true exactly when the turn indicator of the board is 0
and the turn flag of the opponent exactly when it is 1, the mark of the owner
is `X` and the mark of the opponent is `O`. Hence, when the move of a session
is accepted (the session is in a game in progress, it is its turn, the text
parses, `make_move` returns 0), the mark `make_move` writes is the mark
assigned to the mover: the target cell was `EMPTY`, it holds the mover's mark
(`X` or `O`) afterwards, and no other cell changes. -/
theorem move_writes_own_mark (master_socket : Int) (s : Server)
    (hr : Reachable master_socket s) :
    (∀ i m : Nat, (i : Int) < s.num_clients → m < MAX_GAMES → (s.game m).id ≠ -1 →
      (s.game m).state = GameState.GAME_IN_PROGRESS →
      ((s.client i).fd = (s.game m).owner_fd →
        ((s.client i).is_current_turn = true ↔ (s.game m).tris_game.turn = 0) ∧
        (s.client i).player_symbol = Cell.X) ∧
      ((s.client i).fd = (s.game m).opponent_fd →
        ((s.client i).is_current_turn = true ↔ (s.game m).tris_game.turn = 1) ∧
        (s.client i).player_symbol = Cell.O)) ∧
    (∀ (sd : Int) (buffer : List Char) (cur k : Nat) (rc : Int × Int), 0 < sd →
      find_client_by_fd s sd = some cur →
      (s.client cur).status = PlayerStatus.PLAYER_IN_GAME →
      find_game_by_id s (s.client cur).game_id = some k →
      (s.game k).state = GameState.GAME_IN_PROGRESS →
      (s.client cur).is_current_turn = true →
      sscanf_move buffer = some rc →
      (make_move (s.game k).tris_game rc.1 rc.2).1 = 0 →
      ((s.client cur).player_symbol = Cell.X ∨ (s.client cur).player_symbol = Cell.O) ∧
      ∃ r c : Fin 3, (r.val : Int) = rc.1 ∧ (c.val : Int) = rc.2 ∧
        (s.game k).tris_game.cell r c = Cell.EMPTY ∧
        (make_move (s.game k).tris_game rc.1 rc.2).2.cell r c = (s.client cur).player_symbol ∧
        ∀ i j, ¬ (i = r ∧ j = c) →
          (make_move (s.game k).tris_game rc.1 rc.2).2.cell i j =
            (s.game k).tris_game.cell i j) := by
  have h := reachable_inv hr
  have hs := reachable_sinv hr
  have hg := reachable_ginv hr
  constructor
  · intro i m hi hm hocc hst
    have hm5 : m < 5 := hm
    constructor
    · intro a
      refine ⟨?_, (hs.marks i m hi hm5 hocc).1 a⟩
      rw [(hg.sync i m hi hm5 hocc hst).1 a]
      exact decide_eq_true_iff
    · intro a
      refine ⟨?_, (hs.marks i m hi hm5 hocc).2 a⟩
      rw [(hg.sync i m hi hm5 hocc hst).2 a]
      have := hg.turn01 m hm5
      rw [decide_eq_true_iff]
      omega
  · intro sd buffer cur k rc hsd hcur _ hk hstate hturn _ hmv
    have hmark := mover_mark h hs hg sd hsd cur k hcur hk hstate hturn
    obtain ⟨r, c, er, ec, he, hcells⟩ := accepted_move_cells _ _ _ hmv
    constructor
    · rw [hmark]
      split_ifs
      · exact Or.inl rfl
      · exact Or.inr rfl
    · refine ⟨r, c, er, ec, he, ?_, fun i j n => ?_⟩
      · rw [hcells r c, if_pos ⟨rfl, rfl⟩, hmark]
      · rw [hcells i j, if_neg n]

/-- C34: in every reachable state no board of the game table, in particular no
board of a game in progress, has a completed line. Hence, when the move of a
session is accepted and `check_winner` gives `WIN`, so that
`handle_move_command` takes its winning branch with the mover as the winner
(the mover becomes the owner of the game), the board after the move has a line
of three cells of the mover's mark and no line of three cells of the mark of
the other participant `o`. -/
theorem win_line_is_movers (master_socket : Int) (s : Server)
    (hr : Reachable master_socket s) :
    (∀ m : Nat, m < MAX_GAMES → ¬ ∃ l ∈ lines, line_uniform (s.game m).tris_game l) ∧
    (∀ (sd : Int) (buffer : List Char) (cur k : Nat) (rc : Int × Int), 0 < sd →
      find_client_by_fd s sd = some cur →
      (s.client cur).status = PlayerStatus.PLAYER_IN_GAME →
      find_game_by_id s (s.client cur).game_id = some k →
      (s.game k).state = GameState.GAME_IN_PROGRESS →
      (s.client cur).is_current_turn = true →
      sscanf_move buffer = some rc →
      (make_move (s.game k).tris_game rc.1 rc.2).1 = 0 →
      check_winner (make_move (s.game k).tris_game rc.1 rc.2).2 = GameResult.WIN →
      ∃ (o : Nat) (s1 : Server), handle_move_command s sd buffer = some s1 ∧
        (s1.game k).owner_fd = sd ∧ o ≠ cur ∧ (o : Int) < s.num_clients ∧
        (((s.client cur).fd = (s.game k).owner_fd ∧
            (s.client o).fd = (s.game k).opponent_fd) ∨
          ((s.client cur).fd = (s.game k).opponent_fd ∧
            (s.client o).fd = (s.game k).owner_fd)) ∧
        (s.client cur).player_symbol ≠ Cell.EMPTY ∧
        (s.client o).player_symbol ≠ (s.client cur).player_symbol ∧
        (∃ l ∈ lines,
          (make_move (s.game k).tris_game rc.1 rc.2).2.cell l.1.1 l.1.2 =
            (s.client cur).player_symbol ∧
          (make_move (s.game k).tris_game rc.1 rc.2).2.cell l.2.1.1 l.2.1.2 =
            (s.client cur).player_symbol ∧
          (make_move (s.game k).tris_game rc.1 rc.2).2.cell l.2.2.1 l.2.2.2 =
            (s.client cur).player_symbol) ∧
        ¬ ∃ l ∈ lines,
          (make_move (s.game k).tris_game rc.1 rc.2).2.cell l.1.1 l.1.2 =
            (s.client o).player_symbol ∧
          (make_move (s.game k).tris_game rc.1 rc.2).2.cell l.2.1.1 l.2.1.2 =
            (s.client o).player_symbol ∧
          (make_move (s.game k).tris_game rc.1 rc.2).2.cell l.2.2.1 l.2.2.2 =
            (s.client o).player_symbol) := by
  have h := reachable_inv hr
  have hs := reachable_sinv hr
  have hg := reachable_ginv hr
  have hno : ∀ m : Nat, m < 5 → ¬ ∃ l ∈ lines, line_uniform (s.game m).tris_game l := by
    intro m hm x
    exact hg.noline m hm ((check_winner_win_iff _).2 x)
  refine ⟨fun m hm => hno m hm, ?_⟩
  intro sd buffer cur k rc hsd hcur hstatus hk hstate hturn hrc hmv hwin
  obtain ⟨o, s1, e, hoc, hon, hcn, hk5, hocc, hrole, _, eg, _⟩ :=
    move_win_effect h sd hsd buffer cur k rc hcur hstatus hk hstate hturn hrc hmv hwin
  have hmark := mover_mark h hs hg sd hsd cur k hcur hk hstate hturn
  obtain ⟨r, c, _, _, _, hcells⟩ := accepted_move_cells _ _ _ hmv
  rw [← hmark] at hcells
  have hx : (s.client cur).player_symbol ≠ Cell.EMPTY := by
    rw [hmark]
    split_ifs <;> exact fun x => Cell.noConfusion x
  have hdiff : (s.client o).player_symbol ≠ (s.client cur).player_symbol := by
    rcases hrole with ⟨a, b⟩ | ⟨a, b⟩
    · rw [(hs.marks cur k hcn hk5 hocc).1 a, (hs.marks o k hon hk5 hocc).2 b]
      exact fun x => Cell.noConfusion x
    · rw [(hs.marks cur k hcn hk5 hocc).2 a, (hs.marks o k hon hk5 hocc).1 b]
      exact fun x => Cell.noConfusion x
  have hodef : (s.client o).player_symbol ≠ Cell.EMPTY := by
    rcases hrole with ⟨a, b⟩ | ⟨a, b⟩
    · rw [(hs.marks o k hon hk5 hocc).2 b]
      exact fun x => Cell.noConfusion x
    · rw [(hs.marks o k hon hk5 hocc).1 b]
      exact fun x => Cell.noConfusion x
  have hnew := new_line_cells (s.game k).tris_game
    (make_move (s.game k).tris_game rc.1 rc.2).2 r c (s.client cur).player_symbol
    (hno k hk5) hcells
  refine ⟨o, s1, e, ?_, hoc, hon, hrole, hx, hdiff, ?_, ?_⟩
  · rw [eg k, if_pos rfl]
  · obtain ⟨l, hl, hu⟩ := (check_winner_win_iff _).1 hwin
    exact ⟨l, hl, hnew l hl hu⟩
  · rintro ⟨l, hl, a1, a2, a3⟩
    have hu : line_uniform (make_move (s.game k).tris_game rc.1 rc.2).2 l := by
      refine ⟨?_, a1.trans a2.symm, a2.trans a3.symm⟩
      rw [a1]
      exact hodef
    exact hdiff (a1.symm.trans (hnew l hl hu).1)

/-- C36: in every reachable state, a game whose state is `GAME_IN_PROGRESS` or
`GAME_ENDED` is occupied and has an owner and an opponent reference; the two
references are the descriptors of two different registered sessions `oc` and
`pc`, and both have status `PLAYER_IN_GAME`. An occupied game without an
opponent is in `GAME_WAITING_FOR_PLAYER`. -/
theorem started_game_has_two_players (master_socket : Int) (s : Server)
    (hr : Reachable master_socket s) :
    (∀ k : Nat, k < MAX_GAMES →
      ((s.game k).state = GameState.GAME_IN_PROGRESS ∨
        (s.game k).state = GameState.GAME_ENDED) →
      (s.game k).id ≠ -1 ∧ (s.game k).owner_fd ≠ -1 ∧ (s.game k).opponent_fd ≠ -1 ∧
      (s.game k).owner_fd ≠ (s.game k).opponent_fd ∧
      ∃ oc pc : Nat, oc ≠ pc ∧ (oc : Int) < s.num_clients ∧ (pc : Int) < s.num_clients ∧
        find_client_by_fd s (s.game k).owner_fd = some oc ∧
        find_client_by_fd s (s.game k).opponent_fd = some pc ∧
        (s.client oc).fd = (s.game k).owner_fd ∧ (s.client pc).fd = (s.game k).opponent_fd ∧
        (s.client oc).status = PlayerStatus.PLAYER_IN_GAME ∧
        (s.client pc).status = PlayerStatus.PLAYER_IN_GAME) ∧
    (∀ k : Nat, k < MAX_GAMES → (s.game k).id ≠ -1 → (s.game k).opponent_fd = -1 →
      (s.game k).state = GameState.GAME_WAITING_FOR_PLAYER) := by
  have h := reachable_inv hr
  have hg := reachable_ginv hr
  constructor
  · intro k hk hst
    have hk5 : k < 5 := hk
    obtain ⟨hocc, hopp⟩ := h.started_game hk5 hst
    obtain ⟨oc, pc, hne, hon, hpn, hfo, hfp, hofd, hpfd, _, _, _⟩ :=
      h.participants hk5 hocc hopp
    have hpos := h.client_fd_pos hon
    have hnw : (s.game k).state ≠ GameState.GAME_WAITING_FOR_PLAYER := by
      rcases hst with y | y <;> rw [y] <;> exact fun x => GameState.noConfusion x
    refine ⟨hocc, ?_, hopp, ?_, oc, pc, hne, hon, hpn, hfo, hfp, hofd, hpfd,
      hg.owner_status oc k hon hk5 hocc hofd, hg.opp_status pc k hpn hk5 hocc hpfd hnw⟩
    · rw [← hofd]
      omega
    · intro x
      exact hne (h.client_fd_inj hon hpn (hofd.trans (x.trans hpfd.symm)))
  · intro k hk hocc hopp
    have hk5 : k < 5 := hk
    have := (h.cinv.g_occ k hk5 hocc).2 hopp
    simp only [core] at this
    exact this

theorem move_writes_own_mark_witness :
    ((((state_after 3 trace_started).client 0).is_current_turn = true ↔
        ((state_after 3 trace_started).game 0).tris_game.turn = 0) ∧
      ((state_after 3 trace_started).client 0).player_symbol = Cell.X) ∧
    ((((state_after 3 trace_started).client 1).is_current_turn = true ↔
        ((state_after 3 trace_started).game 0).tris_game.turn = 1) ∧
      ((state_after 3 trace_started).client 1).player_symbol = Cell.O) ∧
    ∃ r c : Fin 3, (r.val : Int) = 0 ∧ (c.val : Int) = 0 ∧
      ((state_after 3 trace_started).game 0).tris_game.cell r c = Cell.EMPTY ∧
      (make_move ((state_after 3 trace_started).game 0).tris_game 0 0).2.cell r c =
        ((state_after 3 trace_started).client 0).player_symbol ∧
      ∀ i j, ¬ (i = r ∧ j = c) →
        (make_move ((state_after 3 trace_started).game 0).tris_game 0 0).2.cell i j =
          ((state_after 3 trace_started).game 0).tris_game.cell i j :=
  ⟨((move_writes_own_mark 3 (state_after 3 trace_started) (reachable_state_after 3 _)).1 0 0
      (by decide) (by decide) (by decide) (by decide)).1 (by decide),
    ((move_writes_own_mark 3 (state_after 3 trace_started) (reachable_state_after 3 _)).1 1 0
      (by decide) (by decide) (by decide) (by decide)).2 (by decide),
    ((move_writes_own_mark 3 (state_after 3 trace_started) (reachable_state_after 3 _)).2 4
      "move 0 0".toList 0 0 (0, 0) (by decide) (by decide) (by decide) (by decide) (by decide)
      (by decide) (by decide) (by decide)).2⟩

theorem win_line_is_movers_witness :
    ∃ (o : Nat) (s1 : Server),
      handle_move_command (state_after 3 trace_before_win) 4 "move 0 2".toList = some s1 ∧
      (s1.game 0).owner_fd = 4 ∧ o ≠ 0 ∧
      ((state_after 3 trace_before_win).client 0).player_symbol ≠ Cell.EMPTY ∧
      ((state_after 3 trace_before_win).client o).player_symbol ≠
        ((state_after 3 trace_before_win).client 0).player_symbol ∧
      (∃ l ∈ lines,
        (make_move ((state_after 3 trace_before_win).game 0).tris_game 0 2).2.cell l.1.1 l.1.2 =
          ((state_after 3 trace_before_win).client 0).player_symbol ∧
        (make_move ((state_after 3 trace_before_win).game 0).tris_game 0 2).2.cell
            l.2.1.1 l.2.1.2 =
          ((state_after 3 trace_before_win).client 0).player_symbol ∧
        (make_move ((state_after 3 trace_before_win).game 0).tris_game 0 2).2.cell
            l.2.2.1 l.2.2.2 =
          ((state_after 3 trace_before_win).client 0).player_symbol) := by
  obtain ⟨o, s1, e, ho, hne, _, _, hx, hd, hl, _⟩ :=
    (win_line_is_movers 3 (state_after 3 trace_before_win) (reachable_state_after 3 _)).2 4
      "move 0 2".toList 0 0 (0, 2) (by decide) (by decide) (by decide) (by decide) (by decide)
      (by decide) (by decide) (by decide) (by decide)
  exact ⟨o, s1, e, ho, hne, hx, hd, hl⟩

theorem started_game_has_two_players_witness :
    ((state_after 3 trace_started).game 0).id ≠ -1 ∧
    ((state_after 3 trace_started).game 0).owner_fd ≠ -1 ∧
    ((state_after 3 trace_started).game 0).opponent_fd ≠ -1 ∧
    ((state_after 3 trace_started).game 0).owner_fd ≠
      ((state_after 3 trace_started).game 0).opponent_fd ∧
    ∃ oc pc : Nat, oc ≠ pc ∧ (oc : Int) < (state_after 3 trace_started).num_clients ∧
      (pc : Int) < (state_after 3 trace_started).num_clients ∧
      find_client_by_fd (state_after 3 trace_started)
        ((state_after 3 trace_started).game 0).owner_fd = some oc ∧
      find_client_by_fd (state_after 3 trace_started)
        ((state_after 3 trace_started).game 0).opponent_fd = some pc ∧
      ((state_after 3 trace_started).client oc).fd =
        ((state_after 3 trace_started).game 0).owner_fd ∧
      ((state_after 3 trace_started).client pc).fd =
        ((state_after 3 trace_started).game 0).opponent_fd ∧
      ((state_after 3 trace_started).client oc).status = PlayerStatus.PLAYER_IN_GAME ∧
      ((state_after 3 trace_started).client pc).status = PlayerStatus.PLAYER_IN_GAME :=
  (started_game_has_two_players 3 (state_after 3 trace_started)
    (reachable_state_after 3 _)).1 0 (by decide) (Or.inl (by decide))

/-! ## Theorems: numbers outside the range of `int` -/

/-- One round of `create` and `leave` by session 4, alone on the server and in
no game, with every game slot free and the counter `next_game_id` below
`INT_MAX`: both commands are handled, the tables are as before and the counter
is one higher. -/
theorem create_leave_round (s : Server) (hr : Reachable 3 s) (hn : s.num_clients = 1)
    (a1 : (s.client 0).fd = 4) (a3 : (s.client 0).game_id = -1)
    (hg : ∀ m, m < 5 → (s.game m).id = -1) (hnext : s.next_game_id < INT_MAX) :
    ∃ s2, run_admissible 3 s [cmd 4 "create", cmd 4 "leave"] = some s2 ∧
      Reachable 3 s2 ∧ s2.num_clients = 1 ∧ (s2.client 0).fd = 4 ∧
      (s2.client 0).game_id = -1 ∧ (∀ m, m < 5 → (s2.game m).id = -1) ∧
      s2.next_game_id = s.next_game_id + 1 := by
  have hinv := reachable_inv hr
  have hcur : find_client_by_fd s 4 = some 0 := by
    have x := hinv.find_client_of_reg (i := 0) (by rw [hn]; decide)
    rw [a1] at x
    exact x
  have hm : s.num_games = 0 := by
    have := reachable_num_games hr
    rw [occupied_eq, if_pos (hg 0 (by decide)), if_pos (hg 1 (by decide)),
      if_pos (hg 2 (by decide)), if_pos (hg 3 (by decide)), if_pos (hg 4 (by decide))] at this
    exact this
  have hk : (List.range MAX_GAMES).find? (fun j => (s.game j).id == -1) = some 0 := by
    cases hf : (List.range MAX_GAMES).find? (fun j => (s.game j).id == -1) with
    | none =>
      have := find_range_none _ _ hf 0 (by decide)
      simp only [hg 0 (by decide)] at this
      exact absurd this (by decide)
    | some k =>
      have := find_range_first _ _ _ hf
      cases k with
      | zero => rfl
      | succ k =>
        have := this 0 (by omega)
        simp only [hg 0 (by decide)] at this
        exact absurd this (by decide)
  have hpos : 0 < s.next_game_id := by simpa [core] using hinv.cinv.next_pos
  -- create
  obtain ⟨_, _, _, ec, eg, _, _, en, ex, _⟩ :=
    create_effect hinv 4 0 0 (by rw [hn]; decide) a3 (by rw [hm]; decide) hk
  have hstep1 : step s (cmd 4 "create") = some (create_game s 4 0 0) :=
    ((cmd_line s 4 "create" (by decide) (by decide)).trans (dispatch_create s 4 0 hcur)).trans
      (create_returns s 4 0 0 a3 (by rw [hm]; decide) hk hnext)
  have hadm1 : admissible 3 s (cmd 4 "create") = true :=
    admissible_readable 3 s 4 _ _ 0 (by decide) (by decide) a1
  have hr1 := reachable_step hr _ hadm1 hstep1
  have hinv1 := reachable_inv hr1
  have c0 := ec 0
  have g0 := eg 0
  rw [if_pos rfl] at c0 g0
  have b1 : ((create_game s 4 0 0).client 0).fd = 4 := by rw [c0]; exact a1
  have b2 : ((create_game s 4 0 0).client 0).game_id = s.next_game_id := by rw [c0]
  have b3 : ((create_game s 4 0 0).game 0).id = s.next_game_id := by rw [g0]
  have b4 : ((create_game s 4 0 0).game 0).opponent_fd = -1 := by rw [g0]
  have hcur1 : find_client_by_fd (create_game s 4 0 0) 4 = some 0 := by
    have x := hinv1.find_client_of_reg (i := 0) (by rw [en, hn]; decide)
    rw [b1] at x
    exact x
  have hgid1 : ((create_game s 4 0 0).client 0).game_id ≠ -1 := by
    rw [b2]
    omega
  have hk1 : find_game_by_id (create_game s 4 0 0) ((create_game s 4 0 0).client 0).game_id =
      some 0 := by
    have x := hinv1.find_game_of_occ (k := 0) (by decide) (by rw [b3]; omega)
    rw [b3] at x
    rw [b2]
    exact x
  -- leave
  have hstep2 : step (create_game s 4 0 0) (cmd 4 "leave") =
      some (handle_leave_command (create_game s 4 0 0) 4 0) :=
    (leave_line _ 4).trans (dispatch_leave _ 4 0 hcur1)
  have hadm2 : admissible 3 (create_game s 4 0 0) (cmd 4 "leave") = true :=
    admissible_readable 3 _ 4 _ _ 0 (by decide) (by decide) b1
  have hr2 := reachable_step hr1 _ hadm2 hstep2
  have hl := leave_eq (create_game s 4 0 0) 4 0 0 hgid1 hk1
  obtain ⟨_, ec2, eg2, _, _, en2, ex2, _⟩ :=
    remove_from_game_alone_effect (inv_send hinv1 4 "Hai lasciato la partita.\n") 4 (by decide)
      0 0 (by rw [find_client_send]; exact hcur1) (by rw [client_send]; exact hgid1)
      (by rw [client_send, find_game_send]; exact hk1) (by rw [game_send]; exact b4)
  rw [← hl] at ec2 eg2 en2 ex2
  refine ⟨_, ?_, hr2, ?_, ?_, ?_, ?_, ?_⟩
  · rw [run_admissible_cons _ hadm1 hstep1, run_admissible_cons [] hadm2 hstep2]
    rfl
  · rw [en2, num_clients_send, en, hn]
  · rw [ec2 0, if_pos rfl, client_send, reset_client_fd]
    exact b1
  · rw [ec2 0, if_pos rfl]
    exact reset_client_game_id _
  · intro m hm5
    rw [eg2 m]
    split_ifs with x
    · rfl
    · rw [game_send, eg m, if_neg x]
      exact hg m hm5
  · rw [ex2, next_game_id_send, ex]

/-- Every value of the counter `next_game_id` from 1 to `INT_MAX` is reached:
by session 4 alone on the server, after that many rounds of `create` and
`leave`, in no game and with every game slot free. -/
theorem counter_reaches (n : Nat) (hn : (n : Int) + 1 ≤ INT_MAX) :
    ∃ s, Reachable 3 s ∧ s.num_clients = 1 ∧ (s.client 0).fd = 4 ∧
      (s.client 0).game_id = -1 ∧ (∀ m, m < 5 → (s.game m).id = -1) ∧
      s.next_game_id = (n : Int) + 1 := by
  induction n with
  | zero =>
    refine ⟨state_after 3 [Event.connect 4], reachable_state_after 3 _, by decide, by decide,
      by decide, ?_, by decide⟩
    intro m hm
    interval_cases m <;> decide
  | succ n ih =>
    obtain ⟨s, hr, h1, h2, h3, h4, h5⟩ := ih (by push_cast at hn; omega)
    obtain ⟨s2, _, hr2, k1, k2, k3, k4, k5⟩ :=
      create_leave_round s hr h1 h2 h3 h4 (by rw [h5]; push_cast at hn; omega)
    exact ⟨s2, hr2, k1, k2, k3, k4, by rw [k5, h5]; push_cast; ring⟩

/-- A reachable state in which the counter `next_game_id` is `INT_MAX`: session
4 is alone on the server, in no game, and every game slot is free. -/
theorem counter_at_int_max :
    ∃ s, Reachable 3 s ∧ s.num_clients = 1 ∧ (s.client 0).fd = 4 ∧
      (s.client 0).game_id = -1 ∧ (∀ m, m < 5 → (s.game m).id = -1) ∧
      s.next_game_id = INT_MAX := by
  obtain ⟨s, hr, h1, h2, h3, h4, h5⟩ := counter_reaches 2147483646 (by decide)
  exact ⟨s, hr, h1, h2, h3, h4, by rw [h5]; decide⟩

/-- In a state in which session 4, in slot 0, is in no game, every game slot is
free and the counter is `INT_MAX`, `create` from session 4 is undefined. -/
theorem create_at_int_max (s : Server) (hr : Reachable 3 s) (hn : s.num_clients = 1)
    (a1 : (s.client 0).fd = 4) (a3 : (s.client 0).game_id = -1)
    (hg : ∀ m, m < 5 → (s.game m).id = -1) (hnext : s.next_game_id = INT_MAX) :
    find_client_by_fd s 4 = some 0 ∧ handle_create_command s 4 0 = none ∧
      step s (cmd 4 "create") = none ∧ admissible 3 s (cmd 4 "create") = true := by
  have hinv := reachable_inv hr
  have hcur : find_client_by_fd s 4 = some 0 := by
    have x := hinv.find_client_of_reg (i := 0) (by rw [hn]; decide)
    rw [a1] at x
    exact x
  have hm : s.num_games = 0 := by
    have := reachable_num_games hr
    rw [occupied_eq, if_pos (hg 0 (by decide)), if_pos (hg 1 (by decide)),
      if_pos (hg 2 (by decide)), if_pos (hg 3 (by decide)), if_pos (hg 4 (by decide))] at this
    exact this
  have hk : (List.range MAX_GAMES).find? (fun j => (s.game j).id == -1) = some 0 := by
    cases hf : (List.range MAX_GAMES).find? (fun j => (s.game j).id == -1) with
    | none =>
      have := find_range_none _ _ hf 0 (by decide)
      simp only [hg 0 (by decide)] at this
      exact absurd this (by decide)
    | some k =>
      have := find_range_first _ _ _ hf
      cases k with
      | zero => rfl
      | succ k =>
        have := this 0 (by omega)
        simp only [hg 0 (by decide)] at this
        exact absurd this (by decide)
  have hc := create_overflow s 4 0 0 a3 (by rw [hm]; decide) hk (by rw [hnext])
  refine ⟨hcur, hc, ?_, admissible_readable 3 s 4 _ _ 0 (by decide) (by decide) a1⟩
  rw [cmd_line s 4 "create" (by decide) (by decide), dispatch_create s 4 0 hcur, hc]

/-- C11, the code at the failing inputs. First input: sessions 4 and 5 are
connected, 4 owns game 1, which waits for a player, and 5 sends
`join 4294967297`. No game has the id 4294967297, but `atoi` returns the `int`
1 for that text, so the command is not rejected: session 5 is attached to game
1 as pending opponent. Second input: 4 and 5 play game 1, it is the turn of 4
on the empty board, and 4 sends `move 4294967296 0`. The row 4294967296 is out
of bounds, but `sscanf` stores the `int` 0, so the move is not rejected: `X` is
written on cell `0 0`. -/
theorem out_of_range_number_accepted :
    Reachable 3 (state_after 3 trace_created) ∧
    find_game_by_id (state_after 3 trace_created) 4294967297 = none ∧
    atoi ("join 4294967297".toList.drop 5) = 1 ∧
    ((state_after 3 trace_created).game 0).opponent_fd = -1 ∧
    ((state_after 3 trace_created).client 1).game_id = -1 ∧
    (∃ s1, step (state_after 3 trace_created) (cmd 5 "join 4294967297") = some s1 ∧
      (s1.game 0).id = 1 ∧ (s1.game 0).opponent_fd = 5 ∧ (s1.client 1).game_id = 1 ∧
      (s1.client 1).status = PlayerStatus.PLAYER_WAITING_ACCEPT) ∧
    Reachable 3 (state_after 3 trace_started) ∧
    sscanf_move "move 4294967296 0".toList = some (0, 0) ∧
    ((state_after 3 trace_started).game 0).tris_game.cell 0 0 = Cell.EMPTY ∧
    ((state_after 3 trace_started).game 0).tris_game.turn = 0 ∧
    (∃ s1, step (state_after 3 trace_started) (cmd 4 "move 4294967296 0") = some s1 ∧
      (s1.game 0).tris_game.cell 0 0 = Cell.X ∧ (s1.game 0).tris_game.turn = 1) := by
  refine ⟨reachable_state_after 3 _, by decide, by decide, by decide, by decide, ?_,
    reachable_state_after 3 _, by decide, by decide, by decide, ?_⟩
  · exact ⟨(step (state_after 3 trace_created) (cmd 5 "join 4294967297")).getD (init_server 3),
      by decide, by decide, by decide, by decide, by decide⟩
  · exact ⟨(step (state_after 3 trace_started) (cmd 4 "move 4294967296 0")).getD
      (init_server 3), by decide, by decide, by decide⟩

/-- C14, the code at the failing input: the ids handed out by the server are
the values of the `int` counter `next_game_id`, and every value from 1 to
`INT_MAX`, 2147483647, is reached in a run (session 4 alone, creating and
leaving a game that many times). In the state with the counter at `INT_MAX` a
further `create` is admissible but overflows the counter: the run has no
defined continuation and hands out no id, so the sequence 1, 2, 3, ... of the
ids does not go on. -/
theorem id_counter_runs_out :
    (∀ n : Nat, (n : Int) + 1 ≤ INT_MAX →
      ∃ s, Reachable 3 s ∧ s.next_game_id = (n : Int) + 1) ∧
    ∃ s : Server, Reachable 3 s ∧ s.next_game_id = 2147483647 ∧
      registered s 4 ∧ admissible 3 s (cmd 4 "create") = true ∧
      run_admissible 3 s [cmd 4 "create"] = none ∧
      handed_out s [cmd 4 "create"] = [] ∧
      ¬ ∃ s1, step s (cmd 4 "create") = some s1 := by
  constructor
  · intro n hn
    obtain ⟨s, hr, _, _, _, _, h5⟩ := counter_reaches n hn
    exact ⟨s, hr, h5⟩
  · obtain ⟨s, hr, h1, h2, h3, h4, h5⟩ := counter_at_int_max
    obtain ⟨_, _, c, d⟩ := create_at_int_max s hr h1 h2 h3 h4 h5
    refine ⟨s, hr, h5, ⟨by decide, 0, by decide, h2⟩, d, ?_, ?_, ?_⟩
    · simp only [run_admissible, d, c, if_true]
    · simp only [handed_out, c]
    · rintro ⟨s1, e⟩
      rw [c] at e
      exact Option.noConfusion e

end Tris
